import Mathlib

/-! i2c-player: command sequencer and transactional bus layer

Shallow embedding of `src/src/i2c_player.cpp` (class `I2CPlayer`) and of the enumeration in
`src/include/error_action.hpp`, followed by theorems about retry policy, error propagation
and loop blocks.

Modelling conventions

* Script text is a list of characters (`Str`); exception messages and log lines are
  `String`s. Every C++ exception caught by `catch (const std::exception&)` is represented by
  its `what()` text; for the exceptions of the standard library the texts are those of
  libstdc++ (`stoi`, `vector::reserve`).
* The outside world is an `Env`: the bus (answers of `ioctl`, `write`, `read`), the steady
  clock and the file system. Each answer may depend on the whole history of events so far,
  so every deterministic device behaviour is covered.
* The history is the `Trace`, in chronological order. It records every system call with its
  arguments and result, every sleep, every statement writing to `std::cerr` and every decoder
  invocation. Diagnostics written to `std::cout` under `verbose` influence neither control
  flow nor the bus and are not recorded.
* `errno` is read by `checkNAK` immediately after the failing call; the value it sees is part
  of the answer of that call. The byte returned by `readByte` after a failed `read` is the
  content of the local `data`, which is part of the answer of `read` as well.
* `int` is 32 bits wide; `uint8_t`/`uint16_t` conversions are reductions modulo 256 / 65536.
* The loop of `pollRegister` ends when the clock has passed the timeout. Its model carries a
  bound on the number of iterations and reports `stuck` when the bound is used up;
  `playLines_settles` shows that with an unbounded clock every run ends within some bound.
-/

namespace I2C

/-- Script text: a sequence of characters. -/
abbrev Str := List Char

/-- Enumeration `ErrorAction` of `error_action.hpp`. -/
inductive ErrorAction where
  | STOP
  | RETRY
  | CONTINUE
  deriving DecidableEq, Repr

/-- The concrete decoder classes registered by `registerParsers` in `main.cpp`. -/
inductive Parser where
  | DS3231Parser
  | ADS1015Parser
  | EEPROMParser
  | BMP280Parser
  | BH1750Parser
  | VEML7700Parser
  deriving DecidableEq, Repr

/-- Observable events, in the order in which the program produces them. -/
inductive Ev where
  /-- Call `ioctl(i2c_fd, I2C_SLAVE, addr)` and its return value. -/
  | ioctl (addr : Nat) (ret : Int)
  /-- Call `write(i2c_fd, bytes, len)` issued for target `addr`, its return value and `errno` after it. -/
  | write (addr : Nat) (bytes : List Nat) (ret : Int) (errno : Nat)
  /-- Call `read(i2c_fd, &data, 1)` issued for target `addr`, its return value, `errno` after it and the content of `data` after it. -/
  | read (addr : Nat) (ret : Int) (errno : Nat) (data : Nat)
  /-- Call `fsync(i2c_fd)`. -/
  | fsync
  /-- Call `std::this_thread::sleep_for(milliseconds(ms))`. -/
  | sleep (ms : Int)
  /-- One statement writing to `std::cerr`. -/
  | cerr (msg : String)
  /-- Call `parse(record_buffer)` on a registered decoder. -/
  | parse (parser : Parser) (buffer : List Nat)
  deriving DecidableEq, Repr

/-- History of events, oldest first. -/
abbrev Trace := List Ev

/-- Answer of a `write` call: return value and `errno` afterwards. -/
structure WriteAns where
  ret : Int
  errno : Nat
  deriving DecidableEq, Repr

/-- Answer of a `read` call: return value, `errno` afterwards and the byte held by `data` afterwards. -/
structure ReadAns where
  ret : Int
  errno : Nat
  data : Nat
  deriving DecidableEq, Repr

/-- The kernel device behind `i2c_fd`: every answer is a function of the history and of the call. -/
structure Bus where
  ioctl : Trace → Nat → Int
  write : Trace → Nat → List Nat → WriteAns
  read : Trace → Nat → ReadAns

/-- The world outside the player. -/
structure Env where
  bus : Bus
  /-- Reading of `std::chrono::steady_clock::now()` in milliseconds, given the history. -/
  now : Trace → Int
  /-- Lines delivered by `std::getline` on the script file of that name; `none` when it cannot be opened. -/
  script : Str → Option (List Str)
  /-- Path computed by `writeFile` from `csv_directory` and the file name field. -/
  resolvePath : Str → Str → Str
  /-- Bytes of the binary file at a path; `none` when it cannot be opened. -/
  files : Str → Option (List Nat)

/-- Linux value of `ENXIO`. -/
def ENXIO : Nat := 6

/-- Linux value of `EIO`. -/
def EIO : Nat := 5

/-- Members of `I2CPlayer` fixed by the constructor. -/
structure Config where
  i2c_wait_ms : Int
  error_action : ErrorAction
  retry_count : Int

/-- Embedding of `I2CPlayer::checkNAK`: the argument `errno` is the value seen after the short transfer. -/
def checkNAK (p : Config) (errno : Nat) (operation : String) (tr : Trace) :
    Except String Bool × Trace :=
  if errno = ENXIO ∨ errno = EIO then
    let tr1 := tr ++ [Ev.cerr ("NAK detected during " ++ operation ++ "\n")]
    match p.error_action with
    | .STOP => (.error "I2C NAK - device not responding", tr1)
    | .RETRY => (.ok true, tr1)
    | .CONTINUE => (.ok false, tr1 ++ [Ev.cerr "Continuing after NAK...\n"])
  else (.ok false, tr)

/-- How one pass through the `try` block of a transport operation ends. -/
inductive Attempt (α : Type) where
  /-- The `return` statement. -/
  | ret (a : α)
  /-- The `continue` statement. -/
  | again
  /-- An exception leaves the `try` block. -/
  | thrown (msg : String)

/-- The block `if (checkNAK(op)) { if (attempt < retry_count) continue; throw runtime_error(msg); }`;
`none` means control falls through to the next statement. -/
def nakBlock {α : Type} (p : Config) (errno : Nat) (operation msg : String) (attempt : Int)
    (tr : Trace) : Option (Attempt α) × Trace :=
  match checkNAK p errno operation tr with
  | (.error e, tr1) => (some (.thrown e), tr1)
  | (.ok true, tr1) =>
      if attempt < p.retry_count then (some .again, tr1) else (some (.thrown msg), tr1)
  | (.ok false, tr1) => (none, tr1)

/-- The loop `for (attempt = 0; attempt <= retry_count; attempt++) { try { body } catch (...) {...} }`
followed by `throw runtime_error(finalMsg)`, shared by the four transport operations.
The first argument is the number of iterations left, `retry_count + 1 - attempt`. -/
def retryLoop {α : Type} (p : Config) (body : Int → Trace → Attempt α × Trace)
    (finalMsg : String) : Nat → Int → Trace → Except String α × Trace
  | 0, _, tr => (.error finalMsg, tr)
  | left + 1, attempt, tr =>
    if attempt ≤ p.retry_count then
      match body attempt tr with
      | (.ret a, tr1) => (.ok a, tr1)
      | (.again, tr1) => retryLoop p body finalMsg left (attempt + 1) tr1
      | (.thrown e, tr1) =>
          if attempt = p.retry_count then (.error e, tr1)
          else retryLoop p body finalMsg left (attempt + 1)
                 (tr1 ++ [Ev.sleep (p.i2c_wait_ms * 2)])
    else (.error finalMsg, tr)

/-- One pass through the `try` block of `readByte`. -/
def readByteAttempt (p : Config) (bus : Bus) (addr reg : Nat) (attempt : Int) (tr : Trace) :
    Attempt Nat × Trace :=
  let r := bus.ioctl tr addr
  let tr1 := tr ++ [Ev.ioctl addr r]
  if r < 0 then (.thrown "Failed to set I2C slave address for reading", tr1)
  else
    let w := bus.write tr1 addr [reg]
    let tr2 := tr1 ++ [Ev.write addr [reg] w.ret w.errno]
    match (if w.ret ≠ 1 then
             nakBlock p w.errno "register write"
               "Failed to write register address after retries" attempt tr2
           else (none, tr2)) with
    | (some a, tr3) => (a, tr3)
    | (none, tr3) =>
      let d := bus.read tr3 addr
      let tr4 := tr3 ++ [Ev.read addr d.ret d.errno d.data]
      match (if d.ret ≠ 1 then
               nakBlock p d.errno "data read" "Failed to read I2C data after retries" attempt tr4
             else (none, tr4)) with
      | (some a, tr5) => (a, tr5)
      | (none, tr5) => (.ret d.data, tr5)

/-- Embedding of `I2CPlayer::readByte`. -/
def readByte (p : Config) (bus : Bus) (addr reg : Nat) (tr : Trace) : Except String Nat × Trace :=
  retryLoop p (readByteAttempt p bus addr reg) "Read failed after all retries"
    (p.retry_count + 1).toNat 0 tr

/-- One pass through the `try` block of a write operation sending `buf` (`writeByte`,
`writeSingleByte` with `sync`, `write16Bit`). -/
def writeAttempt (p : Config) (bus : Bus) (addr : Nat) (buf : List Nat) (operation msg : String)
    (sync : Bool) (attempt : Int) (tr : Trace) : Attempt Unit × Trace :=
  let r := bus.ioctl tr addr
  let tr1 := tr ++ [Ev.ioctl addr r]
  if r < 0 then (.thrown "Failed to set I2C slave address", tr1)
  else
    let w := bus.write tr1 addr buf
    let tr2 := tr1 ++ [Ev.write addr buf w.ret w.errno]
    match (if w.ret ≠ (buf.length : Int) then nakBlock p w.errno operation msg attempt tr2
           else (none, tr2)) with
    | (some a, tr3) => (a, tr3)
    | (none, tr3) => (.ret (), if sync then tr3 ++ [Ev.fsync] else tr3)

/-- Embedding of `I2CPlayer::writeByte`. -/
def writeByte (p : Config) (bus : Bus) (addr reg data : Nat) (tr : Trace) :
    Except String Unit × Trace :=
  retryLoop p
    (writeAttempt p bus addr [reg, data] "write" "Failed to write I2C data after retries" false)
    "Write failed after all retries" (p.retry_count + 1).toNat 0 tr

/-- Embedding of `I2CPlayer::writeSingleByte`. -/
def writeSingleByte (p : Config) (bus : Bus) (addr data : Nat) (tr : Trace) :
    Except String Unit × Trace :=
  retryLoop p
    (writeAttempt p bus addr [data] "write" "Failed to write I2C data after retries" true)
    "Write failed after all retries" (p.retry_count + 1).toNat 0 tr

/-- Embedding of `I2CPlayer::write16Bit`: the buffer is register, low byte, high byte. -/
def write16Bit (p : Config) (bus : Bus) (addr reg data : Nat) (tr : Trace) :
    Except String Unit × Trace :=
  retryLoop p
    (writeAttempt p bus addr [reg, data % 256, (data / 256) % 256] "16-bit write"
      "Failed to write 16-bit I2C data after retries" false)
    "16-bit Write failed after all retries" (p.retry_count + 1).toNat 0 tr

/-- Characters removed by `trim`: the set `" \t\n\r"`. -/
def isTrimChar (c : Char) : Bool :=
  c == ' ' || c == '\t' || c == '\n' || c == '\r'

/-- Embedding of `I2CPlayer::trim`: the substring from the first to the last character outside
`" \t\n\r"`, empty when there is none. -/
def trim (str : Str) : Str :=
  ((str.dropWhile isTrimChar).reverse.dropWhile isTrimChar).reverse

/-- The pieces read by `while (std::getline(ss, token, delim))` from a stream holding the
argument: the text is cut at every delimiter, and no piece is produced once the stream is
exhausted (so a text ending in the delimiter has no empty last piece). -/
def getlineAll (delim : Char) : Str → List Str
  | [] => []
  | c :: cs =>
    if c = delim then [] :: getlineAll delim cs
    else
      match getlineAll delim cs with
      | [] => [[c]]
      | t :: ts => (c :: t) :: ts

/-- The `tokens` vector built by `playFile` and `executeSequence` for a line. -/
def tokenize (line : Str) : List Str :=
  (getlineAll ',' line).map trim

/-- Value of a character as a digit, as `strtol` reads it. -/
def digitValue (c : Char) : Option Nat :=
  if 48 ≤ c.toNat ∧ c.toNat ≤ 57 then some (c.toNat - 48)
  else if 97 ≤ c.toNat ∧ c.toNat ≤ 122 then some (c.toNat - 97 + 10)
  else if 65 ≤ c.toNat ∧ c.toNat ≤ 90 then some (c.toNat - 65 + 10)
  else none

/-- Value of a character as a digit of the given base. -/
def digitIn (base : Nat) (c : Char) : Option Nat :=
  match digitValue c with
  | some d => if d < base then some d else none
  | none => none

/-- Digits of the longest leading run of digits of the base. -/
def leadingDigits (base : Nat) : Str → List Nat
  | [] => []
  | c :: cs =>
    match digitIn base c with
    | some d => d :: leadingDigits base cs
    | none => []

/-- Number denoted by a digit sequence, most significant digit first. -/
def digitsValue (base : Nat) (ds : List Nat) : Nat :=
  ds.foldl (fun acc d => acc * base + d) 0

/-- White space skipped by `strtol` (`isspace` in the C locale). -/
def isSpaceC (c : Char) : Bool :=
  c == ' ' || c == '\t' || c == '\n' || c == '\x0b' || c == '\x0c' || c == '\r'

/-- Removes the optional sign read by `strtol`; the flag tells whether it was a minus. -/
def takeSign : Str → Bool × Str
  | '-' :: r => (true, r)
  | '+' :: r => (false, r)
  | s => (false, s)

/-- Removes the `0x`/`0X` that `strtol` accepts in base 16 when a hexadecimal digit follows. -/
def skipHexMark (base : Nat) : Str → Str
  | '0' :: x :: d :: r =>
    if base = 16 ∧ (x = 'x' ∨ x = 'X') ∧ (digitIn 16 d).isSome then d :: r
    else '0' :: x :: d :: r
  | s => s

/-- Embedding of `std::stoi(str, nullptr, base)` for base 10 or 16: `strtol` followed by the range
check against `int`. Both `std::invalid_argument` (no digits) and `std::out_of_range` carry the
text `stoi`. -/
def stoi (str : Str) (base : Nat) : Except String Int :=
  let signed := takeSign (str.dropWhile isSpaceC)
  let ds := leadingDigits base (skipHexMark base signed.2)
  if ds = [] then .error "stoi"
  else
    let v : Int := if signed.1 then -(digitsValue base ds : Int) else (digitsValue base ds : Int)
    if v < -2147483648 ∨ 2147483647 < v then .error "stoi" else .ok v

/-- Embedding of `I2CPlayer::hexToInt`. -/
def hexToInt (hex : Str) : Except String Int :=
  let cleaned := if hex.take 2 = ['0', 'x'] then hex.drop 2 else hex
  stoi cleaned 16

/-- Conversion of an `int` to `uint8_t`. -/
def toU8 (v : Int) : Nat := (v % 256).toNat

/-- Conversion of an `int` to `uint16_t`. -/
def toU16 (v : Int) : Nat := (v % 65536).toNat

/-- How `pollRegister` or a step of `playFile` ends. -/
inductive Outcome (α : Type) where
  /-- Normal completion with a value. -/
  | done (a : α)
  /-- An exception propagates to the caller. -/
  | raised (msg : String)
  /-- The iteration bound of the polling loop was used up before the loop ended. -/
  | stuck
  deriving DecidableEq, Repr

/-- The `while (true)` loop of `pollRegister`; the first argument bounds the number of
iterations, `start` is the clock reading taken before the loop. -/
def pollLoop (p : Config) (env : Env) (addr reg mask expected : Nat)
    (timeout_ms interval_ms start : Int) : Nat → Trace → Outcome Bool × Trace
  | 0, tr => (.stuck, tr)
  | fuel + 1, tr =>
    match readByte p env.bus addr reg tr with
    | (.ok value, tr1) =>
        if value &&& mask = expected then (.done true, tr1)
        else if timeout_ms ≤ env.now tr1 - start then (.done false, tr1)
        else pollLoop p env addr reg mask expected timeout_ms interval_ms start fuel
               (tr1 ++ [Ev.sleep interval_ms])
    | (.error e, tr1) =>
        if p.error_action = .STOP then (.raised e, tr1) else (.done false, tr1)

/-- Embedding of `I2CPlayer::pollRegister`, with a bound on the number of loop iterations. -/
def pollRegister (p : Config) (env : Env) (fuel : Nat) (addr reg mask expected : Nat)
    (timeout_ms interval_ms : Int) (tr : Trace) : Outcome Bool × Trace :=
  pollLoop p env addr reg mask expected timeout_ms interval_ms (env.now tr) fuel tr

/-- The loop `for (uint8_t byte : data) writeByte(addr, reg, byte)` of `writeFile`. -/
def writeAll (p : Config) (bus : Bus) (addr reg : Nat) : List Nat → Trace →
    Except String Unit × Trace
  | [], tr => (.ok (), tr)
  | byte :: rest, tr =>
    match writeByte p bus addr reg byte tr with
    | (.ok _, tr1) => writeAll p bus addr reg rest tr1
    | (.error e, tr1) => (.error e, tr1)

/-- Embedding of `I2CPlayer::writeFile`. -/
def writeFile (p : Config) (env : Env) (csv_directory : Str) (addr reg : Nat) (filename : Str)
    (tr : Trace) : Except String Unit × Trace :=
  let file_path := env.resolvePath csv_directory filename
  match env.files file_path with
  | none => (.error ("Failed to open file: " ++ String.mk file_path), tr)
  | some data => writeAll p env.bus addr reg data tr

/-- Mutable data of a run: the mutable members of `I2CPlayer`, the local variables of
`playFile` (initialised by `playFile` on entry) and the history of events. -/
structure State where
  /-- Member `csv_directory`. -/
  csv_directory : Str
  /-- Member `record_buffer` (its elements). -/
  record_buffer : List Nat
  /-- Value of `record_buffer.capacity()`. -/
  record_capacity : Nat
  /-- Member `recording`. -/
  recording : Bool
  /-- Member `parsers`. -/
  parsers : Str → Option Parser
  /-- Local `line_number`. -/
  line_number : Nat
  /-- Local `header_skipped`. -/
  header_skipped : Bool
  /-- Local `loop_sequence`. -/
  loop_sequence : List Str
  /-- Local `in_loop`. -/
  in_loop : Bool
  /-- Local `loop_count`. -/
  loop_count : Int
  /-- History of events. -/
  trace : Trace

/-- Embedding of `I2CPlayer::registerParser`. -/
def registerParser (s : State) (device_name : Str) (parser : Parser) : State :=
  { s with parsers := fun k => if k = device_name then some parser else s.parsers k }

/-- Operands of a `WRITE1` line: field count check, then the two `hexToInt` conversions. -/
def parseWrite1 (args : List Str) : Except String (Nat × Nat) :=
  match args with
  | [a, d] =>
    match hexToInt a with
    | .error e => .error e
    | .ok addr =>
      match hexToInt d with
      | .error e => .error e
      | .ok data => .ok (toU8 addr, toU8 data)
  | _ => .error "Invalid WRITE1 format"

/-- Operand of a `DELAY` line: field count check, then `std::stoi`. -/
def parseDelay (args : List Str) : Except String Int :=
  match args with
  | [t] => stoi t 10
  | _ => .error "Invalid DELAY format"

/-- The `try` block of `executeSequence` for a line with tokens `cmd :: args`, up to but not
including the pacing sleep. -/
def sequenceCommand (p : Config) (bus : Bus) (cmd : Str) (args : List Str) (tr : Trace) :
    Except String Unit × Trace :=
  if cmd = "WRITE1".toList then
    match parseWrite1 args with
    | .error e => (.error e, tr)
    | .ok (addr, data) => writeSingleByte p bus addr data tr
  else if cmd = "DELAY".toList then
    match parseDelay args with
    | .error e => (.error e, tr)
    | .ok delay => (.ok (), tr ++ [Ev.sleep delay])
  else (.ok (), tr)

/-- Body of the inner loop of `executeSequence` for one buffered line. -/
def sequenceLine (p : Config) (bus : Bus) (line : Str) (tr : Trace) :
    Except String Unit × Trace :=
  match tokenize line with
  | [] => (.ok (), tr)
  | cmd :: args =>
    match sequenceCommand p bus cmd args tr with
    | (.ok _, tr1) => (.ok (), tr1 ++ [Ev.sleep p.i2c_wait_ms])
    | (.error e, tr1) =>
        if p.error_action = .STOP then (.error e, tr1)
        else (.ok (), tr1 ++ [Ev.cerr ("Error in loop sequence: " ++ e ++ "\n")])

/-- The inner loop `for (const auto& line : sequence)` of `executeSequence`. -/
def sequencePass (p : Config) (bus : Bus) : List Str → Trace → Except String Unit × Trace
  | [], tr => (.ok (), tr)
  | line :: rest, tr =>
    match sequenceLine p bus line tr with
    | (.ok _, tr1) => sequencePass p bus rest tr1
    | (.error e, tr1) => (.error e, tr1)

/-- The outer loop of `executeSequence`; the first argument is the number of passes left. -/
def sequencePasses (p : Config) (bus : Bus) (sequence : List Str) : Nat → Trace →
    Except String Unit × Trace
  | 0, tr => (.ok (), tr)
  | n + 1, tr =>
    match sequencePass p bus sequence tr with
    | (.ok _, tr1) => sequencePasses p bus sequence n tr1
    | (.error e, tr1) => (.error e, tr1)

/-- Embedding of `I2CPlayer::executeSequence`: `for (iter = 0; iter < iterations; iter++)`
runs `max(iterations, 0)` passes. -/
def executeSequence (p : Config) (bus : Bus) (sequence : List Str) (iterations : Int)
    (tr : Trace) : Except String Unit × Trace :=
  sequencePasses p bus sequence iterations.toNat tr

/-- Operands of a `WRITE` line. -/
def parseWrite (args : List Str) : Except String (Nat × Nat × Nat) :=
  match args with
  | [a, r, d] =>
    match hexToInt a with
    | .error e => .error e
    | .ok addr =>
      match hexToInt r with
      | .error e => .error e
      | .ok reg =>
        match hexToInt d with
        | .error e => .error e
        | .ok data => .ok (toU8 addr, toU8 reg, toU8 data)
  | _ => .error "Invalid WRITE format"

/-- Operands of a `WRITE16` line; the data field is converted to `uint16_t`. -/
def parseWrite16 (args : List Str) : Except String (Nat × Nat × Nat) :=
  match args with
  | [a, r, d] =>
    match hexToInt a with
    | .error e => .error e
    | .ok addr =>
      match hexToInt r with
      | .error e => .error e
      | .ok reg =>
        match hexToInt d with
        | .error e => .error e
        | .ok data => .ok (toU8 addr, toU8 reg, toU16 data)
  | _ => .error "Invalid WRITE16 format"

/-- Operands of a `READ` line. -/
def parseRead (args : List Str) : Except String (Nat × Nat) :=
  match args with
  | [a, r] =>
    match hexToInt a with
    | .error e => .error e
    | .ok addr =>
      match hexToInt r with
      | .error e => .error e
      | .ok reg => .ok (toU8 addr, toU8 reg)
  | _ => .error "Invalid READ format"

/-- Operands of a `POLL` line. -/
structure PollArgs where
  addr : Nat
  reg : Nat
  mask : Nat
  expected : Nat
  timeout : Int
  interval : Int

/-- Operands of a `POLL` line: field count check, four `hexToInt` and two `std::stoi`
conversions in source order. -/
def parsePoll (args : List Str) : Except String PollArgs :=
  match args with
  | [a, r, m, x, t, i] =>
    match hexToInt a with
    | .error e => .error e
    | .ok addr =>
      match hexToInt r with
      | .error e => .error e
      | .ok reg =>
        match hexToInt m with
        | .error e => .error e
        | .ok mask =>
          match hexToInt x with
          | .error e => .error e
          | .ok expected =>
            match stoi t 10 with
            | .error e => .error e
            | .ok timeout =>
              match stoi i 10 with
              | .error e => .error e
              | .ok interval =>
                .ok ⟨toU8 addr, toU8 reg, toU8 mask, toU8 expected, timeout, interval⟩
  | _ => .error "Invalid POLL format"

/-- Operands of a `FILE` line: only the address and register are converted. -/
def parseFile (args : List Str) : Except String (Nat × Nat × Str) :=
  match args with
  | [a, r, f] =>
    match hexToInt a with
    | .error e => .error e
    | .ok addr =>
      match hexToInt r with
      | .error e => .error e
      | .ok reg => .ok (toU8 addr, toU8 reg, f)
  | _ => .error "Invalid FILE format"

/-- Lifts the result of a transport operation into a step result, storing the new history. -/
def liftBus (s : State) (r : Except String Unit × Trace) : Outcome Unit × State :=
  match r with
  | (.ok _, tr) => (.done (), { s with trace := tr })
  | (.error e, tr) => (.raised e, { s with trace := tr })

/-- Branch `cmd == "WRITE"` of `playFile`. -/
def cmdWrite (p : Config) (env : Env) (args : List Str) (s : State) : Outcome Unit × State :=
  match parseWrite args with
  | .error e => (.raised e, s)
  | .ok (addr, reg, data) => liftBus s (writeByte p env.bus addr reg data s.trace)

/-- Branch `cmd == "WRITE1"` of `playFile`. -/
def cmdWrite1 (p : Config) (env : Env) (args : List Str) (s : State) : Outcome Unit × State :=
  match parseWrite1 args with
  | .error e => (.raised e, s)
  | .ok (addr, data) => liftBus s (writeSingleByte p env.bus addr data s.trace)

/-- Branch `cmd == "WRITE16"` of `playFile`. -/
def cmdWrite16 (p : Config) (env : Env) (args : List Str) (s : State) : Outcome Unit × State :=
  match parseWrite16 args with
  | .error e => (.raised e, s)
  | .ok (addr, reg, data) => liftBus s (write16Bit p env.bus addr reg data s.trace)

/-- Branch `cmd == "READ"` of `playFile`: the byte is appended to the record buffer when
`recording && record_buffer.size() < record_buffer.capacity()`. -/
def cmdRead (p : Config) (env : Env) (args : List Str) (s : State) : Outcome Unit × State :=
  match parseRead args with
  | .error e => (.raised e, s)
  | .ok (addr, reg) =>
    match readByte p env.bus addr reg s.trace with
    | (.error e, tr) => (.raised e, { s with trace := tr })
    | (.ok data, tr) =>
      if s.recording = true ∧ s.record_buffer.length < s.record_capacity then
        (.done (), { s with trace := tr, record_buffer := s.record_buffer ++ [data] })
      else (.done (), { s with trace := tr })

/-- Branch `cmd == "POLL"` of `playFile`: a `false` result becomes the exception
`Polling timeout`. -/
def cmdPoll (p : Config) (env : Env) (fuel : Nat) (args : List Str) (s : State) :
    Outcome Unit × State :=
  match parsePoll args with
  | .error e => (.raised e, s)
  | .ok a =>
    match pollRegister p env fuel a.addr a.reg a.mask a.expected a.timeout a.interval
            s.trace with
    | (.done true, tr) => (.done (), { s with trace := tr })
    | (.done false, tr) => (.raised "Polling timeout", { s with trace := tr })
    | (.raised e, tr) => (.raised e, { s with trace := tr })
    | (.stuck, tr) => (.stuck, { s with trace := tr })

/-- Branch `cmd == "DELAY"` of `playFile`. -/
def cmdDelay (args : List Str) (s : State) : Outcome Unit × State :=
  match parseDelay args with
  | .error e => (.raised e, s)
  | .ok delay => (.done (), { s with trace := s.trace ++ [Ev.sleep delay] })

/-- Branch `cmd == "FILE"` of `playFile`. -/
def cmdFile (p : Config) (env : Env) (args : List Str) (s : State) : Outcome Unit × State :=
  match parseFile args with
  | .error e => (.raised e, s)
  | .ok (addr, reg, f) => liftBus s (writeFile p env s.csv_directory addr reg f s.trace)

/-- The chain `if (cmd == "WRITE") ... else throw "Unknown command"` of `playFile`, reached
outside a loop block, up to but not including the pacing sleep. -/
def busCommand (p : Config) (env : Env) (fuel : Nat) (cmd : Str) (args : List Str) (s : State) :
    Outcome Unit × State :=
  if cmd = "WRITE".toList then cmdWrite p env args s
  else if cmd = "WRITE1".toList then cmdWrite1 p env args s
  else if cmd = "WRITE16".toList then cmdWrite16 p env args s
  else if cmd = "READ".toList then cmdRead p env args s
  else if cmd = "POLL".toList then cmdPoll p env fuel args s
  else if cmd = "DELAY".toList then cmdDelay args s
  else if cmd = "FILE".toList then cmdFile p env args s
  else (.raised ("Unknown command: " ++ String.mk cmd), s)

/-- Branch `cmd == "LOOP"` of `playFile`. -/
def cmdLoop (args : List Str) (s : State) : Outcome Unit × State :=
  match args with
  | [n] =>
    if s.in_loop then (.raised "Nested loops not supported", s)
    else
      match stoi n 10 with
      | .error e => (.raised e, { s with in_loop := true })
      | .ok c => (.done (), { s with in_loop := true, loop_count := c, loop_sequence := [] })
  | _ => (.raised "Invalid LOOP format", s)

/-- Branch `cmd == "ENDLOOP"` of `playFile`. -/
def cmdEndloop (p : Config) (env : Env) (s : State) : Outcome Unit × State :=
  if s.in_loop then
    liftBus { s with in_loop := false }
      (executeSequence p env.bus s.loop_sequence s.loop_count s.trace)
  else (.raised "ENDLOOP without LOOP", s)

/-- Branch `cmd == "START_RECORD"` of `playFile`: `clear()`, then `reserve(buffer_size)`, which
throws `std::length_error` for a negative size and otherwise raises the capacity to at least
the size, then `recording = true`. -/
def cmdStartRecord (args : List Str) (s : State) : Outcome Unit × State :=
  match args with
  | [n] =>
    match stoi n 10 with
    | .error e => (.raised e, s)
    | .ok buffer_size =>
      if buffer_size < 0 then (.raised "vector::reserve", { s with record_buffer := [] })
      else
        (.done (), { s with record_buffer := []
                            record_capacity := max s.record_capacity buffer_size.toNat
                            recording := true })
  | _ => (.raised "Invalid START_RECORD format", s)

/-- Branch `cmd == "PRINT_RECORD"` of `playFile`. -/
def cmdPrintRecord (args : List Str) (s : State) : Outcome Unit × State :=
  match args with
  | [d] =>
    match s.parsers d with
    | some parser => (.done (), { s with trace := s.trace ++ [Ev.parse parser s.record_buffer] })
    | none =>
      (.done (), { s with trace := s.trace ++
        [Ev.cerr ("No parser found for device: " ++ String.mk d ++ "\n")] })
  | _ => (.raised "Invalid PRINT_RECORD format", s)

/-- The part of the `try` block after the interpreter-state commands: inside a loop block the
line is buffered, otherwise the bus command runs and is followed by the pacing sleep. -/
def cmdOther (p : Config) (env : Env) (fuel : Nat) (line cmd : Str) (args : List Str)
    (s : State) : Outcome Unit × State :=
  if s.in_loop then (.done (), { s with loop_sequence := s.loop_sequence ++ [line] })
  else
    match busCommand p env fuel cmd args s with
    | (.done _, s1) => (.done (), { s1 with trace := s1.trace ++ [Ev.sleep p.i2c_wait_ms] })
    | r => r

/-- The `try` block of `playFile` for a line with tokens `cmd :: args`. Completion with `done`
covers both reaching the end of the block and its `continue` statements. -/
def command (p : Config) (env : Env) (fuel : Nat) (line cmd : Str) (args : List Str)
    (s : State) : Outcome Unit × State :=
  if cmd = "LOOP".toList then cmdLoop args s
  else if cmd = "ENDLOOP".toList then cmdEndloop p env s
  else if cmd = "START_RECORD".toList then cmdStartRecord args s
  else if cmd = "STOP_RECORD".toList then (.done (), { s with recording := false })
  else if cmd = "PRINT_RECORD".toList then cmdPrintRecord args s
  else cmdOther p env fuel line cmd args s

/-- The whole `try` block of `playFile` for one line. -/
def tryBlock (p : Config) (env : Env) (fuel : Nat) (line : Str) (s : State) :
    Outcome Unit × State :=
  match tokenize line with
  | [] => (.done (), s)
  | cmd :: args => command p env fuel line cmd args s

/-- The test `line.empty() || trim(line)[0] == '#'`; indexing an empty string at 0 yields the
null character. -/
def skipLine (line : Str) : Bool :=
  line.isEmpty || (trim line).headD (Char.ofNat 0) == '#'

/-- The statement `std::cerr << "Error at line " << line_number << ": " << e.what() << "\n"`. -/
def logged (e : String) (s : State) : State :=
  { s with trace := s.trace ++
    [Ev.cerr ("Error at line " ++ toString s.line_number ++ ": " ++ e ++ "\n")] }

/-- The `catch` clause of `playFile`: log the message, rethrow under `STOP`. -/
def catchLine (p : Config) (e : String) (s : State) : Outcome Unit × State :=
  if p.error_action = .STOP then (.raised e, logged e s) else (.done (), logged e s)

/-- One iteration of `while (std::getline(file, line))` in `playFile`. -/
def playLine (p : Config) (env : Env) (fuel : Nat) (line : Str) (s : State) :
    Outcome Unit × State :=
  let s1 := { s with line_number := s.line_number + 1 }
  if skipLine line then (.done (), s1)
  else if s1.header_skipped = false then (.done (), { s1 with header_skipped := true })
  else
    match tryBlock p env fuel line s1 with
    | (.raised e, s2) => catchLine p e s2
    | r => r

/-- The loop `while (std::getline(file, line))` of `playFile` over the lines of the script. -/
def playLines (p : Config) (env : Env) (fuel : Nat) : List Str → State → Outcome Unit × State
  | [], s => (.done (), s)
  | line :: rest, s =>
    match playLine p env fuel line s with
    | (.done _, s1) => playLines p env fuel rest s1
    | r => r

/-- State of the local variables at the declarations that open `playFile`. -/
def enter (filename : Str) (s : State) : State :=
  { s with csv_directory := filename, line_number := 0, header_skipped := false,
           loop_sequence := [], in_loop := false, loop_count := 0 }

/-- The statement after the loop of `playFile`: `if (in_loop) throw "Unterminated LOOP in CSV"`,
reached when the loop over the lines has ended normally. -/
def atEnd (r : Outcome Unit × State) : Outcome Unit × State :=
  match r with
  | (.done _, s1) =>
    if s1.in_loop then (.raised "Unterminated LOOP in CSV", s1) else (.done (), s1)
  | r => r

/-- Embedding of `I2CPlayer::playFile`; `fuel` bounds the iterations of each polling loop. -/
def playFile (p : Config) (env : Env) (fuel : Nat) (filename : Str) (s : State) :
    Outcome Unit × State :=
  match env.script filename with
  | none =>
    (.raised ("Failed to open input file: " ++ String.mk filename),
      { s with csv_directory := filename })
  | some lines => atEnd (playLines p env fuel lines (enter filename s))

/-! ## Observations on histories -/

/-- Address selections (`ioctl` calls). -/
def isSelect : Ev → Bool
  | .ioctl _ _ => true
  | _ => false

/-- Data transfers (`write` and `read` calls). -/
def isTransfer : Ev → Bool
  | .write _ _ _ _ => true
  | .read _ _ _ _ => true
  | _ => false

/-- Number of address selections in a history. -/
def selects (tr : Trace) : Nat := tr.countP isSelect

/-- Number of data transfers in a history. -/
def transfers (tr : Trace) : Nat := tr.countP isTransfer

/-- A short transfer that `checkNAK` classifies as a NAK: `errno` is `ENXIO` or `EIO`. -/
def nakErrno (errno : Nat) : Prop := errno = ENXIO ∨ errno = EIO

/-- A device that answers every transfer with a NAK. -/
def NaksAll (bus : Bus) : Prop :=
  (∀ tr a bs, (bus.write tr a bs).ret ≠ (bs.length : Int) ∧ nakErrno (bus.write tr a bs).errno) ∧
  (∀ tr a, (bus.read tr a).ret ≠ 1 ∧ nakErrno (bus.read tr a).errno)

/-- A device on which address selection always succeeds. -/
def SelectOk (bus : Bus) : Prop := ∀ tr a, 0 ≤ bus.ioctl tr a

/-- A device on which address selection always fails. -/
def SelectFails (bus : Bus) : Prop := ∀ tr a, bus.ioctl tr a < 0

/-- A device that acknowledges everything: selection succeeds and every transfer is complete. -/
def AcksAll (bus : Bus) : Prop :=
  SelectOk bus ∧ (∀ tr a bs, (bus.write tr a bs).ret = (bs.length : Int)) ∧
  (∀ tr a, (bus.read tr a).ret = 1)

/-- The steady clock is unbounded: every reading is passed once the history is long enough. -/
def ClockAdvances (env : Env) : Prop :=
  ∀ T : Int, ∃ N : Nat, ∀ tr : Trace, N ≤ tr.length → T ≤ env.now tr

/-- The `try` block of `playFile` is entered for `line` in state `s` (the line is not skipped
and the header has been consumed) and the exception `e` leaves it in state `s2`. -/
def Raises (p : Config) (env : Env) (fuel : Nat) (line : Str) (s : State) (e : String)
    (s2 : State) : Prop :=
  skipLine line = false ∧ s.header_skipped = true ∧
    tryBlock p env fuel line { s with line_number := s.line_number + 1 } = (.raised e, s2)

/-- Address and data byte of a well-formed `WRITE1` line; `none` for any other line. -/
def write1Of (line : Str) : Option (Nat × Nat) :=
  match tokenize line with
  | cmd :: args =>
    if cmd = "WRITE1".toList then
      match parseWrite1 args with
      | .ok w => some w
      | .error _ => none
    else none
  | [] => none

/-- The verb of a line: its first token. -/
def verb (line : Str) : Option Str := (tokenize line).head?

/-- The raw single-byte writes of a history, as pairs of target address and byte. -/
def rawWrites (tr : Trace) : List (Nat × Nat) :=
  tr.filterMap fun e =>
    match e with
    | .write a [d] _ _ => some (a, d)
    | _ => none

/-! ## Sample worlds used at concrete inputs -/

/-- A device that answers every transfer with `ENXIO` while selection succeeds. -/
def nakBus : Bus where
  ioctl := fun _ _ => 0
  write := fun _ _ _ => ⟨-1, ENXIO⟩
  read := fun _ _ => ⟨-1, ENXIO, 0⟩

/-- A device on which every address selection fails. -/
def deadBus : Bus where
  ioctl := fun _ _ => -1
  write := fun _ _ bs => ⟨bs.length, 0⟩
  read := fun _ _ => ⟨1, 0, 0⟩

/-- A device that acknowledges everything and reads 7 from every register. -/
def ackBus : Bus where
  ioctl := fun _ _ => 0
  write := fun _ _ bs => ⟨bs.length, 0⟩
  read := fun _ _ => ⟨1, 0, 7⟩

/-- A world around a bus: the clock advances by one millisecond per event, the script file of
any name holds the given lines and no binary file exists. -/
def world (bus : Bus) (lines : List Str) : Env where
  bus := bus
  now := fun tr => (tr.length : Int)
  script := fun _ => some lines
  resolvePath := fun _ f => f
  files := fun _ => none

/-- A freshly constructed player before any parser is registered. -/
def fresh : State where
  csv_directory := []
  record_buffer := []
  record_capacity := 0
  recording := false
  parsers := fun _ => none
  line_number := 0
  header_skipped := false
  loop_sequence := []
  in_loop := false
  loop_count := 0
  trace := []

/-- Fields that the `try` block of `playFile` never touches. -/
def SameCursor (s t : State) : Prop :=
  t.line_number = s.line_number ∧ t.header_skipped = s.header_skipped ∧
  t.csv_directory = s.csv_directory ∧ t.parsers = s.parsers

/-- The history `tr1` continues the history `tr`: nothing already recorded is lost or
changed. -/
def Continues (tr tr1 : Trace) : Prop := ∃ ext, tr1 = tr ++ ext

/-- From the bound `f0` on, the result of `F` does not depend on the bound and is not
`stuck`. -/
def Settled {α β : Type} (F : Nat → Outcome α × β) (f0 : Nat) : Prop :=
  (F f0).1 ≠ .stuck ∧ ∀ f, f0 ≤ f → F f = F f0

/-- The script of the concrete runs below: a header and two raw writes. -/
def twoWrites : List Str :=
  ["command,addr,data".toList, "WRITE1,0x10,0xAA".toList, "WRITE1,0x11,0xBB".toList]

/-- State after the header of a script has been consumed by a fresh player. -/
def afterHeader : State :=
  { fresh with line_number := 1, header_skipped := true }

/-- The verbs of the top-level commands that drive a transport operation. -/
def busVerbs : List Str :=
  ["WRITE".toList, "WRITE1".toList, "WRITE16".toList, "READ".toList, "FILE".toList]

/-- The twelve verbs that `playFile` recognises. -/
def knownVerbs : List Str :=
  ["LOOP".toList, "ENDLOOP".toList, "START_RECORD".toList, "STOP_RECORD".toList,
   "PRINT_RECORD".toList, "WRITE".toList, "WRITE1".toList, "WRITE16".toList, "READ".toList,
   "POLL".toList, "DELAY".toList, "FILE".toList]

/-- The verbs that are executed even inside a loop block and carry a field count check. -/
def stateVerbs : List Str :=
  ["LOOP".toList, "START_RECORD".toList, "PRINT_RECORD".toList]

/-- The verbs whose field count is checked only outside a loop block. -/
def checkedBusVerbs : List Str :=
  ["WRITE".toList, "WRITE1".toList, "WRITE16".toList, "READ".toList, "POLL".toList,
   "DELAY".toList, "FILE".toList]

/-- Value that `tokens.size()` must have for the verbs whose field count `playFile` checks. -/
def fieldCount (cmd : Str) : Option Nat :=
  if cmd = "LOOP".toList then some 2
  else if cmd = "START_RECORD".toList then some 2
  else if cmd = "PRINT_RECORD".toList then some 2
  else if cmd = "WRITE".toList then some 4
  else if cmd = "WRITE1".toList then some 3
  else if cmd = "WRITE16".toList then some 4
  else if cmd = "READ".toList then some 3
  else if cmd = "POLL".toList then some 7
  else if cmd = "DELAY".toList then some 2
  else if cmd = "FILE".toList then some 4
  else none

/-- The ways in which a line with tokens `cmd :: args` fails in state `s` for a reason that
lies in the script or in a poll timeout, with the exception text and the state left behind. -/
inductive ScriptFault (p : Config) (env : Env) (fuel : Nat) (s : State) :
    Str → List Str → String → State → Prop where
  /-- A `POLL` line outside a loop block for which `pollRegister` returned `false`. -/
  | pollTimeout (args : List Str) (a : PollArgs) (tr : Trace) :
      s.in_loop = false → parsePoll args = .ok a →
      pollRegister p env fuel a.addr a.reg a.mask a.expected a.timeout a.interval s.trace =
        (.done false, tr) →
      ScriptFault p env fuel s "POLL".toList args "Polling timeout" { s with trace := tr }
  /-- A verb outside the twelve known ones, outside a loop block. -/
  | unknownVerb (cmd : Str) (args : List Str) :
      s.in_loop = false → cmd ∉ knownVerbs →
      ScriptFault p env fuel s cmd args ("Unknown command: " ++ String.mk cmd) s
  /-- A wrong field count for an interpreter-state verb. -/
  | stateFields (cmd : Str) (args : List Str) (k : Nat) :
      cmd ∈ stateVerbs → fieldCount cmd = some k → args.length + 1 ≠ k →
      ScriptFault p env fuel s cmd args ("Invalid " ++ String.mk cmd ++ " format") s
  /-- A wrong field count for a bus verb, outside a loop block. -/
  | busFields (cmd : Str) (args : List Str) (k : Nat) :
      s.in_loop = false → cmd ∈ checkedBusVerbs → fieldCount cmd = some k →
      args.length + 1 ≠ k →
      ScriptFault p env fuel s cmd args ("Invalid " ++ String.mk cmd ++ " format") s
  /-- A `LOOP` line with the right field count inside an open loop block. -/
  | nestedLoop (n : Str) :
      s.in_loop = true → ScriptFault p env fuel s "LOOP".toList [n] "Nested loops not supported" s
  /-- An `ENDLOOP` line outside a loop block. -/
  | strayEndloop (args : List Str) :
      s.in_loop = false →
      ScriptFault p env fuel s "ENDLOOP".toList args "ENDLOOP without LOOP" s

/-- The script of the counterexample to C7: a header, an unknown verb and a raw write. -/
def bogusScript : List Str :=
  ["command,addr,data".toList, "BOGUS".toList, "WRITE1,0x10,0xAA".toList]

/-- The verbs that `playFile` executes even inside a loop block. -/
def controlVerbs : List Str :=
  ["LOOP".toList, "ENDLOOP".toList, "START_RECORD".toList, "STOP_RECORD".toList,
   "PRINT_RECORD".toList]

/-- State after a header, an accepted `LOOP` line with count `n` and the buffered lines `body`
have been read by `playFile` started in state `s0`. -/
def loopOpen (filename : Str) (s0 : State) (n : Int) (body : List Str) : State :=
  { enter filename s0 with line_number := 2 + body.length, header_skipped := true,
                           in_loop := true, loop_count := n, loop_sequence := body }

/-- The script of the spec example: a header, LOOP,3, one raw write and ENDLOOP. -/
def loopScript : List Str :=
  ["command,addr,data".toList, "LOOP,3".toList, "WRITE1,0x10,0xAA".toList, "ENDLOOP".toList]

/-- In every state reached by `playFile` an open loop block implies a consumed header. -/
def HeaderBeforeLoop (s : State) : Prop := s.in_loop = true → s.header_skipped = true

/-- State of a fresh player after a header and `LOOP,3` have been read. -/
def inLoop3 : State :=
  { fresh with line_number := 2, header_skipped := true, in_loop := true, loop_count := 3 }

/-- The script of the witness for C10: a header, LOOP,3 and a buffered write, no ENDLOOP. -/
def openLoopScript : List Str :=
  ["command,addr,data".toList, "LOOP,3".toList, "WRITE1,0x10,0xAA".toList]

/-- Texts that differ from the unterminated-LOOP error in their third character. -/
abbrev LineMsg (e : String) : Prop := e.data.get? 2 ≠ some 't'

/-- Embedding of `registerParsers` of `main.cpp`: the six decoders and their device names. -/
def registerParsers (s : State) : State :=
  registerParser (registerParser (registerParser (registerParser (registerParser
    (registerParser s "DS3231".toList .DS3231Parser) "ADS1015".toList .ADS1015Parser)
    "24C02".toList .EEPROMParser) "BMP280".toList .BMP280Parser)
    "BH1750".toList .BH1750Parser) "VEML7700".toList .VEML7700Parser

/-- The device names under which `registerParsers` registers a decoder. -/
def deviceNames : List Str :=
  ["DS3231".toList, "ADS1015".toList, "24C02".toList, "BMP280".toList, "BH1750".toList,
   "VEML7700".toList]

/-- The decoder invocations of a history: decoder and bytes handed to it, in order. -/
def decodes (tr : Trace) : List (Parser × List Nat) :=
  tr.filterMap fun e =>
    match e with
    | .parse prs buf => some (prs, buf)
    | _ => none

/-- State of a player with the decoders of `main.cpp`, after the header, holding three recorded
bytes with recording stopped. -/
def recorded : State :=
  { registerParsers fresh with line_number := 1, header_skipped := true,
                               record_buffer := [17, 34, 51], record_capacity := 4 }

/-- The first character of a line outside the set `" \t\n\r"`, if there is one. -/
def firstVisible (line : Str) : Option Char := (line.dropWhile isTrimChar).head?

/-- The script of the witness for C17: a comment, an empty line, a header that reads like a
command, and a raw write. -/
def commandHeaderScript : List Str :=
  ["# init".toList, [], "WRITE1,0x10,0xAA".toList, "WRITE1,0x11,0xBB".toList]

/-- A script with a line of one space before the header. -/
def blankFirstScript : List Str :=
  [" ".toList, "command,addr,data".toList, "WRITE1,0x10,0xAA".toList]

/-- A script with a line holding only a carriage return after the header. -/
def blankCrScript : List Str :=
  ["command,addr,data".toList, "\r".toList, "WRITE1,0x10,0xAA".toList]

/-- Record data left as it is: buffer contents, capacity and recording flag. -/
def SameRecord (s t : State) : Prop :=
  t.record_buffer = s.record_buffer ∧ t.record_capacity = s.record_capacity ∧
  t.recording = s.recording

/-- What one line may do to the contents of the record buffer: nothing, empty it (a
`START_RECORD` line), or append one byte (a `READ` line outside a loop block while recording
is on). -/
def BufferStep (line : Str) (s t : State) : Prop :=
  t.record_buffer = s.record_buffer ∨
  (verb line = some "START_RECORD".toList ∧ t.record_buffer = []) ∨
  (verb line = some "READ".toList ∧ s.in_loop = false ∧ s.recording = true ∧
    ∃ b, t.record_buffer = s.record_buffer ++ [b])

/-- The state `recorded` with recording switched on. -/
def recordingOn : State := { recorded with recording := true }

/-- Data bytes delivered by the `read` calls of a history, in order. -/
def readBytes (tr : Trace) : List Nat :=
  tr.filterMap fun e =>
    match e with
    | .read _ _ _ d => some d
    | _ => none

/-- Address and register of a well-formed `READ` line; `none` for any other line. -/
def readOf (line : Str) : Option (Nat × Nat) :=
  match tokenize line with
  | cmd :: args =>
    if cmd = "READ".toList then
      match parseRead args with
      | .ok w => some w
      | .error _ => none
    else none
  | [] => none

/-- A device that acknowledges everything and reads, from every register, the number of events
so far (as a byte), so that successive reads deliver different bytes. -/
def countBus : Bus where
  ioctl := fun _ _ => 0
  write := fun _ _ bs => ⟨bs.length, 0⟩
  read := fun tr _ => ⟨1, 0, tr.length % 256⟩

/-- The script of the witness for C11: `START_RECORD,4` followed by six reads. -/
def recordScript : List Str :=
  ["command,addr,reg".toList, "START_RECORD,4".toList, "READ,0x48,0x00".toList,
   "READ,0x48,0x01".toList, "READ,0x48,0x02".toList, "READ,0x48,0x03".toList,
   "READ,0x48,0x04".toList, "READ,0x48,0x05".toList]

/-- A script that starts recording twice, first with size 4 and then with size 2, and then
reads three bytes. -/
def shrinkScript : List Str :=
  ["command,addr,reg".toList, "START_RECORD,4".toList, "START_RECORD,2".toList,
   "READ,0x48,0x00".toList, "READ,0x48,0x01".toList, "READ,0x48,0x02".toList]

/-- The token list as the specification words it: the line is split at every `','` and each
piece loses its leading and trailing space, tab, CR and LF characters. -/
def specTokens (line : Str) : List Str := (line.splitOn ',').map trim

/-- Removes the last piece when it is empty. -/
def dropEmptyLast (ps : List Str) : List Str :=
  if ps.getLast? = some [] then ps.dropLast else ps

/-- Number of fields of a line of each of the twelve verbs, as the script format of the
specification lists them. -/
def specArity (cmd : Str) : Option Nat :=
  if cmd = "WRITE".toList then some 4
  else if cmd = "WRITE1".toList then some 3
  else if cmd = "WRITE16".toList then some 4
  else if cmd = "READ".toList then some 3
  else if cmd = "POLL".toList then some 7
  else if cmd = "DELAY".toList then some 2
  else if cmd = "FILE".toList then some 4
  else if cmd = "LOOP".toList then some 2
  else if cmd = "ENDLOOP".toList then some 1
  else if cmd = "START_RECORD".toList then some 2
  else if cmd = "STOP_RECORD".toList then some 1
  else if cmd = "PRINT_RECORD".toList then some 2
  else none

/-- State of a fresh player after a header, `LOOP,3` and one buffered raw write. -/
def inLoopWrite : State :=
  { inLoop3 with line_number := 3, loop_sequence := ["WRITE1,0x10,0xAA".toList] }

/-- Hexadecimal digits: the characters `0`-`9`, `a`-`f` and `A`-`F` (by code point). -/
def isHexDigit (c : Char) : Bool :=
  (48 ≤ c.toNat && c.toNat ≤ 57) || (97 ≤ c.toNat && c.toNat ≤ 102) ||
  (65 ≤ c.toNat && c.toNat ≤ 70)

/-- Value of a hexadecimal digit. -/
def hexDigitValue (c : Char) : Nat :=
  if c.toNat ≤ 57 then c.toNat - 48
  else if 97 ≤ c.toNat then c.toNat - 97 + 10
  else c.toNat - 65 + 10

/-- Numeric value of a string of hexadecimal digits, most significant digit first. -/
def hexValue (h : Str) : Nat :=
  h.foldl (fun acc c => acc * 16 + hexDigitValue c) 0

/-- The `write` calls of a history, in order: target address, bytes handed over and return
value. -/
def writeCalls (tr : Trace) : List (Nat × List Nat × Int) :=
  tr.filterMap fun e =>
    match e with
    | .write a bs r _ => some (a, bs, r)
    | _ => none

/-- The `write` calls `ws` of one write operation: all of them hand the bytes `buf` to the
address `addr`, none but the last is complete (returns the number of bytes), and when the last
is complete the operation has `succeeded`. -/
def WriteAttempts (addr : Nat) (buf : List Nat) (ws : List (Nat × List Nat × Int))
    (succeeded : Prop) : Prop :=
  (∀ w ∈ ws, w.1 = addr ∧ w.2.1 = buf) ∧
  (∀ w ∈ ws.dropLast, w.2.2 ≠ (buf.length : Int)) ∧
  (∀ w, ws.getLast? = some w → w.2.2 = (buf.length : Int) → succeeded)

/-- The histories at which a polling loop started at `tr` begins a pass: `tr` itself, and the
history after a pass whose read returned a value that failed the test before the timeout,
followed by the interval sleep. -/
inductive PollPass (p : Config) (env : Env) (addr reg mask expected : Nat)
    (timeout_ms interval_ms start : Int) : Trace → Trace → Prop where
  /-- The first pass. -/
  | first (tr : Trace) : PollPass p env addr reg mask expected timeout_ms interval_ms start tr tr
  /-- The pass after one that went round. -/
  | next (tr tr1 tr2 : Trace) (value : Nat) :
      readByte p env.bus addr reg tr = (.ok value, tr1) →
      value &&& mask ≠ expected → ¬ timeout_ms ≤ env.now tr1 - start →
      PollPass p env addr reg mask expected timeout_ms interval_ms start
        (tr1 ++ [Ev.sleep interval_ms]) tr2 →
      PollPass p env addr reg mask expected timeout_ms interval_ms start tr tr2

/-- A loop body of verbs that `executeSequence` does not dispatch. -/
def idleBody : List Str :=
  ["READ,0x48,0x00".toList, "WRITE,0x10,0x01,0x02".toList, "POLL,0x50,0x00".toList,
   "BOGUS".toList]

/-- State of a fresh player after a header, `START_RECORD,4`, `LOOP,2` and the buffered lines
of `idleBody`. -/
def inLoopIdle : State :=
  { fresh with line_number := 7, header_skipped := true, in_loop := true, loop_count := 2,
               loop_sequence := idleBody, recording := true, record_capacity := 4 }

/-- A world with a device that acknowledges everything and one binary file, `fw.bin`, holding
the bytes 1, 2, 3; every other file is missing. -/
def fileWorld : Env :=
  { world ackBus [] with
    files := fun path => if path = "fw.bin".toList then some [1, 2, 3] else none }

/-- A world with a device whose reads deliver the number of events so far and two scripts:
`first.csv` starts a recording of size 4 and reads two bytes without stopping the recording,
every other file name holds a header and one read. -/
def twoScriptWorld : Env :=
  { world countBus [] with
    script := fun f =>
      if f = "first.csv".toList then
        some ["command,addr,reg".toList, "START_RECORD,4".toList, "READ,0x48,0x00".toList,
              "READ,0x48,0x01".toList]
      else some ["command,addr,reg".toList, "READ,0x48,0x02".toList] }

/-- State in which `first.csv` of `twoScriptWorld` leaves a fresh player. -/
def afterFirst : State :=
  (playFile ⟨1, .STOP, 3⟩ twoScriptWorld 1 "first.csv".toList fresh).2

/-- The containers that the decoders index: the byte buffer handed to `parse` and the constant
tables of the decoders. -/
inductive Container where
  /-- The argument `buffer` of `parse`. -/
  | buffer
  /-- The table `days` of `DS3231Parser::getDayOfWeek` (8 entries). -/
  | days
  /-- The table `days_in_month` of `DS3231Parser::isValidDate` (12 entries). -/
  | days_in_month
  /-- The table `COMMON_SIZES` of `EEPROMParser` (8 entries). -/
  | COMMON_SIZES
  deriving DecidableEq, Repr

/-- One evaluation of `container[index]`, with the size of the container at that moment. -/
structure Access where
  container : Container
  size : Nat
  index : Nat
  deriving DecidableEq, Repr

/-- What a run of a decoder shows: the texts written to `std::cerr` and the indexing operations
it performs, in order. -/
structure Decoding where
  cerr : List String
  accesses : List Access
  deriving DecidableEq, Repr

/-- The indexing operation `buffer[i]`. -/
def bufferAt (buffer : List Nat) (i : Nat) : Access := ⟨.buffer, buffer.length, i⟩

/-- Embedding of `DS3231Parser::bcdToDecimal` on `uint8_t`. -/
def DS3231Parser.bcdToDecimal (bcd : Nat) : Nat := ((bcd >>> 4) * 10 + (bcd &&& 0x0F)) % 256

/-- Embedding of `DS3231Parser::extractDay`. -/
def DS3231Parser.extractDay (raw : Nat) : Nat := DS3231Parser.bcdToDecimal raw

/-- Embedding of `DS3231Parser::extractMonth`. -/
def DS3231Parser.extractMonth (raw : Nat) : Nat := DS3231Parser.bcdToDecimal (raw &&& 0x1F)

/-- Embedding of `DS3231Parser::extractYear`. -/
def DS3231Parser.extractYear (raw : Nat) : Nat := DS3231Parser.bcdToDecimal raw

/-- Embedding of `DS3231Parser::isValidDayOfWeek`. -/
def DS3231Parser.isValidDayOfWeek (day : Nat) : Bool := decide (0 < day) && decide (day ≤ 7)

/-- The table `days_in_month`. -/
def DS3231Parser.days_in_month : List Nat := [31, 28, 31, 30, 31, 30, 31, 31, 30, 31, 30, 31]

/-- Embedding of `DS3231Parser::isValidDate`: the result and the table look-ups. -/
def DS3231Parser.isValidDate (day month year : Nat) : Bool × List Access :=
  if month < 1 ∨ month > 12 then (false, [])
  else
    let max_days := DS3231Parser.days_in_month.getD (month - 1) 0
    let max_days := if month = 2 ∧ year % 4 = 0 then 29 else max_days
    (decide (1 ≤ day) && decide (day ≤ max_days),
      [⟨.days_in_month, DS3231Parser.days_in_month.length, month - 1⟩])

/-- Table look-ups of `DS3231Parser::getDayOfWeek`: `(day < days.size()) ? days[day] : ...`. -/
def DS3231Parser.getDayOfWeek (day : Nat) : List Access :=
  if day < 8 then [⟨.days, 8, day⟩] else []

/-- Indexing operations of `DS3231Parser::printDiagnostics`: the test of `buffer[0]` and the
seven register values. -/
def DS3231Parser.printDiagnostics (buffer : List Nat) : List Access :=
  bufferAt buffer 0 :: (List.range 7).map (bufferAt buffer)

/-- Embedding of `DS3231Parser::parse`. -/
def DS3231Parser.parse (buffer : List Nat) : Decoding :=
  if buffer.length < 7 then ⟨["Insufficient data for DS3231 parsing\n"], []⟩
  else
    let day_of_week := buffer.getD 3 0
    let date := DS3231Parser.extractDay (buffer.getD 4 0)
    let month := DS3231Parser.extractMonth (buffer.getD 5 0)
    let year := DS3231Parser.extractYear (buffer.getD 6 0)
    let valid := DS3231Parser.isValidDate date month year
    ⟨if valid.1 then [] else ["Invalid date values detected\n"],
     (List.range 7).map (bufferAt buffer) ++ valid.2 ++
       (if DS3231Parser.isValidDayOfWeek day_of_week then DS3231Parser.getDayOfWeek day_of_week
        else []) ++
       DS3231Parser.printDiagnostics buffer⟩

/-- Embedding of `ADS1015Parser::parse`: `buffer[0]` and `buffer[1]` are read for the raw value
and again for the raw bytes line. -/
def ADS1015Parser.parse (buffer : List Nat) : Decoding :=
  if buffer.length < 2 then ⟨["Insufficient data for ADS1015 parsing\n"], []⟩
  else ⟨[], [bufferAt buffer 0, bufferAt buffer 1, bufferAt buffer 0, bufferAt buffer 1]⟩

/-- Embedding of `BH1750Parser::parse`. -/
def BH1750Parser.parse (buffer : List Nat) : Decoding :=
  if buffer.length < 2 then ⟨["Insufficient data for BH1750 parsing\n"], []⟩
  else ⟨[], [bufferAt buffer 0, bufferAt buffer 1, bufferAt buffer 0, bufferAt buffer 1]⟩

/-- Embedding of `VEML7700Parser::parse`. -/
def VEML7700Parser.parse (buffer : List Nat) : Decoding :=
  if buffer.length < 2 then ⟨["Insufficient data for VEML7700 parsing\n"], []⟩
  else ⟨[], [bufferAt buffer 0, bufferAt buffer 1, bufferAt buffer 0, bufferAt buffer 1]⟩

/-- Embedding of `BMP280Parser::parse`: three bytes for the temperature, three for the
pressure. -/
def BMP280Parser.parse (buffer : List Nat) : Decoding :=
  if buffer.length < 6 then ⟨["Insufficient data for BMP280 parsing\n"], []⟩
  else ⟨[], (List.range 6).map (bufferAt buffer)⟩

/-- The table `COMMON_SIZES` of `EEPROMParser`. -/
def EEPROMParser.COMMON_SIZES : List Nat := [128, 256, 512, 1024, 2048, 4096, 8192, 16384]

/-- The loop `for (i = 0; i < COMMON_SIZES.size(); ++i) if (COMMON_SIZES[i] == size) break`
of `EEPROMParser::printSizeInfo`, over the indices still to visit. -/
def EEPROMParser.sizeScan (size : Nat) : List Nat → List Access
  | [] => []
  | i :: rest =>
    ⟨.COMMON_SIZES, EEPROMParser.COMMON_SIZES.length, i⟩ ::
      (if EEPROMParser.COMMON_SIZES.getD i 0 = size then [] else EEPROMParser.sizeScan size rest)

/-- Embedding of `EEPROMParser::isCommonEEPROMSize` (a range-for, no indexing). -/
def EEPROMParser.isCommonEEPROMSize (size : Nat) : Bool :=
  EEPROMParser.COMMON_SIZES.any (fun common_size => common_size == size)

/-- Indexing operations of `EEPROMParser::printSizeInfo`. -/
def EEPROMParser.printSizeInfo (size : Nat) : List Access :=
  if EEPROMParser.isCommonEEPROMSize size then
    EEPROMParser.sizeScan size (List.range EEPROMParser.COMMON_SIZES.length)
  else []

/-- Indexing operations of `EEPROMParser::printAsciiLine`: `buffer[start + i]` for the
`i < bytes_per_line` with `i < count`. -/
def EEPROMParser.printAsciiLine (bytes_per_line : Nat) (buffer : List Nat) (start count : Nat) :
    List Access :=
  ((List.range bytes_per_line).filter (fun i => decide (i < count))).map
    (fun i => bufferAt buffer (start + i))

/-- Indexing operations of one pass of the outer loop of `EEPROMParser::printHexDump`, at
offset `i`. -/
def EEPROMParser.hexLine (show_ascii : Bool) (bytes_per_line : Nat) (buffer : List Nat)
    (i : Nat) : List Access :=
  let line_bytes := min bytes_per_line (buffer.length - i)
  ((List.range bytes_per_line).filter (fun j => decide (j < line_bytes))).map
      (fun j => bufferAt buffer (i + j)) ++
    (if show_ascii then EEPROMParser.printAsciiLine bytes_per_line buffer i line_bytes else [])

/-- The loop `for (i = 0; i < buffer.size(); i += bytes_per_line)` of
`EEPROMParser::printHexDump` from offset `i`; the first argument bounds the number of passes
and `none` means that the bound was used up. -/
def EEPROMParser.printHexDumpFrom (show_ascii : Bool) (bytes_per_line : Nat)
    (buffer : List Nat) : Nat → Nat → Option (List Access)
  | 0, _ => none
  | fuel + 1, i =>
    if i < buffer.length then
      (EEPROMParser.printHexDumpFrom show_ascii bytes_per_line buffer fuel
        (i + bytes_per_line)).map
        (fun rest => EEPROMParser.hexLine show_ascii bytes_per_line buffer i ++ rest)
    else some []

/-- The member `bytes_per_line` as the constructor of `EEPROMParser` sets it:
`bytes_per_line_opt ? bytes_per_line_opt : DEFAULT_BYTES_PER_LINE`. -/
def EEPROMParser.bytesPerLine (bytes_per_line_opt : Nat) : Nat :=
  if bytes_per_line_opt ≠ 0 then bytes_per_line_opt else 16

/-- Embedding of `EEPROMParser::parse` for a decoder constructed with the given options; the
first argument bounds the passes of the dump loop. -/
def EEPROMParser.parse (fuel : Nat) (show_ascii : Bool) (bytes_per_line_opt : Nat)
    (buffer : List Nat) : Option Decoding :=
  if buffer.isEmpty then some ⟨["Empty EEPROM data buffer\n"], []⟩
  else
    (EEPROMParser.printHexDumpFrom show_ascii (EEPROMParser.bytesPerLine bytes_per_line_opt)
      buffer fuel 0).map
      (fun dump => ⟨[], EEPROMParser.printSizeInfo buffer.length ++ dump⟩)

/-- The call `parse(buffer)` on each of the decoders that `main.cpp` constructs (the EEPROM
decoder with its default options: ASCII column on, 16 bytes per line). -/
def decode (fuel : Nat) (prs : Parser) (buffer : List Nat) : Option Decoding :=
  match prs with
  | .DS3231Parser => some (DS3231Parser.parse buffer)
  | .ADS1015Parser => some (ADS1015Parser.parse buffer)
  | .EEPROMParser => EEPROMParser.parse fuel true 16 buffer
  | .BMP280Parser => some (BMP280Parser.parse buffer)
  | .BH1750Parser => some (BH1750Parser.parse buffer)
  | .VEML7700Parser => some (VEML7700Parser.parse buffer)

/-- Number of bytes below which a decoder reports and returns. -/
def needs : Parser → Nat
  | .DS3231Parser => 7
  | .ADS1015Parser => 2
  | .EEPROMParser => 1
  | .BMP280Parser => 6
  | .BH1750Parser => 2
  | .VEML7700Parser => 2

/-- The report of a decoder on a buffer that is too short. -/
def shortReport : Parser → String
  | .DS3231Parser => "Insufficient data for DS3231 parsing\n"
  | .ADS1015Parser => "Insufficient data for ADS1015 parsing\n"
  | .EEPROMParser => "Empty EEPROM data buffer\n"
  | .BMP280Parser => "Insufficient data for BMP280 parsing\n"
  | .BH1750Parser => "Insufficient data for BH1750 parsing\n"
  | .VEML7700Parser => "Insufficient data for VEML7700 parsing\n"

/-- Every indexing operation of a run stays inside its container. -/
def InBounds (d : Decoding) : Prop := ∀ a ∈ d.accesses, a.index < a.size

/-- Durations of the sleeps of a history, in order. -/
def sleeps (tr : Trace) : List Int :=
  tr.filterMap fun e =>
    match e with
    | .sleep ms => some ms
    | _ => none

/-- Every sleep among the events `tr`, which come right after the event `prev`, lasts
`wait_ms * 2` and directly follows an address selection that failed. -/
def BackoffAfterFailedSelect (wait_ms : Int) : Option Ev → Trace → Prop
  | _, [] => True
  | prev, e :: rest =>
    (∀ x, e = Ev.sleep x → x = wait_ms * 2 ∧ ∃ ad r, prev = some (Ev.ioctl ad r) ∧ r < 0) ∧
    BackoffAfterFailedSelect wait_ms (some e) rest

/-- The histories left by the four transport operations started at `tr`. -/
def transportTraces (p : Config) (bus : Bus) (addr reg data : Nat) (tr : Trace) : List Trace :=
  [(readByte p bus addr reg tr).2, (writeByte p bus addr reg data tr).2,
   (writeSingleByte p bus addr data tr).2, (write16Bit p bus addr reg data tr).2]

/-- A script whose LOOP line has a count that is no number: a header, `LOOP,abc` and a raw
write. -/
def badLoopScript : List Str :=
  ["command,addr,data".toList, "LOOP,abc".toList, "WRITE1,0x10,0xAA".toList]

/-- A device whose short transfers leave an error code other than `ENXIO` and `EIO`. -/
def ShortWithoutNak (bus : Bus) : Prop :=
  (∀ tr a bs, (bus.write tr a bs).ret ≠ (bs.length : Int) →
    ¬ nakErrno (bus.write tr a bs).errno) ∧
  (∀ tr a, (bus.read tr a).ret ≠ 1 → ¬ nakErrno (bus.read tr a).errno)

/-- A device on which selection succeeds and every transfer fails with `EAGAIN` (11). -/
def busyBus : Bus where
  ioctl := fun _ _ => 0
  write := fun _ _ _ => ⟨-1, 11⟩
  read := fun _ _ => ⟨-1, 11, 0⟩

/-- The leap-year rule of the Gregorian calendar: every fourth year, except the years
divisible by 100 that are not divisible by 400. -/
def gregorianLeap (year : Nat) : Bool :=
  year % 4 == 0 && (year % 100 != 0 || year % 400 == 0)

/-- Number of days of a month (1 to 12) of a year of the Gregorian calendar. -/
def monthLength (year month : Nat) : Nat :=
  if month = 2 then (if gregorianLeap year then 29 else 28)
  else if month = 4 ∨ month = 6 ∨ month = 9 ∨ month = 11 then 30
  else 31

/-- The triple day/month/year is a date of the Gregorian calendar. -/
def IsGregorianDate (day month year : Nat) : Prop :=
  1 ≤ month ∧ month ≤ 12 ∧ 1 ≤ day ∧ day ≤ monthLength year month

/-- Value of a 16-bit pattern read as `int16_t` (two's complement). -/
def asInt16 (pattern : Nat) : Int :=
  if pattern % 65536 < 32768 then ((pattern % 65536 : Nat) : Int)
  else ((pattern % 65536 : Nat) : Int) - 65536

/-- Embedding of the computation of `raw_value` in `ADS1015Parser::parse`, on the 16-bit
pattern of the variable: `(buffer[0] << 4) | (buffer[1] >> 4)` stored into an `int16_t`, then
`if (raw_value & 0x800) raw_value |= 0xF000`. -/
def ADS1015Parser.rawValue (b0 b1 : Nat) : Int :=
  let raw_value := ((b0 <<< 4) ||| (b1 >>> 4)) % 65536
  let raw_value := if raw_value &&& 0x800 ≠ 0 then (raw_value ||| 0xF000) % 65536 else raw_value
  asInt16 raw_value

/-! ## Transport layer -/

@[simp] theorem selects_append (a b : Trace) : selects (a ++ b) = selects a + selects b := by
  simp [selects]

@[simp] theorem transfers_append (a b : Trace) : transfers (a ++ b) = transfers a + transfers b := by
  simp [transfers]

@[simp] theorem selects_nil : selects [] = 0 := rfl

@[simp] theorem transfers_nil : transfers [] = 0 := rfl

@[simp] theorem selects_cons (e : Ev) (tr : Trace) :
    selects (e :: tr) = selects tr + if isSelect e then 1 else 0 := by
  simp [selects, List.countP_cons]

@[simp] theorem transfers_cons (e : Ev) (tr : Trace) :
    transfers (e :: tr) = transfers tr + if isTransfer e then 1 else 0 := by
  simp [transfers, List.countP_cons]

/-- When no pass through the `try` block returns, and `continue` is only taken while attempts
remain, the retry loop runs every remaining attempt and then raises; a quantity that grows by
`k` in every pass and ignores sleeps grows by `k` times the number of attempts. -/
theorem retryLoop_exhaust {α : Type} (p : Config) (body : Int → Trace → Attempt α × Trace)
    (fm : String) (cnt : Trace → Nat) (k : Nat)
    (hsleep : ∀ tr ms, cnt (tr ++ [Ev.sleep ms]) = cnt tr)
    (hbody : ∀ a tr, (∃ e, (body a tr).1 = .thrown e) ∨
      ((body a tr).1 = .again ∧ a < p.retry_count))
    (hcnt : ∀ a tr, cnt (body a tr).2 = cnt tr + k) :
    ∀ (left : Nat) (a : Int) (tr : Trace), a + left = p.retry_count + 1 →
      (∃ e, (retryLoop p body fm left a tr).1 = .error e) ∧
      cnt (retryLoop p body fm left a tr).2 = cnt tr + k * left := by
  intro left
  induction left with
  | zero => intro a tr _; simp [retryLoop]
  | succ n ih =>
    intro a tr h
    have hle : a ≤ p.retry_count := by omega
    have hb := hbody a tr
    have hc := hcnt a tr
    unfold retryLoop
    rw [if_pos hle]
    rcases hres : body a tr with ⟨r, tr1⟩
    rw [hres] at hb hc
    simp only at hb hc
    rcases hb with ⟨e, he⟩ | ⟨he, hlt⟩
    · subst he
      simp only
      by_cases heq : a = p.retry_count
      · rw [if_pos heq]
        have hn : n = 0 := by omega
        subst hn
        exact ⟨⟨e, rfl⟩, by simpa using hc⟩
      · rw [if_neg heq]
        have := ih (a + 1) (tr1 ++ [Ev.sleep (p.i2c_wait_ms * 2)]) (by push_cast at h ⊢; omega)
        refine ⟨this.1, ?_⟩
        rw [this.2, hsleep, hc, Nat.mul_succ]
        omega
    · subst he
      simp only
      have := ih (a + 1) tr1 (by push_cast at h ⊢; omega)
      refine ⟨this.1, ?_⟩
      rw [this.2, hc, Nat.mul_succ]
      omega

theorem checkNAK_retry (p : Config) (e : Nat) (op : String) (tr : Trace)
    (hp : p.error_action = .RETRY) (he : nakErrno e) :
    checkNAK p e op tr = (.ok true, tr ++ [Ev.cerr ("NAK detected during " ++ op ++ "\n")]) := by
  unfold nakErrno at he
  unfold checkNAK
  rw [if_pos he, hp]

theorem checkNAK_continue (p : Config) (e : Nat) (op : String) (tr : Trace)
    (hp : p.error_action = .CONTINUE) :
    (checkNAK p e op tr).1 = .ok false ∧ selects (checkNAK p e op tr).2 = selects tr ∧
      transfers (checkNAK p e op tr).2 = transfers tr := by
  unfold checkNAK
  split <;> simp [hp, isSelect, isTransfer]

theorem nakBlock_retry {α : Type} (p : Config) (e : Nat) (op msg : String) (a : Int) (tr : Trace)
    (hp : p.error_action = .RETRY) (he : nakErrno e) :
    ((∃ m, (nakBlock (α := α) p e op msg a tr).1 = some (.thrown m)) ∨
      ((nakBlock (α := α) p e op msg a tr).1 = some .again ∧ a < p.retry_count)) ∧
    selects (nakBlock (α := α) p e op msg a tr).2 = selects tr := by
  unfold nakBlock
  rw [checkNAK_retry p e op tr hp he]
  by_cases h : a < p.retry_count <;> simp [h, isSelect]

theorem nakBlock_continue {α : Type} (p : Config) (e : Nat) (op msg : String) (a : Int)
    (tr : Trace) (hp : p.error_action = .CONTINUE) :
    (nakBlock (α := α) p e op msg a tr).1 = none ∧
      selects (nakBlock (α := α) p e op msg a tr).2 = selects tr ∧
      transfers (nakBlock (α := α) p e op msg a tr).2 = transfers tr := by
  have h := checkNAK_continue p e op tr hp
  unfold nakBlock
  rcases hc : checkNAK p e op tr with ⟨r, tr1⟩
  rw [hc] at h
  simp only at h
  obtain ⟨h1, h2, h3⟩ := h
  subst h1
  exact ⟨rfl, h2, h3⟩

theorem writeAttempt_retry_nak (p : Config) (bus : Bus) (addr : Nat) (buf : List Nat)
    (op msg : String) (sync : Bool) (a : Int) (tr : Trace)
    (hp : p.error_action = .RETRY) (hn : NaksAll bus) :
    ((∃ e, (writeAttempt p bus addr buf op msg sync a tr).1 = .thrown e) ∨
      ((writeAttempt p bus addr buf op msg sync a tr).1 = .again ∧ a < p.retry_count)) ∧
    selects (writeAttempt p bus addr buf op msg sync a tr).2 = selects tr + 1 := by
  unfold writeAttempt
  simp only
  by_cases hr : bus.ioctl tr addr < 0
  · rw [if_pos hr]
    simp [isSelect]
  · rw [if_neg hr, if_pos (hn.1 _ _ _).1]
    have h := nakBlock_retry (α := Unit) p (bus.write (tr ++ [Ev.ioctl addr (bus.ioctl tr addr)]) addr buf).errno
      op msg a (tr ++ [Ev.ioctl addr (bus.ioctl tr addr),
        Ev.write addr buf (bus.write (tr ++ [Ev.ioctl addr (bus.ioctl tr addr)]) addr buf).ret
          (bus.write (tr ++ [Ev.ioctl addr (bus.ioctl tr addr)]) addr buf).errno]) hp (hn.1 _ _ _).2
    simp only [List.append_assoc, List.singleton_append] at h ⊢
    rcases hnb : nakBlock (α := Unit) p _ op msg a _ with ⟨o, tr3⟩
    rw [hnb] at h
    obtain ⟨h1, h2⟩ := h
    simp only at h1 h2
    rcases h1 with ⟨m, hm⟩ | ⟨hm, hlt⟩
    · subst hm
      simp [h2, isSelect]
    · subst hm
      simp [h2, hlt, isSelect]

theorem readByteAttempt_retry_nak (p : Config) (bus : Bus) (addr reg : Nat) (a : Int)
    (tr : Trace) (hp : p.error_action = .RETRY) (hn : NaksAll bus) :
    ((∃ e, (readByteAttempt p bus addr reg a tr).1 = .thrown e) ∨
      ((readByteAttempt p bus addr reg a tr).1 = .again ∧ a < p.retry_count)) ∧
    selects (readByteAttempt p bus addr reg a tr).2 = selects tr + 1 := by
  unfold readByteAttempt
  simp only
  by_cases hr : bus.ioctl tr addr < 0
  · rw [if_pos hr]
    simp [isSelect]
  · have hw := hn.1 (tr ++ [Ev.ioctl addr (bus.ioctl tr addr)]) addr [reg]
    rw [if_neg hr, if_pos (by simpa using hw.1)]
    have h := nakBlock_retry (α := Nat) p
      (bus.write (tr ++ [Ev.ioctl addr (bus.ioctl tr addr)]) addr [reg]).errno
      "register write" "Failed to write register address after retries" a
      (tr ++ [Ev.ioctl addr (bus.ioctl tr addr),
        Ev.write addr [reg] (bus.write (tr ++ [Ev.ioctl addr (bus.ioctl tr addr)]) addr [reg]).ret
          (bus.write (tr ++ [Ev.ioctl addr (bus.ioctl tr addr)]) addr [reg]).errno]) hp hw.2
    simp only [List.append_assoc, List.singleton_append] at h ⊢
    rcases hnb : nakBlock (α := Nat) p _ "register write" _ a _ with ⟨o, tr3⟩
    rw [hnb] at h
    obtain ⟨h1, h2⟩ := h
    simp only at h1 h2
    rcases h1 with ⟨m, hm⟩ | ⟨hm, hlt⟩
    · subst hm
      simp [h2, isSelect]
    · subst hm
      simp [h2, hlt, isSelect]

theorem writeAttempt_select_fails (p : Config) (bus : Bus) (addr : Nat) (buf : List Nat)
    (op msg : String) (sync : Bool) (a : Int) (tr : Trace) (hf : SelectFails bus) :
    writeAttempt p bus addr buf op msg sync a tr =
      (.thrown "Failed to set I2C slave address", tr ++ [Ev.ioctl addr (bus.ioctl tr addr)]) := by
  unfold writeAttempt
  simp only
  rw [if_pos (hf tr addr)]

theorem readByteAttempt_select_fails (p : Config) (bus : Bus) (addr reg : Nat) (a : Int)
    (tr : Trace) (hf : SelectFails bus) :
    readByteAttempt p bus addr reg a tr =
      (.thrown "Failed to set I2C slave address for reading",
        tr ++ [Ev.ioctl addr (bus.ioctl tr addr)]) := by
  unfold readByteAttempt
  simp only
  rw [if_pos (hf tr addr)]

theorem writeAttempt_continue (p : Config) (bus : Bus) (addr : Nat) (buf : List Nat)
    (op msg : String) (sync : Bool) (a : Int) (tr : Trace)
    (hp : p.error_action = .CONTINUE) (hs : SelectOk bus) :
    (writeAttempt p bus addr buf op msg sync a tr).1 = .ret () ∧
    selects (writeAttempt p bus addr buf op msg sync a tr).2 = selects tr + 1 := by
  unfold writeAttempt
  simp only
  rw [if_neg (not_lt.mpr (hs tr addr))]
  split
  · rename_i h
    have := nakBlock_continue (α := Unit) p
      (bus.write (tr ++ [Ev.ioctl addr (bus.ioctl tr addr)]) addr buf).errno op msg a
      (tr ++ [Ev.ioctl addr (bus.ioctl tr addr)] ++
        [Ev.write addr buf (bus.write (tr ++ [Ev.ioctl addr (bus.ioctl tr addr)]) addr buf).ret
          (bus.write (tr ++ [Ev.ioctl addr (bus.ioctl tr addr)]) addr buf).errno]) hp
    split at h
    · rw [h] at this
      simp at this
    · simp at h
  · rename_i h
    split at h
    · have := nakBlock_continue (α := Unit) p
        (bus.write (tr ++ [Ev.ioctl addr (bus.ioctl tr addr)]) addr buf).errno op msg a
        (tr ++ [Ev.ioctl addr (bus.ioctl tr addr)] ++
          [Ev.write addr buf (bus.write (tr ++ [Ev.ioctl addr (bus.ioctl tr addr)]) addr buf).ret
            (bus.write (tr ++ [Ev.ioctl addr (bus.ioctl tr addr)]) addr buf).errno]) hp
      rw [h] at this
      obtain ⟨-, h2, -⟩ := this
      simp only at h2
      cases sync <;> simp [h2, isSelect]
    · simp only [Prod.mk.injEq, true_and] at h
      subst h
      cases sync <;> simp [isSelect]

theorem guard_continue {α : Type} (p : Config) (c : Prop) [Decidable c] (e : Nat)
    (op msg : String) (a : Int) (tr : Trace) (hp : p.error_action = .CONTINUE) :
    (if c then nakBlock (α := α) p e op msg a tr else (none, tr)).1 = none ∧
    selects (if c then nakBlock (α := α) p e op msg a tr else (none, tr)).2 = selects tr := by
  by_cases h : c
  · rw [if_pos h]
    exact ⟨(nakBlock_continue p e op msg a tr hp).1, (nakBlock_continue p e op msg a tr hp).2.1⟩
  · rw [if_neg h]
    exact ⟨rfl, rfl⟩

theorem readByteAttempt_continue (p : Config) (bus : Bus) (addr reg : Nat) (a : Int)
    (tr : Trace) (hp : p.error_action = .CONTINUE) (hs : SelectOk bus) :
    (∃ v, (readByteAttempt p bus addr reg a tr).1 = .ret v) ∧
    selects (readByteAttempt p bus addr reg a tr).2 = selects tr + 1 := by
  unfold readByteAttempt
  simp only
  rw [if_neg (not_lt.mpr (hs tr addr))]
  generalize hw : bus.write (tr ++ [Ev.ioctl addr (bus.ioctl tr addr)]) addr [reg] = w
  have g1 := guard_continue (α := Nat) p (w.ret ≠ 1) w.errno "register write"
    "Failed to write register address after retries" a
    (tr ++ [Ev.ioctl addr (bus.ioctl tr addr)] ++ [Ev.write addr [reg] w.ret w.errno]) hp
  rcases hg1 : (if w.ret ≠ 1 then nakBlock (α := Nat) p w.errno "register write"
    "Failed to write register address after retries" a
    (tr ++ [Ev.ioctl addr (bus.ioctl tr addr)] ++ [Ev.write addr [reg] w.ret w.errno])
    else (none, tr ++ [Ev.ioctl addr (bus.ioctl tr addr)] ++ [Ev.write addr [reg] w.ret w.errno]))
    with ⟨o1, tr3⟩
  rw [hg1] at g1
  obtain ⟨g1a, g1b⟩ := g1
  simp only at g1a g1b
  subst g1a
  simp only
  generalize hd : bus.read tr3 addr = d
  have g2 := guard_continue (α := Nat) p (d.ret ≠ 1) d.errno "data read"
    "Failed to read I2C data after retries" a (tr3 ++ [Ev.read addr d.ret d.errno d.data]) hp
  rcases hg2 : (if d.ret ≠ 1 then nakBlock (α := Nat) p d.errno "data read"
    "Failed to read I2C data after retries" a (tr3 ++ [Ev.read addr d.ret d.errno d.data])
    else (none, tr3 ++ [Ev.read addr d.ret d.errno d.data])) with ⟨o2, tr5⟩
  rw [hg2] at g2
  obtain ⟨g2a, g2b⟩ := g2
  simp only at g2a g2b
  subst g2a
  simp only
  refine ⟨⟨d.data, rfl⟩, ?_⟩
  rw [g2b]
  simp [g1b, isSelect]

theorem retryLoop_first_ret {α : Type} (p : Config) (body : Int → Trace → Attempt α × Trace)
    (fm : String) (tr : Trace) (v : α) (hR : 0 ≤ p.retry_count)
    (hb : (body 0 tr).1 = .ret v) :
    retryLoop p body fm (p.retry_count + 1).toNat 0 tr = (.ok v, (body 0 tr).2) := by
  obtain ⟨n, hn⟩ : ∃ n, (p.retry_count + 1).toNat = n + 1 := ⟨p.retry_count.toNat, by omega⟩
  rw [hn]
  unfold retryLoop
  rw [if_pos hR]
  rcases hres : body 0 tr with ⟨r, tr1⟩
  rw [hres] at hb
  simp only at hb
  subst hb
  rfl

theorem retryLoop_all_thrown {α : Type} (p : Config) (body : Int → Trace → Attempt α × Trace)
    (fm e : String) (hbody : ∀ a tr, (body a tr).1 = .thrown e) :
    ∀ (left : Nat) (a : Int) (tr : Trace), a + left = p.retry_count + 1 → 0 < left →
      (retryLoop p body fm left a tr).1 = .error e := by
  intro left
  induction left with
  | zero => intro a tr _ h; omega
  | succ n ih =>
    intro a tr h _
    have hle : a ≤ p.retry_count := by omega
    have hb := hbody a tr
    unfold retryLoop
    rw [if_pos hle]
    rcases hres : body a tr with ⟨r, tr1⟩
    rw [hres] at hb
    simp only at hb
    subst hb
    simp only
    by_cases heq : a = p.retry_count
    · rw [if_pos heq]
    · rw [if_neg heq]
      exact ih (a + 1) _ (by push_cast at h ⊢; omega) (by omega)

theorem toNat_succ_cast (R : Int) (hR : 0 ≤ R) : (0 : Int) + ((R + 1).toNat : Nat) = R + 1 := by
  omega

/-- C3: under Retry with retry_count = R >= 0, against a device that NAKs every transfer
(whatever address selection answers), each of readByte, writeByte, writeSingleByte and
write16Bit raises an error after exactly R+1 attempts: the history gains exactly R+1 address
selections. -/
theorem retry_performs_all_attempts (p : Config) (bus : Bus) (addr reg data : Nat) (tr : Trace)
    (hp : p.error_action = .RETRY) (hR : 0 ≤ p.retry_count) (hn : NaksAll bus) :
    ((∃ e, (readByte p bus addr reg tr).1 = .error e) ∧
      (selects (readByte p bus addr reg tr).2 : Int) = selects tr + (p.retry_count + 1)) ∧
    ((∃ e, (writeByte p bus addr reg data tr).1 = .error e) ∧
      (selects (writeByte p bus addr reg data tr).2 : Int) = selects tr + (p.retry_count + 1)) ∧
    ((∃ e, (writeSingleByte p bus addr data tr).1 = .error e) ∧
      (selects (writeSingleByte p bus addr data tr).2 : Int) =
        selects tr + (p.retry_count + 1)) ∧
    ((∃ e, (write16Bit p bus addr reg data tr).1 = .error e) ∧
      (selects (write16Bit p bus addr reg data tr).2 : Int) =
        selects tr + (p.retry_count + 1)) := by
  have hs : ∀ (t : Trace) (ms : Int), selects (t ++ [Ev.sleep ms]) = selects t := by
    intro t ms; simp [isSelect]
  have hcast : ((p.retry_count + 1).toNat : Int) = p.retry_count + 1 := by omega
  have key : ∀ {α : Type} (body : Int → Trace → Attempt α × Trace) (fm : String),
      (∀ a t, ((∃ e, (body a t).1 = .thrown e) ∨ ((body a t).1 = .again ∧ a < p.retry_count)) ∧
        selects (body a t).2 = selects t + 1) →
      (∃ e, (retryLoop p body fm (p.retry_count + 1).toNat 0 tr).1 = .error e) ∧
      (selects (retryLoop p body fm (p.retry_count + 1).toNat 0 tr).2 : Int) =
        selects tr + (p.retry_count + 1) := by
    intro α body fm hb
    have h := retryLoop_exhaust p body fm selects 1 hs (fun a t => (hb a t).1)
      (fun a t => (hb a t).2) (p.retry_count + 1).toNat 0 tr (toNat_succ_cast _ hR)
    refine ⟨h.1, ?_⟩
    rw [h.2]
    push_cast
    omega
  refine ⟨?_, ?_, ?_, ?_⟩
  · exact key _ _ (fun a t => readByteAttempt_retry_nak p bus addr reg a t hp hn)
  · exact key _ _ (fun a t => writeAttempt_retry_nak p bus addr _ _ _ _ a t hp hn)
  · exact key _ _ (fun a t => writeAttempt_retry_nak p bus addr _ _ _ _ a t hp hn)
  · exact key _ _ (fun a t => writeAttempt_retry_nak p bus addr _ _ _ _ a t hp hn)

theorem nakBus_naksAll : NaksAll nakBus := by
  refine ⟨fun tr a bs => ⟨?_, Or.inl rfl⟩, fun tr a => ⟨?_, Or.inl rfl⟩⟩
  · show (-1 : Int) ≠ (bs.length : Int)
    omega
  · show (-1 : Int) ≠ 1
    decide

/-- Witness for C3: Retry with two retries against the always-NAK device. -/
theorem retry_performs_all_attempts_witness :
    ((∃ e, (readByte ⟨1, .RETRY, 2⟩ nakBus 16 0 []).1 = .error e) ∧
      (selects (readByte ⟨1, .RETRY, 2⟩ nakBus 16 0 []).2 : Int) = selects [] + (2 + 1)) ∧
    ((∃ e, (writeByte ⟨1, .RETRY, 2⟩ nakBus 16 0 170 []).1 = .error e) ∧
      (selects (writeByte ⟨1, .RETRY, 2⟩ nakBus 16 0 170 []).2 : Int) = selects [] + (2 + 1)) ∧
    ((∃ e, (writeSingleByte ⟨1, .RETRY, 2⟩ nakBus 16 170 []).1 = .error e) ∧
      (selects (writeSingleByte ⟨1, .RETRY, 2⟩ nakBus 16 170 []).2 : Int) =
        selects [] + (2 + 1)) ∧
    ((∃ e, (write16Bit ⟨1, .RETRY, 2⟩ nakBus 16 0 170 []).1 = .error e) ∧
      (selects (write16Bit ⟨1, .RETRY, 2⟩ nakBus 16 0 170 []).2 : Int) =
        selects [] + (2 + 1)) :=
  retry_performs_all_attempts ⟨1, .RETRY, 2⟩ nakBus 16 0 170 [] rfl (by decide) nakBus_naksAll

/-- C2: code evaluated at the failing input. Under Stop with the default retry_count 3, a
device that NAKs every write makes writeSingleByte select the address and write four times,
sleeping 2*wait_ms between the attempts, before the NAK error leaves the operation. -/
theorem stop_nak_is_retried :
    writeSingleByte ⟨1, .STOP, 3⟩ nakBus 16 170 [] =
      (.error "I2C NAK - device not responding",
        [Ev.ioctl 16 0, Ev.write 16 [170] (-1) 6, Ev.cerr "NAK detected during write\n",
         Ev.sleep 2,
         Ev.ioctl 16 0, Ev.write 16 [170] (-1) 6, Ev.cerr "NAK detected during write\n",
         Ev.sleep 2,
         Ev.ioctl 16 0, Ev.write 16 [170] (-1) 6, Ev.cerr "NAK detected during write\n",
         Ev.sleep 2,
         Ev.ioctl 16 0, Ev.write 16 [170] (-1) 6, Ev.cerr "NAK detected during write\n"]) := by
  rfl

theorem playLines_append (p : Config) (env : Env) (fuel : Nat) (pre rest : List Str) (s : State) :
    playLines p env fuel (pre ++ rest) s =
      match playLines p env fuel pre s with
      | (.done _, s1) => playLines p env fuel rest s1
      | r => r := by
  induction pre generalizing s with
  | nil => simp [playLines]
  | cons l ls ih =>
    simp only [List.cons_append, playLines]
    rcases h : playLine p env fuel l s with ⟨o, s1⟩
    cases o with
    | done u => simp only; exact ih s1
    | raised e => rfl
    | stuck => rfl

theorem playLine_of_raises (p : Config) (env : Env) (fuel : Nat) (line : Str) (s s2 : State)
    (e : String) (h : Raises p env fuel line s e s2) :
    playLine p env fuel line s = catchLine p e s2 := by
  obtain ⟨h1, h2, h3⟩ := h
  unfold playLine
  simp only [h2] at h3
  simp only [h1, h2, h3]
  simp

/-- What the loop over the lines does at a line whose `try` block raises: under `STOP` the
exception leaves the loop after being logged, otherwise the loop goes on with the rest. -/
theorem playLines_raise (p : Config) (env : Env) (fuel : Nat) (pre post : List Str) (line : Str)
    (s s1 s2 : State) (e : String)
    (hpre : playLines p env fuel pre s = (.done (), s1))
    (hr : Raises p env fuel line s1 e s2) :
    playLines p env fuel (pre ++ line :: post) s =
      if p.error_action = .STOP then (.raised e, logged e s2)
      else playLines p env fuel post (logged e s2) := by
  rw [playLines_append, hpre]
  simp only [playLines, playLine_of_raises p env fuel line s1 s2 e hr, catchLine]
  by_cases hs : p.error_action = .STOP <;> simp [hs]

theorem playLine_never_raised (p : Config) (env : Env) (fuel : Nat) (line : Str) (s : State)
    (hp : p.error_action ≠ .STOP) (e : String) :
    (playLine p env fuel line s).1 ≠ .raised e := by
  unfold playLine
  simp only
  split
  · simp
  · split
    · simp
    · split
      · simp [catchLine, hp]
      · rename_i r hr
        rcases hres : tryBlock p env fuel line { s with line_number := s.line_number + 1 }
          with ⟨o, s2⟩
        cases o with
        | done u => simp
        | raised e2 => exact absurd hres (hr e2 s2)
        | stuck => simp

theorem SameCursor.rfl_ (s : State) : SameCursor s s := ⟨rfl, rfl, rfl, rfl⟩

theorem liftBus_cursor (s : State) (r : Except String Unit × Trace) :
    SameCursor s (liftBus s r).2 ∧ (liftBus s r).2.in_loop = s.in_loop ∧
      (liftBus s r).1 ≠ .stuck := by
  unfold liftBus SameCursor
  split <;> simp

theorem cmdWrite_cursor (p : Config) (env : Env) (args : List Str) (s : State) :
    SameCursor s (cmdWrite p env args s).2 ∧ (cmdWrite p env args s).2.in_loop = s.in_loop := by
  unfold cmdWrite
  split
  · exact ⟨SameCursor.rfl_ s, rfl⟩
  · exact ⟨(liftBus_cursor _ _).1, (liftBus_cursor _ _).2.1⟩

theorem cmdWrite1_cursor (p : Config) (env : Env) (args : List Str) (s : State) :
    SameCursor s (cmdWrite1 p env args s).2 ∧ (cmdWrite1 p env args s).2.in_loop = s.in_loop := by
  unfold cmdWrite1
  split
  · exact ⟨SameCursor.rfl_ s, rfl⟩
  · exact ⟨(liftBus_cursor _ _).1, (liftBus_cursor _ _).2.1⟩

theorem cmdWrite16_cursor (p : Config) (env : Env) (args : List Str) (s : State) :
    SameCursor s (cmdWrite16 p env args s).2 ∧
      (cmdWrite16 p env args s).2.in_loop = s.in_loop := by
  unfold cmdWrite16
  split
  · exact ⟨SameCursor.rfl_ s, rfl⟩
  · exact ⟨(liftBus_cursor _ _).1, (liftBus_cursor _ _).2.1⟩

theorem cmdFile_cursor (p : Config) (env : Env) (args : List Str) (s : State) :
    SameCursor s (cmdFile p env args s).2 ∧ (cmdFile p env args s).2.in_loop = s.in_loop := by
  unfold cmdFile
  split
  · exact ⟨SameCursor.rfl_ s, rfl⟩
  · exact ⟨(liftBus_cursor _ _).1, (liftBus_cursor _ _).2.1⟩

theorem cmdRead_cursor (p : Config) (env : Env) (args : List Str) (s : State) :
    SameCursor s (cmdRead p env args s).2 ∧ (cmdRead p env args s).2.in_loop = s.in_loop := by
  unfold cmdRead SameCursor
  split
  · simp
  · split
    · simp
    · split <;> simp

theorem cmdPoll_cursor (p : Config) (env : Env) (fuel : Nat) (args : List Str) (s : State) :
    SameCursor s (cmdPoll p env fuel args s).2 ∧
      (cmdPoll p env fuel args s).2.in_loop = s.in_loop := by
  unfold cmdPoll SameCursor
  split
  · simp
  · split <;> simp

theorem cmdDelay_cursor (args : List Str) (s : State) :
    SameCursor s (cmdDelay args s).2 ∧ (cmdDelay args s).2.in_loop = s.in_loop := by
  unfold cmdDelay SameCursor
  split <;> simp

theorem busCommand_cursor (p : Config) (env : Env) (fuel : Nat) (cmd : Str) (args : List Str)
    (s : State) :
    SameCursor s (busCommand p env fuel cmd args s).2 ∧
      (busCommand p env fuel cmd args s).2.in_loop = s.in_loop := by
  unfold busCommand
  split_ifs
  · exact cmdWrite_cursor _ _ _ _
  · exact cmdWrite1_cursor _ _ _ _
  · exact cmdWrite16_cursor _ _ _ _
  · exact cmdRead_cursor _ _ _ _
  · exact cmdPoll_cursor _ _ _ _ _
  · exact cmdDelay_cursor _ _
  · exact cmdFile_cursor _ _ _ _
  · exact ⟨SameCursor.rfl_ s, rfl⟩

theorem cmdLoop_cursor (args : List Str) (s : State) : SameCursor s (cmdLoop args s).2 := by
  unfold cmdLoop SameCursor
  split
  · split
    · simp
    · split <;> simp
  · simp

theorem cmdEndloop_cursor (p : Config) (env : Env) (s : State) :
    SameCursor s (cmdEndloop p env s).2 := by
  unfold cmdEndloop
  split
  · exact (liftBus_cursor _ _).1
  · exact SameCursor.rfl_ s

theorem cmdStartRecord_cursor (args : List Str) (s : State) :
    SameCursor s (cmdStartRecord args s).2 ∧ (cmdStartRecord args s).2.in_loop = s.in_loop ∧
      (cmdStartRecord args s).1 ≠ .stuck := by
  unfold cmdStartRecord SameCursor
  split
  · split
    · simp
    · split <;> simp
  · simp

theorem cmdPrintRecord_cursor (args : List Str) (s : State) :
    SameCursor s (cmdPrintRecord args s).2 ∧ (cmdPrintRecord args s).2.in_loop = s.in_loop ∧
      (cmdPrintRecord args s).1 ≠ .stuck := by
  unfold cmdPrintRecord SameCursor
  split
  · split <;> simp
  · simp

theorem cmdOther_cursor (p : Config) (env : Env) (fuel : Nat) (line cmd : Str)
    (args : List Str) (s : State) :
    SameCursor s (cmdOther p env fuel line cmd args s).2 := by
  unfold cmdOther
  split
  · simp [SameCursor]
  · have h := (busCommand_cursor p env fuel cmd args s).1
    split
    · rename_i h2
      rw [h2] at h
      exact h
    · exact h

theorem command_cursor (p : Config) (env : Env) (fuel : Nat) (line cmd : Str) (args : List Str)
    (s : State) : SameCursor s (command p env fuel line cmd args s).2 := by
  unfold command
  split_ifs
  · exact cmdLoop_cursor _ _
  · exact cmdEndloop_cursor _ _ _
  · exact (cmdStartRecord_cursor _ _).1
  · simp [SameCursor]
  · exact (cmdPrintRecord_cursor _ _).1
  · exact cmdOther_cursor _ _ _ _ _ _ _

theorem tryBlock_cursor (p : Config) (env : Env) (fuel : Nat) (line : Str) (s : State) :
    SameCursor s (tryBlock p env fuel line s).2 := by
  unfold tryBlock
  split
  · exact SameCursor.rfl_ s
  · exact command_cursor _ _ _ _ _ _ _

theorem checkNAK_grows (p : Config) (e : Nat) (op : String) (tr : Trace) :
    tr.length ≤ (checkNAK p e op tr).2.length := by
  unfold checkNAK
  split
  · split <;> simp
  · simp

theorem nakBlock_grows {α : Type} (p : Config) (e : Nat) (op msg : String) (a : Int)
    (tr : Trace) : tr.length ≤ (nakBlock (α := α) p e op msg a tr).2.length := by
  have h := checkNAK_grows p e op tr
  unfold nakBlock
  rcases hc : checkNAK p e op tr with ⟨r, tr1⟩
  rw [hc] at h
  simp only at h
  rcases r with e1 | b
  · simpa using h
  · cases b
    · simpa using h
    · simp only
      split <;> simpa using h

theorem guard_grows {α : Type} (p : Config) (c : Prop) [Decidable c] (e : Nat)
    (op msg : String) (a : Int) (tr : Trace) :
    tr.length ≤ (if c then nakBlock (α := α) p e op msg a tr else (none, tr)).2.length := by
  split
  · exact nakBlock_grows p e op msg a tr
  · simp

theorem writeAttempt_grows (p : Config) (bus : Bus) (addr : Nat) (buf : List Nat)
    (op msg : String) (sync : Bool) (a : Int) (tr : Trace) :
    tr.length ≤ (writeAttempt p bus addr buf op msg sync a tr).2.length := by
  unfold writeAttempt
  simp only
  split
  · simp
  · generalize hw : bus.write (tr ++ [Ev.ioctl addr (bus.ioctl tr addr)]) addr buf = w
    have g := guard_grows (α := Unit) p (w.ret ≠ (buf.length : Int)) w.errno op msg a
      (tr ++ [Ev.ioctl addr (bus.ioctl tr addr)] ++ [Ev.write addr buf w.ret w.errno])
    rcases hg : (if w.ret ≠ (buf.length : Int) then nakBlock (α := Unit) p w.errno op msg a
      (tr ++ [Ev.ioctl addr (bus.ioctl tr addr)] ++ [Ev.write addr buf w.ret w.errno])
      else (none, tr ++ [Ev.ioctl addr (bus.ioctl tr addr)] ++ [Ev.write addr buf w.ret w.errno]))
      with ⟨o, tr3⟩
    rw [hg] at g
    simp only [List.length_append, List.length_singleton] at g
    cases o with
    | some x => simp only; omega
    | none =>
      simp only
      cases sync <;> simp <;> omega

theorem readByteAttempt_grows (p : Config) (bus : Bus) (addr reg : Nat) (a : Int) (tr : Trace) :
    tr.length ≤ (readByteAttempt p bus addr reg a tr).2.length := by
  unfold readByteAttempt
  simp only
  split
  · simp
  · generalize hw : bus.write (tr ++ [Ev.ioctl addr (bus.ioctl tr addr)]) addr [reg] = w
    have g := guard_grows (α := Nat) p (w.ret ≠ 1) w.errno "register write"
      "Failed to write register address after retries" a
      (tr ++ [Ev.ioctl addr (bus.ioctl tr addr)] ++ [Ev.write addr [reg] w.ret w.errno])
    rcases hg : (if w.ret ≠ 1 then nakBlock (α := Nat) p w.errno "register write"
      "Failed to write register address after retries" a
      (tr ++ [Ev.ioctl addr (bus.ioctl tr addr)] ++ [Ev.write addr [reg] w.ret w.errno])
      else (none, tr ++ [Ev.ioctl addr (bus.ioctl tr addr)] ++ [Ev.write addr [reg] w.ret w.errno]))
      with ⟨o, tr3⟩
    rw [hg] at g
    simp only [List.length_append, List.length_singleton] at g
    cases o with
    | some x => simp only; omega
    | none =>
      simp only
      generalize hd : bus.read tr3 addr = d
      have g2 := guard_grows (α := Nat) p (d.ret ≠ 1) d.errno "data read"
        "Failed to read I2C data after retries" a (tr3 ++ [Ev.read addr d.ret d.errno d.data])
      rcases hg2 : (if d.ret ≠ 1 then nakBlock (α := Nat) p d.errno "data read"
        "Failed to read I2C data after retries" a (tr3 ++ [Ev.read addr d.ret d.errno d.data])
        else (none, tr3 ++ [Ev.read addr d.ret d.errno d.data])) with ⟨o2, tr5⟩
      rw [hg2] at g2
      simp only [List.length_append, List.length_singleton] at g2
      cases o2 <;> simp only <;> omega

theorem retryLoop_grows {α : Type} (p : Config) (body : Int → Trace → Attempt α × Trace)
    (fm : String) (hb : ∀ a tr, tr.length ≤ (body a tr).2.length) :
    ∀ (left : Nat) (a : Int) (tr : Trace),
      tr.length ≤ (retryLoop p body fm left a tr).2.length := by
  intro left
  induction left with
  | zero => intro a tr; simp [retryLoop]
  | succ n ih =>
    intro a tr
    unfold retryLoop
    split
    · have h := hb a tr
      rcases hres : body a tr with ⟨r, tr1⟩
      rw [hres] at h
      simp only at h
      cases r with
      | ret v => simpa using h
      | again => exact le_trans h (ih _ _)
      | thrown e =>
        simp only
        split
        · simpa using h
        · refine le_trans ?_ (ih _ _)
          simp only [List.length_append, List.length_singleton]
          omega
    · simp

theorem readByte_grows (p : Config) (bus : Bus) (addr reg : Nat) (tr : Trace) :
    tr.length ≤ (readByte p bus addr reg tr).2.length :=
  retryLoop_grows p _ _ (fun a t => readByteAttempt_grows p bus addr reg a t) _ _ _

/-- More fuel does not change a polling loop that ended within its bound. -/
theorem pollLoop_mono (p : Config) (env : Env) (addr reg mask expected : Nat)
    (timeout_ms interval_ms start : Int) :
    ∀ (fuel : Nat) (tr : Trace),
      (pollLoop p env addr reg mask expected timeout_ms interval_ms start fuel tr).1 ≠ .stuck →
      ∀ k, pollLoop p env addr reg mask expected timeout_ms interval_ms start (fuel + k) tr =
        pollLoop p env addr reg mask expected timeout_ms interval_ms start fuel tr := by
  intro fuel
  induction fuel with
  | zero => intro tr h; simp [pollLoop] at h
  | succ n ih =>
    intro tr h k
    rw [show n + 1 + k = (n + k) + 1 by omega]
    unfold pollLoop at h ⊢
    rcases hr : readByte p env.bus addr reg tr with ⟨r, tr1⟩
    rw [hr] at h
    cases r with
    | error e => rfl
    | ok v =>
      simp only at h ⊢
      split_ifs at h ⊢ with h1 h2
      · rfl
      · rfl
      · exact ih _ h k

/-- With an unbounded clock the polling loop ends: once the bound exceeds the number of
events after which the clock has passed the deadline, the result is not `stuck`. -/
theorem pollLoop_ends (p : Config) (env : Env) (addr reg mask expected : Nat)
    (timeout_ms interval_ms start : Int) (N : Nat)
    (hN : ∀ tr : Trace, N ≤ tr.length → start + timeout_ms ≤ env.now tr) :
    ∀ (fuel : Nat) (tr : Trace), 0 < fuel → N < tr.length + fuel →
      (pollLoop p env addr reg mask expected timeout_ms interval_ms start fuel tr).1 ≠ .stuck := by
  intro fuel
  induction fuel with
  | zero => intro tr h; omega
  | succ n ih =>
    intro tr _ hlen
    unfold pollLoop
    have hg := readByte_grows p env.bus addr reg tr
    rcases hr : readByte p env.bus addr reg tr with ⟨r, tr1⟩
    rw [hr] at hg
    simp only at hg
    cases r with
    | error e => simp only; split <;> simp
    | ok v =>
      simp only
      split_ifs with h1 h2
      · simp
      · simp
      · have hn : 0 < n := by
          by_contra hc
          have : n = 0 := by omega
          subst this
          have := hN tr1 (by omega)
          omega
        apply ih _ hn
        simp only [List.length_append, List.length_singleton]
        omega

theorem settled_const {α β : Type} (r : Outcome α × β) (h : r.1 ≠ .stuck) :
    ∃ f0, Settled (fun _ => r) f0 :=
  ⟨0, h, fun _ _ => rfl⟩

theorem pollRegister_settles (p : Config) (env : Env) (addr reg mask expected : Nat)
    (timeout_ms interval_ms : Int) (tr : Trace) (hc : ClockAdvances env) :
    ∃ f0, Settled (fun f => pollRegister p env f addr reg mask expected timeout_ms interval_ms tr)
      f0 := by
  obtain ⟨N, hN⟩ := hc (env.now tr + timeout_ms)
  have hend := pollLoop_ends p env addr reg mask expected timeout_ms interval_ms (env.now tr) N hN
    (N + 1) tr (by omega) (by omega)
  refine ⟨N + 1, hend, ?_⟩
  intro f hf
  obtain ⟨k, rfl⟩ : ∃ k, f = N + 1 + k := ⟨f - (N + 1), by omega⟩
  exact pollLoop_mono p env addr reg mask expected timeout_ms interval_ms (env.now tr) (N + 1) tr
    hend k

theorem cmdPoll_settles (p : Config) (env : Env) (args : List Str) (s : State)
    (hc : ClockAdvances env) : ∃ f0, Settled (fun f => cmdPoll p env f args s) f0 := by
  unfold cmdPoll
  cases hp : parsePoll args with
  | error e => exact settled_const _ (by simp)
  | ok a =>
    obtain ⟨f0, h1, h2⟩ := pollRegister_settles p env a.addr a.reg a.mask a.expected a.timeout
      a.interval s.trace hc
    refine ⟨f0, ?_, ?_⟩
    · simp only at h1 ⊢
      rcases hr : pollRegister p env f0 a.addr a.reg a.mask a.expected a.timeout a.interval
        s.trace with ⟨o, tr⟩
      rw [hr] at h1
      cases o with
      | done b => cases b <;> simp
      | raised e => simp
      | stuck => simp at h1
    · intro f hf
      simp only at h2 ⊢
      rw [h2 f hf]

theorem liftBus_ne_stuck (s : State) (r : Except String Unit × Trace) :
    (liftBus s r).1 ≠ .stuck := (liftBus_cursor s r).2.2

theorem cmdWrite_ne_stuck (p : Config) (env : Env) (args : List Str) (s : State) :
    (cmdWrite p env args s).1 ≠ .stuck := by
  unfold cmdWrite
  split
  · simp
  · exact liftBus_ne_stuck _ _

theorem cmdWrite1_ne_stuck (p : Config) (env : Env) (args : List Str) (s : State) :
    (cmdWrite1 p env args s).1 ≠ .stuck := by
  unfold cmdWrite1
  split
  · simp
  · exact liftBus_ne_stuck _ _

theorem cmdWrite16_ne_stuck (p : Config) (env : Env) (args : List Str) (s : State) :
    (cmdWrite16 p env args s).1 ≠ .stuck := by
  unfold cmdWrite16
  split
  · simp
  · exact liftBus_ne_stuck _ _

theorem cmdFile_ne_stuck (p : Config) (env : Env) (args : List Str) (s : State) :
    (cmdFile p env args s).1 ≠ .stuck := by
  unfold cmdFile
  split
  · simp
  · exact liftBus_ne_stuck _ _

theorem cmdRead_ne_stuck (p : Config) (env : Env) (args : List Str) (s : State) :
    (cmdRead p env args s).1 ≠ .stuck := by
  unfold cmdRead
  split
  · simp
  · split
    · simp
    · split <;> simp

theorem cmdDelay_ne_stuck (args : List Str) (s : State) : (cmdDelay args s).1 ≠ .stuck := by
  unfold cmdDelay
  split <;> simp

theorem busCommand_settles (p : Config) (env : Env) (cmd : Str) (args : List Str) (s : State)
    (hc : ClockAdvances env) : ∃ f0, Settled (fun f => busCommand p env f cmd args s) f0 := by
  unfold busCommand
  split_ifs
  · exact settled_const _ (cmdWrite_ne_stuck _ _ _ _)
  · exact settled_const _ (cmdWrite1_ne_stuck _ _ _ _)
  · exact settled_const _ (cmdWrite16_ne_stuck _ _ _ _)
  · exact settled_const _ (cmdRead_ne_stuck _ _ _ _)
  · exact cmdPoll_settles p env args s hc
  · exact settled_const _ (cmdDelay_ne_stuck _ _)
  · exact settled_const _ (cmdFile_ne_stuck _ _ _ _)
  · exact settled_const _ (by simp)

theorem cmdOther_settles (p : Config) (env : Env) (line cmd : Str) (args : List Str) (s : State)
    (hc : ClockAdvances env) :
    ∃ f0, Settled (fun f => cmdOther p env f line cmd args s) f0 := by
  unfold cmdOther
  split
  · exact settled_const _ (by simp)
  · obtain ⟨f0, h1, h2⟩ := busCommand_settles p env cmd args s hc
    refine ⟨f0, ?_, ?_⟩
    · simp only at h1 ⊢
      rcases hr : busCommand p env f0 cmd args s with ⟨o, s1⟩
      rw [hr] at h1
      cases o with
      | done u => simp
      | raised e => simp
      | stuck => simp at h1
    · intro f hf
      simp only at h2 ⊢
      rw [h2 f hf]

theorem cmdLoop_ne_stuck (args : List Str) (s : State) : (cmdLoop args s).1 ≠ .stuck := by
  unfold cmdLoop
  split
  · split
    · simp
    · split <;> simp
  · simp

theorem cmdEndloop_ne_stuck (p : Config) (env : Env) (s : State) :
    (cmdEndloop p env s).1 ≠ .stuck := by
  unfold cmdEndloop
  split
  · exact liftBus_ne_stuck _ _
  · simp

theorem command_settles (p : Config) (env : Env) (line cmd : Str) (args : List Str) (s : State)
    (hc : ClockAdvances env) :
    ∃ f0, Settled (fun f => command p env f line cmd args s) f0 := by
  unfold command
  split_ifs
  · exact settled_const _ (cmdLoop_ne_stuck _ _)
  · exact settled_const _ (cmdEndloop_ne_stuck _ _ _)
  · exact settled_const _ (cmdStartRecord_cursor _ _).2.2
  · exact settled_const _ (by simp)
  · exact settled_const _ (cmdPrintRecord_cursor _ _).2.2
  · exact cmdOther_settles p env line cmd args s hc

theorem tryBlock_settles (p : Config) (env : Env) (line : Str) (s : State)
    (hc : ClockAdvances env) : ∃ f0, Settled (fun f => tryBlock p env f line s) f0 := by
  unfold tryBlock
  split
  · exact settled_const _ (by simp)
  · exact command_settles p env line _ _ s hc

theorem playLine_settles (p : Config) (env : Env) (line : Str) (s : State)
    (hc : ClockAdvances env) : ∃ f0, Settled (fun f => playLine p env f line s) f0 := by
  unfold playLine
  simp only
  split
  · exact settled_const _ (by simp)
  · split
    · exact settled_const _ (by simp)
    · obtain ⟨f0, h1, h2⟩ := tryBlock_settles p env line
        { s with line_number := s.line_number + 1 } hc
      refine ⟨f0, ?_, ?_⟩
      · simp only at h1 ⊢
        rcases hr : tryBlock p env f0 line { s with line_number := s.line_number + 1 }
          with ⟨o, s1⟩
        rw [hr] at h1
        cases o with
        | done u => simp
        | raised e => simp only [catchLine]; split <;> simp
        | stuck => simp at h1
      · intro f hf
        simp only at h2 ⊢
        rw [h2 f hf]

theorem playLines_settles (p : Config) (env : Env) (hc : ClockAdvances env) :
    ∀ (lines : List Str) (s : State), ∃ f0, Settled (fun f => playLines p env f lines s) f0 := by
  intro lines
  induction lines with
  | nil => intro s; exact ⟨0, by simp [playLines], fun _ _ => rfl⟩
  | cons l ls ih =>
    intro s
    obtain ⟨f1, h1, h2⟩ := playLine_settles p env l s hc
    simp only at h1 h2
    rcases hr : playLine p env f1 l s with ⟨o, s1⟩
    rw [hr] at h1
    cases o with
    | stuck => simp at h1
    | raised e =>
      refine ⟨f1, ?_, ?_⟩
      · simp [playLines, hr]
      · intro f hf
        simp only [playLines, h2 f hf, hr]
    | done u =>
      obtain ⟨f2, h3, h4⟩ := ih s1
      simp only at h3 h4
      have e1 : ∀ f, max f1 f2 ≤ f → playLines p env f (l :: ls) s = playLines p env f2 ls s1 := by
        intro f hf
        simp only [playLines, h2 f (le_trans (le_max_left _ _) hf), hr]
        exact h4 f (le_trans (le_max_right _ _) hf)
      refine ⟨max f1 f2, ?_, ?_⟩
      · simp only
        rw [e1 _ le_rfl]
        exact h3
      · intro f hf
        simp only
        rw [e1 f hf, e1 _ le_rfl]

theorem playLine_line_number (p : Config) (env : Env) (fuel : Nat) (line : Str) (s : State) :
    (playLine p env fuel line s).2.line_number = s.line_number + 1 := by
  unfold playLine
  simp only
  split
  · rfl
  · split
    · rfl
    · have h := (tryBlock_cursor p env fuel line { s with line_number := s.line_number + 1 }).1
      rcases hr : tryBlock p env fuel line { s with line_number := s.line_number + 1 }
        with ⟨o, s1⟩
      rw [hr] at h
      simp only at h
      cases o with
      | done u => exact h
      | raised e => simp only [catchLine]; split <;> exact h
      | stuck => exact h

theorem playLines_line_number (p : Config) (env : Env) (fuel : Nat) :
    ∀ (lines : List Str) (s : State), (playLines p env fuel lines s).1 = .done () →
      (playLines p env fuel lines s).2.line_number = s.line_number + lines.length := by
  intro lines
  induction lines with
  | nil => intro s _; rfl
  | cons l ls ih =>
    intro s h
    have hl := playLine_line_number p env fuel l s
    unfold playLines at h ⊢
    rcases hr : playLine p env fuel l s with ⟨o, s1⟩
    rw [hr] at h hl
    cases o with
    | done u =>
      simp only at h hl ⊢
      rw [ih s1 h, hl, List.length_cons]
      omega
    | raised e => simp at h
    | stuck => simp at h

theorem playLines_never_raised (p : Config) (env : Env) (fuel : Nat)
    (hp : p.error_action ≠ .STOP) :
    ∀ (lines : List Str) (s : State) (e : String),
      (playLines p env fuel lines s).1 ≠ .raised e := by
  intro lines
  induction lines with
  | nil => intro s e; simp [playLines]
  | cons l ls ih =>
    intro s e
    have hl := playLine_never_raised p env fuel l s hp
    unfold playLines
    rcases hr : playLine p env fuel l s with ⟨o, s1⟩
    rw [hr] at hl
    cases o with
    | done u => exact ih s1 e
    | raised e2 => exact absurd rfl (hl e2)
    | stuck => simp

theorem atEnd_raised (r : Outcome Unit × State) (e : String)
    (h : ∀ e2, r.1 ≠ .raised e2) (he : (atEnd r).1 = .raised e) :
    e = "Unterminated LOOP in CSV" := by
  rcases r with ⟨o, s⟩
  cases o with
  | done u =>
    unfold atEnd at he
    simp only at he
    split at he
    · simpa using he.symm
    · simp at he
  | raised e2 => exact absurd rfl (h e2)
  | stuck => simp [atEnd] at he

theorem world_clockAdvances (bus : Bus) (lines : List Str) : ClockAdvances (world bus lines) := by
  intro T
  refine ⟨T.toNat, fun tr h => ?_⟩
  show T ≤ (tr.length : Int)
  omega

/-! ## Histories only grow -/

theorem Continues.same (tr : Trace) : Continues tr tr := ⟨[], by simp⟩

theorem Continues.step {a b c : Trace} (h1 : Continues a b) (h2 : Continues b c) :
    Continues a c := by
  obtain ⟨e1, rfl⟩ := h1
  obtain ⟨e2, rfl⟩ := h2
  exact ⟨e1 ++ e2, by simp⟩

theorem Continues.more (tr ext : Trace) : Continues tr (tr ++ ext) := ⟨ext, rfl⟩

theorem checkNAK_continues (p : Config) (e : Nat) (op : String) (tr : Trace) :
    Continues tr (checkNAK p e op tr).2 := by
  unfold checkNAK
  split
  · split
    · exact Continues.more _ _
    · exact Continues.more _ _
    · exact ⟨_, by simp only [List.append_assoc]; rfl⟩
  · exact Continues.same _

theorem nakBlock_continues {α : Type} (p : Config) (e : Nat) (op msg : String) (a : Int)
    (tr : Trace) : Continues tr (nakBlock (α := α) p e op msg a tr).2 := by
  have h := checkNAK_continues p e op tr
  unfold nakBlock
  rcases hc : checkNAK p e op tr with ⟨r, tr1⟩
  rw [hc] at h
  simp only at h
  rcases r with e1 | b
  · exact h
  · cases b
    · exact h
    · simp only
      split <;> exact h

theorem guard_continues {α : Type} (p : Config) (c : Prop) [Decidable c] (e : Nat)
    (op msg : String) (a : Int) (tr : Trace) :
    Continues tr (if c then nakBlock (α := α) p e op msg a tr else (none, tr)).2 := by
  split
  · exact nakBlock_continues p e op msg a tr
  · exact Continues.same _

theorem writeAttempt_continues (p : Config) (bus : Bus) (addr : Nat) (buf : List Nat)
    (op msg : String) (sync : Bool) (a : Int) (tr : Trace) :
    Continues tr (writeAttempt p bus addr buf op msg sync a tr).2 := by
  unfold writeAttempt
  simp only
  split
  · exact Continues.more _ _
  · generalize bus.write (tr ++ [Ev.ioctl addr (bus.ioctl tr addr)]) addr buf = w
    have g := guard_continues (α := Unit) p (w.ret ≠ (buf.length : Int)) w.errno op msg a
      (tr ++ [Ev.ioctl addr (bus.ioctl tr addr)] ++ [Ev.write addr buf w.ret w.errno])
    rcases hg : (if w.ret ≠ (buf.length : Int) then nakBlock (α := Unit) p w.errno op msg a
      (tr ++ [Ev.ioctl addr (bus.ioctl tr addr)] ++ [Ev.write addr buf w.ret w.errno])
      else (none, tr ++ [Ev.ioctl addr (bus.ioctl tr addr)] ++ [Ev.write addr buf w.ret w.errno]))
      with ⟨o, tr3⟩
    rw [hg] at g
    simp only at g
    have g2 : Continues tr tr3 :=
      Continues.step (Continues.step (Continues.more _ _) (Continues.more _ _)) g
    cases o with
    | some x => exact g2
    | none =>
      simp only
      split
      · exact Continues.step g2 (Continues.more _ _)
      · exact g2

theorem readByteAttempt_continues (p : Config) (bus : Bus) (addr reg : Nat) (a : Int)
    (tr : Trace) : Continues tr (readByteAttempt p bus addr reg a tr).2 := by
  unfold readByteAttempt
  simp only
  split
  · exact Continues.more _ _
  · generalize bus.write (tr ++ [Ev.ioctl addr (bus.ioctl tr addr)]) addr [reg] = w
    have g := guard_continues (α := Nat) p (w.ret ≠ 1) w.errno "register write"
      "Failed to write register address after retries" a
      (tr ++ [Ev.ioctl addr (bus.ioctl tr addr)] ++ [Ev.write addr [reg] w.ret w.errno])
    rcases hg : (if w.ret ≠ 1 then nakBlock (α := Nat) p w.errno "register write"
        "Failed to write register address after retries" a
        (tr ++ [Ev.ioctl addr (bus.ioctl tr addr)] ++ [Ev.write addr [reg] w.ret w.errno])
      else (none, tr ++ [Ev.ioctl addr (bus.ioctl tr addr)] ++
        [Ev.write addr [reg] w.ret w.errno])) with ⟨o, tr3⟩
    rw [hg] at g
    simp only at g
    have g2 : Continues tr tr3 :=
      Continues.step (Continues.step (Continues.more _ _) (Continues.more _ _)) g
    cases o with
    | some x => exact g2
    | none =>
      simp only
      generalize bus.read tr3 addr = d
      have g3 := guard_continues (α := Nat) p (d.ret ≠ 1) d.errno "data read"
        "Failed to read I2C data after retries" a (tr3 ++ [Ev.read addr d.ret d.errno d.data])
      rcases hg2 : (if d.ret ≠ 1 then nakBlock (α := Nat) p d.errno "data read"
          "Failed to read I2C data after retries" a
          (tr3 ++ [Ev.read addr d.ret d.errno d.data])
        else (none, tr3 ++ [Ev.read addr d.ret d.errno d.data])) with ⟨o2, tr5⟩
      rw [hg2] at g3
      simp only at g3
      have g4 : Continues tr tr5 := Continues.step (Continues.step g2 (Continues.more _ _)) g3
      cases o2 <;> exact g4

theorem retryLoop_continues {α : Type} (p : Config) (body : Int → Trace → Attempt α × Trace)
    (fm : String) (hb : ∀ a tr, Continues tr (body a tr).2) :
    ∀ (left : Nat) (a : Int) (tr : Trace), Continues tr (retryLoop p body fm left a tr).2 := by
  intro left
  induction left with
  | zero => intro a tr; exact Continues.same _
  | succ n ih =>
    intro a tr
    unfold retryLoop
    split
    · have h := hb a tr
      rcases hbody : body a tr with ⟨r, tr1⟩
      rw [hbody] at h
      simp only at h
      cases r with
      | ret v => exact h
      | again => exact Continues.step h (ih _ _)
      | thrown e =>
        simp only
        split
        · exact h
        · exact Continues.step (Continues.step h (Continues.more _ _)) (ih _ _)
    · exact Continues.same _

theorem readByte_continues (p : Config) (bus : Bus) (addr reg : Nat) (tr : Trace) :
    Continues tr (readByte p bus addr reg tr).2 :=
  retryLoop_continues p _ _ (fun a t => readByteAttempt_continues p bus addr reg a t) _ _ _

theorem writeByte_continues (p : Config) (bus : Bus) (addr reg data : Nat) (tr : Trace) :
    Continues tr (writeByte p bus addr reg data tr).2 :=
  retryLoop_continues p _ _ (fun a t => writeAttempt_continues p bus addr _ _ _ _ a t) _ _ _

theorem writeSingleByte_continues (p : Config) (bus : Bus) (addr data : Nat) (tr : Trace) :
    Continues tr (writeSingleByte p bus addr data tr).2 :=
  retryLoop_continues p _ _ (fun a t => writeAttempt_continues p bus addr _ _ _ _ a t) _ _ _

theorem write16Bit_continues (p : Config) (bus : Bus) (addr reg data : Nat) (tr : Trace) :
    Continues tr (write16Bit p bus addr reg data tr).2 :=
  retryLoop_continues p _ _ (fun a t => writeAttempt_continues p bus addr _ _ _ _ a t) _ _ _

theorem pollLoop_continues (p : Config) (env : Env) (addr reg mask expected : Nat)
    (timeout_ms interval_ms start : Int) :
    ∀ (fuel : Nat) (tr : Trace),
      Continues tr (pollLoop p env addr reg mask expected timeout_ms interval_ms start fuel tr).2 := by
  intro fuel
  induction fuel with
  | zero => intro tr; exact Continues.same _
  | succ n ih =>
    intro tr
    have h := readByte_continues p env.bus addr reg tr
    unfold pollLoop
    rcases hrd : readByte p env.bus addr reg tr with ⟨r, tr1⟩
    rw [hrd] at h
    simp only at h
    cases r with
    | error e =>
      simp only
      split <;> exact h
    | ok v =>
      simp only
      split
      · exact h
      · split
        · exact h
        · exact Continues.step (Continues.step h (Continues.more _ _)) (ih _)

theorem pollRegister_continues (p : Config) (env : Env) (fuel : Nat)
    (addr reg mask expected : Nat) (timeout_ms interval_ms : Int) (tr : Trace) :
    Continues tr (pollRegister p env fuel addr reg mask expected timeout_ms interval_ms tr).2 :=
  pollLoop_continues p env addr reg mask expected timeout_ms interval_ms _ fuel tr

theorem writeAll_continues (p : Config) (bus : Bus) (addr reg : Nat) :
    ∀ (data : List Nat) (tr : Trace), Continues tr (writeAll p bus addr reg data tr).2 := by
  intro data
  induction data with
  | nil => intro tr; exact Continues.same _
  | cons b rest ih =>
    intro tr
    have h := writeByte_continues p bus addr reg b tr
    unfold writeAll
    rcases hw : writeByte p bus addr reg b tr with ⟨r, tr1⟩
    rw [hw] at h
    simp only at h
    cases r with
    | error e => exact h
    | ok u => exact Continues.step h (ih _)

theorem writeFile_continues (p : Config) (env : Env) (dir : Str) (addr reg : Nat)
    (filename : Str) (tr : Trace) :
    Continues tr (writeFile p env dir addr reg filename tr).2 := by
  unfold writeFile
  simp only
  split
  · exact Continues.same _
  · exact writeAll_continues _ _ _ _ _ _

theorem sequenceCommand_continues (p : Config) (bus : Bus) (cmd : Str) (args : List Str)
    (tr : Trace) : Continues tr (sequenceCommand p bus cmd args tr).2 := by
  unfold sequenceCommand
  split_ifs
  · split
    · exact Continues.same _
    · exact writeSingleByte_continues _ _ _ _ _
  · split
    · exact Continues.same _
    · exact Continues.more _ _
  · exact Continues.same _

theorem sequenceLine_continues (p : Config) (bus : Bus) (line : Str) (tr : Trace) :
    Continues tr (sequenceLine p bus line tr).2 := by
  unfold sequenceLine
  split
  · exact Continues.same _
  · rename_i cmd args _
    have h := sequenceCommand_continues p bus cmd args tr
    rcases hc : sequenceCommand p bus cmd args tr with ⟨r, tr1⟩
    rw [hc] at h
    simp only at h
    cases r with
    | ok u => exact Continues.step h (Continues.more _ _)
    | error e =>
      simp only
      split
      · exact h
      · exact Continues.step h (Continues.more _ _)

theorem sequencePass_continues (p : Config) (bus : Bus) :
    ∀ (sequence : List Str) (tr : Trace), Continues tr (sequencePass p bus sequence tr).2 := by
  intro sequence
  induction sequence with
  | nil => intro tr; exact Continues.same _
  | cons l rest ih =>
    intro tr
    have h := sequenceLine_continues p bus l tr
    unfold sequencePass
    rcases hc : sequenceLine p bus l tr with ⟨r, tr1⟩
    rw [hc] at h
    simp only at h
    cases r with
    | error e => exact h
    | ok u => exact Continues.step h (ih _)

theorem sequencePasses_continues (p : Config) (bus : Bus) (sequence : List Str) :
    ∀ (n : Nat) (tr : Trace), Continues tr (sequencePasses p bus sequence n tr).2 := by
  intro n
  induction n with
  | zero => intro tr; exact Continues.same _
  | succ n ih =>
    intro tr
    have h := sequencePass_continues p bus sequence tr
    unfold sequencePasses
    rcases hc : sequencePass p bus sequence tr with ⟨r, tr1⟩
    rw [hc] at h
    simp only at h
    cases r with
    | error e => exact h
    | ok u => exact Continues.step h (ih _)

theorem executeSequence_continues (p : Config) (bus : Bus) (sequence : List Str)
    (iterations : Int) (tr : Trace) :
    Continues tr (executeSequence p bus sequence iterations tr).2 :=
  sequencePasses_continues p bus sequence _ tr

theorem liftBus_continues (s : State) (tr : Trace) (r : Except String Unit × Trace)
    (h : Continues tr r.2) : Continues tr (liftBus s r).2.trace := by
  unfold liftBus
  split <;> exact h

theorem cmdWrite_continues (p : Config) (env : Env) (args : List Str) (s : State) :
    Continues s.trace (cmdWrite p env args s).2.trace := by
  unfold cmdWrite
  split
  · exact Continues.same _
  · exact liftBus_continues _ _ _ (writeByte_continues _ _ _ _ _ _)

theorem cmdWrite1_continues (p : Config) (env : Env) (args : List Str) (s : State) :
    Continues s.trace (cmdWrite1 p env args s).2.trace := by
  unfold cmdWrite1
  split
  · exact Continues.same _
  · exact liftBus_continues _ _ _ (writeSingleByte_continues _ _ _ _ _)

theorem cmdWrite16_continues (p : Config) (env : Env) (args : List Str) (s : State) :
    Continues s.trace (cmdWrite16 p env args s).2.trace := by
  unfold cmdWrite16
  split
  · exact Continues.same _
  · exact liftBus_continues _ _ _ (write16Bit_continues _ _ _ _ _ _)

theorem cmdFile_continues (p : Config) (env : Env) (args : List Str) (s : State) :
    Continues s.trace (cmdFile p env args s).2.trace := by
  unfold cmdFile
  split
  · exact Continues.same _
  · exact liftBus_continues _ _ _ (writeFile_continues _ _ _ _ _ _ _)

theorem cmdRead_continues (p : Config) (env : Env) (args : List Str) (s : State) :
    Continues s.trace (cmdRead p env args s).2.trace := by
  unfold cmdRead
  split
  · exact Continues.same _
  · rename_i addr reg _
    have h := readByte_continues p env.bus addr reg s.trace
    rcases hrd : readByte p env.bus addr reg s.trace with ⟨r, tr1⟩
    rw [hrd] at h
    simp only at h
    cases r with
    | error e => exact h
    | ok v =>
      simp only
      split <;> exact h

theorem cmdPoll_continues (p : Config) (env : Env) (fuel : Nat) (args : List Str) (s : State) :
    Continues s.trace (cmdPoll p env fuel args s).2.trace := by
  unfold cmdPoll
  split
  · exact Continues.same _
  · rename_i a _
    have h := pollRegister_continues p env fuel a.addr a.reg a.mask a.expected a.timeout
      a.interval s.trace
    rcases hpl : pollRegister p env fuel a.addr a.reg a.mask a.expected a.timeout
      a.interval s.trace with ⟨r, tr1⟩
    rw [hpl] at h
    simp only at h
    cases r with
    | done b => cases b <;> exact h
    | raised e => exact h
    | stuck => exact h

theorem cmdDelay_continues (args : List Str) (s : State) :
    Continues s.trace (cmdDelay args s).2.trace := by
  unfold cmdDelay
  split
  · exact Continues.same _
  · exact Continues.more _ _

theorem busCommand_continues (p : Config) (env : Env) (fuel : Nat) (cmd : Str)
    (args : List Str) (s : State) :
    Continues s.trace (busCommand p env fuel cmd args s).2.trace := by
  unfold busCommand
  split_ifs
  · exact cmdWrite_continues _ _ _ _
  · exact cmdWrite1_continues _ _ _ _
  · exact cmdWrite16_continues _ _ _ _
  · exact cmdRead_continues _ _ _ _
  · exact cmdPoll_continues _ _ _ _ _
  · exact cmdDelay_continues _ _
  · exact cmdFile_continues _ _ _ _
  · exact Continues.same _

theorem cmdLoop_continues (args : List Str) (s : State) :
    Continues s.trace (cmdLoop args s).2.trace := by
  unfold cmdLoop
  split
  · split
    · exact Continues.same _
    · split <;> exact Continues.same _
  · exact Continues.same _

theorem cmdEndloop_continues (p : Config) (env : Env) (s : State) :
    Continues s.trace (cmdEndloop p env s).2.trace := by
  unfold cmdEndloop
  split
  · exact liftBus_continues _ _ _ (executeSequence_continues _ _ _ _ _)
  · exact Continues.same _

theorem cmdStartRecord_continues (args : List Str) (s : State) :
    Continues s.trace (cmdStartRecord args s).2.trace := by
  unfold cmdStartRecord
  split
  · split
    · exact Continues.same _
    · split <;> exact Continues.same _
  · exact Continues.same _

theorem cmdPrintRecord_continues (args : List Str) (s : State) :
    Continues s.trace (cmdPrintRecord args s).2.trace := by
  unfold cmdPrintRecord
  split
  · split <;> exact Continues.more _ _
  · exact Continues.same _

theorem cmdOther_continues (p : Config) (env : Env) (fuel : Nat) (line cmd : Str)
    (args : List Str) (s : State) :
    Continues s.trace (cmdOther p env fuel line cmd args s).2.trace := by
  unfold cmdOther
  split
  · exact Continues.same _
  · have h := busCommand_continues p env fuel cmd args s
    split
    · rename_i h2
      rw [h2] at h
      exact Continues.step h (Continues.more _ _)
    · exact h

theorem command_continues (p : Config) (env : Env) (fuel : Nat) (line cmd : Str)
    (args : List Str) (s : State) :
    Continues s.trace (command p env fuel line cmd args s).2.trace := by
  unfold command
  split_ifs
  · exact cmdLoop_continues _ _
  · exact cmdEndloop_continues _ _ _
  · exact cmdStartRecord_continues _ _
  · exact Continues.same _
  · exact cmdPrintRecord_continues _ _
  · exact cmdOther_continues _ _ _ _ _ _ _

theorem tryBlock_continues (p : Config) (env : Env) (fuel : Nat) (line : Str) (s : State) :
    Continues s.trace (tryBlock p env fuel line s).2.trace := by
  unfold tryBlock
  split
  · exact Continues.same _
  · exact command_continues _ _ _ _ _ _ _

theorem playLine_continues (p : Config) (env : Env) (fuel : Nat) (line : Str) (s : State) :
    Continues s.trace (playLine p env fuel line s).2.trace := by
  unfold playLine
  simp only
  split
  · exact Continues.same _
  · split
    · exact Continues.same _
    · have h := tryBlock_continues p env fuel line { s with line_number := s.line_number + 1 }
      split
      · rename_i h2
        rw [h2] at h
        unfold catchLine logged
        split <;> exact Continues.step h (Continues.more _ _)
      · exact h

theorem playLines_continues (p : Config) (env : Env) (fuel : Nat) :
    ∀ (lines : List Str) (s : State),
      Continues s.trace (playLines p env fuel lines s).2.trace := by
  intro lines
  induction lines with
  | nil => intro s; exact Continues.same _
  | cons l rest ih =>
    intro s
    have h := playLine_continues p env fuel l s
    unfold playLines
    rcases hc : playLine p env fuel l s with ⟨r, s1⟩
    rw [hc] at h
    simp only at h
    cases r with
    | done u => exact Continues.step h (ih _)
    | raised e => exact h
    | stuck => exact h

theorem atEnd_trace (r : Outcome Unit × State) : (atEnd r).2.trace = r.2.trace := by
  unfold atEnd
  split
  · split <;> rfl
  · rfl

theorem raises_line_number (p : Config) (env : Env) (fuel : Nat) (filename : Str)
    (s0 s1 s2 : State) (pre : List Str) (line : Str) (e : String)
    (hpre : playLines p env fuel pre (enter filename s0) = (.done (), s1))
    (hr : Raises p env fuel line s1 e s2) : s2.line_number = pre.length + 1 := by
  have h1 := playLines_line_number p env fuel pre (enter filename s0) (by rw [hpre])
  rw [hpre] at h1
  have h2 := (tryBlock_cursor p env fuel line { s1 with line_number := s1.line_number + 1 }).1
  rw [hr.2.2] at h2
  simp only at h1 h2
  rw [h2, h1]
  simp [enter]

/-- C1: an error raised while playFile processes a top-level line escapes playFile exactly
under Stop, and the failing line is logged. When the lines before `line` were processed
normally and the try block of `line` raises `e`, leaving the state `s2`: the event
`Error at line N: e`, with `N` the number of the failing line in the file, is appended to the
history of `s2`; under Stop playFile then ends with `e`, whatever lines follow (none of them
is processed: the history ends with the log event); under Retry and Continue the remaining
lines are processed from the state with the log event, the final history still holds the
history of `s2` followed by the log event, no exception of a line ever leaves playFile (the
only exception playFile can still end with is the unterminated-LOOP check after the last
line), and, the clock being unbounded, the loop over the lines reaches the end of input having
read every line. -/
theorem line_error_escapes_iff_stop (p : Config) (env : Env) (fuel : Nat) (filename : Str)
    (s0 s1 s2 : State) (pre post : List Str) (line : Str) (e : String)
    (hf : env.script filename = some (pre ++ line :: post))
    (hpre : playLines p env fuel pre (enter filename s0) = (.done (), s1))
    (hr : Raises p env fuel line s1 e s2) :
    (p.error_action = .STOP →
      playFile p env fuel filename s0 =
        (.raised e, { s2 with trace := s2.trace ++
          [Ev.cerr ("Error at line " ++ toString (pre.length + 1) ++ ": " ++ e ++ "\n")] })) ∧
    (p.error_action ≠ .STOP →
      playFile p env fuel filename s0 =
        atEnd (playLines p env fuel post { s2 with trace := s2.trace ++
          [Ev.cerr ("Error at line " ++ toString (pre.length + 1) ++ ": " ++ e ++ "\n")] }) ∧
      (∃ ext, (playFile p env fuel filename s0).2.trace =
        s2.trace ++
          [Ev.cerr ("Error at line " ++ toString (pre.length + 1) ++ ": " ++ e ++ "\n")] ++
          ext) ∧
      (∀ e2, (playFile p env fuel filename s0).1 = .raised e2 →
        e2 = "Unterminated LOOP in CSV") ∧
      (ClockAdvances env → ∃ f0, ∀ f, f0 ≤ f →
        (playLines p env f (pre ++ line :: post) (enter filename s0)).1 = .done () ∧
        (playLines p env f (pre ++ line :: post) (enter filename s0)).2.line_number =
          (pre ++ line :: post).length)) := by
  have hrun := playLines_raise p env fuel pre post line (enter filename s0) s1 s2 e hpre hr
  have hln := raises_line_number p env fuel filename s0 s1 s2 pre line e hpre hr
  have hlog : logged e s2 = { s2 with trace := s2.trace ++
      [Ev.cerr ("Error at line " ++ toString (pre.length + 1) ++ ": " ++ e ++ "\n")] } := by
    unfold logged
    rw [hln]
  rw [hlog] at hrun
  have hplay : playFile p env fuel filename s0 =
      atEnd (playLines p env fuel (pre ++ line :: post) (enter filename s0)) := by
    unfold playFile
    rw [hf]
  refine ⟨fun hs => ?_, fun hs => ⟨?_, ?_, ?_, ?_⟩⟩
  · rw [hplay, hrun, if_pos hs]
    rfl
  · rw [hplay, hrun, if_neg hs]
  · rw [hplay, hrun, if_neg hs, atEnd_trace]
    exact playLines_continues p env fuel post _
  · intro e2 he2
    rw [hplay] at he2
    exact atEnd_raised _ e2 (playLines_never_raised p env fuel hs _ _) he2
  · intro hc
    obtain ⟨f0, h1, h2⟩ := playLines_settles p env hc (pre ++ line :: post) (enter filename s0)
    refine ⟨f0, fun f hf0 => ?_⟩
    have hne := playLines_never_raised p env f hs (pre ++ line :: post) (enter filename s0)
    have hst : (playLines p env f (pre ++ line :: post) (enter filename s0)).1 ≠ .stuck := by
      have := h2 f hf0
      simp only at this h1
      rw [this]
      exact h1
    have hd : (playLines p env f (pre ++ line :: post) (enter filename s0)).1 = .done () := by
      rcases hx : (playLines p env f (pre ++ line :: post) (enter filename s0)).1 with u | e3 | _
      · rfl
      · exact absurd hx (hne e3)
      · exact absurd hx hst
    refine ⟨hd, ?_⟩
    rw [playLines_line_number p env f _ _ hd]
    simp [enter]

/-- Witness for C1 on the always-NAK device with the script of two raw writes. Under Stop the
first raw write raises, `Error at line 2` is logged and playFile ends with the exception, the
log event being the last of the history. Under Retry with one retry the first raw write raises
after its retries, `Error at line 2` is logged, the second raw write is processed from the
state with that event, and the final history still begins with it; evaluated in full, the run
returns normally and its history holds both raw writes with their `Error at line` events. -/
theorem line_error_escapes_iff_stop_witness :
    (Raises ⟨1, .STOP, 1⟩ (world nakBus twoWrites) 1 "WRITE1,0x10,0xAA".toList afterHeader
        "I2C NAK - device not responding"
        { afterHeader with
          line_number := 2
          trace := [Ev.ioctl 16 0, Ev.write 16 [170] (-1) 6,
            Ev.cerr "NAK detected during write\n", Ev.sleep 2,
            Ev.ioctl 16 0, Ev.write 16 [170] (-1) 6,
            Ev.cerr "NAK detected during write\n"] } ∧
      playFile ⟨1, .STOP, 1⟩ (world nakBus twoWrites) 1 [] fresh =
        (.raised "I2C NAK - device not responding",
          { afterHeader with
            line_number := 2
            trace := [Ev.ioctl 16 0, Ev.write 16 [170] (-1) 6,
              Ev.cerr "NAK detected during write\n", Ev.sleep 2,
              Ev.ioctl 16 0, Ev.write 16 [170] (-1) 6,
              Ev.cerr "NAK detected during write\n",
              Ev.cerr "Error at line 2: I2C NAK - device not responding\n"] })) ∧
    (Raises ⟨1, .RETRY, 1⟩ (world nakBus twoWrites) 1 "WRITE1,0x10,0xAA".toList afterHeader
        "Failed to write I2C data after retries"
        { afterHeader with
          line_number := 2
          trace := [Ev.ioctl 16 0, Ev.write 16 [170] (-1) 6,
            Ev.cerr "NAK detected during write\n",
            Ev.ioctl 16 0, Ev.write 16 [170] (-1) 6,
            Ev.cerr "NAK detected during write\n"] } ∧
      playFile ⟨1, .RETRY, 1⟩ (world nakBus twoWrites) 1 [] fresh =
        atEnd (playLines ⟨1, .RETRY, 1⟩ (world nakBus twoWrites) 1 ["WRITE1,0x11,0xBB".toList]
          { afterHeader with
            line_number := 2
            trace := [Ev.ioctl 16 0, Ev.write 16 [170] (-1) 6,
              Ev.cerr "NAK detected during write\n",
              Ev.ioctl 16 0, Ev.write 16 [170] (-1) 6,
              Ev.cerr "NAK detected during write\n",
              Ev.cerr "Error at line 2: Failed to write I2C data after retries\n"] }) ∧
      ∃ ext, (playFile ⟨1, .RETRY, 1⟩ (world nakBus twoWrites) 1 [] fresh).2.trace =
        [Ev.ioctl 16 0, Ev.write 16 [170] (-1) 6,
          Ev.cerr "NAK detected during write\n",
          Ev.ioctl 16 0, Ev.write 16 [170] (-1) 6,
          Ev.cerr "NAK detected during write\n",
          Ev.cerr "Error at line 2: Failed to write I2C data after retries\n"] ++ ext) ∧
    (playFile ⟨1, .RETRY, 1⟩ (world nakBus twoWrites) 1 [] fresh).1 = .done () ∧
    (playFile ⟨1, .RETRY, 1⟩ (world nakBus twoWrites) 1 [] fresh).2.trace =
      [Ev.ioctl 16 0, Ev.write 16 [170] (-1) 6, Ev.cerr "NAK detected during write\n",
       Ev.ioctl 16 0, Ev.write 16 [170] (-1) 6, Ev.cerr "NAK detected during write\n",
       Ev.cerr "Error at line 2: Failed to write I2C data after retries\n",
       Ev.ioctl 17 0, Ev.write 17 [187] (-1) 6, Ev.cerr "NAK detected during write\n",
       Ev.ioctl 17 0, Ev.write 17 [187] (-1) 6, Ev.cerr "NAK detected during write\n",
       Ev.cerr "Error at line 3: Failed to write I2C data after retries\n"] :=
  ⟨⟨⟨rfl, rfl, rfl⟩,
      (line_error_escapes_iff_stop ⟨1, .STOP, 1⟩ (world nakBus twoWrites) 1 [] fresh afterHeader
        _ ["command,addr,data".toList] ["WRITE1,0x11,0xBB".toList] "WRITE1,0x10,0xAA".toList
        "I2C NAK - device not responding" rfl rfl ⟨rfl, rfl, rfl⟩).1 rfl⟩,
    ⟨⟨rfl, rfl, rfl⟩,
      ((line_error_escapes_iff_stop ⟨1, .RETRY, 1⟩ (world nakBus twoWrites) 1 [] fresh
        afterHeader _ ["command,addr,data".toList] ["WRITE1,0x11,0xBB".toList]
        "WRITE1,0x10,0xAA".toList "Failed to write I2C data after retries" rfl rfl
        ⟨rfl, rfl, rfl⟩).2 (by decide)).1,
      ((line_error_escapes_iff_stop ⟨1, .RETRY, 1⟩ (world nakBus twoWrites) 1 [] fresh
        afterHeader _ ["command,addr,data".toList] ["WRITE1,0x11,0xBB".toList]
        "WRITE1,0x10,0xAA".toList "Failed to write I2C data after retries" rfl rfl
        ⟨rfl, rfl, rfl⟩).2 (by decide)).2.1⟩,
    rfl, by decide⟩

/-- C5: under Continue, for every retry_count >= 0 and every device on which address
selection succeeds, each of readByte, writeByte, writeSingleByte and write16Bit returns
normally after exactly one attempt (the history gains exactly one address selection),
whatever the transfers answer, NAKs included. -/
theorem continue_returns_after_one_attempt (p : Config) (bus : Bus) (addr reg data : Nat)
    (tr : Trace) (hp : p.error_action = .CONTINUE) (hR : 0 ≤ p.retry_count)
    (hs : SelectOk bus) :
    ((∃ v, (readByte p bus addr reg tr).1 = .ok v) ∧
      selects (readByte p bus addr reg tr).2 = selects tr + 1) ∧
    ((writeByte p bus addr reg data tr).1 = .ok () ∧
      selects (writeByte p bus addr reg data tr).2 = selects tr + 1) ∧
    ((writeSingleByte p bus addr data tr).1 = .ok () ∧
      selects (writeSingleByte p bus addr data tr).2 = selects tr + 1) ∧
    ((write16Bit p bus addr reg data tr).1 = .ok () ∧
      selects (write16Bit p bus addr reg data tr).2 = selects tr + 1) := by
  have kw : ∀ (buf : List Nat) (op msg fm : String) (sync : Bool),
      (retryLoop p (writeAttempt p bus addr buf op msg sync) fm
        (p.retry_count + 1).toNat 0 tr).1 = .ok () ∧
      selects (retryLoop p (writeAttempt p bus addr buf op msg sync) fm
        (p.retry_count + 1).toNat 0 tr).2 = selects tr + 1 := by
    intro buf op msg fm sync
    have h := writeAttempt_continue p bus addr buf op msg sync 0 tr hp hs
    rw [retryLoop_first_ret p _ fm tr () hR h.1]
    exact ⟨rfl, h.2⟩
  refine ⟨?_, kw _ _ _ _ _, kw _ _ _ _ _, kw _ _ _ _ _⟩
  obtain ⟨⟨v, hv⟩, hsel⟩ := readByteAttempt_continue p bus addr reg 0 tr hp hs
  unfold readByte
  rw [retryLoop_first_ret p _ _ tr v hR hv]
  exact ⟨⟨v, rfl⟩, hsel⟩

theorem nakBus_selectOk : SelectOk nakBus := fun _ _ => le_refl (0 : Int)

/-- Witness for C5: Continue with the default three retries on the always-NAK device. -/
theorem continue_returns_after_one_attempt_witness :
    ((∃ v, (readByte ⟨1, .CONTINUE, 3⟩ nakBus 16 0 []).1 = .ok v) ∧
      selects (readByte ⟨1, .CONTINUE, 3⟩ nakBus 16 0 []).2 = selects [] + 1) ∧
    ((writeByte ⟨1, .CONTINUE, 3⟩ nakBus 16 0 170 []).1 = .ok () ∧
      selects (writeByte ⟨1, .CONTINUE, 3⟩ nakBus 16 0 170 []).2 = selects [] + 1) ∧
    ((writeSingleByte ⟨1, .CONTINUE, 3⟩ nakBus 16 170 []).1 = .ok () ∧
      selects (writeSingleByte ⟨1, .CONTINUE, 3⟩ nakBus 16 170 []).2 = selects [] + 1) ∧
    ((write16Bit ⟨1, .CONTINUE, 3⟩ nakBus 16 0 170 []).1 = .ok () ∧
      selects (write16Bit ⟨1, .CONTINUE, 3⟩ nakBus 16 0 170 []).2 = selects [] + 1) :=
  continue_returns_after_one_attempt ⟨1, .CONTINUE, 3⟩ nakBus 16 0 170 [] rfl (by decide)
    nakBus_selectOk

/-- Counterexample to C4: under Retry with one retry on the always-NAK device, the first raw
write of the script exhausts its retries and raises, yet playFile returns normally and the
second raw write is still issued (address 0x11 is selected twice). -/
theorem retry_exhausted_run_goes_on :
    (tryBlock ⟨1, .RETRY, 1⟩ (world nakBus twoWrites) 1 "WRITE1,0x10,0xAA".toList
      { afterHeader with line_number := 2 }).1 = .raised "Failed to write I2C data after retries" ∧
    (playFile ⟨1, .RETRY, 1⟩ (world nakBus twoWrites) 1 [] fresh).1 = .done () ∧
    (playFile ⟨1, .RETRY, 1⟩ (world nakBus twoWrites) 1 [] fresh).2.trace =
      [Ev.ioctl 16 0, Ev.write 16 [170] (-1) 6, Ev.cerr "NAK detected during write\n",
       Ev.ioctl 16 0, Ev.write 16 [170] (-1) 6, Ev.cerr "NAK detected during write\n",
       Ev.cerr "Error at line 2: Failed to write I2C data after retries\n",
       Ev.ioctl 17 0, Ev.write 17 [187] (-1) 6, Ev.cerr "NAK detected during write\n",
       Ev.ioctl 17 0, Ev.write 17 [187] (-1) 6, Ev.cerr "NAK detected during write\n",
       Ev.cerr "Error at line 3: Failed to write I2C data after retries\n"] := by
  refine ⟨rfl, rfl, ?_⟩
  decide

theorem parseWrite_arity (args : List Str) (h : args.length ≠ 3) :
    parseWrite args = .error "Invalid WRITE format" := by
  rcases args with _ | ⟨a, _ | ⟨b, _ | ⟨c, _ | ⟨d, t⟩⟩⟩⟩ <;> simp [parseWrite] at h ⊢

theorem parseWrite1_arity (args : List Str) (h : args.length ≠ 2) :
    parseWrite1 args = .error "Invalid WRITE1 format" := by
  rcases args with _ | ⟨a, _ | ⟨b, _ | ⟨c, t⟩⟩⟩ <;> simp [parseWrite1] at h ⊢

theorem parseWrite16_arity (args : List Str) (h : args.length ≠ 3) :
    parseWrite16 args = .error "Invalid WRITE16 format" := by
  rcases args with _ | ⟨a, _ | ⟨b, _ | ⟨c, _ | ⟨d, t⟩⟩⟩⟩ <;> simp [parseWrite16] at h ⊢

theorem parseRead_arity (args : List Str) (h : args.length ≠ 2) :
    parseRead args = .error "Invalid READ format" := by
  rcases args with _ | ⟨a, _ | ⟨b, _ | ⟨c, t⟩⟩⟩ <;> simp [parseRead] at h ⊢

theorem parseFile_arity (args : List Str) (h : args.length ≠ 3) :
    parseFile args = .error "Invalid FILE format" := by
  rcases args with _ | ⟨a, _ | ⟨b, _ | ⟨c, _ | ⟨d, t⟩⟩⟩⟩ <;> simp [parseFile] at h ⊢

theorem parseDelay_arity (args : List Str) (h : args.length ≠ 1) :
    parseDelay args = .error "Invalid DELAY format" := by
  rcases args with _ | ⟨a, _ | ⟨b, t⟩⟩ <;> simp [parseDelay] at h ⊢

theorem parsePoll_arity (args : List Str) (h : args.length ≠ 6) :
    parsePoll args = .error "Invalid POLL format" := by
  rcases args with _ | ⟨a, _ | ⟨b, _ | ⟨c, _ | ⟨d, _ | ⟨e, _ | ⟨f, _ | ⟨g, t⟩⟩⟩⟩⟩⟩⟩ <;>
    simp [parsePoll] at h ⊢

theorem cmdLoop_arity (args : List Str) (s : State) (h : args.length ≠ 1) :
    cmdLoop args s = (.raised "Invalid LOOP format", s) := by
  rcases args with _ | ⟨a, _ | ⟨b, t⟩⟩ <;> simp [cmdLoop] at h ⊢

theorem cmdStartRecord_arity (args : List Str) (s : State) (h : args.length ≠ 1) :
    cmdStartRecord args s = (.raised "Invalid START_RECORD format", s) := by
  rcases args with _ | ⟨a, _ | ⟨b, t⟩⟩ <;> simp [cmdStartRecord] at h ⊢

theorem cmdPrintRecord_arity (args : List Str) (s : State) (h : args.length ≠ 1) :
    cmdPrintRecord args s = (.raised "Invalid PRINT_RECORD format", s) := by
  rcases args with _ | ⟨a, _ | ⟨b, t⟩⟩ <;> simp [cmdPrintRecord] at h ⊢

theorem command_unknown (p : Config) (env : Env) (fuel : Nat) (line cmd : Str)
    (args : List Str) (s : State) (hin : s.in_loop = false) (hk : cmd ∉ knownVerbs) :
    command p env fuel line cmd args s =
      (.raised ("Unknown command: " ++ String.mk cmd), s) := by
  simp only [knownVerbs, List.mem_cons, List.mem_singleton, not_or, List.not_mem_nil,
    or_false] at hk
  obtain ⟨h1, h2, h3, h4, h5, h6, h7, h8, h9, h10, h11, h12⟩ := hk
  unfold command
  rw [if_neg h1, if_neg h2, if_neg h3, if_neg h4, if_neg h5]
  unfold cmdOther
  rw [hin]
  simp only [Bool.false_eq_true, if_false]
  unfold busCommand
  rw [if_neg h6, if_neg h7, if_neg h8, if_neg h9, if_neg h10, if_neg h11, if_neg h12]

theorem command_bus (p : Config) (env : Env) (fuel : Nat) (line cmd : Str) (args : List Str)
    (s : State) (hin : s.in_loop = false) (hc : cmd ∈ checkedBusVerbs) :
    command p env fuel line cmd args s =
      match busCommand p env fuel cmd args s with
      | (.done _, s1) => (.done (), { s1 with trace := s1.trace ++ [Ev.sleep p.i2c_wait_ms] })
      | r => r := by
  simp only [checkedBusVerbs, List.mem_cons, List.mem_singleton, List.not_mem_nil,
    or_false] at hc
  have hne : cmd ≠ "LOOP".toList ∧ cmd ≠ "ENDLOOP".toList ∧ cmd ≠ "START_RECORD".toList ∧
      cmd ≠ "STOP_RECORD".toList ∧ cmd ≠ "PRINT_RECORD".toList := by
    rcases hc with h | h | h | h | h | h | h <;> subst h <;> decide
  obtain ⟨h1, h2, h3, h4, h5⟩ := hne
  unfold command
  rw [if_neg h1, if_neg h2, if_neg h3, if_neg h4, if_neg h5]
  unfold cmdOther
  rw [hin]
  simp only [Bool.false_eq_true, if_false]

theorem scriptFault_raises (p : Config) (env : Env) (fuel : Nat) (line cmd : Str)
    (args : List Str) (s s2 : State) (e : String)
    (h : ScriptFault p env fuel s cmd args e s2) :
    command p env fuel line cmd args s = (.raised e, s2) := by
  cases h with
  | pollTimeout _ a tr hin hparse hpoll =>
    rw [command_bus p env fuel line _ args s hin (by decide)]
    have : busCommand p env fuel "POLL".toList args s =
        (.raised "Polling timeout", { s with trace := tr }) := by
      unfold busCommand
      rw [if_neg (by decide), if_neg (by decide), if_neg (by decide), if_neg (by decide),
        if_pos rfl]
      unfold cmdPoll
      rw [hparse]
      simp only [hpoll]
    rw [this]
  | unknownVerb _ _ hin hk => exact command_unknown p env fuel line cmd args s hin hk
  | stateFields _ _ k hc hk hlen =>
    simp only [stateVerbs, List.mem_cons, List.mem_singleton, List.not_mem_nil,
      or_false] at hc
    rcases hc with h | h | h <;> subst h
    · have : k = 2 := by simpa [fieldCount] using hk.symm
      subst this
      unfold command
      rw [if_pos rfl, cmdLoop_arity args s (by omega)]
      rfl
    · have : k = 2 := by
        have := hk.symm
        unfold fieldCount at this
        rw [if_neg (by decide), if_pos rfl] at this
        simpa using this
      subst this
      unfold command
      rw [if_neg (by decide), if_neg (by decide), if_pos rfl,
        cmdStartRecord_arity args s (by omega)]
      rfl
    · have : k = 2 := by
        have := hk.symm
        unfold fieldCount at this
        rw [if_neg (by decide), if_neg (by decide), if_pos rfl] at this
        simpa using this
      subst this
      unfold command
      rw [if_neg (by decide), if_neg (by decide), if_neg (by decide), if_neg (by decide),
        if_pos rfl, cmdPrintRecord_arity args s (by omega)]
      rfl
  | busFields _ _ k hin hc hk hlen =>
    rw [command_bus p env fuel line cmd args s hin hc]
    simp only [checkedBusVerbs, List.mem_cons, List.mem_singleton, List.not_mem_nil,
      or_false] at hc
    rcases hc with h | h | h | h | h | h | h <;> subst h
    · have : k = 4 := by
        have := hk.symm
        unfold fieldCount at this
        rw [if_neg (by decide), if_neg (by decide), if_neg (by decide), if_pos rfl] at this
        simpa using this
      subst this
      unfold busCommand
      rw [if_pos rfl]
      unfold cmdWrite
      rw [parseWrite_arity args (by omega)]
      rfl
    · have : k = 3 := by
        have := hk.symm
        unfold fieldCount at this
        rw [if_neg (by decide), if_neg (by decide), if_neg (by decide), if_neg (by decide),
          if_pos rfl] at this
        simpa using this
      subst this
      unfold busCommand
      rw [if_neg (by decide), if_pos rfl]
      unfold cmdWrite1
      rw [parseWrite1_arity args (by omega)]
      rfl
    · have : k = 4 := by
        have := hk.symm
        unfold fieldCount at this
        rw [if_neg (by decide), if_neg (by decide), if_neg (by decide), if_neg (by decide),
          if_neg (by decide), if_pos rfl] at this
        simpa using this
      subst this
      unfold busCommand
      rw [if_neg (by decide), if_neg (by decide), if_pos rfl]
      unfold cmdWrite16
      rw [parseWrite16_arity args (by omega)]
      rfl
    · have : k = 3 := by
        have := hk.symm
        unfold fieldCount at this
        rw [if_neg (by decide), if_neg (by decide), if_neg (by decide), if_neg (by decide),
          if_neg (by decide), if_neg (by decide), if_pos rfl] at this
        simpa using this
      subst this
      unfold busCommand
      rw [if_neg (by decide), if_neg (by decide), if_neg (by decide), if_pos rfl]
      unfold cmdRead
      rw [parseRead_arity args (by omega)]
      rfl
    · have : k = 7 := by
        have := hk.symm
        unfold fieldCount at this
        rw [if_neg (by decide), if_neg (by decide), if_neg (by decide), if_neg (by decide),
          if_neg (by decide), if_neg (by decide), if_neg (by decide), if_pos rfl] at this
        simpa using this
      subst this
      unfold busCommand
      rw [if_neg (by decide), if_neg (by decide), if_neg (by decide), if_neg (by decide),
        if_pos rfl]
      unfold cmdPoll
      rw [parsePoll_arity args (by omega)]
      rfl
    · have : k = 2 := by
        have := hk.symm
        unfold fieldCount at this
        rw [if_neg (by decide), if_neg (by decide), if_neg (by decide), if_neg (by decide),
          if_neg (by decide), if_neg (by decide), if_neg (by decide), if_neg (by decide),
          if_pos rfl] at this
        simpa using this
      subst this
      unfold busCommand
      rw [if_neg (by decide), if_neg (by decide), if_neg (by decide), if_neg (by decide),
        if_neg (by decide), if_pos rfl]
      unfold cmdDelay
      rw [parseDelay_arity args (by omega)]
      rfl
    · have : k = 4 := by
        have := hk.symm
        unfold fieldCount at this
        rw [if_neg (by decide), if_neg (by decide), if_neg (by decide), if_neg (by decide),
          if_neg (by decide), if_neg (by decide), if_neg (by decide), if_neg (by decide),
          if_neg (by decide), if_pos rfl] at this
        simpa using this
      subst this
      unfold busCommand
      rw [if_neg (by decide), if_neg (by decide), if_neg (by decide), if_neg (by decide),
        if_neg (by decide), if_neg (by decide), if_pos rfl]
      unfold cmdFile
      rw [parseFile_arity args (by omega)]
      rfl
  | nestedLoop n hin =>
    unfold command
    rw [if_pos rfl]
    unfold cmdLoop
    simp only [hin, if_true]
  | strayEndloop _ hin =>
    unfold command
    rw [if_neg (by decide), if_pos rfl]
    unfold cmdEndloop
    rw [hin]
    simp

theorem playFile_eq (p : Config) (env : Env) (fuel : Nat) (filename : Str) (s0 : State)
    (lines : List Str) (hf : env.script filename = some lines) :
    playFile p env fuel filename s0 = atEnd (playLines p env fuel lines (enter filename s0)) := by
  unfold playFile
  rw [hf]

/-- What `playFile` does at a line whose `try` block raises, the lines before it having been
processed normally. -/
theorem playFile_raise (p : Config) (env : Env) (fuel : Nat) (filename : Str)
    (s0 s1 s2 : State) (pre post : List Str) (line : Str) (e : String)
    (hf : env.script filename = some (pre ++ line :: post))
    (hpre : playLines p env fuel pre (enter filename s0) = (.done (), s1))
    (hr : Raises p env fuel line s1 e s2) :
    (p.error_action = .STOP → playFile p env fuel filename s0 = (.raised e, logged e s2)) ∧
    (p.error_action ≠ .STOP →
      playFile p env fuel filename s0 = atEnd (playLines p env fuel post (logged e s2))) := by
  have hrun := playLines_raise p env fuel pre post line (enter filename s0) s1 s2 e hpre hr
  rw [playFile_eq p env fuel filename s0 _ hf, hrun]
  constructor
  · intro hs
    rw [if_pos hs]
    rfl
  · intro hs
    rw [if_neg hs]

theorem busVerbs_checked (cmd : Str) (h : cmd ∈ busVerbs) : cmd ∈ checkedBusVerbs := by
  simp only [busVerbs, List.mem_cons, List.mem_singleton, List.not_mem_nil, or_false] at h
  rcases h with h | h | h | h | h <;> subst h <;> decide

/-- C4 as amended: under Retry, when the transport operation of a top-level bus command
(WRITE, WRITE1, WRITE16, READ or FILE) has given up and raises, the run is not aborted:
playFile logs the error with its line number and goes on with the lines that follow, and the
only exception it can still end with is the unterminated-LOOP check. -/
theorem retry_exhausted_is_logged_and_skipped (p : Config) (env : Env) (fuel : Nat)
    (filename : Str) (s0 s1 s2 : State) (pre post : List Str) (line cmd : Str)
    (args : List Str) (e : String)
    (hp : p.error_action = .RETRY)
    (hf : env.script filename = some (pre ++ line :: post))
    (hpre : playLines p env fuel pre (enter filename s0) = (.done (), s1))
    (hskip : skipLine line = false) (hh : s1.header_skipped = true)
    (hin : s1.in_loop = false) (ht : tokenize line = cmd :: args) (hc : cmd ∈ busVerbs)
    (hb : busCommand p env fuel cmd args { s1 with line_number := s1.line_number + 1 } =
      (.raised e, s2)) :
    playFile p env fuel filename s0 = atEnd (playLines p env fuel post (logged e s2)) ∧
    (∀ e2, (playFile p env fuel filename s0).1 = .raised e2 →
      e2 = "Unterminated LOOP in CSV") := by
  have hs : p.error_action ≠ .STOP := by rw [hp]; decide
  have hr : Raises p env fuel line s1 e s2 := by
    refine ⟨hskip, hh, ?_⟩
    unfold tryBlock
    rw [ht]
    simp only
    rw [command_bus p env fuel line cmd args { s1 with line_number := s1.line_number + 1 } hin
      (busVerbs_checked cmd hc), hb]
  refine ⟨(playFile_raise p env fuel filename s0 s1 s2 pre post line e hf hpre hr).2 hs, ?_⟩
  intro e2 he2
  rw [playFile_eq p env fuel filename s0 _ hf] at he2
  exact atEnd_raised _ e2 (playLines_never_raised p env fuel hs _ _) he2

/-- Witness for C4 as amended: the run of the counterexample. -/
theorem retry_exhausted_is_logged_and_skipped_witness :
    playFile ⟨1, .RETRY, 1⟩ (world nakBus twoWrites) 1 [] fresh =
      atEnd (playLines ⟨1, .RETRY, 1⟩ (world nakBus twoWrites) 1 ["WRITE1,0x11,0xBB".toList]
        (logged "Failed to write I2C data after retries"
          (tryBlock ⟨1, .RETRY, 1⟩ (world nakBus twoWrites) 1 "WRITE1,0x10,0xAA".toList
            { afterHeader with line_number := 2 }).2)) :=
  (retry_exhausted_is_logged_and_skipped ⟨1, .RETRY, 1⟩ (world nakBus twoWrites) 1 [] fresh
    afterHeader _ ["command,addr,data".toList] ["WRITE1,0x11,0xBB".toList]
    "WRITE1,0x10,0xAA".toList "WRITE1".toList ["0x10".toList, "0xAA".toList]
    "Failed to write I2C data after retries" rfl rfl rfl rfl rfl rfl (by decide) (by decide)
    rfl).1

/-- Counterexample to C7: under Continue the unknown verb on line 2 raises and is logged, and
playFile nevertheless processes line 3 and returns normally. -/
theorem unknown_verb_run_goes_on :
    (tryBlock ⟨1, .CONTINUE, 3⟩ (world ackBus bogusScript) 1 "BOGUS".toList
      { afterHeader with line_number := 2 }).1 = .raised "Unknown command: BOGUS" ∧
    (playFile ⟨1, .CONTINUE, 3⟩ (world ackBus bogusScript) 1 [] fresh).1 = .done () ∧
    (playFile ⟨1, .CONTINUE, 3⟩ (world ackBus bogusScript) 1 [] fresh).2.trace =
      [Ev.cerr "Error at line 2: Unknown command: BOGUS\n",
       Ev.ioctl 16 0, Ev.write 16 [170] 1 0, Ev.fsync, Ev.sleep 1] := by
  refine ⟨rfl, rfl, ?_⟩
  decide

/-- C7 as amended: a top-level line that fails with a poll timeout, an unknown verb, a wrong
field count, a LOOP inside an open loop or an ENDLOOP with no open loop raises; under Stop
playFile logs the error and ends with it, no later line being processed; under Retry and
Continue playFile logs it and goes on with the lines that follow. -/
theorem script_fault_aborts_under_stop_only (p : Config) (env : Env) (fuel : Nat)
    (filename : Str) (s0 s1 s2 : State) (pre post : List Str) (line cmd : Str)
    (args : List Str) (e : String)
    (hf : env.script filename = some (pre ++ line :: post))
    (hpre : playLines p env fuel pre (enter filename s0) = (.done (), s1))
    (hskip : skipLine line = false) (hh : s1.header_skipped = true)
    (ht : tokenize line = cmd :: args)
    (hfault : ScriptFault p env fuel { s1 with line_number := s1.line_number + 1 } cmd args
      e s2) :
    Raises p env fuel line s1 e s2 ∧
    (p.error_action = .STOP → playFile p env fuel filename s0 = (.raised e, logged e s2)) ∧
    (p.error_action ≠ .STOP →
      playFile p env fuel filename s0 = atEnd (playLines p env fuel post (logged e s2))) := by
  have hr : Raises p env fuel line s1 e s2 := by
    refine ⟨hskip, hh, ?_⟩
    unfold tryBlock
    rw [ht]
    exact scriptFault_raises p env fuel line cmd args _ s2 e hfault
  exact ⟨hr, playFile_raise p env fuel filename s0 s1 s2 pre post line e hf hpre hr⟩

/-- Witness for C7 as amended: the unknown verb of the counterexample under Stop. -/
theorem script_fault_aborts_under_stop_only_witness :
    playFile ⟨1, .STOP, 3⟩ (world ackBus bogusScript) 1 [] fresh =
      (.raised "Unknown command: BOGUS",
        logged "Unknown command: BOGUS" { afterHeader with line_number := 2 }) :=
  (script_fault_aborts_under_stop_only ⟨1, .STOP, 3⟩ (world ackBus bogusScript) 1 [] fresh
    afterHeader { afterHeader with line_number := 2 } ["command,addr,data".toList]
    ["WRITE1,0x10,0xAA".toList] "BOGUS".toList "BOGUS".toList [] "Unknown command: BOGUS"
    rfl rfl rfl rfl rfl (ScriptFault.unknownVerb _ _ rfl (by decide))).2.1 rfl

theorem deadBus_selectFails : SelectFails deadBus := fun _ _ => by
  show (-1 : Int) < 0
  decide

/-- Counterexample to C6: under Continue with one retry, on a device whose address selection
always fails, writeByte selects the address a second time after the back-off sleep before it
raises, and playFile, far from aborting, logs the error of line 2, processes line 3 (address
0x11 is selected) and returns normally. -/
theorem select_failure_retried_and_passed :
    writeByte ⟨1, .CONTINUE, 1⟩ deadBus 16 0 1 [] =
      (.error "Failed to set I2C slave address",
        [Ev.ioctl 16 (-1), Ev.sleep 2, Ev.ioctl 16 (-1)]) ∧
    (playFile ⟨1, .CONTINUE, 1⟩ (world deadBus twoWrites) 1 [] fresh).1 = .done () ∧
    (playFile ⟨1, .CONTINUE, 1⟩ (world deadBus twoWrites) 1 [] fresh).2.trace =
      [Ev.ioctl 16 (-1), Ev.sleep 2, Ev.ioctl 16 (-1),
       Ev.cerr "Error at line 2: Failed to set I2C slave address\n",
       Ev.ioctl 17 (-1), Ev.sleep 2, Ev.ioctl 17 (-1),
       Ev.cerr "Error at line 3: Failed to set I2C slave address\n"] := by
  refine ⟨rfl, rfl, ?_⟩
  decide

theorem retryLoop_select_fails {α : Type} (p : Config) (body : Int → Trace → Attempt α × Trace)
    (fm e : String) (tr : Trace) (hR : 0 ≤ p.retry_count)
    (hb : ∀ a t, ∃ ev, isSelect ev = true ∧ isTransfer ev = false ∧
      body a t = (.thrown e, t ++ [ev])) :
    (retryLoop p body fm (p.retry_count + 1).toNat 0 tr).1 = .error e ∧
    (selects (retryLoop p body fm (p.retry_count + 1).toNat 0 tr).2 : Int) =
      selects tr + (p.retry_count + 1) ∧
    transfers (retryLoop p body fm (p.retry_count + 1).toNat 0 tr).2 = transfers tr := by
  have h1 : ∀ a t, (body a t).1 = .thrown e := by
    intro a t
    obtain ⟨ev, -, -, h⟩ := hb a t
    rw [h]
  have h2 : ∀ a t, selects (body a t).2 = selects t + 1 := by
    intro a t
    obtain ⟨ev, hs, -, h⟩ := hb a t
    rw [h]
    simp [hs]
  have h3 : ∀ a t, transfers (body a t).2 = transfers t + 0 := by
    intro a t
    obtain ⟨ev, -, ht, h⟩ := hb a t
    rw [h]
    simp [ht]
  have hc := toNat_succ_cast _ hR
  refine ⟨retryLoop_all_thrown p body fm e h1 _ 0 tr hc (by omega), ?_, ?_⟩
  · have := (retryLoop_exhaust p body fm selects 1 (by intro t ms; simp [isSelect])
      (fun a t => Or.inl ⟨e, h1 a t⟩) h2 _ 0 tr hc).2
    rw [this]
    push_cast
    omega
  · have := (retryLoop_exhaust p body fm transfers 0 (by intro t ms; simp [isTransfer])
      (fun a t => Or.inl ⟨e, h1 a t⟩) h3 _ 0 tr hc).2
    rw [this]
    simp

/-- C6 as amended: a failing address selection is retried like any other exception of an
attempt. For Retry and Continue and every retry_count = R >= 0, on a device whose address
selection always fails each transport operation raises the address-select error only after
R+1 selections, without issuing any transfer. When the transport operation of a top-level
bus command raises, playFile aborts the run under Stop only; under Retry and Continue it
logs the error and goes on with the lines that follow. -/
theorem select_failure_retried_abort_under_stop_only :
    (∀ (p : Config) (bus : Bus) (addr reg data : Nat) (tr : Trace),
      p.error_action ≠ .STOP → 0 ≤ p.retry_count → SelectFails bus →
      ((readByte p bus addr reg tr).1 = .error "Failed to set I2C slave address for reading" ∧
        (selects (readByte p bus addr reg tr).2 : Int) = selects tr + (p.retry_count + 1) ∧
        transfers (readByte p bus addr reg tr).2 = transfers tr) ∧
      ((writeByte p bus addr reg data tr).1 = .error "Failed to set I2C slave address" ∧
        (selects (writeByte p bus addr reg data tr).2 : Int) =
          selects tr + (p.retry_count + 1) ∧
        transfers (writeByte p bus addr reg data tr).2 = transfers tr) ∧
      ((writeSingleByte p bus addr data tr).1 = .error "Failed to set I2C slave address" ∧
        (selects (writeSingleByte p bus addr data tr).2 : Int) =
          selects tr + (p.retry_count + 1) ∧
        transfers (writeSingleByte p bus addr data tr).2 = transfers tr) ∧
      ((write16Bit p bus addr reg data tr).1 = .error "Failed to set I2C slave address" ∧
        (selects (write16Bit p bus addr reg data tr).2 : Int) =
          selects tr + (p.retry_count + 1) ∧
        transfers (write16Bit p bus addr reg data tr).2 = transfers tr)) ∧
    (∀ (p : Config) (env : Env) (fuel : Nat) (filename : Str) (s0 s1 s2 : State)
      (pre post : List Str) (line cmd : Str) (args : List Str) (e : String),
      env.script filename = some (pre ++ line :: post) →
      playLines p env fuel pre (enter filename s0) = (.done (), s1) →
      skipLine line = false → s1.header_skipped = true → s1.in_loop = false →
      tokenize line = cmd :: args → cmd ∈ busVerbs →
      busCommand p env fuel cmd args { s1 with line_number := s1.line_number + 1 } =
        (.raised e, s2) →
      (p.error_action = .STOP → playFile p env fuel filename s0 = (.raised e, logged e s2)) ∧
      (p.error_action ≠ .STOP →
        playFile p env fuel filename s0 = atEnd (playLines p env fuel post (logged e s2)))) := by
  constructor
  · intro p bus addr reg data tr _ hR hf
    have kw : ∀ (buf : List Nat) (op msg fm : String) (sync : Bool),
        (retryLoop p (writeAttempt p bus addr buf op msg sync) fm
          (p.retry_count + 1).toNat 0 tr).1 = .error "Failed to set I2C slave address" ∧
        (selects (retryLoop p (writeAttempt p bus addr buf op msg sync) fm
          (p.retry_count + 1).toNat 0 tr).2 : Int) = selects tr + (p.retry_count + 1) ∧
        transfers (retryLoop p (writeAttempt p bus addr buf op msg sync) fm
          (p.retry_count + 1).toNat 0 tr).2 = transfers tr := by
      intro buf op msg fm sync
      exact retryLoop_select_fails p _ fm _ tr hR (fun a t =>
        ⟨Ev.ioctl addr (bus.ioctl t addr), rfl, rfl,
          writeAttempt_select_fails p bus addr buf op msg sync a t hf⟩)
    refine ⟨?_, kw _ _ _ _ _, kw _ _ _ _ _, kw _ _ _ _ _⟩
    exact retryLoop_select_fails p _ _ _ tr hR (fun a t =>
      ⟨Ev.ioctl addr (bus.ioctl t addr), rfl, rfl,
        readByteAttempt_select_fails p bus addr reg a t hf⟩)
  · intro p env fuel filename s0 s1 s2 pre post line cmd args e hf hpre hskip hh hin ht hc hb
    have hr : Raises p env fuel line s1 e s2 := by
      refine ⟨hskip, hh, ?_⟩
      unfold tryBlock
      rw [ht]
      simp only
      rw [command_bus p env fuel line cmd args { s1 with line_number := s1.line_number + 1 } hin
        (busVerbs_checked cmd hc), hb]
    exact playFile_raise p env fuel filename s0 s1 s2 pre post line e hf hpre hr

/-- Witness for C6 as amended: Retry with two retries on the device whose selection fails. -/
theorem select_failure_retried_abort_under_stop_only_witness :
    (writeByte ⟨1, .RETRY, 2⟩ deadBus 16 0 1 []).1 = .error "Failed to set I2C slave address" ∧
    (selects (writeByte ⟨1, .RETRY, 2⟩ deadBus 16 0 1 []).2 : Int) = selects [] + (2 + 1) ∧
    transfers (writeByte ⟨1, .RETRY, 2⟩ deadBus 16 0 1 []).2 = transfers [] :=
  (select_failure_retried_abort_under_stop_only.1 ⟨1, .RETRY, 2⟩ deadBus 16 0 1 [] (by decide)
    (by decide) deadBus_selectFails).2.1

theorem getlineAll_eq_nil (d : Char) (s : Str) (h : getlineAll d s = []) : s = [] := by
  cases s with
  | nil => rfl
  | cons c cs =>
    unfold getlineAll at h
    split at h
    · simp at h
    · split at h <;> simp at h

/-- The first piece read from a line is a leading part of the line. -/
theorem getlineAll_head (d : Char) :
    ∀ (s t0 : Str) (ts : List Str), getlineAll d s = t0 :: ts → ∃ r, s = t0 ++ r := by
  intro s
  induction s with
  | nil => intro t0 ts h; simp [getlineAll] at h
  | cons c cs ih =>
    intro t0 ts h
    unfold getlineAll at h
    split at h
    · simp only [List.cons.injEq] at h
      exact ⟨c :: cs, by rw [← h.1]; rfl⟩
    · split at h
      · rename_i hnil
        simp only [List.cons.injEq] at h
        have := getlineAll_eq_nil d cs hnil
        subst this
        exact ⟨[], by rw [← h.1]; rfl⟩
      · rename_i t ts2 hcons
        simp only [List.cons.injEq] at h
        obtain ⟨r, hr⟩ := ih t ts2 hcons
        exact ⟨r, by rw [← h.1, hr]; rfl⟩

theorem dropWhile_snoc_neg (q : Char → Bool) (l : Str) (x : Char) (hx : q x = false) :
    (l ++ [x]).dropWhile q = l.dropWhile q ++ [x] := by
  induction l with
  | nil => simp [List.dropWhile, hx]
  | cons a as ih =>
    by_cases ha : q a = true
    · simp [List.dropWhile, ha, ih]
    · simp [List.dropWhile, ha]

/-- The trimmed text starts with the first character outside the trim set. -/
theorem trim_of_dropWhile (s m : Str) (x : Char) (hx : isTrimChar x = false)
    (h : s.dropWhile isTrimChar = x :: m) :
    trim s = x :: ((m.reverse.dropWhile isTrimChar).reverse) := by
  unfold trim
  rw [h, List.reverse_cons, dropWhile_snoc_neg _ _ _ hx, List.reverse_append]
  rfl

theorem dropWhile_head_neg (q : Char → Bool) :
    ∀ (s m : Str) (x : Char), s.dropWhile q = x :: m → q x = false := by
  intro s
  induction s with
  | nil => intro m x h; simp at h
  | cons a as ih =>
    intro m x h
    by_cases ha : q a = true
    · rw [List.dropWhile_cons_of_pos ha] at h
      exact ih m x h
    · rw [List.dropWhile_cons_of_neg ha] at h
      simp only [List.cons.injEq] at h
      rw [← h.1]
      simpa using ha

theorem trim_head (s cs : Str) (c : Char) (h : trim s = c :: cs) :
    ∃ m, s.dropWhile isTrimChar = c :: m ∧ isTrimChar c = false := by
  cases hd : s.dropWhile isTrimChar with
  | nil => simp [trim, hd] at h
  | cons x m =>
    have hx := dropWhile_head_neg _ s m x hd
    rw [trim_of_dropWhile s m x hx hd] at h
    simp only [List.cons.injEq] at h
    exact ⟨m, by rw [h.1], by rw [← h.1]; exact hx⟩

/-- A line whose first token starts with a character other than `#` is not skipped. -/
theorem skipLine_of_tokens (line cs : Str) (c : Char) (rest : List Str)
    (h : tokenize line = (c :: cs) :: rest) (hc : c ≠ '#') : skipLine line = false := by
  unfold tokenize at h
  cases hg : getlineAll ',' line with
  | nil => rw [hg] at h; simp at h
  | cons t0 ts =>
    rw [hg] at h
    simp only [List.map_cons, List.cons.injEq] at h
    obtain ⟨r, hr⟩ := getlineAll_head ',' line t0 ts hg
    obtain ⟨m, hm, hx⟩ := trim_head t0 cs c h.1
    have hline : line.dropWhile isTrimChar = c :: (m ++ r) := by
      rw [hr, List.dropWhile_append, hm]
      simp
    have htrim := trim_of_dropWhile line (m ++ r) c hx hline
    unfold skipLine
    rw [htrim]
    have hne : line ≠ [] := by
      intro h0
      rw [h0] at hline
      simp at hline
    cases line with
    | nil => exact absurd rfl hne
    | cons a as => simpa using hc

theorem playLine_header (p : Config) (env : Env) (fuel : Nat) (line : Str) (s : State)
    (hskip : skipLine line = false) (hh : s.header_skipped = false) :
    playLine p env fuel line s =
      (.done (), { s with line_number := s.line_number + 1, header_skipped := true }) := by
  unfold playLine
  simp [hskip, hh]

theorem playLine_command (p : Config) (env : Env) (fuel : Nat) (line cmd : Str)
    (args : List Str) (s : State) (hskip : skipLine line = false)
    (hh : s.header_skipped = true) (ht : tokenize line = cmd :: args) :
    playLine p env fuel line s =
      match command p env fuel line cmd args { s with line_number := s.line_number + 1 } with
      | (.raised e, s2) => catchLine p e s2
      | r => r := by
  unfold playLine
  simp only [hskip, hh]
  simp only [Bool.false_eq_true, if_false, Bool.true_eq_false]
  unfold tryBlock
  rw [ht]

/-- An accepted `LOOP` line opens the loop block, records the count and empties the buffer. -/
theorem playLine_loop (p : Config) (env : Env) (fuel : Nat) (line t : Str) (n : Int)
    (s : State) (hh : s.header_skipped = true) (hin : s.in_loop = false)
    (ht : tokenize line = ["LOOP".toList, t]) (hn : stoi t 10 = .ok n) :
    playLine p env fuel line s =
      (.done (), { s with line_number := s.line_number + 1, in_loop := true, loop_count := n,
                           loop_sequence := [] }) := by
  rw [playLine_command p env fuel line _ _ s (skipLine_of_tokens line _ _ _ ht (by decide)) hh ht]
  unfold command
  rw [if_pos rfl]
  unfold cmdLoop
  simp [hin, hn]

/-- Inside a loop block a line whose verb is not a control verb is appended to the buffer and
nothing else happens. -/
theorem playLine_buffer (p : Config) (env : Env) (fuel : Nat) (line cmd : Str)
    (args : List Str) (s : State) (hskip : skipLine line = false)
    (hh : s.header_skipped = true) (hin : s.in_loop = true)
    (ht : tokenize line = cmd :: args) (hc : cmd ∉ controlVerbs) :
    playLine p env fuel line s =
      (.done (), { s with line_number := s.line_number + 1,
                           loop_sequence := s.loop_sequence ++ [line] }) := by
  rw [playLine_command p env fuel line cmd args s hskip hh ht]
  simp only [controlVerbs, List.mem_cons, List.mem_singleton, not_or, List.not_mem_nil,
    or_false] at hc
  obtain ⟨h1, h2, h3, h4, h5⟩ := hc
  unfold command
  rw [if_neg h1, if_neg h2, if_neg h3, if_neg h4, if_neg h5]
  unfold cmdOther
  simp [hin]

theorem write1Of_tokens (line : Str) (w : Nat × Nat) (h : write1Of line = some w) :
    ∃ args, tokenize line = "WRITE1".toList :: args ∧ parseWrite1 args = .ok w := by
  unfold write1Of at h
  split at h
  · rename_i cmd args ht
    split at h
    · rename_i hc
      split at h
      · rename_i w2 hp
        simp only [Option.some.injEq] at h
        subst h
        subst hc
        exact ⟨args, ht, hp⟩
      · simp at h
    · simp at h
  · simp at h

/-- Inside a loop block well-formed `WRITE1` lines are buffered in order without any event. -/
theorem playLines_buffer_writes (p : Config) (env : Env) (fuel : Nat) :
    ∀ (body : List Str) (ws : List (Nat × Nat)) (s : State),
      body.map write1Of = ws.map some → s.header_skipped = true → s.in_loop = true →
      playLines p env fuel body s =
        (.done (), { s with line_number := s.line_number + body.length,
                             loop_sequence := s.loop_sequence ++ body }) := by
  intro body
  induction body with
  | nil => intro ws s _ _ _; simp [playLines]
  | cons b bs ih =>
    intro ws s hmap hh hin
    cases ws with
    | nil => simp at hmap
    | cons w ws2 =>
      simp only [List.map_cons, List.cons.injEq] at hmap
      obtain ⟨args, ht, -⟩ := write1Of_tokens b w hmap.1
      have hstep := playLine_buffer p env fuel b _ args s
        (skipLine_of_tokens b _ _ _ ht (by decide)) hh hin ht (by decide)
      unfold playLines
      rw [hstep]
      simp only
      rw [ih ws2 { s with line_number := s.line_number + 1,
                          loop_sequence := s.loop_sequence ++ [b] } hmap.2 hh hin]
      simp [Nat.add_assoc, Nat.add_comm 1]

/-- An `ENDLOOP` line inside a loop block closes the block and runs the buffered sequence. -/
theorem playLine_endloop (p : Config) (env : Env) (fuel : Nat) (line : Str) (s : State)
    (hh : s.header_skipped = true) (hin : s.in_loop = true)
    (hv : verb line = some "ENDLOOP".toList) :
    playLine p env fuel line s =
      match liftBus { s with line_number := s.line_number + 1, in_loop := false }
        (executeSequence p env.bus s.loop_sequence s.loop_count s.trace) with
      | (.raised e, s2) => catchLine p e s2
      | r => r := by
  unfold verb at hv
  cases ht : tokenize line with
  | nil => rw [ht] at hv; simp at hv
  | cons cmd args =>
    rw [ht] at hv
    simp only [List.head?_cons, Option.some.injEq] at hv
    subst hv
    rw [playLine_command p env fuel line _ args s
      (skipLine_of_tokens line _ _ _ ht (by decide)) hh ht]
    unfold command
    rw [if_neg (by decide), if_pos rfl]
    unfold cmdEndloop
    simp [hin]

@[simp] theorem rawWrites_append (a b : Trace) : rawWrites (a ++ b) = rawWrites a ++ rawWrites b := by
  simp [rawWrites]

theorem writeAttempt_ack (p : Config) (bus : Bus) (addr : Nat) (buf : List Nat)
    (op msg : String) (sync : Bool) (a : Int) (tr : Trace) (hack : AcksAll bus) :
    writeAttempt p bus addr buf op msg sync a tr =
      (.ret (), (tr ++ [Ev.ioctl addr (bus.ioctl tr addr)] ++
        [Ev.write addr buf (bus.write (tr ++ [Ev.ioctl addr (bus.ioctl tr addr)]) addr buf).ret
          (bus.write (tr ++ [Ev.ioctl addr (bus.ioctl tr addr)]) addr buf).errno]) ++
        (if sync then [Ev.fsync] else [])) := by
  unfold writeAttempt
  simp only
  rw [if_neg (not_lt.mpr (hack.1 tr addr)), if_neg (not_not.mpr (hack.2.1 _ _ _))]
  cases sync <;> simp

/-- On a device that acknowledges everything a raw write succeeds at the first attempt and is
the only transfer of the operation. -/
theorem writeSingleByte_ack (p : Config) (bus : Bus) (addr data : Nat) (tr : Trace)
    (hR : 0 ≤ p.retry_count) (hack : AcksAll bus) :
    (writeSingleByte p bus addr data tr).1 = .ok () ∧
    rawWrites (writeSingleByte p bus addr data tr).2 = rawWrites tr ++ [(addr, data)] ∧
    transfers (writeSingleByte p bus addr data tr).2 = transfers tr + 1 := by
  have h := writeAttempt_ack p bus addr [data] "write" "Failed to write I2C data after retries"
    true 0 tr hack
  unfold writeSingleByte
  rw [retryLoop_first_ret p _ _ tr () hR (by rw [h])]
  rw [h]
  simp [rawWrites, isTransfer]

theorem sequenceLine_write1 (p : Config) (bus : Bus) (line : Str) (w : Nat × Nat) (tr : Trace)
    (hR : 0 ≤ p.retry_count) (hack : AcksAll bus) (hw : write1Of line = some w) :
    (sequenceLine p bus line tr).1 = .ok () ∧
    rawWrites (sequenceLine p bus line tr).2 = rawWrites tr ++ [w] ∧
    transfers (sequenceLine p bus line tr).2 = transfers tr + 1 := by
  obtain ⟨args, ht, hp⟩ := write1Of_tokens line w hw
  obtain ⟨h1, h2, h3⟩ := writeSingleByte_ack p bus w.1 w.2 tr hR hack
  unfold sequenceLine
  rw [ht]
  simp only
  unfold sequenceCommand
  rw [if_pos rfl, hp]
  simp only
  rcases hr : writeSingleByte p bus w.1 w.2 tr with ⟨r, tr1⟩
  rw [hr] at h1 h2 h3
  simp only at h1 h2 h3
  subst h1
  have hs : rawWrites [Ev.sleep p.i2c_wait_ms] = [] := rfl
  simp [h2, h3, hs, isTransfer]

theorem sequencePass_writes (p : Config) (bus : Bus) (hR : 0 ≤ p.retry_count)
    (hack : AcksAll bus) :
    ∀ (body : List Str) (ws : List (Nat × Nat)) (tr : Trace),
      body.map write1Of = ws.map some →
      (sequencePass p bus body tr).1 = .ok () ∧
      rawWrites (sequencePass p bus body tr).2 = rawWrites tr ++ ws ∧
      transfers (sequencePass p bus body tr).2 = transfers tr + ws.length := by
  intro body
  induction body with
  | nil =>
    intro ws tr h
    cases ws with
    | nil => simp [sequencePass]
    | cons w ws2 => simp at h
  | cons b bs ih =>
    intro ws tr h
    cases ws with
    | nil => simp at h
    | cons w ws2 =>
      simp only [List.map_cons, List.cons.injEq] at h
      obtain ⟨h1, h2, h3⟩ := sequenceLine_write1 p bus b w tr hR hack h.1
      unfold sequencePass
      rcases hr : sequenceLine p bus b tr with ⟨r, tr1⟩
      rw [hr] at h1 h2 h3
      simp only at h1 h2 h3
      subst h1
      simp only
      obtain ⟨i1, i2, i3⟩ := ih ws2 tr1 h.2
      refine ⟨i1, ?_, ?_⟩
      · rw [i2, h2]; simp
      · rw [i3, h3, List.length_cons]; omega

theorem sequencePasses_writes (p : Config) (bus : Bus) (hR : 0 ≤ p.retry_count)
    (hack : AcksAll bus) (body : List Str) (ws : List (Nat × Nat))
    (hb : body.map write1Of = ws.map some) :
    ∀ (n : Nat) (tr : Trace),
      (sequencePasses p bus body n tr).1 = .ok () ∧
      rawWrites (sequencePasses p bus body n tr).2 =
        rawWrites tr ++ (List.replicate n ws).flatten ∧
      transfers (sequencePasses p bus body n tr).2 = transfers tr + n * ws.length := by
  intro n
  induction n with
  | zero => intro tr; simp [sequencePasses]
  | succ k ih =>
    intro tr
    obtain ⟨h1, h2, h3⟩ := sequencePass_writes p bus hR hack body ws tr hb
    unfold sequencePasses
    rcases hr : sequencePass p bus body tr with ⟨r, tr1⟩
    rw [hr] at h1 h2 h3
    simp only at h1 h2 h3
    subst h1
    simp only
    obtain ⟨i1, i2, i3⟩ := ih tr1
    refine ⟨i1, ?_, ?_⟩
    · rw [i2, h2, List.replicate_succ, List.flatten_cons]; simp
    · rw [i3, h3, Nat.succ_mul]; omega

theorem playLines_loop_open (p : Config) (env : Env) (fuel : Nat) (filename : Str) (s0 : State)
    (header loopLine t : Str) (n : Int) (body : List Str) (ws : List (Nat × Nat))
    (hhead : skipLine header = false)
    (hloop : tokenize loopLine = ["LOOP".toList, t]) (hn : stoi t 10 = .ok n)
    (hbody : body.map write1Of = ws.map some) :
    playLines p env fuel (header :: loopLine :: body) (enter filename s0) =
      (.done (), loopOpen filename s0 n body) := by
  unfold playLines
  rw [playLine_header p env fuel header _ hhead rfl]
  simp only
  unfold playLines
  rw [playLine_loop p env fuel loopLine t n _ rfl rfl hloop hn]
  simp only
  rw [playLines_buffer_writes p env fuel body ws _ hbody rfl rfl]
  simp [loopOpen, enter]

theorem ackBus_acksAll : AcksAll ackBus :=
  ⟨fun _ _ => le_refl (0 : Int), fun _ _ _ => rfl, fun _ _ => rfl⟩

theorem logged_fields (e : String) (s : State) :
    (logged e s).header_skipped = s.header_skipped ∧ (logged e s).in_loop = s.in_loop :=
  ⟨rfl, rfl⟩

theorem playLine_headerBeforeLoop (p : Config) (env : Env) (fuel : Nat) (line : Str)
    (s : State) (h : HeaderBeforeLoop s) : HeaderBeforeLoop (playLine p env fuel line s).2 := by
  unfold playLine
  simp only
  split
  · exact h
  · split
    · intro _; rfl
    · rename_i hh
      have hh2 : s.header_skipped = true := by simpa using hh
      have hc := (tryBlock_cursor p env fuel line { s with line_number := s.line_number + 1 }).2.1
      rcases hr : tryBlock p env fuel line { s with line_number := s.line_number + 1 }
        with ⟨o, s1⟩
      rw [hr] at hc
      simp only at hc
      have h1 : s1.header_skipped = true := by rw [hc, hh2]
      cases o with
      | done u => intro _; exact h1
      | raised e => simp only [catchLine]; split <;> intro _ <;> exact h1
      | stuck => intro _; exact h1

theorem playLines_headerBeforeLoop (p : Config) (env : Env) (fuel : Nat) :
    ∀ (lines : List Str) (s : State), HeaderBeforeLoop s →
      HeaderBeforeLoop (playLines p env fuel lines s).2 := by
  intro lines
  induction lines with
  | nil => intro s h; exact h
  | cons l ls ih =>
    intro s h
    have hl := playLine_headerBeforeLoop p env fuel l s h
    unfold playLines
    rcases hr : playLine p env fuel l s with ⟨o, s1⟩
    rw [hr] at hl
    cases o with
    | done u => exact ih s1 hl
    | raised e => exact hl
    | stuck => exact hl

theorem enter_headerBeforeLoop (filename : Str) (s0 : State) :
    HeaderBeforeLoop (enter filename s0) := by
  intro h
  simp [enter] at h

/-- C9: whatever the error policy, a well-formed LOOP,m line read while a loop block is open
(in any state `s` that playFile reaches with the block open) raises the nested-loop error out
of its try block and changes nothing: the step leaves the state as it was apart from the line
counter and the logged error line, so the block stays open, the pending count and the loop
buffer are unchanged and the rejected line is not buffered. Under Stop the error ends
playFile; under Retry and Continue the loop over the lines goes on. -/
theorem nested_loop_rejected_unchanged (p : Config) (env : Env) (fuel : Nat) (filename : Str)
    (s0 s : State) (pre : List Str) (line m : Str)
    (hpre : playLines p env fuel pre (enter filename s0) = (.done (), s))
    (hin : s.in_loop = true)
    (ht : tokenize line = ["LOOP".toList, m]) :
    Raises p env fuel line s "Nested loops not supported"
      { s with line_number := s.line_number + 1 } ∧
    (playLine p env fuel line s).1 =
      (if p.error_action = .STOP then .raised "Nested loops not supported" else .done ()) ∧
    (playLine p env fuel line s).2 =
      logged "Nested loops not supported" { s with line_number := s.line_number + 1 } ∧
    (playLine p env fuel line s).2.in_loop = true ∧
    (playLine p env fuel line s).2.loop_count = s.loop_count ∧
    (playLine p env fuel line s).2.loop_sequence = s.loop_sequence ∧
    (playLine p env fuel line s).2.record_buffer = s.record_buffer ∧
    (playLine p env fuel line s).2.record_capacity = s.record_capacity ∧
    (playLine p env fuel line s).2.recording = s.recording := by
  have hinv := playLines_headerBeforeLoop p env fuel pre (enter filename s0)
    (enter_headerBeforeLoop filename s0)
  rw [hpre] at hinv
  have hh : s.header_skipped = true := hinv hin
  have hskip : skipLine line = false := skipLine_of_tokens line _ _ _ ht (by decide)
  have hr : Raises p env fuel line s "Nested loops not supported"
      { s with line_number := s.line_number + 1 } := by
    refine ⟨hskip, hh, ?_⟩
    unfold tryBlock
    rw [ht]
    exact scriptFault_raises p env fuel line _ _ _ _ _ (ScriptFault.nestedLoop m hin)
  have hstep := playLine_of_raises p env fuel line s _ _ hr
  rw [hstep]
  unfold catchLine
  by_cases hs : p.error_action = .STOP
  · rw [if_pos hs]
    exact ⟨hr, by rw [if_pos hs], rfl, hin, rfl, rfl, rfl, rfl, rfl⟩
  · rw [if_neg hs]
    exact ⟨hr, by rw [if_neg hs], rfl, hin, rfl, rfl, rfl, rfl, rfl⟩

/-- Witness for C9: a second LOOP line after header and LOOP,3, under Continue. -/
theorem nested_loop_rejected_unchanged_witness :
    (playLine ⟨1, .CONTINUE, 3⟩ (world ackBus []) 1 "LOOP,5".toList inLoop3).2 =
      logged "Nested loops not supported" { inLoop3 with line_number := 3 } :=
  (nested_loop_rejected_unchanged ⟨1, .CONTINUE, 3⟩ (world ackBus []) 1 [] fresh inLoop3
    ["command,addr,data".toList, "LOOP,3".toList] "LOOP,5".toList "5".toList rfl rfl rfl).2.2.1

theorem catchLine_in_loop (p : Config) (e : String) (s : State) :
    (catchLine p e s).2.in_loop = s.in_loop ∧ (catchLine p e s).1 ≠ .stuck := by
  unfold catchLine
  split <;> simp [logged]

theorem command_stays_in_loop (p : Config) (env : Env) (fuel : Nat) (line cmd : Str)
    (args : List Str) (s : State) (hin : s.in_loop = true) (hc : cmd ≠ "ENDLOOP".toList) :
    (command p env fuel line cmd args s).2.in_loop = true ∧
    (command p env fuel line cmd args s).1 ≠ .stuck := by
  unfold command
  split_ifs with h1 h3 h4 h5
  · unfold cmdLoop
    split
    · simp [hin]
    · simp [hin]
  · have := cmdStartRecord_cursor args s
    exact ⟨by rw [this.2.1, hin], this.2.2⟩
  · simp [hin]
  · have := cmdPrintRecord_cursor args s
    exact ⟨by rw [this.2.1, hin], this.2.2⟩
  · unfold cmdOther
    simp [hin]

/-- While a loop block is open, a line whose verb is not `ENDLOOP` leaves it open, and the
step never depends on the polling bound. -/
theorem playLine_stays_in_loop (p : Config) (env : Env) (fuel : Nat) (line : Str) (s : State)
    (hin : s.in_loop = true) (hv : verb line ≠ some "ENDLOOP".toList) :
    (playLine p env fuel line s).2.in_loop = true ∧ (playLine p env fuel line s).1 ≠ .stuck := by
  unfold playLine
  simp only
  split
  · simp [hin]
  · split
    · simp [hin]
    · unfold tryBlock
      cases ht : tokenize line with
      | nil => simp [hin]
      | cons cmd args =>
        have hc : cmd ≠ "ENDLOOP".toList := by
          intro h
          apply hv
          unfold verb
          rw [ht, h]
          rfl
        have h := command_stays_in_loop p env fuel line cmd args
          { s with line_number := s.line_number + 1 } hin hc
        simp only
        rcases hr : command p env fuel line cmd args { s with line_number := s.line_number + 1 }
          with ⟨o, s1⟩
        rw [hr] at h
        simp only at h
        cases o with
        | done u => exact h
        | raised e =>
          have := catchLine_in_loop p e s1
          exact ⟨by rw [this.1, h.1], this.2⟩
        | stuck => exact h

theorem playLines_stays_in_loop (p : Config) (env : Env) (fuel : Nat) :
    ∀ (lines : List Str) (s : State), s.in_loop = true →
      (∀ l ∈ lines, verb l ≠ some "ENDLOOP".toList) →
      (playLines p env fuel lines s).2.in_loop = true ∧
      (playLines p env fuel lines s).1 ≠ .stuck := by
  intro lines
  induction lines with
  | nil => intro s hin _; simp [playLines, hin]
  | cons l ls ih =>
    intro s hin hv
    have hl := playLine_stays_in_loop p env fuel l s hin (hv l (List.mem_cons_self _ _))
    unfold playLines
    rcases hr : playLine p env fuel l s with ⟨o, s1⟩
    rw [hr] at hl
    simp only at hl
    cases o with
    | done u => exact ih s1 hl.1 (fun x hx => hv x (List.mem_cons_of_mem _ hx))
    | raised e => exact hl
    | stuck => exact hl

/-- A `LOOP` line whose try block completes leaves the loop block open. -/
theorem tryBlock_loop_done (p : Config) (env : Env) (fuel : Nat) (line : Str) (s s1 : State)
    (hv : verb line = some "LOOP".toList)
    (hd : tryBlock p env fuel line s = (.done (), s1)) : s1.in_loop = true := by
  unfold verb at hv
  unfold tryBlock at hd
  cases ht : tokenize line with
  | nil => rw [ht] at hv; simp at hv
  | cons cmd args =>
    rw [ht] at hv hd
    simp only [List.head?_cons, Option.some.injEq] at hv
    subst hv
    simp only at hd
    unfold command at hd
    rw [if_pos rfl] at hd
    unfold cmdLoop at hd
    split at hd
    · split at hd
      · simp at hd
      · split at hd
        · simp at hd
        · simp only [Prod.mk.injEq, true_and] at hd
          rw [← hd]
    · simp at hd

theorem LineMsg.ne (e : String) (h : LineMsg e) : e ≠ "Unterminated LOOP in CSV" := by
  intro he
  apply h
  rw [he]
  rfl

theorem lineMsg_append (a b : String) (h : LineMsg a) (hl : 3 ≤ a.data.length) :
    LineMsg (a ++ b) := by
  unfold LineMsg at h ⊢
  rw [String.data_append, List.get?_eq_getElem?, List.getElem?_append_left (by omega)]
  rw [List.get?_eq_getElem?] at h
  exact h

theorem stoi_msg (s : Str) (base : Nat) (e : String) (h : stoi s base = .error e) :
    LineMsg e := by
  unfold stoi at h
  simp only at h
  split_ifs at h <;> (cases h; decide)

theorem hexToInt_msg (s : Str) (e : String) (h : hexToInt s = .error e) : LineMsg e := by
  unfold hexToInt at h
  exact stoi_msg _ _ _ h

theorem checkNAK_msg (p : Config) (n : Nat) (op : String) (tr : Trace) (e : String)
    (h : (checkNAK p n op tr).1 = .error e) : LineMsg e := by
  unfold checkNAK at h
  split at h
  · split at h
    · cases h; decide
    · simp at h
    · simp at h
  · simp at h

theorem nakBlock_msg {α : Type} (p : Config) (n : Nat) (op msg : String) (a : Int) (tr : Trace)
    (e : String) (hm : LineMsg msg)
    (h : (nakBlock (α := α) p n op msg a tr).1 = some (.thrown e)) : LineMsg e := by
  unfold nakBlock at h
  split at h
  · rename_i e1 tr1 hc
    simp only [Option.some.injEq, Attempt.thrown.injEq] at h
    subst h
    exact checkNAK_msg p n op tr e1 (by rw [hc])
  · split at h
    · simp at h
    · simp only [Option.some.injEq, Attempt.thrown.injEq] at h
      subst h
      exact hm
  · simp at h

theorem guard_msg {α : Type} (p : Config) (c : Prop) [Decidable c] (n : Nat) (op msg : String)
    (a : Int) (tr : Trace) (e : String) (hm : LineMsg msg)
    (h : (if c then nakBlock (α := α) p n op msg a tr else (none, tr)).1 = some (.thrown e)) :
    LineMsg e := by
  split at h
  · exact nakBlock_msg p n op msg a tr e hm h
  · simp at h

theorem writeAttempt_msg (p : Config) (bus : Bus) (addr : Nat) (buf : List Nat)
    (op msg : String) (sync : Bool) (a : Int) (tr : Trace) (e : String) (hm : LineMsg msg)
    (h : (writeAttempt p bus addr buf op msg sync a tr).1 = .thrown e) : LineMsg e := by
  unfold writeAttempt at h
  simp only at h
  split at h
  · cases h; decide
  · split at h
    · rename_i x tr3 hg
      simp only at h
      subst h
      exact guard_msg p _ _ op msg a _ e hm (by rw [hg])
    · simp at h

theorem readByteAttempt_msg (p : Config) (bus : Bus) (addr reg : Nat) (a : Int) (tr : Trace)
    (e : String) (h : (readByteAttempt p bus addr reg a tr).1 = .thrown e) : LineMsg e := by
  unfold readByteAttempt at h
  simp only at h
  split at h
  · cases h; decide
  · split at h
    · rename_i x tr3 hg
      simp only at h
      subst h
      exact guard_msg p _ _ "register write" "Failed to write register address after retries"
        a _ e (by decide) (by rw [hg])
    · split at h
      · rename_i x tr5 hg
        simp only at h
        subst h
        exact guard_msg p _ _ "data read" "Failed to read I2C data after retries" a _ e
          (by decide) (by rw [hg])
      · simp at h

theorem retryLoop_msg {α : Type} (p : Config) (body : Int → Trace → Attempt α × Trace)
    (fm : String) (hb : ∀ a tr e, (body a tr).1 = .thrown e → LineMsg e) (hf : LineMsg fm) :
    ∀ (left : Nat) (a : Int) (tr : Trace) (e : String),
      (retryLoop p body fm left a tr).1 = .error e → LineMsg e := by
  intro left
  induction left with
  | zero =>
    intro a tr e h
    simp only [retryLoop, Except.error.injEq] at h
    subst h
    exact hf
  | succ n ih =>
    intro a tr e h
    unfold retryLoop at h
    split at h
    · have hb2 := hb a tr
      rcases hr : body a tr with ⟨r, tr1⟩
      rw [hr] at h hb2
      cases r with
      | ret v => simp at h
      | again => exact ih _ _ e h
      | thrown e1 =>
        simp only at h
        split at h
        · simp only [Except.error.injEq] at h
          subst h
          exact hb2 e1 rfl
        · exact ih _ _ e h
    · simp only [Except.error.injEq] at h
      subst h
      exact hf

theorem readByte_msg (p : Config) (bus : Bus) (addr reg : Nat) (tr : Trace) (e : String)
    (h : (readByte p bus addr reg tr).1 = .error e) : LineMsg e :=
  retryLoop_msg p _ "Read failed after all retries"
    (fun a t e1 h1 => readByteAttempt_msg p bus addr reg a t e1 h1) (by decide) _ _ _ e h

theorem writeByte_msg (p : Config) (bus : Bus) (addr reg data : Nat) (tr : Trace) (e : String)
    (h : (writeByte p bus addr reg data tr).1 = .error e) : LineMsg e :=
  retryLoop_msg p _ "Write failed after all retries"
    (fun a t e1 h1 => writeAttempt_msg p bus addr _ _ "Failed to write I2C data after retries" _
      a t e1 (by decide) h1)
    (by decide) _ _ _ e h

theorem writeSingleByte_msg (p : Config) (bus : Bus) (addr data : Nat) (tr : Trace)
    (e : String) (h : (writeSingleByte p bus addr data tr).1 = .error e) : LineMsg e :=
  retryLoop_msg p _ "Write failed after all retries"
    (fun a t e1 h1 => writeAttempt_msg p bus addr _ _ "Failed to write I2C data after retries" _
      a t e1 (by decide) h1)
    (by decide) _ _ _ e h

theorem write16Bit_msg (p : Config) (bus : Bus) (addr reg data : Nat) (tr : Trace) (e : String)
    (h : (write16Bit p bus addr reg data tr).1 = .error e) : LineMsg e :=
  retryLoop_msg p _ "16-bit Write failed after all retries"
    (fun a t e1 h1 => writeAttempt_msg p bus addr _ _
      "Failed to write 16-bit I2C data after retries" _ a t e1 (by decide) h1)
    (by decide) _ _ _ e h

theorem parseWrite1_msg (args : List Str) (e : String) (h : parseWrite1 args = .error e) :
    LineMsg e := by
  unfold parseWrite1 at h
  repeat' split at h
  all_goals first
    | (cases h; first | decide | exact hexToInt_msg _ _ (by assumption))
    | simp at h

theorem parseDelay_msg (args : List Str) (e : String) (h : parseDelay args = .error e) :
    LineMsg e := by
  unfold parseDelay at h
  split at h
  · exact stoi_msg _ _ _ h
  · cases h; decide

theorem parseWrite_msg (args : List Str) (e : String) (h : parseWrite args = .error e) :
    LineMsg e := by
  unfold parseWrite at h
  repeat' split at h
  all_goals first
    | (cases h; first | decide | exact hexToInt_msg _ _ (by assumption))
    | simp at h

theorem parseWrite16_msg (args : List Str) (e : String) (h : parseWrite16 args = .error e) :
    LineMsg e := by
  unfold parseWrite16 at h
  repeat' split at h
  all_goals first
    | (cases h; first | decide | exact hexToInt_msg _ _ (by assumption))
    | simp at h

theorem parseRead_msg (args : List Str) (e : String) (h : parseRead args = .error e) :
    LineMsg e := by
  unfold parseRead at h
  repeat' split at h
  all_goals first
    | (cases h; first | decide | exact hexToInt_msg _ _ (by assumption))
    | simp at h

theorem parseFile_msg (args : List Str) (e : String) (h : parseFile args = .error e) :
    LineMsg e := by
  unfold parseFile at h
  repeat' split at h
  all_goals first
    | (cases h; first | decide | exact hexToInt_msg _ _ (by assumption))
    | simp at h

theorem parsePoll_msg (args : List Str) (e : String) (h : parsePoll args = .error e) :
    LineMsg e := by
  unfold parsePoll at h
  repeat' split at h
  all_goals first
    | (cases h; decide)
    | (cases h; exact hexToInt_msg _ _ (by assumption))
    | (cases h; exact stoi_msg _ _ _ (by assumption))
    | simp at h

theorem liftBus_msg (s : State) (r : Except String Unit × Trace) (e : String)
    (hr : ∀ e1, r.1 = .error e1 → LineMsg e1) (h : (liftBus s r).1 = .raised e) :
    LineMsg e := by
  unfold liftBus at h
  split at h
  · simp at h
  · rename_i e1 tr
    simp only [Outcome.raised.injEq] at h
    subst h
    exact hr e1 rfl

theorem writeAll_msg (p : Config) (bus : Bus) (addr reg : Nat) :
    ∀ (data : List Nat) (tr : Trace) (e : String),
      (writeAll p bus addr reg data tr).1 = .error e → LineMsg e := by
  intro data
  induction data with
  | nil => intro tr e h; simp [writeAll] at h
  | cons b bs ih =>
    intro tr e h
    unfold writeAll at h
    split at h
    · exact ih _ e h
    · rename_i e1 tr1 hw
      simp only [Except.error.injEq] at h
      subst h
      exact writeByte_msg p bus addr reg b tr e1 (by rw [hw])

theorem writeFile_msg (p : Config) (env : Env) (dir : Str) (addr reg : Nat) (f : Str)
    (tr : Trace) (e : String) (h : (writeFile p env dir addr reg f tr).1 = .error e) :
    LineMsg e := by
  unfold writeFile at h
  simp only at h
  split at h
  · simp only [Except.error.injEq] at h
    subst h
    exact lineMsg_append _ _ (by decide) (by decide)
  · exact writeAll_msg p env.bus addr reg _ tr e h

theorem pollLoop_msg (p : Config) (env : Env) (addr reg mask expected : Nat)
    (timeout_ms interval_ms start : Int) :
    ∀ (fuel : Nat) (tr : Trace) (e : String),
      (pollLoop p env addr reg mask expected timeout_ms interval_ms start fuel tr).1 =
        .raised e → LineMsg e := by
  intro fuel
  induction fuel with
  | zero => intro tr e h; simp [pollLoop] at h
  | succ n ih =>
    intro tr e h
    unfold pollLoop at h
    rcases hr : readByte p env.bus addr reg tr with ⟨r, tr1⟩
    rw [hr] at h
    cases r with
    | ok v =>
      simp only at h
      by_cases h1 : v &&& mask = expected
      · rw [if_pos h1] at h
        simp at h
      · rw [if_neg h1] at h
        by_cases h2 : timeout_ms ≤ env.now tr1 - start
        · rw [if_pos h2] at h
          simp at h
        · rw [if_neg h2] at h
          exact ih _ e h
    | error e1 =>
      simp only at h
      by_cases h1 : p.error_action = .STOP
      · rw [if_pos h1] at h
        simp only [Outcome.raised.injEq] at h
        subst h
        exact readByte_msg p env.bus addr reg tr e1 (by rw [hr])
      · rw [if_neg h1] at h
        simp at h

theorem sequenceCommand_msg (p : Config) (bus : Bus) (cmd : Str) (args : List Str) (tr : Trace)
    (e : String) (h : (sequenceCommand p bus cmd args tr).1 = .error e) : LineMsg e := by
  unfold sequenceCommand at h
  by_cases h1 : cmd = "WRITE1".toList
  · rw [if_pos h1] at h
    cases hp : parseWrite1 args with
    | error e1 =>
      rw [hp] at h
      simp only [Except.error.injEq] at h
      subst h
      exact parseWrite1_msg args e1 hp
    | ok w =>
      rw [hp] at h
      exact writeSingleByte_msg p bus _ _ tr e h
  · rw [if_neg h1] at h
    by_cases h2 : cmd = "DELAY".toList
    · rw [if_pos h2] at h
      cases hp : parseDelay args with
      | error e1 =>
        rw [hp] at h
        simp only [Except.error.injEq] at h
        subst h
        exact parseDelay_msg args e1 hp
      | ok d =>
        rw [hp] at h
        simp at h
    · rw [if_neg h2] at h
      simp at h

theorem sequenceLine_msg (p : Config) (bus : Bus) (line : Str) (tr : Trace) (e : String)
    (h : (sequenceLine p bus line tr).1 = .error e) : LineMsg e := by
  unfold sequenceLine at h
  cases ht : tokenize line with
  | nil => rw [ht] at h; simp at h
  | cons cmd args =>
    rw [ht] at h
    simp only at h
    rcases hc : sequenceCommand p bus cmd args tr with ⟨r, tr1⟩
    rw [hc] at h
    cases r with
    | ok u => simp at h
    | error e1 =>
      simp only at h
      by_cases h1 : p.error_action = .STOP
      · rw [if_pos h1] at h
        simp only [Except.error.injEq] at h
        subst h
        exact sequenceCommand_msg p bus cmd args tr e1 (by rw [hc])
      · rw [if_neg h1] at h
        simp at h

theorem sequencePass_msg (p : Config) (bus : Bus) :
    ∀ (seq : List Str) (tr : Trace) (e : String),
      (sequencePass p bus seq tr).1 = .error e → LineMsg e := by
  intro seq
  induction seq with
  | nil => intro tr e h; simp [sequencePass] at h
  | cons l ls ih =>
    intro tr e h
    unfold sequencePass at h
    split at h
    · exact ih _ e h
    · rename_i e1 tr1 hl
      simp only [Except.error.injEq] at h
      subst h
      exact sequenceLine_msg p bus l tr e1 (by rw [hl])

theorem sequencePasses_msg (p : Config) (bus : Bus) (seq : List Str) :
    ∀ (n : Nat) (tr : Trace) (e : String),
      (sequencePasses p bus seq n tr).1 = .error e → LineMsg e := by
  intro n
  induction n with
  | zero => intro tr e h; simp [sequencePasses] at h
  | succ k ih =>
    intro tr e h
    unfold sequencePasses at h
    split at h
    · exact ih _ e h
    · rename_i e1 tr1 hl
      simp only [Except.error.injEq] at h
      subst h
      exact sequencePass_msg p bus seq tr e1 (by rw [hl])

theorem cmdWrite_msg (p : Config) (env : Env) (args : List Str) (s : State) (e : String)
    (h : (cmdWrite p env args s).1 = .raised e) : LineMsg e := by
  unfold cmdWrite at h
  cases hp : parseWrite args with
  | error e1 =>
    rw [hp] at h
    simp only [Outcome.raised.injEq] at h
    subst h
    exact parseWrite_msg args e1 hp
  | ok w =>
    rw [hp] at h
    exact liftBus_msg s _ e (fun e1 h1 => writeByte_msg p env.bus _ _ _ _ e1 h1) h

theorem cmdWrite1_msg (p : Config) (env : Env) (args : List Str) (s : State) (e : String)
    (h : (cmdWrite1 p env args s).1 = .raised e) : LineMsg e := by
  unfold cmdWrite1 at h
  cases hp : parseWrite1 args with
  | error e1 =>
    rw [hp] at h
    simp only [Outcome.raised.injEq] at h
    subst h
    exact parseWrite1_msg args e1 hp
  | ok w =>
    rw [hp] at h
    exact liftBus_msg s _ e (fun e1 h1 => writeSingleByte_msg p env.bus _ _ _ e1 h1) h

theorem cmdWrite16_msg (p : Config) (env : Env) (args : List Str) (s : State) (e : String)
    (h : (cmdWrite16 p env args s).1 = .raised e) : LineMsg e := by
  unfold cmdWrite16 at h
  cases hp : parseWrite16 args with
  | error e1 =>
    rw [hp] at h
    simp only [Outcome.raised.injEq] at h
    subst h
    exact parseWrite16_msg args e1 hp
  | ok w =>
    rw [hp] at h
    exact liftBus_msg s _ e (fun e1 h1 => write16Bit_msg p env.bus _ _ _ _ e1 h1) h

theorem cmdFile_msg (p : Config) (env : Env) (args : List Str) (s : State) (e : String)
    (h : (cmdFile p env args s).1 = .raised e) : LineMsg e := by
  unfold cmdFile at h
  cases hp : parseFile args with
  | error e1 =>
    rw [hp] at h
    simp only [Outcome.raised.injEq] at h
    subst h
    exact parseFile_msg args e1 hp
  | ok w =>
    rw [hp] at h
    exact liftBus_msg s _ e (fun e1 h1 => writeFile_msg p env _ _ _ _ _ e1 h1) h

theorem cmdRead_msg (p : Config) (env : Env) (args : List Str) (s : State) (e : String)
    (h : (cmdRead p env args s).1 = .raised e) : LineMsg e := by
  unfold cmdRead at h
  cases hp : parseRead args with
  | error e1 =>
    rw [hp] at h
    simp only [Outcome.raised.injEq] at h
    subst h
    exact parseRead_msg args e1 hp
  | ok w =>
    rw [hp] at h
    simp only at h
    rcases hr : readByte p env.bus w.1 w.2 s.trace with ⟨r, tr⟩
    rw [hr] at h
    cases r with
    | error e1 =>
      simp only [Outcome.raised.injEq] at h
      subst h
      exact readByte_msg p env.bus _ _ _ e1 (by rw [hr])
    | ok d =>
      simp only at h
      split at h <;> simp at h

theorem cmdPoll_msg (p : Config) (env : Env) (fuel : Nat) (args : List Str) (s : State)
    (e : String) (h : (cmdPoll p env fuel args s).1 = .raised e) : LineMsg e := by
  unfold cmdPoll at h
  cases hp : parsePoll args with
  | error e1 =>
    rw [hp] at h
    simp only [Outcome.raised.injEq] at h
    subst h
    exact parsePoll_msg args e1 hp
  | ok a =>
    rw [hp] at h
    simp only at h
    rcases hr : pollRegister p env fuel a.addr a.reg a.mask a.expected a.timeout a.interval
      s.trace with ⟨o, tr⟩
    rw [hr] at h
    cases o with
    | done b =>
      cases b
      · simp only [Outcome.raised.injEq] at h
        subst h
        decide
      · simp at h
    | raised e1 =>
      simp only [Outcome.raised.injEq] at h
      subst h
      exact pollLoop_msg p env _ _ _ _ _ _ _ fuel s.trace e1 (by
        unfold pollRegister at hr
        rw [hr])
    | stuck => simp at h

theorem cmdDelay_msg (args : List Str) (s : State) (e : String)
    (h : (cmdDelay args s).1 = .raised e) : LineMsg e := by
  unfold cmdDelay at h
  cases hp : parseDelay args with
  | error e1 =>
    rw [hp] at h
    simp only [Outcome.raised.injEq] at h
    subst h
    exact parseDelay_msg args e1 hp
  | ok d =>
    rw [hp] at h
    simp at h

theorem busCommand_msg (p : Config) (env : Env) (fuel : Nat) (cmd : Str) (args : List Str)
    (s : State) (e : String) (h : (busCommand p env fuel cmd args s).1 = .raised e) :
    LineMsg e := by
  unfold busCommand at h
  split_ifs at h
  · exact cmdWrite_msg p env args s e h
  · exact cmdWrite1_msg p env args s e h
  · exact cmdWrite16_msg p env args s e h
  · exact cmdRead_msg p env args s e h
  · exact cmdPoll_msg p env fuel args s e h
  · exact cmdDelay_msg args s e h
  · exact cmdFile_msg p env args s e h
  · simp only [Outcome.raised.injEq] at h
    subst h
    exact lineMsg_append _ _ (by decide) (by decide)

theorem cmdLoop_msg (args : List Str) (s : State) (e : String)
    (h : (cmdLoop args s).1 = .raised e) : LineMsg e := by
  unfold cmdLoop at h
  split at h
  · rename_i n
    by_cases h1 : s.in_loop = true
    · rw [if_pos h1] at h
      simp only [Outcome.raised.injEq] at h
      subst h
      decide
    · rw [if_neg h1] at h
      cases hn : stoi n 10 with
      | error e1 =>
        rw [hn] at h
        simp only [Outcome.raised.injEq] at h
        subst h
        exact stoi_msg _ _ _ hn
      | ok c =>
        rw [hn] at h
        simp at h
  · simp only [Outcome.raised.injEq] at h
    subst h
    decide

theorem cmdEndloop_msg (p : Config) (env : Env) (s : State) (e : String)
    (h : (cmdEndloop p env s).1 = .raised e) : LineMsg e := by
  unfold cmdEndloop at h
  by_cases h1 : s.in_loop = true
  · rw [if_pos h1] at h
    exact liftBus_msg _ _ e (fun e1 he1 => sequencePasses_msg p env.bus _ _ _ e1 he1) h
  · rw [if_neg h1] at h
    simp only [Outcome.raised.injEq] at h
    subst h
    decide

theorem cmdStartRecord_msg (args : List Str) (s : State) (e : String)
    (h : (cmdStartRecord args s).1 = .raised e) : LineMsg e := by
  unfold cmdStartRecord at h
  split at h
  · rename_i n
    cases hn : stoi n 10 with
    | error e1 =>
      rw [hn] at h
      simp only [Outcome.raised.injEq] at h
      subst h
      exact stoi_msg _ _ _ hn
    | ok c =>
      rw [hn] at h
      simp only at h
      by_cases h1 : c < 0
      · rw [if_pos h1] at h
        simp only [Outcome.raised.injEq] at h
        subst h
        decide
      · rw [if_neg h1] at h
        simp at h
  · simp only [Outcome.raised.injEq] at h
    subst h
    decide

theorem cmdPrintRecord_msg (args : List Str) (s : State) (e : String)
    (h : (cmdPrintRecord args s).1 = .raised e) : LineMsg e := by
  unfold cmdPrintRecord at h
  split at h
  · split at h <;> simp at h
  · simp only [Outcome.raised.injEq] at h
    subst h
    decide

theorem cmdOther_msg (p : Config) (env : Env) (fuel : Nat) (line cmd : Str) (args : List Str)
    (s : State) (e : String) (h : (cmdOther p env fuel line cmd args s).1 = .raised e) :
    LineMsg e := by
  unfold cmdOther at h
  by_cases h1 : s.in_loop = true
  · rw [if_pos h1] at h
    simp at h
  · rw [if_neg h1] at h
    rcases hb : busCommand p env fuel cmd args s with ⟨o, s1⟩
    rw [hb] at h
    cases o with
    | done u => simp at h
    | raised e1 =>
      simp only [Outcome.raised.injEq] at h
      subst h
      exact busCommand_msg p env fuel cmd args s e1 (by rw [hb])
    | stuck => simp at h

theorem command_msg (p : Config) (env : Env) (fuel : Nat) (line cmd : Str) (args : List Str)
    (s : State) (e : String) (h : (command p env fuel line cmd args s).1 = .raised e) :
    LineMsg e := by
  unfold command at h
  split_ifs at h
  · exact cmdLoop_msg args s e h
  · exact cmdEndloop_msg p env s e h
  · exact cmdStartRecord_msg args s e h
  · exact cmdPrintRecord_msg args s e h
  · exact cmdOther_msg p env fuel line cmd args s e h

theorem tryBlock_msg (p : Config) (env : Env) (fuel : Nat) (line : Str) (s : State)
    (e : String) (h : (tryBlock p env fuel line s).1 = .raised e) : LineMsg e := by
  unfold tryBlock at h
  split at h
  · simp at h
  · exact command_msg p env fuel line _ _ s e h

theorem playLine_msg (p : Config) (env : Env) (fuel : Nat) (line : Str) (s : State)
    (e : String) (h : (playLine p env fuel line s).1 = .raised e) : LineMsg e := by
  unfold playLine at h
  simp only at h
  split at h
  · simp at h
  · split at h
    · simp at h
    · rcases hr : tryBlock p env fuel line { s with line_number := s.line_number + 1 }
        with ⟨o, s1⟩
      rw [hr] at h
      cases o with
      | done u => simp at h
      | raised e1 =>
        simp only [catchLine] at h
        split at h
        · simp only [Outcome.raised.injEq] at h
          subst h
          exact tryBlock_msg p env fuel line _ e1 (by rw [hr])
        · simp at h
      | stuck => simp at h

/-- No exception that leaves the loop over the lines carries the text of the
unterminated-LOOP error. -/
theorem playLines_msg (p : Config) (env : Env) (fuel : Nat) :
    ∀ (lines : List Str) (s : State) (e : String),
      (playLines p env fuel lines s).1 = .raised e → LineMsg e := by
  intro lines
  induction lines with
  | nil => intro s e h; simp [playLines] at h
  | cons l ls ih =>
    intro s e h
    unfold playLines at h
    rcases hr : playLine p env fuel l s with ⟨o, s1⟩
    rw [hr] at h
    cases o with
    | done u => exact ih s1 e h
    | raised e1 =>
      simp only [Outcome.raised.injEq] at h
      subst h
      exact playLine_msg p env fuel l s e1 (by rw [hr])
    | stuck => simp at h

/-- C10: whatever the policy and the bus, when a LOOP line of the script has been accepted
(its try block completed) and no line after it has the verb ENDLOOP, playFile fails; when all
lines were processed, the failure is the unterminated-LOOP error. Conversely, when the
processing of a script ends outside a loop block, the check after the last line raises
nothing: playFile ends exactly as the loop over the lines ended, and what it ends with is
not the unterminated-LOOP error. -/
theorem unterminated_loop_fails :
    (∀ (p : Config) (env : Env) (fuel : Nat) (filename : Str) (s0 s s1 : State)
      (pre post : List Str) (loopLine : Str),
      env.script filename = some (pre ++ loopLine :: post) →
      playLines p env fuel pre (enter filename s0) = (.done (), s) →
      skipLine loopLine = false → s.header_skipped = true →
      verb loopLine = some "LOOP".toList →
      tryBlock p env fuel loopLine { s with line_number := s.line_number + 1 } = (.done (), s1) →
      (∀ l ∈ post, verb l ≠ some "ENDLOOP".toList) →
      (∃ e, (playFile p env fuel filename s0).1 = .raised e) ∧
      ((playLines p env fuel (pre ++ loopLine :: post) (enter filename s0)).1 = .done () →
        (playFile p env fuel filename s0).1 = .raised "Unterminated LOOP in CSV")) ∧
    (∀ (p : Config) (env : Env) (fuel : Nat) (filename : Str) (s0 s : State)
      (lines : List Str) (o : Outcome Unit),
      env.script filename = some lines →
      playLines p env fuel lines (enter filename s0) = (o, s) → s.in_loop = false →
      playFile p env fuel filename s0 = (o, s) ∧
      (playFile p env fuel filename s0).1 ≠ .raised "Unterminated LOOP in CSV") := by
  constructor
  · intro p env fuel filename s0 s s1 pre post loopLine hf hpre hskip hh hv hd hpost
    have hin := tryBlock_loop_done p env fuel loopLine _ s1 hv hd
    have hstep : playLine p env fuel loopLine s = (.done (), s1) := by
      unfold playLine
      simp only [hh] at hd
      simp only [hskip, hh, hd]
      simp
    have hall : playLines p env fuel (pre ++ loopLine :: post) (enter filename s0) =
        playLines p env fuel post s1 := by
      rw [playLines_append, hpre]
      simp only [playLines, hstep]
    obtain ⟨h1, h2⟩ := playLines_stays_in_loop p env fuel post s1 hin hpost
    rw [playFile_eq p env fuel filename s0 _ hf, hall]
    rcases hr : playLines p env fuel post s1 with ⟨o, s2⟩
    rw [hr] at h1 h2
    simp only at h1 h2
    cases o with
    | done u => simp [atEnd, h1]
    | raised e => simp [atEnd]
    | stuck => exact absurd rfl h2
  · intro p env fuel filename s0 s lines o hf hrun hin
    have hmsg := playLines_msg p env fuel lines (enter filename s0)
    rw [playFile_eq p env fuel filename s0 _ hf, hrun]
    rw [hrun] at hmsg
    cases o with
    | done u => simp [atEnd, hin]
    | raised e =>
      refine ⟨rfl, ?_⟩
      intro h
      simp only [atEnd, Outcome.raised.injEq] at h
      exact LineMsg.ne e (hmsg e rfl) h
    | stuck => exact ⟨rfl, by simp [atEnd]⟩

/-- Witness for C10: a script that ends inside its loop block, under Continue. -/
theorem unterminated_loop_fails_witness :
    (playLines ⟨1, .CONTINUE, 3⟩ (world ackBus openLoopScript) 1
      (["command,addr,data".toList] ++ "LOOP,3".toList :: ["WRITE1,0x10,0xAA".toList])
      (enter [] fresh)).1 = .done () ∧
    (playFile ⟨1, .CONTINUE, 3⟩ (world ackBus openLoopScript) 1 [] fresh).1 =
      .raised "Unterminated LOOP in CSV" :=
  ⟨rfl,
    (unterminated_loop_fails.1 ⟨1, .CONTINUE, 3⟩ (world ackBus openLoopScript) 1 [] fresh
      afterHeader inLoop3 ["command,addr,data".toList] ["WRITE1,0x10,0xAA".toList]
      "LOOP,3".toList rfl rfl rfl rfl rfl rfl (by decide)).2 rfl⟩

/-- C16: for all device names a, b and decoders p1, p2, after registerParser(a, p1) followed
by registerParser(a, p2) a lookup of a yields p2, a lookup right after a registration yields
the registered decoder, and registering under a leaves the binding of every other name b
unchanged. -/
theorem register_replaces_and_preserves (s : State) (a b : Str) (p1 p2 : Parser) :
    (registerParser (registerParser s a p1) a p2).parsers a = some p2 ∧
    (registerParser s a p1).parsers a = some p1 ∧
    (b ≠ a → (registerParser s a p1).parsers b = s.parsers b) := by
  refine ⟨?_, ?_, ?_⟩
  · simp [registerParser]
  · simp [registerParser]
  · intro h
    simp [registerParser, h]

/-- Witness for C16: registering twice under DS3231 and looking up another name. -/
theorem register_replaces_and_preserves_witness :
    (registerParser (registerParser fresh "DS3231".toList .DS3231Parser) "DS3231".toList
      .EEPROMParser).parsers "DS3231".toList = some .EEPROMParser ∧
    (registerParser fresh "DS3231".toList .DS3231Parser).parsers "BMP280".toList =
      fresh.parsers "BMP280".toList :=
  ⟨(register_replaces_and_preserves fresh "DS3231".toList "BMP280".toList .DS3231Parser
      .EEPROMParser).1,
    (register_replaces_and_preserves fresh "DS3231".toList "BMP280".toList .DS3231Parser
      .EEPROMParser).2.2 (by decide)⟩

@[simp] theorem decodes_append (a b : Trace) : decodes (a ++ b) = decodes a ++ decodes b := by
  simp [decodes]

/-- A `PRINT_RECORD` line with the right field count, in any state with the header consumed:
the step is the `PRINT_RECORD` branch, which never raises. -/
theorem playLine_print (p : Config) (env : Env) (fuel : Nat) (line d : Str) (s : State)
    (hh : s.header_skipped = true) (ht : tokenize line = ["PRINT_RECORD".toList, d]) :
    playLine p env fuel line s =
      (.done (), { s with line_number := s.line_number + 1,
                           trace := s.trace ++
                             [match s.parsers d with
                              | some prs => Ev.parse prs s.record_buffer
                              | none => Ev.cerr ("No parser found for device: " ++
                                  String.mk d ++ "\n")] }) := by
  rw [playLine_command p env fuel line _ _ s (skipLine_of_tokens line _ _ _ ht (by decide)) hh ht]
  unfold command
  rw [if_neg (by decide), if_neg (by decide), if_neg (by decide), if_neg (by decide), if_pos rfl]
  unfold cmdPrintRecord
  simp only
  cases s.parsers d <;> rfl

theorem registerParser_lookup (s : State) (a k : Str) (prs : Parser) :
    (registerParser s a prs).parsers k ≠ none ↔ k = a ∨ s.parsers k ≠ none := by
  unfold registerParser
  by_cases h : k = a <;> simp [h]

theorem registerParsers_lookup (s : State) (hs : ∀ k, s.parsers k = none) (name : Str) :
    (registerParsers s).parsers name ≠ none ↔ name ∈ deviceNames := by
  unfold registerParsers
  simp only [registerParser_lookup, hs, deviceNames, List.mem_cons, List.mem_singleton,
    List.not_mem_nil, or_false, ne_eq, not_true_eq_false]
  tauto

/-- C14: whatever the policy and the state (header consumed, inside or outside a loop block),
a line PRINT_RECORD,d invokes a decoder if and only if the trimmed field d is a key of the
registry, which is matched exactly: the history gains the invocation of the decoder bound to
d when there is one and no invocation otherwise. When d is not registered the step raises
nothing and changes nothing but the line counter and the diagnostic on the error stream, and
the next line is processed. With the decoders of main.cpp the keys are exactly the six device
names, so ds3231 is not a key when only DS3231 is registered. -/
theorem print_record_invokes_iff_registered (p : Config) (env : Env) (fuel : Nat)
    (line d : Str) (rest : List Str) (s : State)
    (hh : s.header_skipped = true) (ht : tokenize line = ["PRINT_RECORD".toList, d]) :
    (decodes (playLine p env fuel line s).2.trace =
      decodes s.trace ++
        (match s.parsers d with
         | some prs => [(prs, s.record_buffer)]
         | none => [])) ∧
    (decodes (playLine p env fuel line s).2.trace ≠ decodes s.trace ↔ s.parsers d ≠ none) ∧
    (s.parsers d = none →
      playLine p env fuel line s =
        (.done (), { s with line_number := s.line_number + 1,
                             trace := s.trace ++ [Ev.cerr ("No parser found for device: " ++
                               String.mk d ++ "\n")] }) ∧
      playLines p env fuel (line :: rest) s =
        playLines p env fuel rest
          { s with line_number := s.line_number + 1,
                   trace := s.trace ++ [Ev.cerr ("No parser found for device: " ++
                     String.mk d ++ "\n")] }) ∧
    (∀ name, (registerParsers fresh).parsers name ≠ none ↔ name ∈ deviceNames) ∧
    (registerParser fresh "DS3231".toList .DS3231Parser).parsers "ds3231".toList = none := by
  have hstep := playLine_print p env fuel line d s hh ht
  have hdec : decodes (playLine p env fuel line s).2.trace =
      decodes s.trace ++
        (match s.parsers d with
         | some prs => [(prs, s.record_buffer)]
         | none => []) := by
    rw [hstep]
    simp only [decodes_append]
    cases s.parsers d <;> rfl
  refine ⟨hdec, ?_, ?_, ?_, ?_⟩
  · rw [hdec]
    cases s.parsers d <;> simp
  · intro hn
    rw [hn] at hstep
    refine ⟨hstep, ?_⟩
    simp only [playLines, hstep]
  · exact fun name => registerParsers_lookup fresh (fun _ => rfl) name
  · rfl

/-- Witness for C14: PRINT_RECORD,UNKNOWN_DEVICE with the decoders of main.cpp registered. -/
theorem print_record_invokes_iff_registered_witness :
    decodes (playLine ⟨1, .STOP, 3⟩ (world ackBus []) 1 "PRINT_RECORD,UNKNOWN_DEVICE".toList
      recorded).2.trace = decodes recorded.trace ++ [] ∧
    (playLine ⟨1, .STOP, 3⟩ (world ackBus []) 1 "PRINT_RECORD,UNKNOWN_DEVICE".toList
      recorded).1 = .done () :=
  ⟨(print_record_invokes_iff_registered ⟨1, .STOP, 3⟩ (world ackBus []) 1
      "PRINT_RECORD,UNKNOWN_DEVICE".toList "UNKNOWN_DEVICE".toList [] recorded rfl rfl).1,
    rfl⟩

/-- C15: in every state (header consumed), PRINT_RECORD,d with d registered hands the decoder
exactly the current contents of the record buffer, whether recording is on or off, and the
step changes nothing but the line counter and the history: record buffer, recording flag and
loop state stay as they are, so a second PRINT_RECORD line right after it hands its decoder
the same bytes. -/
theorem print_record_passes_buffer (p : Config) (env : Env) (fuel : Nat)
    (l1 l2 d1 d2 : Str) (prs1 prs2 : Parser) (s : State)
    (hh : s.header_skipped = true)
    (ht1 : tokenize l1 = ["PRINT_RECORD".toList, d1]) (hp1 : s.parsers d1 = some prs1)
    (ht2 : tokenize l2 = ["PRINT_RECORD".toList, d2]) (hp2 : s.parsers d2 = some prs2) :
    playLine p env fuel l1 s =
      (.done (), { s with line_number := s.line_number + 1,
                           trace := s.trace ++ [Ev.parse prs1 s.record_buffer] }) ∧
    ((playLine p env fuel l1 s).2.record_buffer = s.record_buffer ∧
      (playLine p env fuel l1 s).2.record_capacity = s.record_capacity ∧
      (playLine p env fuel l1 s).2.recording = s.recording ∧
      (playLine p env fuel l1 s).2.in_loop = s.in_loop ∧
      (playLine p env fuel l1 s).2.loop_count = s.loop_count ∧
      (playLine p env fuel l1 s).2.loop_sequence = s.loop_sequence) ∧
    playLines p env fuel [l1, l2] s =
      (.done (), { s with line_number := s.line_number + 1 + 1,
                           trace := s.trace ++ [Ev.parse prs1 s.record_buffer] ++
                             [Ev.parse prs2 s.record_buffer] }) := by
  have h1 := playLine_print p env fuel l1 d1 s hh ht1
  rw [hp1] at h1
  have h2 := playLine_print p env fuel l2 d2
    { s with line_number := s.line_number + 1,
             trace := s.trace ++ [Ev.parse prs1 s.record_buffer] } hh ht2
  simp only [hp2] at h2
  refine ⟨h1, ?_, ?_⟩
  · rw [h1]
    exact ⟨rfl, rfl, rfl, rfl, rfl, rfl⟩
  · simp only [playLines, h1, h2]

/-- Witness for C15: two PRINT_RECORD lines while recording is off. -/
theorem print_record_passes_buffer_witness :
    playLines ⟨1, .STOP, 3⟩ (world ackBus []) 1
      ["PRINT_RECORD,24C02".toList, "PRINT_RECORD, DS3231".toList] recorded =
      (.done (), { recorded with line_number := recorded.line_number + 1 + 1,
                                 trace := recorded.trace ++
                                   [Ev.parse .EEPROMParser recorded.record_buffer] ++
                                   [Ev.parse .DS3231Parser recorded.record_buffer] }) :=
  (print_record_passes_buffer ⟨1, .STOP, 3⟩ (world ackBus []) 1 "PRINT_RECORD,24C02".toList
    "PRINT_RECORD, DS3231".toList "24C02".toList "DS3231".toList .EEPROMParser .DS3231Parser
    recorded rfl rfl rfl rfl rfl).2.2

/-- The skip test of `playFile` holds exactly for the empty line and for the lines whose first
character outside `" \t\n\r"` is `#`. -/
theorem skipLine_iff (line : Str) :
    skipLine line = true ↔ line = [] ∨ firstVisible line = some '#' := by
  unfold skipLine firstVisible
  constructor
  · intro h
    simp only [Bool.or_eq_true, List.isEmpty_iff, beq_iff_eq] at h
    rcases h with h | h
    · exact Or.inl h
    · right
      cases ht : trim line with
      | nil =>
        rw [ht] at h
        exact absurd h (by decide)
      | cons c cs =>
        rw [ht] at h
        simp only [List.headD_cons] at h
        obtain ⟨m, hm, -⟩ := trim_head line cs c ht
        rw [hm, h]
        rfl
  · intro h
    rcases h with h | h
    · simp [h]
    · cases hd : line.dropWhile isTrimChar with
      | nil => rw [hd] at h; simp at h
      | cons x m =>
        rw [hd] at h
        simp only [List.head?_cons, Option.some.injEq] at h
        subst h
        rw [trim_of_dropWhile line m '#' (by decide) hd]
        simp

theorem playLine_skip (p : Config) (env : Env) (fuel : Nat) (line : Str) (s : State)
    (h : skipLine line = true) :
    playLine p env fuel line s = (.done (), { s with line_number := s.line_number + 1 }) := by
  unfold playLine
  simp [h]

theorem playLines_skip (p : Config) (env : Env) (fuel : Nat) :
    ∀ (blanks : List Str) (s : State), (∀ l ∈ blanks, skipLine l = true) →
      playLines p env fuel blanks s =
        (.done (), { s with line_number := s.line_number + blanks.length }) := by
  intro blanks
  induction blanks with
  | nil => intro s _; rfl
  | cons b bs ih =>
    intro s h
    unfold playLines
    rw [playLine_skip p env fuel b s (h b (List.mem_cons_self _ _))]
    simp only
    rw [ih _ (fun l hl => h l (List.mem_cons_of_mem _ hl))]
    simp [Nat.add_assoc, Nat.add_comm 1]

theorem playLine_header_stays (p : Config) (env : Env) (fuel : Nat) (line : Str) (s : State)
    (hh : s.header_skipped = true) : (playLine p env fuel line s).2.header_skipped = true := by
  unfold playLine
  simp only
  split
  · exact hh
  · split
    · rfl
    · have hc := (tryBlock_cursor p env fuel line { s with line_number := s.line_number + 1 }).2.1
      rcases hr : tryBlock p env fuel line { s with line_number := s.line_number + 1 }
        with ⟨o, s1⟩
      rw [hr] at hc
      simp only at hc
      have h1 : s1.header_skipped = true := by rw [hc, hh]
      cases o with
      | done u => exact h1
      | raised e => simp only [catchLine]; split <;> exact h1
      | stuck => exact h1

theorem playLines_header_stays (p : Config) (env : Env) (fuel : Nat) :
    ∀ (lines : List Str) (s : State), s.header_skipped = true →
      (playLines p env fuel lines s).2.header_skipped = true := by
  intro lines
  induction lines with
  | nil => intro s h; exact h
  | cons l ls ih =>
    intro s h
    have hl := playLine_header_stays p env fuel l s h
    unfold playLines
    rcases hr : playLine p env fuel l s with ⟨o, s1⟩
    rw [hr] at hl
    cases o with
    | done u => exact ih s1 hl
    | raised e => exact hl
    | stuck => exact hl

/-- C17: the first line of a script that the skip test lets through (it is neither empty nor
a comment) is consumed as the header whatever its content: the step raises nothing, adds no
event and changes nothing but the line counter and the header flag. This happens once: the
flag stays set for the rest of the run, and every later line that is not skipped enters the
try block, that is, is executed. -/
theorem first_line_is_header_once (p : Config) (env : Env) (fuel : Nat) :
    (∀ (line : Str) (s : State), skipLine line = false → s.header_skipped = false →
      playLine p env fuel line s =
        (.done (), { s with line_number := s.line_number + 1, header_skipped := true })) ∧
    (∀ (filename : Str) (s0 : State) (blanks rest : List Str) (header : Str),
      (∀ l ∈ blanks, skipLine l = true) → skipLine header = false →
      playLines p env fuel (blanks ++ header :: rest) (enter filename s0) =
        playLines p env fuel rest
          { enter filename s0 with line_number := blanks.length + 1, header_skipped := true }) ∧
    (∀ (lines : List Str) (s : State), s.header_skipped = true →
      (playLines p env fuel lines s).2.header_skipped = true) ∧
    (∀ (line : Str) (s : State), skipLine line = false → s.header_skipped = true →
      playLine p env fuel line s =
        match tryBlock p env fuel line { s with line_number := s.line_number + 1 } with
        | (.raised e, s2) => catchLine p e s2
        | r => r) := by
  refine ⟨?_, ?_, ?_, ?_⟩
  · intro line s h1 h2
    exact playLine_header p env fuel line s h1 h2
  · intro filename s0 blanks rest header hb hh
    rw [playLines_append, playLines_skip p env fuel blanks _ hb]
    simp only [playLines]
    rw [playLine_header p env fuel header _ hh rfl]
    simp [enter]
  · exact playLines_header_stays p env fuel
  · intro line s h1 h2
    unfold playLine
    simp [h1, h2]

/-- Witness for C17: the header WRITE1,0x10,0xAA is not executed, the line after it is. -/
theorem first_line_is_header_once_witness :
    playLines ⟨1, .STOP, 3⟩ (world ackBus commandHeaderScript) 1
      (["# init".toList, []] ++ "WRITE1,0x10,0xAA".toList :: ["WRITE1,0x11,0xBB".toList])
      (enter [] fresh) =
      playLines ⟨1, .STOP, 3⟩ (world ackBus commandHeaderScript) 1 ["WRITE1,0x11,0xBB".toList]
        { enter [] fresh with line_number := 2 + 1, header_skipped := true } ∧
    (playFile ⟨1, .STOP, 3⟩ (world ackBus commandHeaderScript) 1 [] fresh).2.trace =
      [Ev.ioctl 17 0, Ev.write 17 [187] 1 0, Ev.fsync, Ev.sleep 1] :=
  ⟨(first_line_is_header_once ⟨1, .STOP, 3⟩ (world ackBus commandHeaderScript) 1).2.1 [] fresh
      ["# init".toList, []] ["WRITE1,0x11,0xBB".toList] "WRITE1,0x10,0xAA".toList
      (by decide) rfl,
    by decide⟩

/-- C18: processing an empty line, or a line whose first character outside space, tab, CR
and LF is `#`, is a no-op in every state, before the header and inside a loop block alike:
the step raises nothing, adds no event and leaves every variable as it is apart from the line
counter (loop flag, loop count, loop buffer, recording flag, record buffer and header flag
are unchanged), and the next line is processed from that state. -/
theorem skipped_line_is_noop (p : Config) (env : Env) (fuel : Nat) (line : Str)
    (rest : List Str) (s : State) (h : line = [] ∨ firstVisible line = some '#') :
    playLine p env fuel line s = (.done (), { s with line_number := s.line_number + 1 }) ∧
    ((playLine p env fuel line s).2.trace = s.trace ∧
      (playLine p env fuel line s).2.in_loop = s.in_loop ∧
      (playLine p env fuel line s).2.loop_count = s.loop_count ∧
      (playLine p env fuel line s).2.loop_sequence = s.loop_sequence ∧
      (playLine p env fuel line s).2.recording = s.recording ∧
      (playLine p env fuel line s).2.record_buffer = s.record_buffer ∧
      (playLine p env fuel line s).2.record_capacity = s.record_capacity ∧
      (playLine p env fuel line s).2.header_skipped = s.header_skipped) ∧
    playLines p env fuel (line :: rest) s =
      playLines p env fuel rest { s with line_number := s.line_number + 1 } := by
  have hs := playLine_skip p env fuel line s ((skipLine_iff line).mpr h)
  refine ⟨hs, ?_, ?_⟩
  · rw [hs]
    exact ⟨rfl, rfl, rfl, rfl, rfl, rfl, rfl, rfl⟩
  · simp only [playLines, hs]

/-- Witness for C18: an indented comment inside an open loop block. -/
theorem skipped_line_is_noop_witness :
    playLine ⟨1, .STOP, 3⟩ (world ackBus []) 1 " \t# WRITE1,0x10,0xAA".toList inLoop3 =
      (.done (), { inLoop3 with line_number := inLoop3.line_number + 1 }) :=
  (skipped_line_is_noop ⟨1, .STOP, 3⟩ (world ackBus []) 1 " \t# WRITE1,0x10,0xAA".toList []
    inLoop3 (Or.inr (by decide))).1

/-- C19: code evaluated at the failing inputs. A line of white space only passes the skip
test: as the first line it is consumed as the header, so that the real header is executed
and raises; after the header it raises the unknown-command error (with an empty verb), which
under Stop ends the run before the write; inside a loop block it is appended to the loop
buffer. -/
theorem blank_line_is_not_skipped :
    skipLine " ".toList = false ∧ skipLine "\r".toList = false ∧
    playFile ⟨1, .STOP, 3⟩ (world ackBus blankFirstScript) 1 [] fresh =
      (.raised "Unknown command: command",
        { enter [] fresh with
            line_number := 2, header_skipped := true,
            trace := [Ev.cerr "Error at line 2: Unknown command: command\n"] }) ∧
    playFile ⟨1, .STOP, 3⟩ (world ackBus blankCrScript) 1 [] fresh =
      (.raised "Unknown command: ",
        { enter [] fresh with
            line_number := 2, header_skipped := true,
            trace := [Ev.cerr "Error at line 2: Unknown command: \n"] }) ∧
    playLine ⟨1, .STOP, 3⟩ (world ackBus []) 1 " \t".toList inLoop3 =
      (.done (), { inLoop3 with line_number := 3, loop_sequence := [" \t".toList] }) := by
  refine ⟨by decide, by decide, rfl, rfl, rfl⟩

theorem liftBus_record (s : State) (r : Except String Unit × Trace) :
    SameRecord s (liftBus s r).2 := by
  unfold liftBus SameRecord
  split <;> simp

theorem cmdWrite_record (p : Config) (env : Env) (args : List Str) (s : State) :
    SameRecord s (cmdWrite p env args s).2 := by
  unfold cmdWrite
  split
  · exact ⟨rfl, rfl, rfl⟩
  · exact liftBus_record _ _

theorem cmdWrite1_record (p : Config) (env : Env) (args : List Str) (s : State) :
    SameRecord s (cmdWrite1 p env args s).2 := by
  unfold cmdWrite1
  split
  · exact ⟨rfl, rfl, rfl⟩
  · exact liftBus_record _ _

theorem cmdWrite16_record (p : Config) (env : Env) (args : List Str) (s : State) :
    SameRecord s (cmdWrite16 p env args s).2 := by
  unfold cmdWrite16
  split
  · exact ⟨rfl, rfl, rfl⟩
  · exact liftBus_record _ _

theorem cmdFile_record (p : Config) (env : Env) (args : List Str) (s : State) :
    SameRecord s (cmdFile p env args s).2 := by
  unfold cmdFile
  split
  · exact ⟨rfl, rfl, rfl⟩
  · exact liftBus_record _ _

theorem cmdPoll_record (p : Config) (env : Env) (fuel : Nat) (args : List Str) (s : State) :
    SameRecord s (cmdPoll p env fuel args s).2 := by
  unfold cmdPoll SameRecord
  split
  · simp
  · split <;> simp

theorem cmdDelay_record (args : List Str) (s : State) : SameRecord s (cmdDelay args s).2 := by
  unfold cmdDelay SameRecord
  split <;> simp

/-- The `READ` branch keeps capacity and flag, and either keeps the buffer or, recording being
on and the buffer below its capacity, appends one byte. -/
theorem cmdRead_record (p : Config) (env : Env) (args : List Str) (s : State) :
    (cmdRead p env args s).2.record_capacity = s.record_capacity ∧
    (cmdRead p env args s).2.recording = s.recording ∧
    ((cmdRead p env args s).2.record_buffer = s.record_buffer ∨
      (s.recording = true ∧ s.record_buffer.length < s.record_capacity ∧
        ∃ b, (cmdRead p env args s).2.record_buffer = s.record_buffer ++ [b])) := by
  unfold cmdRead
  split
  · simp
  · split
    · simp
    · rename_i d tr _
      split
      · rename_i h
        exact ⟨rfl, rfl, Or.inr ⟨h.1, h.2, d, rfl⟩⟩
      · simp

theorem cmdLoop_record (args : List Str) (s : State) : SameRecord s (cmdLoop args s).2 := by
  unfold cmdLoop SameRecord
  split
  · split
    · simp
    · split <;> simp
  · simp

theorem cmdEndloop_record (p : Config) (env : Env) (s : State) :
    SameRecord s (cmdEndloop p env s).2 := by
  unfold cmdEndloop
  split
  · exact liftBus_record _ _
  · exact ⟨rfl, rfl, rfl⟩

theorem cmdPrintRecord_record (args : List Str) (s : State) :
    SameRecord s (cmdPrintRecord args s).2 := by
  unfold cmdPrintRecord SameRecord
  split
  · split <;> simp
  · simp

theorem cmdStartRecord_buffer (args : List Str) (s : State) :
    (cmdStartRecord args s).2.record_buffer = s.record_buffer ∨
    (cmdStartRecord args s).2.record_buffer = [] := by
  unfold cmdStartRecord
  split
  · split
    · simp
    · split <;> simp
  · simp

/-- Outside the `READ` branch the chain of bus commands leaves the record data alone. -/
theorem busCommand_record (p : Config) (env : Env) (fuel : Nat) (cmd : Str) (args : List Str)
    (s : State) (hc : cmd ≠ "READ".toList) :
    SameRecord s (busCommand p env fuel cmd args s).2 := by
  unfold busCommand
  split_ifs
  · exact cmdWrite_record _ _ _ _
  · exact cmdWrite1_record _ _ _ _
  · exact cmdWrite16_record _ _ _ _
  · exact cmdPoll_record _ _ _ _ _
  · exact cmdDelay_record _ _
  · exact cmdFile_record _ _ _ _
  · exact ⟨rfl, rfl, rfl⟩

theorem busCommand_read (p : Config) (env : Env) (fuel : Nat) (args : List Str) (s : State) :
    busCommand p env fuel "READ".toList args s = cmdRead p env args s := by
  unfold busCommand
  rw [if_neg (by decide), if_neg (by decide), if_neg (by decide), if_pos rfl]

theorem cmdOther_buffer (p : Config) (env : Env) (fuel : Nat) (line cmd : Str)
    (args : List Str) (s : State) :
    (cmdOther p env fuel line cmd args s).2.record_buffer = s.record_buffer ∨
    (cmd = "READ".toList ∧ s.in_loop = false ∧ s.recording = true ∧
      ∃ b, (cmdOther p env fuel line cmd args s).2.record_buffer = s.record_buffer ++ [b]) := by
  unfold cmdOther
  by_cases hin : s.in_loop = true
  · rw [if_pos hin]
    exact Or.inl rfl
  · rw [if_neg hin]
    have hpost : (match busCommand p env fuel cmd args s with
        | (.done _, s1) => (Outcome.done (), { s1 with trace := s1.trace ++ [Ev.sleep p.i2c_wait_ms] })
        | r => r).2.record_buffer = (busCommand p env fuel cmd args s).2.record_buffer := by
      split <;> simp_all
    rw [hpost]
    by_cases hc : cmd = "READ".toList
    · subst hc
      rw [busCommand_read]
      rcases (cmdRead_record p env args s).2.2 with h | ⟨h1, _, h3⟩
      · exact Or.inl h
      · exact Or.inr ⟨rfl, by simpa using hin, h1, h3⟩
    · exact Or.inl (busCommand_record p env fuel cmd args s hc).1

/-- Effect of the `try` block on the record buffer, by command word. -/
theorem command_buffer (p : Config) (env : Env) (fuel : Nat) (line cmd : Str)
    (args : List Str) (s : State) :
    (command p env fuel line cmd args s).2.record_buffer = s.record_buffer ∨
    (cmd = "START_RECORD".toList ∧ (command p env fuel line cmd args s).2.record_buffer = []) ∨
    (cmd = "READ".toList ∧ s.in_loop = false ∧ s.recording = true ∧
      ∃ b, (command p env fuel line cmd args s).2.record_buffer = s.record_buffer ++ [b]) := by
  unfold command
  by_cases h1 : cmd = "LOOP".toList
  · rw [if_pos h1]
    exact Or.inl (cmdLoop_record args s).1
  rw [if_neg h1]
  by_cases h2 : cmd = "ENDLOOP".toList
  · rw [if_pos h2]
    exact Or.inl (cmdEndloop_record p env s).1
  rw [if_neg h2]
  by_cases h3 : cmd = "START_RECORD".toList
  · rw [if_pos h3]
    rcases cmdStartRecord_buffer args s with h | h
    · exact Or.inl h
    · exact Or.inr (Or.inl ⟨h3, h⟩)
  rw [if_neg h3]
  by_cases h4 : cmd = "STOP_RECORD".toList
  · rw [if_pos h4]
    exact Or.inl rfl
  rw [if_neg h4]
  by_cases h5 : cmd = "PRINT_RECORD".toList
  · rw [if_pos h5]
    exact Or.inl (cmdPrintRecord_record args s).1
  rw [if_neg h5]
  rcases cmdOther_buffer p env fuel line cmd args s with h | h
  · exact Or.inl h
  · exact Or.inr (Or.inr h)

theorem catch_buffer (p : Config) (r : Outcome Unit × State) :
    (match r with
      | (.raised e, s2) => catchLine p e s2
      | r => r).2.record_buffer = r.2.record_buffer ∧
    (match r with
      | (.raised e, s2) => catchLine p e s2
      | r => r).2.recording = r.2.recording := by
  split
  · unfold catchLine logged
    split <;> simp
  · simp

/-- A line whose first token starts with a letter is not skipped. -/
theorem skipLine_of_verb (line cmd : Str) (c : Char) (cs : Str) (hv : verb line = some cmd)
    (hcmd : cmd = c :: cs) (hc : c ≠ '#') : skipLine line = false := by
  unfold verb at hv
  cases ht : tokenize line with
  | nil => rw [ht] at hv; simp at hv
  | cons t ts =>
    rw [ht] at hv
    simp only [List.head?_cons, Option.some.injEq] at hv
    rw [hv, hcmd] at ht
    exact skipLine_of_tokens line cs c ts ht hc

/-- Effect of one line on the record buffer. -/
theorem playLine_buffer_step (p : Config) (env : Env) (fuel : Nat) (line : Str) (s : State) :
    BufferStep line s (playLine p env fuel line s).2 := by
  unfold playLine
  simp only
  by_cases hs : skipLine line = true
  · rw [if_pos hs]
    exact Or.inl rfl
  rw [if_neg hs]
  by_cases hh : s.header_skipped = false
  · rw [if_pos hh]
    exact Or.inl rfl
  rw [if_neg hh]
  unfold BufferStep
  rw [(catch_buffer p _).1]
  unfold tryBlock
  cases ht : tokenize line with
  | nil => exact Or.inl rfl
  | cons cmd args =>
    have hv : verb line = some cmd := by unfold verb; rw [ht]; rfl
    simp only
    rcases command_buffer p env fuel line cmd args { s with line_number := s.line_number + 1 }
      with h | ⟨h1, h2⟩ | ⟨h1, h2, h3, h4⟩
    · exact Or.inl h
    · exact Or.inr (Or.inl ⟨by rw [hv, h1], h2⟩)
    · exact Or.inr (Or.inr ⟨by rw [hv, h1], h2, h3, h4⟩)

/-- C13: one line of the script changes the contents of the record buffer only if it is a
`START_RECORD` line (the buffer becomes empty) or a `READ` line outside a loop block executed
while recording is on (one byte is appended at the end); a `STOP_RECORD` line after the header
turns recording off and keeps the contents, and a `READ` line while recording is off keeps
the contents. -/
theorem record_buffer_changes_only_by_start_or_read (p : Config) (env : Env) (fuel : Nat)
    (line : Str) (s : State) :
    BufferStep line s (playLine p env fuel line s).2 ∧
    (verb line = some "STOP_RECORD".toList → s.header_skipped = true →
      (playLine p env fuel line s).2.recording = false ∧
      (playLine p env fuel line s).2.record_buffer = s.record_buffer) ∧
    (verb line = some "READ".toList → s.recording = false →
      (playLine p env fuel line s).2.record_buffer = s.record_buffer) := by
  refine ⟨playLine_buffer_step p env fuel line s, ?_, ?_⟩
  · intro hv hh
    have hskip := skipLine_of_verb line _ 'S' "TOP_RECORD".toList hv rfl (by decide)
    unfold verb at hv
    cases ht : tokenize line with
    | nil => rw [ht] at hv; simp at hv
    | cons t ts =>
      rw [ht] at hv
      simp only [List.head?_cons, Option.some.injEq] at hv
      subst hv
      rw [playLine_command p env fuel line _ ts s hskip hh ht]
      unfold command
      rw [if_neg (by decide), if_neg (by decide), if_neg (by decide), if_pos rfl]
      exact ⟨rfl, rfl⟩
  · intro hv hr
    rcases playLine_buffer_step p env fuel line s with h | ⟨h1, _⟩ | ⟨_, _, h3, _⟩
    · exact h
    · rw [hv] at h1
      exact absurd h1 (by decide)
    · rw [hr] at h3
      exact absurd h3 (by decide)

/-- Witness for C13: `STOP_RECORD` after three recorded bytes turns recording off and keeps the
three bytes; a `READ` line on the stopped recorder leaves them as they are. -/
theorem record_buffer_changes_only_by_start_or_read_witness :
    ((playLine ⟨1, .STOP, 3⟩ (world ackBus []) 1 "STOP_RECORD".toList recordingOn).2.recording
        = false ∧
      (playLine ⟨1, .STOP, 3⟩ (world ackBus []) 1 "STOP_RECORD".toList
        recordingOn).2.record_buffer = recordingOn.record_buffer) ∧
    (playLine ⟨1, .STOP, 3⟩ (world ackBus []) 1 "READ,0x48,0x00".toList recorded).2.record_buffer
      = recorded.record_buffer :=
  ⟨(record_buffer_changes_only_by_start_or_read ⟨1, .STOP, 3⟩ (world ackBus []) 1
      "STOP_RECORD".toList recordingOn).2.1 (by decide) rfl,
   (record_buffer_changes_only_by_start_or_read ⟨1, .STOP, 3⟩ (world ackBus []) 1
      "READ,0x48,0x00".toList recorded).2.2 (by decide) rfl⟩

@[simp] theorem readBytes_append (a b : Trace) :
    readBytes (a ++ b) = readBytes a ++ readBytes b := by
  simp [readBytes]

theorem countBus_acksAll : AcksAll countBus :=
  ⟨fun _ _ => le_refl _, fun _ _ _ => rfl, fun _ _ => rfl⟩

/-- On a device that acknowledges everything one pass of `readByte` returns the byte read. -/
theorem readByteAttempt_ack (p : Config) (bus : Bus) (addr reg : Nat) (a : Int) (tr : Trace)
    (hack : AcksAll bus) :
    ∃ d tr1, readByteAttempt p bus addr reg a tr = (.ret d, tr1) ∧
      readBytes tr1 = readBytes tr ++ [d] ∧ transfers tr1 = transfers tr + 2 := by
  unfold readByteAttempt
  simp only
  rw [if_neg (not_lt.mpr (hack.1 tr addr))]
  rw [if_neg (not_not.mpr (by rw [hack.2.1]; rfl))]
  simp only
  rw [if_neg (not_not.mpr (hack.2.2 _ _))]
  simp only
  refine ⟨_, _, rfl, ?_, ?_⟩
  · simp [readBytes]
  · simp [transfers, isTransfer]

/-- On a device that acknowledges everything `readByte` succeeds at the first attempt with one
`read` call. -/
theorem readByte_ack (p : Config) (bus : Bus) (addr reg : Nat) (tr : Trace)
    (hR : 0 ≤ p.retry_count) (hack : AcksAll bus) :
    ∃ d tr1, readByte p bus addr reg tr = (.ok d, tr1) ∧
      readBytes tr1 = readBytes tr ++ [d] ∧ transfers tr1 = transfers tr + 2 := by
  obtain ⟨d, tr1, h, h1, h2⟩ := readByteAttempt_ack p bus addr reg 0 tr hack
  refine ⟨d, tr1, ?_, h1, h2⟩
  unfold readByte
  rw [retryLoop_first_ret p _ _ tr d hR (by rw [h]), h]

theorem readOf_tokens (line : Str) (a : Nat × Nat) (h : readOf line = some a) :
    ∃ args, tokenize line = "READ".toList :: args ∧ parseRead args = .ok a := by
  unfold readOf at h
  cases ht : tokenize line with
  | nil => rw [ht] at h; simp at h
  | cons cmd args =>
    rw [ht] at h
    simp only at h
    by_cases hc : cmd = "READ".toList
    · rw [if_pos hc] at h
      subst hc
      refine ⟨args, rfl, ?_⟩
      cases hp : parseRead args with
      | error e => rw [hp] at h; simp at h
      | ok w =>
        rw [hp] at h
        simp only [Option.some.injEq] at h
        rw [h]
    · rw [if_neg hc] at h
      simp at h

/-- A well-formed `READ` line outside a loop block, on a device that acknowledges everything:
one byte is read; it is appended to the record buffer when recording is on and the buffer is
below its capacity, and dropped otherwise. -/
theorem playLine_read (p : Config) (env : Env) (fuel : Nat) (line : Str) (a : Nat × Nat)
    (s : State) (hR : 0 ≤ p.retry_count) (hack : AcksAll env.bus)
    (hh : s.header_skipped = true) (hin : s.in_loop = false) (hr : readOf line = some a) :
    ∃ d tr1, playLine p env fuel line s =
        (.done (), { s with
          line_number := s.line_number + 1
          trace := tr1
          record_buffer :=
            if s.recording = true ∧ s.record_buffer.length < s.record_capacity then
              s.record_buffer ++ [d]
            else s.record_buffer }) ∧
      readBytes tr1 = readBytes s.trace ++ [d] := by
  obtain ⟨args, ht, hp⟩ := readOf_tokens line a hr
  have hskip := skipLine_of_tokens line "EAD".toList 'R' args ht (by decide)
  obtain ⟨d, tr1, hrd, hb, _⟩ := readByte_ack p env.bus a.1 a.2 s.trace hR hack
  refine ⟨d, tr1 ++ [Ev.sleep p.i2c_wait_ms], ?_, by rw [readBytes_append, hb]; simp [readBytes]⟩
  rw [playLine_command p env fuel line _ args s hskip hh ht]
  unfold command
  rw [if_neg (by decide), if_neg (by decide), if_neg (by decide), if_neg (by decide),
    if_neg (by decide)]
  unfold cmdOther
  rw [if_neg (by simp [hin]), busCommand_read]
  unfold cmdRead
  rw [hp]
  simp only
  rw [hrd]
  simp only
  by_cases hc : s.recording = true ∧ s.record_buffer.length < s.record_capacity
  · rw [if_pos hc, if_pos hc]
  · rw [if_neg hc, if_neg hc]

/-- An accepted `START_RECORD` line empties the buffer, raises the capacity to at least the
size and turns recording on. -/
theorem playLine_start (p : Config) (env : Env) (fuel : Nat) (line t : Str) (n : Int)
    (s : State) (hh : s.header_skipped = true)
    (ht : tokenize line = ["START_RECORD".toList, t]) (hn : stoi t 10 = .ok n) (h0 : 0 ≤ n) :
    playLine p env fuel line s =
      (.done (), { s with line_number := s.line_number + 1
                          record_buffer := []
                          record_capacity := max s.record_capacity n.toNat
                          recording := true }) := by
  rw [playLine_command p env fuel line _ _ s (skipLine_of_tokens line _ _ _ ht (by decide)) hh ht]
  unfold command
  rw [if_neg (by decide), if_neg (by decide), if_pos rfl]
  unfold cmdStartRecord
  simp only [hn]
  rw [if_neg (not_lt.mpr h0)]

/-- A run of well-formed `READ` lines outside a loop block with recording on, on a device that
acknowledges everything: every line reads one byte, and the buffer takes the bytes in order
until it reaches its capacity. -/
theorem playLines_reads (p : Config) (env : Env) (fuel : Nat) (hR : 0 ≤ p.retry_count)
    (hack : AcksAll env.bus) (reads : List Str) :
    ∀ s : State, s.header_skipped = true → s.in_loop = false → s.recording = true →
      (∀ l ∈ reads, (readOf l).isSome = true) →
      ∃ rs s1, playLines p env fuel reads s = (.done (), s1) ∧ rs.length = reads.length ∧
        readBytes s1.trace = readBytes s.trace ++ rs ∧
        s1.record_buffer =
          s.record_buffer ++ rs.take (s.record_capacity - s.record_buffer.length) ∧
        s1.in_loop = false := by
  induction reads with
  | nil =>
    intro s _ hin _ _
    exact ⟨[], s, rfl, rfl, by simp, by simp, hin⟩
  | cons l ls ih =>
    intro s hh hin hrec hall
    obtain ⟨a, ha⟩ := Option.isSome_iff_exists.mp (hall l (List.mem_cons_self _ _))
    obtain ⟨d, tr1, hstep, hb⟩ := playLine_read p env fuel l a s hR hack hh hin ha
    obtain ⟨rs, s1, hrun, hlen, hbytes, hbuf, hin1⟩ := ih
      { s with
        line_number := s.line_number + 1
        trace := tr1
        record_buffer :=
          if s.recording = true ∧ s.record_buffer.length < s.record_capacity then
            s.record_buffer ++ [d]
          else s.record_buffer } hh hin hrec (fun x hx => hall x (List.mem_cons_of_mem _ hx))
    refine ⟨d :: rs, s1, ?_, by simp [hlen], ?_, ?_, hin1⟩
    · simp only [playLines, hstep]
      exact hrun
    · rw [hbytes]
      simp only
      rw [hb]
      simp
    · rw [hbuf]
      simp only
      by_cases hc : s.record_buffer.length < s.record_capacity
      · rw [if_pos ⟨hrec, hc⟩]
        obtain ⟨m, hm⟩ : ∃ m, s.record_capacity - s.record_buffer.length = m + 1 :=
          ⟨s.record_capacity - s.record_buffer.length - 1, by omega⟩
        have hm2 : s.record_capacity - (s.record_buffer ++ [d]).length = m := by
          simp only [List.length_append, List.length_singleton]
          omega
        rw [hm, hm2]
        simp
      · rw [if_neg (fun h => hc h.2)]
        have hm : s.record_capacity - s.record_buffer.length = 0 := by omega
        rw [hm]
        simp

/-- C11: on a player whose record buffer has no capacity beyond the size asked for (a freshly
constructed player has capacity 0), with a retry count that is not negative and a device that
acknowledges everything, the script header, `START_RECORD,n` with `0 ≤ n`, then `k` well-formed
`READ` lines runs to its end, performs all `k` reads, and leaves in the record buffer the first
`min n k` bytes read, in read order. -/
theorem record_keeps_first_bytes (p : Config) (env : Env) (fuel : Nat) (filename : Str)
    (s0 : State) (header startLine t : Str) (n : Int) (reads : List Str)
    (hR : 0 ≤ p.retry_count) (hack : AcksAll env.bus)
    (hf : env.script filename = some (header :: startLine :: reads))
    (hhead : skipLine header = false)
    (ht : tokenize startLine = ["START_RECORD".toList, t]) (hn : stoi t 10 = .ok n)
    (h0 : 0 ≤ n) (hcap : s0.record_capacity ≤ n.toNat)
    (hreads : ∀ l ∈ reads, (readOf l).isSome = true) :
    ∃ rs : List Nat, rs.length = reads.length ∧
      (playFile p env fuel filename s0).1 = .done () ∧
      readBytes (playFile p env fuel filename s0).2.trace = readBytes s0.trace ++ rs ∧
      (playFile p env fuel filename s0).2.record_buffer = rs.take n.toNat ∧
      (playFile p env fuel filename s0).2.record_buffer.length = min n.toNat reads.length := by
  have h1 := playLine_header p env fuel header (enter filename s0) hhead rfl
  have h2 := playLine_start p env fuel startLine t n
    { enter filename s0 with line_number := (enter filename s0).line_number + 1,
                             header_skipped := true } rfl ht hn h0
  obtain ⟨rs, s1, hrun, hlen, hbytes, hbuf, hin⟩ := playLines_reads p env fuel hR hack reads
    { enter filename s0 with line_number := (enter filename s0).line_number + 1 + 1
                             header_skipped := true
                             record_buffer := []
                             record_capacity := max (enter filename s0).record_capacity n.toNat
                             recording := true } rfl rfl rfl hreads
  have hplay : playFile p env fuel filename s0 = (.done (), s1) := by
    rw [playFile_eq p env fuel filename s0 _ hf]
    simp only [playLines, h1, h2]
    rw [hrun]
    unfold atEnd
    simp [hin]
  have hmax : max s0.record_capacity n.toNat = n.toNat := max_eq_right hcap
  have hb : s1.record_buffer = rs.take n.toNat := by
    rw [hbuf]
    simp only [enter, hmax]
    simp
  refine ⟨rs, hlen, by rw [hplay], ?_, by rw [hplay]; exact hb, ?_⟩
  · rw [hplay]
    simp only
    rw [hbytes]
    rfl
  · rw [hplay]
    simp only
    rw [hb, List.length_take, hlen]

/-- Witness for C11: `START_RECORD,4` and six reads on a device whose reads deliver 2, 6, 10,
14, 18 and 22 record exactly the first four bytes. -/
theorem record_keeps_first_bytes_witness :
    (∃ rs : List Nat, rs.length = 6 ∧
      (playFile ⟨1, .STOP, 3⟩ (world countBus recordScript) 1 [] fresh).1 = .done () ∧
      readBytes (playFile ⟨1, .STOP, 3⟩ (world countBus recordScript) 1 [] fresh).2.trace =
        readBytes fresh.trace ++ rs ∧
      (playFile ⟨1, .STOP, 3⟩ (world countBus recordScript) 1 [] fresh).2.record_buffer =
        rs.take (4 : Int).toNat ∧
      (playFile ⟨1, .STOP, 3⟩ (world countBus recordScript) 1 [] fresh).2.record_buffer.length =
        min (4 : Int).toNat 6) ∧
    readBytes (playFile ⟨1, .STOP, 3⟩ (world countBus recordScript) 1 [] fresh).2.trace =
      [2, 6, 10, 14, 18, 22] ∧
    (playFile ⟨1, .STOP, 3⟩ (world countBus recordScript) 1 [] fresh).2.record_buffer =
      [2, 6, 10, 14] :=
  ⟨record_keeps_first_bytes ⟨1, .STOP, 3⟩ (world countBus recordScript) 1 [] fresh
    "command,addr,reg".toList "START_RECORD,4".toList "4".toList 4
    ["READ,0x48,0x00".toList, "READ,0x48,0x01".toList, "READ,0x48,0x02".toList,
     "READ,0x48,0x03".toList, "READ,0x48,0x04".toList, "READ,0x48,0x05".toList]
    (by decide) countBus_acksAll rfl rfl rfl rfl (by decide) (by decide) (by decide),
   by decide, by decide⟩

/-- C12: code evaluated at the failing input. After `START_RECORD,4` the later `START_RECORD,2`
leaves the capacity at 4, and the three reads that follow are all recorded: the buffer holds
three bytes after a most recent `START_RECORD` of size 2. -/
theorem second_start_record_keeps_capacity :
    (playFile ⟨1, .STOP, 3⟩ (world countBus shrinkScript) 1 [] fresh).1 = .done () ∧
    (playFile ⟨1, .STOP, 3⟩ (world countBus shrinkScript) 1 [] fresh).2.record_capacity = 4 ∧
    (playFile ⟨1, .STOP, 3⟩ (world countBus shrinkScript) 1 [] fresh).2.record_buffer =
      [2, 6, 10] ∧
    (cmdStartRecord ["2".toList] { fresh with record_capacity := 4 }).2.record_capacity = 4 :=
  ⟨rfl, by decide, by decide, by decide⟩

theorem dropEmptyLast_cons (t : Str) (ts : List Str) (h : ts ≠ []) :
    dropEmptyLast (t :: ts) = t :: dropEmptyLast ts := by
  cases ts with
  | nil => exact absurd rfl h
  | cons u us =>
    unfold dropEmptyLast
    rw [List.getLast?_cons_cons, List.dropLast_cons₂]
    split <;> rfl

theorem splitOn_cons (d c : Char) (cs : Str) :
    (c :: cs).splitOn d =
      if c = d then [] :: cs.splitOn d else List.modifyHead (List.cons c) (cs.splitOn d) := by
  unfold List.splitOn
  rw [List.splitOnP_cons]
  by_cases h : c = d
  · simp [h]
  · simp [h]

theorem splitOn_ne_nil (d : Char) (s : Str) : s.splitOn d ≠ [] :=
  List.splitOnP_ne_nil _ _

/-- The pieces read by the `getline` loop are the pieces of the split without an empty last
piece. -/
theorem getlineAll_eq_split (d : Char) (s : Str) :
    getlineAll d s = dropEmptyLast (s.splitOn d) := by
  induction s with
  | nil => rfl
  | cons c cs ih =>
    unfold getlineAll
    rw [splitOn_cons]
    by_cases h : c = d
    · rw [if_pos h, if_pos h, dropEmptyLast_cons _ _ (splitOn_ne_nil d cs), ih]
    · rw [if_neg h, if_neg h, ih]
      cases hx : cs.splitOn d with
      | nil => exact absurd hx (splitOn_ne_nil d cs)
      | cons x xs =>
        cases xs with
        | nil =>
          cases x with
          | nil => rfl
          | cons y ys => rfl
        | cons u us =>
          rw [dropEmptyLast_cons _ _ (List.cons_ne_nil _ _)]
          simp only [List.modifyHead]
          rw [dropEmptyLast_cons _ _ (List.cons_ne_nil _ _)]

theorem splitOn_single_empty (d : Char) (s : Str) (h : s.splitOn d = [[]]) : s = [] := by
  cases s with
  | nil => rfl
  | cons c cs =>
    rw [splitOn_cons] at h
    split at h
    · simp only [List.cons.injEq, true_and] at h
      exact absurd h (splitOn_ne_nil d cs)
    · cases hy : cs.splitOn d with
      | nil => exact absurd hy (splitOn_ne_nil d cs)
      | cons y ys => rw [hy] at h; simp [List.modifyHead] at h

/-- The split of a text ends in an empty piece exactly when the text is empty or ends in the
delimiter. -/
theorem splitOn_last_empty (d : Char) (s : Str) :
    (s.splitOn d).getLast? = some [] ↔ s = [] ∨ s.getLast? = some d := by
  induction s with
  | nil => simp [List.splitOn, List.splitOnP_nil]
  | cons c cs ih =>
    rw [splitOn_cons]
    cases hx : cs.splitOn d with
    | nil => exact absurd hx (splitOn_ne_nil d cs)
    | cons x xs =>
      rw [hx] at ih
      by_cases h : c = d
      · rw [if_pos h, List.getLast?_cons_cons, ih]
        cases cs with
        | nil => simp [h]
        | cons e es => simp [List.getLast?_cons_cons]
      · rw [if_neg h]
        simp only [List.modifyHead]
        cases xs with
        | nil =>
          cases cs with
          | nil => simp [h]
          | cons e es =>
            simp only [List.getLast?_singleton, Option.some.injEq, List.cons_ne_nil,
              List.getLast?_cons_cons, false_or, false_iff]
            simp only [List.getLast?_singleton, Option.some.injEq, List.cons_ne_nil,
              false_or] at ih
            intro hl
            rw [ih.mpr hl] at hx
            exact List.cons_ne_nil _ _ (splitOn_single_empty d _ hx)
        | cons u us =>
          rw [List.getLast?_cons_cons] at ih
          rw [List.getLast?_cons_cons, ih]
          cases cs with
          | nil => simp [List.splitOn, List.splitOnP_nil] at hx
          | cons e es => simp [List.getLast?_cons_cons]

theorem dropEmptyLast_length (ps : List Str) (hne : ps ≠ []) :
    (dropEmptyLast ps).length = ps.length ↔ ps.getLast? ≠ some [] := by
  unfold dropEmptyLast
  have hpos : 0 < ps.length := List.length_pos.mpr hne
  by_cases h : ps.getLast? = some []
  · rw [if_pos h, List.length_dropLast]
    constructor
    · intro h2; omega
    · intro h2; exact absurd h h2
  · rw [if_neg h]
    exact ⟨fun _ => h, fun _ => rfl⟩

/-- Outside a loop block the `try` block depends on the line through its tokens only. -/
theorem tryBlock_of_tokens (p : Config) (env : Env) (fuel : Nat) (l1 l2 : Str) (s : State)
    (ht : tokenize l1 = tokenize l2) (hin : s.in_loop = false) :
    tryBlock p env fuel l1 s = tryBlock p env fuel l2 s := by
  unfold tryBlock
  rw [ht]
  cases tokenize l2 with
  | nil => rfl
  | cons cmd args =>
    simp only
    unfold command cmdOther
    simp only [hin]
    rfl

theorem sequenceLine_of_tokens (p : Config) (bus : Bus) (l1 l2 : Str) (tr : Trace)
    (ht : tokenize l1 = tokenize l2) : sequenceLine p bus l1 tr = sequenceLine p bus l2 tr := by
  unfold sequenceLine
  rw [ht]

/-- C20 (counterexample): the line `LOOP,3,` is not skipped; the code reads the two tokens
`LOOP` and `3` from it, the split at every comma has a third, empty piece; and white space
after the final comma, which leaves the split-and-trim list as it is, changes how the line is
executed: `LOOP,3,` opens a loop block, `LOOP,3, ` raises the format error. -/
theorem trailing_comma_drops_token :
    skipLine "LOOP,3,".toList = false ∧
    tokenize "LOOP,3,".toList = ["LOOP".toList, "3".toList] ∧
    specTokens "LOOP,3,".toList = ["LOOP".toList, "3".toList, []] ∧
    tokenize "LOOP,3,".toList ≠ specTokens "LOOP,3,".toList ∧
    specTokens "LOOP,3, ".toList = specTokens "LOOP,3,".toList ∧
    playLine ⟨1, .STOP, 3⟩ (world ackBus []) 1 "LOOP,3,".toList afterHeader =
      (.done (), { afterHeader with line_number := afterHeader.line_number + 1
                                    in_loop := true, loop_count := 3, loop_sequence := [] }) ∧
    (playLine ⟨1, .STOP, 3⟩ (world ackBus []) 1 "LOOP,3, ".toList afterHeader).1 =
      .raised "Invalid LOOP format" :=
  ⟨by decide, by decide, by decide, by decide, by decide, rfl, rfl⟩

/-- C20 (amended): the token list of a line is the list of its pieces between commas, without
the last piece when that piece is empty, each piece trimmed of leading and trailing space,
tab, CR and LF; it is the plain split-and-trim list exactly when the line is not empty and does
not end in a comma; and two lines with the same token list are replayed alike by
`executeSequence` and, when neither is skipped, are executed alike by `playFile` outside a loop
block. -/
theorem tokens_are_trimmed_pieces (p : Config) (env : Env) (fuel : Nat) (line l2 : Str)
    (s : State) :
    tokenize line = (dropEmptyLast (line.splitOn ',')).map trim ∧
    (tokenize line = specTokens line ↔ line ≠ [] ∧ line.getLast? ≠ some ',') ∧
    (tokenize l2 = tokenize line →
      sequenceLine p env.bus l2 s.trace = sequenceLine p env.bus line s.trace ∧
      (skipLine l2 = false → skipLine line = false → s.in_loop = false →
        playLine p env fuel l2 s = playLine p env fuel line s)) := by
  have h1 : tokenize line = (dropEmptyLast (line.splitOn ',')).map trim := by
    unfold tokenize
    rw [getlineAll_eq_split]
  refine ⟨h1, ?_, ?_⟩
  · have hkey : (line ≠ [] ∧ line.getLast? ≠ some ',') ↔
        (dropEmptyLast (line.splitOn ',')).length = (line.splitOn ',').length := by
      rw [dropEmptyLast_length _ (splitOn_ne_nil ',' line)]
      have h2 := splitOn_last_empty ',' line
      constructor
      · intro h h3
        rcases h2.mp h3 with h4 | h4
        · exact h.1 h4
        · exact h.2 h4
      · intro h
        exact ⟨fun h3 => h (h2.mpr (Or.inl h3)), fun h3 => h (h2.mpr (Or.inr h3))⟩
    rw [h1, hkey]
    constructor
    · intro h
      have := congrArg List.length h
      simpa [specTokens] using this
    · intro h
      unfold specTokens
      unfold dropEmptyLast at h ⊢
      split
      · rename_i hl
        rw [if_pos hl, List.length_dropLast] at h
        have hpos : 0 < (line.splitOn ',').length :=
          List.length_pos.mpr (splitOn_ne_nil ',' line)
        omega
      · rfl
  · intro ht
    refine ⟨sequenceLine_of_tokens p env.bus l2 line s.trace ht, ?_⟩
    intro hs2 hs1 hin
    unfold playLine
    simp only [hs1, hs2]
    rw [tryBlock_of_tokens p env fuel l2 line _ ht (by exact hin)]

/-- Witness for C20: white space around the fields of a raw write does not change its
execution. -/
theorem tokens_are_trimmed_pieces_witness :
    (tokenize "WRITE1,0x10,0xAA".toList = specTokens "WRITE1,0x10,0xAA".toList ↔
      "WRITE1,0x10,0xAA".toList ≠ [] ∧ "WRITE1,0x10,0xAA".toList.getLast? ≠ some ',') ∧
    playLine ⟨1, .STOP, 3⟩ (world ackBus []) 1 " WRITE1 ,\t0x10, 0xAA\r".toList afterHeader =
      playLine ⟨1, .STOP, 3⟩ (world ackBus []) 1 "WRITE1,0x10,0xAA".toList afterHeader :=
  ⟨(tokens_are_trimmed_pieces ⟨1, .STOP, 3⟩ (world ackBus []) 1 "WRITE1,0x10,0xAA".toList
      " WRITE1 ,\t0x10, 0xAA\r".toList afterHeader).2.1,
   ((tokens_are_trimmed_pieces ⟨1, .STOP, 3⟩ (world ackBus []) 1 "WRITE1,0x10,0xAA".toList
      " WRITE1 ,\t0x10, 0xAA\r".toList afterHeader).2.2 (by decide)).2 (by decide) (by decide)
      rfl⟩

theorem specArity_known (cmd : Str) (k : Nat) (h : specArity cmd = some k) :
    cmd ∈ knownVerbs := by
  by_contra hk
  simp only [knownVerbs, List.mem_cons, List.mem_singleton, not_or, List.not_mem_nil,
    or_false] at hk
  obtain ⟨h1, h2, h3, h4, h5, h6, h7, h8, h9, h10, h11, h12⟩ := hk
  unfold specArity at h
  rw [if_neg h6, if_neg h7, if_neg h8, if_neg h9, if_neg h10, if_neg h11, if_neg h12,
    if_neg h1, if_neg h2, if_neg h3, if_neg h4, if_neg h5] at h
  exact absurd h (by simp)

/-- Apart from `ENDLOOP` and `STOP_RECORD`, the field count that the code checks is the one of
the script format. -/
theorem fieldCount_spec (cmd : Str) (hk : cmd ∈ knownVerbs) (h1 : cmd ≠ "ENDLOOP".toList)
    (h2 : cmd ≠ "STOP_RECORD".toList) :
    fieldCount cmd = specArity cmd ∧ (cmd ∈ stateVerbs ∨ cmd ∈ checkedBusVerbs) := by
  simp only [knownVerbs, List.mem_cons, List.mem_singleton, List.not_mem_nil, or_false] at hk
  rcases hk with h | h | h | h | h | h | h | h | h | h | h | h <;> subst h <;>
    first
    | exact absurd rfl h1
    | exact absurd rfl h2
    | decide

theorem knownVerbs_head (cmd : Str) (hk : cmd ∈ knownVerbs) :
    ∃ c cs, cmd = c :: cs ∧ c ≠ '#' := by
  simp only [knownVerbs, List.mem_cons, List.mem_singleton, List.not_mem_nil, or_false] at hk
  rcases hk with h | h | h | h | h | h | h | h | h | h | h | h <;> subst h <;>
    exact ⟨_, _, rfl, by decide⟩

/-- C21 (counterexample): `STOP_RECORD,1` has two fields where the script format gives one,
yet it is executed and turns recording off; `ENDLOOP,now` has two fields where the format
gives one, yet it closes the loop block and runs the buffered write three times. -/
theorem extra_field_after_endloop_is_ignored :
    tokenize "STOP_RECORD,1".toList = ["STOP_RECORD".toList, "1".toList] ∧
    specArity "STOP_RECORD".toList = some 1 ∧
    playLine ⟨1, .STOP, 3⟩ (world ackBus []) 1 "STOP_RECORD,1".toList recordingOn =
      (.done (), { recordingOn with line_number := recordingOn.line_number + 1
                                    recording := false }) ∧
    tokenize "ENDLOOP,now".toList = ["ENDLOOP".toList, "now".toList] ∧
    specArity "ENDLOOP".toList = some 1 ∧
    (playLine ⟨1, .STOP, 3⟩ (world ackBus []) 1 "ENDLOOP,now".toList inLoopWrite).1 =
      .done () ∧
    (playLine ⟨1, .STOP, 3⟩ (world ackBus []) 1 "ENDLOOP,now".toList inLoopWrite).2.in_loop =
      false ∧
    rawWrites (playLine ⟨1, .STOP, 3⟩ (world ackBus []) 1 "ENDLOOP,now".toList
      inLoopWrite).2.trace = [(16, 170), (16, 170), (16, 170)] :=
  ⟨by decide, by decide, rfl, by decide, by decide, rfl, rfl, by decide⟩

/-- C21 (amended): a line outside a loop block, after the header, whose verb is one of the ten
verbs other than `ENDLOOP` and `STOP_RECORD` and whose number of tokens differs from the
number of fields of the script format is rejected before it has any effect: the error
`Invalid <verb> format` is logged with the line number, it ends the run under Stop and is
passed over under Retry and Continue, no bus operation is issued and nothing else changes
but the line counter. -/
theorem wrong_field_count_rejected (p : Config) (env : Env) (fuel : Nat) (line cmd : Str)
    (args : List Str) (k : Nat) (s : State)
    (hh : s.header_skipped = true) (hin : s.in_loop = false)
    (ht : tokenize line = cmd :: args) (hk : specArity cmd = some k)
    (h1 : cmd ≠ "ENDLOOP".toList) (h2 : cmd ≠ "STOP_RECORD".toList)
    (hn : args.length + 1 ≠ k) :
    playLine p env fuel line s =
      (if p.error_action = .STOP then .raised ("Invalid " ++ String.mk cmd ++ " format")
       else .done (),
       { s with line_number := s.line_number + 1
                trace := s.trace ++ [Ev.cerr ("Error at line " ++ toString (s.line_number + 1)
                  ++ ": " ++ ("Invalid " ++ String.mk cmd ++ " format") ++ "\n")] }) ∧
    selects (playLine p env fuel line s).2.trace = selects s.trace ∧
    transfers (playLine p env fuel line s).2.trace = transfers s.trace := by
  have hkn := specArity_known cmd k hk
  obtain ⟨hfc, hv⟩ := fieldCount_spec cmd hkn h1 h2
  obtain ⟨c, cs, hc, hne⟩ := knownVerbs_head cmd hkn
  have hskip : skipLine line = false := by
    rw [hc] at ht
    exact skipLine_of_tokens line cs c args ht hne
  have hfault : ScriptFault p env fuel { s with line_number := s.line_number + 1 } cmd args
      ("Invalid " ++ String.mk cmd ++ " format") { s with line_number := s.line_number + 1 } := by
    rcases hv with hv | hv
    · exact ScriptFault.stateFields cmd args k hv (by rw [hfc, hk]) hn
    · exact ScriptFault.busFields cmd args k hin hv (by rw [hfc, hk]) hn
  have hplay : playLine p env fuel line s =
      catchLine p ("Invalid " ++ String.mk cmd ++ " format")
        { s with line_number := s.line_number + 1 } := by
    rw [playLine_command p env fuel line cmd args s hskip hh ht,
      scriptFault_raises p env fuel line cmd args _ _ _ hfault]
  have hfull : playLine p env fuel line s =
      (if p.error_action = .STOP then .raised ("Invalid " ++ String.mk cmd ++ " format")
       else .done (),
       { s with line_number := s.line_number + 1
                trace := s.trace ++ [Ev.cerr ("Error at line " ++ toString (s.line_number + 1)
                  ++ ": " ++ ("Invalid " ++ String.mk cmd ++ " format") ++ "\n")] }) := by
    rw [hplay]
    unfold catchLine logged
    split <;> rfl
  refine ⟨hfull, ?_, ?_⟩
  · rw [hfull]
    simp [selects, isSelect]
  · rw [hfull]
    simp [transfers, isTransfer]

/-- Witness for C21: `WRITE1,0x10` lacks its data field. -/
theorem wrong_field_count_rejected_witness :
    playLine ⟨1, .STOP, 3⟩ (world ackBus []) 1 "WRITE1,0x10".toList afterHeader =
      (.raised "Invalid WRITE1 format",
       { afterHeader with line_number := 2
                          trace := [Ev.cerr "Error at line 2: Invalid WRITE1 format\n"] }) :=
  (wrong_field_count_rejected ⟨1, .STOP, 3⟩ (world ackBus []) 1 "WRITE1,0x10".toList
    "WRITE1".toList ["0x10".toList] 3 afterHeader rfl rfl (by decide) (by decide) (by decide)
    (by decide) (by decide)).1

theorem isHexDigit_range (c : Char) (h : isHexDigit c = true) :
    (48 ≤ c.toNat ∧ c.toNat ≤ 57) ∨ (97 ≤ c.toNat ∧ c.toNat ≤ 102) ∨
    (65 ≤ c.toNat ∧ c.toNat ≤ 70) := by
  unfold isHexDigit at h
  simp only [Bool.or_eq_true, Bool.and_eq_true, decide_eq_true_eq] at h
  tauto

theorem digitIn_hex (c : Char) (h : isHexDigit c = true) :
    digitIn 16 c = some (hexDigitValue c) := by
  have hr := isHexDigit_range c h
  unfold digitIn digitValue hexDigitValue
  generalize c.toNat = n at hr
  rcases hr with ⟨h1, h2⟩ | ⟨h1, h2⟩ | ⟨h1, h2⟩
  · rw [if_pos ⟨h1, h2⟩]
    simp only
    rw [if_pos (by omega), if_pos h2]
  · rw [if_neg (by omega), if_pos ⟨h1, by omega⟩]
    simp only
    rw [if_pos (by omega), if_neg (by omega), if_pos h1]
  · rw [if_neg (by omega), if_neg (by omega), if_pos ⟨h1, by omega⟩]
    simp only
    rw [if_pos (by omega), if_neg (by omega), if_neg (by omega)]

theorem leadingDigits_hex (h : Str) (hd : ∀ c ∈ h, isHexDigit c = true) :
    leadingDigits 16 h = h.map hexDigitValue := by
  induction h with
  | nil => rfl
  | cons c cs ih =>
    unfold leadingDigits
    rw [digitIn_hex c (hd c (List.mem_cons_self _ _))]
    simp only [List.map_cons]
    rw [ih (fun x hx => hd x (List.mem_cons_of_mem _ hx))]

theorem digitsValue_hex (h : Str) : digitsValue 16 (h.map hexDigitValue) = hexValue h := by
  unfold digitsValue hexValue
  rw [List.foldl_map]

theorem hex_ne (c d : Char) (h : isHexDigit c = true) (hd : isHexDigit d = false) : c ≠ d := by
  intro e
  rw [e, hd] at h
  exact absurd h (by decide)

theorem isSpaceC_hex (c : Char) (h : isHexDigit c = true) : isSpaceC c = false := by
  unfold isSpaceC
  simp only [Bool.or_eq_false_iff, beq_eq_false_iff_ne, ne_eq]
  exact ⟨⟨⟨⟨⟨hex_ne c _ h (by decide), hex_ne c _ h (by decide)⟩, hex_ne c _ h (by decide)⟩,
    hex_ne c _ h (by decide)⟩, hex_ne c _ h (by decide)⟩, hex_ne c _ h (by decide)⟩

theorem takeSign_hex (c : Char) (cs : Str) (h : isHexDigit c = true) :
    takeSign (c :: cs) = (false, c :: cs) := by
  unfold takeSign
  split
  · rename_i r heq
    simp only [List.cons.injEq] at heq
    exact absurd heq.1 (hex_ne c _ h (by decide))
  · rename_i r heq
    simp only [List.cons.injEq] at heq
    exact absurd heq.1 (hex_ne c _ h (by decide))
  · rfl

theorem skipHexMark_hex (h : Str) (hd : ∀ c ∈ h, isHexDigit c = true) :
    skipHexMark 16 h = h := by
  unfold skipHexMark
  split
  · rename_i x d r
    have hx : isHexDigit x = true := hd x (by simp)
    rw [if_neg]
    rintro ⟨-, hx2, -⟩
    rcases hx2 with e | e
    · exact hex_ne x _ hx (by decide) e
    · exact hex_ne x _ hx (by decide) e
  · rfl

/-- On a non-empty string of hexadecimal digits `std::stoi` in base 16 yields the numeric
value, provided it fits an `int`. -/
theorem stoi_hex (h : Str) (hne : h ≠ []) (hd : ∀ c ∈ h, isHexDigit c = true)
    (hv : hexValue h < 2 ^ 31) : stoi h 16 = .ok (hexValue h : Int) := by
  cases h with
  | nil => exact absurd rfl hne
  | cons c cs =>
    have hc : isHexDigit c = true := hd c (List.mem_cons_self _ _)
    unfold stoi
    have h1 : (c :: cs).dropWhile isSpaceC = c :: cs := by
      simp [List.dropWhile, isSpaceC_hex c hc]
    simp only [h1, takeSign_hex c cs hc, skipHexMark_hex (c :: cs) hd,
      leadingDigits_hex (c :: cs) hd, digitsValue_hex]
    rw [if_neg (by simp)]
    simp only [Bool.false_eq_true, if_false]
    rw [if_neg]
    omega

/-- C22: for every non-empty string h of hexadecimal digits whose value is below 2^31, both
hexToInt(h) and hexToInt("0x" ++ h) return the numeric value of h. -/
theorem hex_prefix_is_optional (h : Str) (hne : h ≠ [])
    (hd : ∀ c ∈ h, isHexDigit c = true) (hv : hexValue h < 2 ^ 31) :
    hexToInt h = .ok (hexValue h : Int) ∧
    hexToInt ('0' :: 'x' :: h) = .ok (hexValue h : Int) := by
  constructor
  · unfold hexToInt
    have hno : ¬ h.take 2 = ['0', 'x'] := by
      intro e
      rcases h with _ | ⟨a, _ | ⟨b, t⟩⟩
      · simp at e
      · simp at e
      · simp only [List.take_succ_cons, List.take_zero, List.cons.injEq, and_true] at e
        exact hex_ne b _ (hd b (by simp)) (by decide) e.2
    simp only [hno, if_false]
    exact stoi_hex h hne hd hv
  · unfold hexToInt
    simp only [List.take_succ_cons, List.take_zero, List.drop_succ_cons, List.drop_zero,
      if_true]
    exact stoi_hex h hne hd hv

/-- Witness for C22: `AA` and `0xAA` both read as 170, `7f` and `0x7f` as 127. -/
theorem hex_prefix_is_optional_witness :
    (hexToInt "AA".toList = .ok (hexValue "AA".toList : Int) ∧
      hexToInt "0xAA".toList = .ok (hexValue "AA".toList : Int)) ∧
    hexValue "AA".toList = 170 ∧ hexValue "7f".toList = 127 ∧
    hexToInt "0x7f".toList = .ok 127 :=
  ⟨hex_prefix_is_optional "AA".toList (by decide) (by decide) (by decide), by decide,
    by decide, rfl⟩

@[simp] theorem writeCalls_append (a b : Trace) :
    writeCalls (a ++ b) = writeCalls a ++ writeCalls b := by
  simp [writeCalls]

theorem checkNAK_calls (p : Config) (e : Nat) (op : String) (tr : Trace) :
    writeCalls (checkNAK p e op tr).2 = writeCalls tr := by
  unfold checkNAK
  split
  · split <;> simp [writeCalls]
  · rfl

theorem nakBlock_calls {α : Type} (p : Config) (e : Nat) (op msg : String) (a : Int)
    (tr : Trace) : writeCalls (nakBlock (α := α) p e op msg a tr).2 = writeCalls tr := by
  have h := checkNAK_calls p e op tr
  unfold nakBlock
  rcases hc : checkNAK p e op tr with ⟨r, tr1⟩
  rw [hc] at h
  simp only at h
  rcases r with e1 | b
  · simpa using h
  · cases b
    · simpa using h
    · simp only
      split <;> simpa using h

/-- One pass of a write operation issues at most one `write` call, with the bytes of the
operation; when that call is complete the pass ends with `return`. -/
theorem writeAttempt_calls (p : Config) (bus : Bus) (addr : Nat) (buf : List Nat)
    (op msg : String) (sync : Bool) (a : Int) (tr : Trace) :
    ∃ ws, writeCalls (writeAttempt p bus addr buf op msg sync a tr).2 = writeCalls tr ++ ws ∧
      ws.length ≤ 1 ∧ (∀ w ∈ ws, w.1 = addr ∧ w.2.1 = buf) ∧
      (∀ w ∈ ws, w.2.2 = (buf.length : Int) →
        (writeAttempt p bus addr buf op msg sync a tr).1 = .ret ()) := by
  unfold writeAttempt
  simp only
  split
  · exact ⟨[], by simp [writeCalls], by simp, by simp, by simp⟩
  · generalize hw : bus.write (tr ++ [Ev.ioctl addr (bus.ioctl tr addr)]) addr buf = w
    refine ⟨[(addr, buf, w.ret)], ?_, by simp, by simp, ?_⟩
    · by_cases hc : w.ret ≠ (buf.length : Int)
      · rw [if_pos hc]
        have g := nakBlock_calls (α := Unit) p w.errno op msg a
          (tr ++ [Ev.ioctl addr (bus.ioctl tr addr)] ++ [Ev.write addr buf w.ret w.errno])
        rcases hg : nakBlock (α := Unit) p w.errno op msg a
          (tr ++ [Ev.ioctl addr (bus.ioctl tr addr)] ++ [Ev.write addr buf w.ret w.errno])
          with ⟨o, tr3⟩
        rw [hg] at g
        simp only at g
        cases o with
        | some x => simp only; rw [g]; simp [writeCalls]
        | none => simp only; cases sync <;> simp [g] <;> simp [writeCalls]
      · rw [if_neg hc]
        cases sync <;> simp [writeCalls]
    · intro x hx hret
      simp only [List.mem_singleton] at hx
      subst hx
      simp only at hret
      rw [if_neg (not_not.mpr hret)]

theorem writeAttempts_cons_incomplete (addr : Nat) (buf : List Nat)
    (ws1 ws2 : List (Nat × List Nat × Int)) (ok : Prop)
    (h1 : ∀ w ∈ ws1, w.1 = addr ∧ w.2.1 = buf) (h2 : ∀ w ∈ ws1, w.2.2 ≠ (buf.length : Int))
    (h : WriteAttempts addr buf ws2 ok) : WriteAttempts addr buf (ws1 ++ ws2) ok := by
  obtain ⟨ha, hb, hc⟩ := h
  refine ⟨?_, ?_, ?_⟩
  · intro w hw
    rcases List.mem_append.mp hw with h | h
    · exact h1 w h
    · exact ha w h
  · intro w hw
    by_cases he : ws2 = []
    · subst he
      rw [List.append_nil] at hw
      exact h2 w (List.mem_of_mem_dropLast hw)
    · rw [List.dropLast_append_of_ne_nil _ he] at hw
      rcases List.mem_append.mp hw with h | h
      · exact h2 w h
      · exact hb w h
  · intro w hw hret
    by_cases he : ws2 = []
    · subst he
      rw [List.append_nil] at hw
      exact absurd hret (h2 w (List.mem_of_getLast?_eq_some hw))
    · rw [List.getLast?_append_of_ne_nil _ he] at hw
      exact hc w hw hret

/-- The `write` calls of a retried write operation. -/
theorem retryLoop_calls (p : Config) (body : Int → Trace → Attempt Unit × Trace)
    (fm : String) (addr : Nat) (buf : List Nat)
    (hb : ∀ a tr, ∃ ws, writeCalls (body a tr).2 = writeCalls tr ++ ws ∧ ws.length ≤ 1 ∧
      (∀ w ∈ ws, w.1 = addr ∧ w.2.1 = buf) ∧
      (∀ w ∈ ws, w.2.2 = (buf.length : Int) → (body a tr).1 = .ret ())) :
    ∀ (left : Nat) (a : Int) (tr : Trace),
      ∃ ws, writeCalls (retryLoop p body fm left a tr).2 = writeCalls tr ++ ws ∧
        WriteAttempts addr buf ws ((retryLoop p body fm left a tr).1 = .ok ()) := by
  intro left
  induction left with
  | zero =>
    intro a tr
    exact ⟨[], by simp [retryLoop], by simp [WriteAttempts]⟩
  | succ n ih =>
    intro a tr
    unfold retryLoop
    by_cases ha : a ≤ p.retry_count
    · rw [if_pos ha]
      obtain ⟨ws1, h1, hl, hab, hret⟩ := hb a tr
      rcases hbody : body a tr with ⟨r, tr1⟩
      rw [hbody] at h1 hret
      simp only at h1 hret
      have hinc : r ≠ .ret () → ∀ w ∈ ws1, w.2.2 ≠ (buf.length : Int) :=
        fun hr w hw hc => hr (hret w hw hc)
      cases r with
      | ret v =>
        refine ⟨ws1, h1, hab, ?_, fun _ _ _ => rfl⟩
        intro w hw
        rcases ws1 with _ | ⟨x, _ | ⟨y, t⟩⟩
        · simp at hw
        · simp at hw
        · simp at hl
      | again =>
        simp only
        obtain ⟨ws2, h2, hw2⟩ := ih (a + 1) tr1
        refine ⟨ws1 ++ ws2, by rw [h2, h1, List.append_assoc], ?_⟩
        exact writeAttempts_cons_incomplete addr buf ws1 ws2 _ hab (hinc (by simp)) hw2
      | thrown e =>
        simp only
        by_cases he : a = p.retry_count
        · rw [if_pos he]
          refine ⟨ws1 ++ [], by simpa using h1, ?_⟩
          exact writeAttempts_cons_incomplete addr buf ws1 [] _ hab (hinc (by simp))
            (by simp [WriteAttempts])
        · rw [if_neg he]
          obtain ⟨ws2, h2, hw2⟩ := ih (a + 1) (tr1 ++ [Ev.sleep (p.i2c_wait_ms * 2)])
          refine ⟨ws1 ++ ws2, ?_, ?_⟩
          · rw [h2, writeCalls_append, h1]
            simp [writeCalls]
          · exact writeAttempts_cons_incomplete addr buf ws1 ws2 _ hab (hinc (by simp)) hw2
    · rw [if_neg ha]
      exact ⟨[], by simp, by simp [WriteAttempts]⟩

/-- C23: for every register byte r and 16-bit value d, every `write` call that
write16Bit(addr, r, d) issues hands the three bytes r, d mod 256, d div 256 to addr; none but
the last call is complete, and a complete call ends the operation with success, so a
successful transfer is the only complete one. On a device that acknowledges everything the
operation succeeds with exactly one such call. The two data bytes satisfy
d = byte1 + 256 * byte2. -/
theorem write16_sends_low_then_high (p : Config) (bus : Bus) (addr r d : Nat) (tr : Trace)
    (hd : d < 65536) :
    (∃ ws, writeCalls (write16Bit p bus addr r d tr).2 = writeCalls tr ++ ws ∧
      WriteAttempts addr [r, d % 256, d / 256] ws ((write16Bit p bus addr r d tr).1 = .ok ())) ∧
    (0 ≤ p.retry_count → AcksAll bus →
      (write16Bit p bus addr r d tr).1 = .ok () ∧
      writeCalls (write16Bit p bus addr r d tr).2 =
        writeCalls tr ++ [(addr, [r, d % 256, d / 256], 3)] ∧
      transfers (write16Bit p bus addr r d tr).2 = transfers tr + 1) ∧
    d % 256 + 256 * (d / 256) = d ∧ d % 256 < 256 ∧ d / 256 < 256 := by
  have hhi : d / 256 % 256 = d / 256 := Nat.mod_eq_of_lt (by omega)
  refine ⟨?_, ?_, Nat.mod_add_div d 256, Nat.mod_lt _ (by decide), by omega⟩
  · unfold write16Bit
    rw [hhi]
    exact retryLoop_calls p _ _ addr [r, d % 256, d / 256]
      (fun a t => writeAttempt_calls p bus addr _ _ _ false a t) _ 0 tr
  · intro hR hack
    have h := writeAttempt_ack p bus addr [r, d % 256, d / 256] "16-bit write"
      "Failed to write 16-bit I2C data after retries" false 0 tr hack
    unfold write16Bit
    rw [hhi, retryLoop_first_ret p _ _ tr () hR (by rw [h]), h]
    have hret := hack.2.1 (tr ++ [Ev.ioctl addr (bus.ioctl tr addr)]) addr [r, d % 256, d / 256]
    refine ⟨rfl, ?_, ?_⟩
    · simp [writeCalls, hret]
    · simp [transfers, isTransfer]

/-- Witness for C23: write16Bit(0x48, 0x01, 0x1234) on a device that acknowledges everything
sends 0x01, 0x34, 0x12. -/
theorem write16_sends_low_then_high_witness :
    (write16Bit ⟨1, .STOP, 3⟩ ackBus 72 1 4660 []).1 = .ok () ∧
    writeCalls (write16Bit ⟨1, .STOP, 3⟩ ackBus 72 1 4660 []).2 =
      writeCalls [] ++ [(72, [1, 4660 % 256, 4660 / 256], 3)] ∧
    transfers (write16Bit ⟨1, .STOP, 3⟩ ackBus 72 1 4660 []).2 = transfers [] + 1 :=
  (write16_sends_low_then_high ⟨1, .STOP, 3⟩ ackBus 72 1 4660 [] (by decide)).2.1 (by decide)
    ackBus_acksAll

/-- The values read by a polling loop on a device that acknowledges everything: each pass reads
one byte; every byte but the last fails the test, and the loop answers `true` exactly when the
last byte passes it. No exception leaves the loop. -/
theorem pollLoop_reads (p : Config) (env : Env) (addr reg mask expected : Nat)
    (timeout_ms interval_ms start : Int) (hR : 0 ≤ p.retry_count) (hack : AcksAll env.bus) :
    ∀ (fuel : Nat) (tr : Trace), ∃ vs : List Nat,
      readBytes (pollLoop p env addr reg mask expected timeout_ms interval_ms start fuel tr).2 =
        readBytes tr ++ vs ∧
      (∀ v ∈ vs.dropLast, v &&& mask ≠ expected) ∧
      ((pollLoop p env addr reg mask expected timeout_ms interval_ms start fuel tr).1 =
          .done true ↔ ∃ v, vs.getLast? = some v ∧ v &&& mask = expected) ∧
      (∀ e, (pollLoop p env addr reg mask expected timeout_ms interval_ms start fuel tr).1 ≠
        .raised e) := by
  intro fuel
  induction fuel with
  | zero =>
    intro tr
    exact ⟨[], by simp [pollLoop], by simp, by simp [pollLoop], by simp [pollLoop]⟩
  | succ n ih =>
    intro tr
    obtain ⟨d, tr1, hrd, hb, _⟩ := readByte_ack p env.bus addr reg tr hR hack
    unfold pollLoop
    rw [hrd]
    simp only
    by_cases hm : d &&& mask = expected
    · rw [if_pos hm]
      exact ⟨[d], hb, by simp, by simp [hm], by simp⟩
    · rw [if_neg hm]
      by_cases ht : timeout_ms ≤ env.now tr1 - start
      · rw [if_pos ht]
        exact ⟨[d], hb, by simp, by simp [hm], by simp⟩
      · rw [if_neg ht]
        obtain ⟨vs, h1, h2, h3, h4⟩ := ih (tr1 ++ [Ev.sleep interval_ms])
        refine ⟨d :: vs, ?_, ?_, ?_, h4⟩
        · rw [h1, readBytes_append, hb]
          simp [readBytes]
        · intro v hv
          cases vs with
          | nil => simp at hv
          | cons x xs =>
            rw [List.dropLast_cons₂] at hv
            rcases List.mem_cons.mp hv with h | h
            · rw [h]; exact hm
            · exact h2 v h
        · rw [h3]
          cases vs with
          | nil => simp [hm]
          | cons x xs => rw [List.getLast?_cons_cons]

/-- C24: on a device that acknowledges everything (so that no read raises), whatever the mask,
the expected value and the values the device delivers, pollRegister answers true if and only
if one of the values it reads satisfies (v & mask) == expected; that value is the last one
read, and every value read before it fails the test. With an unbounded clock the loop ends
with an answer. -/
theorem poll_true_iff_value_matches (p : Config) (env : Env) (fuel : Nat)
    (addr reg mask expected : Nat) (timeout_ms interval_ms : Int) (tr : Trace)
    (hR : 0 ≤ p.retry_count) (hack : AcksAll env.bus) :
    (∃ vs : List Nat,
      readBytes (pollRegister p env fuel addr reg mask expected timeout_ms interval_ms tr).2 =
        readBytes tr ++ vs ∧
      ((pollRegister p env fuel addr reg mask expected timeout_ms interval_ms tr).1 =
          .done true ↔ ∃ v ∈ vs, v &&& mask = expected) ∧
      (∀ v ∈ vs.dropLast, v &&& mask ≠ expected) ∧
      ((pollRegister p env fuel addr reg mask expected timeout_ms interval_ms tr).1 =
          .done true → ∃ v, vs.getLast? = some v ∧ v &&& mask = expected)) ∧
    (ClockAdvances env → ∃ (f0 : Nat) (b : Bool), ∀ f, f0 ≤ f →
      (pollRegister p env f addr reg mask expected timeout_ms interval_ms tr).1 = .done b) := by
  constructor
  · obtain ⟨vs, h1, h2, h3, _⟩ := pollLoop_reads p env addr reg mask expected timeout_ms
      interval_ms (env.now tr) hR hack fuel tr
    refine ⟨vs, h1, ?_, h2, h3.mp⟩
    unfold pollRegister
    rw [h3]
    constructor
    · rintro ⟨v, hv, hm⟩
      exact ⟨v, List.mem_of_getLast?_eq_some hv, hm⟩
    · rintro ⟨v, hv, hm⟩
      rcases hl : vs.getLast? with _ | w
      · rw [List.getLast?_eq_none_iff] at hl
        rw [hl] at hv
        simp at hv
      · have hsplit := List.dropLast_append_getLast? w (by rw [hl]; rfl)
        rw [← hsplit] at hv
        rcases List.mem_append.mp hv with h | h
        · exact absurd hm (h2 v h)
        · simp only [List.mem_singleton] at h
          exact ⟨w, rfl, by rw [← h]; exact hm⟩
  · intro hc
    obtain ⟨f0, hns, hst⟩ := pollRegister_settles p env addr reg mask expected timeout_ms
      interval_ms tr hc
    obtain ⟨_, _, _, _, hnr⟩ := pollLoop_reads p env addr reg mask expected timeout_ms
      interval_ms (env.now tr) hR hack f0 tr
    simp only at hns hst
    rcases ho : (pollRegister p env f0 addr reg mask expected timeout_ms interval_ms tr).1
      with b | e | _
    · exact ⟨f0, b, fun f hf => by rw [hst f hf, ho]⟩
    · exact absurd ho (hnr e)
    · exact absurd ho hns

/-- Witness for C24: polling for the value 6 on a device that delivers 2 and then 6 ends with
true after the second read. -/
theorem poll_true_iff_value_matches_witness :
    (∃ vs : List Nat,
      readBytes (pollRegister ⟨1, .STOP, 3⟩ (world countBus []) 5 80 0 255 6 100 10 []).2 =
        readBytes [] ++ vs ∧
      ((pollRegister ⟨1, .STOP, 3⟩ (world countBus []) 5 80 0 255 6 100 10 []).1 =
          .done true ↔ ∃ v ∈ vs, v &&& 255 = 6) ∧
      (∀ v ∈ vs.dropLast, v &&& 255 ≠ 6) ∧
      ((pollRegister ⟨1, .STOP, 3⟩ (world countBus []) 5 80 0 255 6 100 10 []).1 =
          .done true → ∃ v, vs.getLast? = some v ∧ v &&& 255 = 6)) ∧
    (pollRegister ⟨1, .STOP, 3⟩ (world countBus []) 5 80 0 255 6 100 10 []).1 = .done true ∧
    readBytes (pollRegister ⟨1, .STOP, 3⟩ (world countBus []) 5 80 0 255 6 100 10 []).2 =
      [2, 6] :=
  ⟨(poll_true_iff_value_matches ⟨1, .STOP, 3⟩ (world countBus []) 5 80 0 255 6 100 10 []
      (by decide) countBus_acksAll).1, by decide, by decide⟩

/-- A polling loop that ends within its bound is, at the start of each of its passes, the same
loop started there. -/
theorem pollLoop_at_pass (p : Config) (env : Env) (addr reg mask expected : Nat)
    (timeout_ms interval_ms start : Int) (tr tr2 : Trace)
    (h : PollPass p env addr reg mask expected timeout_ms interval_ms start tr tr2) :
    ∀ fuel : Nat,
      (pollLoop p env addr reg mask expected timeout_ms interval_ms start fuel tr).1 ≠ .stuck →
      ∃ k, pollLoop p env addr reg mask expected timeout_ms interval_ms start fuel tr =
        pollLoop p env addr reg mask expected timeout_ms interval_ms start (k + 1) tr2 := by
  induction h with
  | first tr =>
    intro fuel hns
    cases fuel with
    | zero => simp [pollLoop] at hns
    | succ n => exact ⟨n, rfl⟩
  | next tr tr1 tr2 value hrd hm ht _ ih =>
    intro fuel hns
    cases fuel with
    | zero => simp [pollLoop] at hns
    | succ n =>
      have hstep : pollLoop p env addr reg mask expected timeout_ms interval_ms start (n + 1) tr =
          pollLoop p env addr reg mask expected timeout_ms interval_ms start n
            (tr1 ++ [Ev.sleep interval_ms]) := by
        conv_lhs => unfold pollLoop
        rw [hrd]
        simp only
        rw [if_neg hm, if_neg ht]
      rw [hstep] at hns ⊢
      exact ih n hns

/-- C30: when the register read of a pass of pollRegister raises, in the first pass or after
any number of passes that went round, the loop ends there with the history the read left (no
further read, no sleep): under Stop the error is raised again, under Retry and Continue the
answer is false. In particular the answer is not true. -/
theorem poll_read_error_ends_poll (p : Config) (env : Env) (fuel : Nat)
    (addr reg mask expected : Nat) (timeout_ms interval_ms : Int) (tr tr2 tr3 : Trace)
    (e : String)
    (hpass : PollPass p env addr reg mask expected timeout_ms interval_ms (env.now tr) tr tr2)
    (hread : readByte p env.bus addr reg tr2 = (.error e, tr3))
    (hfuel : (pollRegister p env fuel addr reg mask expected timeout_ms interval_ms tr).1 ≠
      .stuck) :
    pollRegister p env fuel addr reg mask expected timeout_ms interval_ms tr =
      (if p.error_action = .STOP then .raised e else .done false, tr3) ∧
    (pollRegister p env fuel addr reg mask expected timeout_ms interval_ms tr).1 ≠
      .done true := by
  have hres : pollRegister p env fuel addr reg mask expected timeout_ms interval_ms tr =
      (if p.error_action = .STOP then .raised e else .done false, tr3) := by
    unfold pollRegister at hfuel ⊢
    obtain ⟨k, hk⟩ := pollLoop_at_pass p env addr reg mask expected timeout_ms interval_ms
      (env.now tr) tr tr2 hpass fuel hfuel
    rw [hk]
    unfold pollLoop
    rw [hread]
    simp only
    split <;> rfl
  refine ⟨hres, ?_⟩
  rw [hres]
  split <;> simp

/-- Witness for C30: under Retry with one retry, polling a device that answers every transfer
with a NAK ends with false after the two attempts of the first read. -/
theorem poll_read_error_ends_poll_witness :
    pollRegister ⟨1, .RETRY, 1⟩ (world nakBus []) 5 80 0 255 1 100 10 [] =
      (if (⟨1, .RETRY, 1⟩ : Config).error_action = .STOP then
          .raised "Failed to write register address after retries"
        else .done false,
        [Ev.ioctl 80 0, Ev.write 80 [0] (-1) ENXIO, Ev.cerr "NAK detected during register write\n",
         Ev.ioctl 80 0, Ev.write 80 [0] (-1) ENXIO,
         Ev.cerr "NAK detected during register write\n"]) ∧
    (pollRegister ⟨1, .RETRY, 1⟩ (world nakBus []) 5 80 0 255 1 100 10 []).1 ≠ .done true :=
  poll_read_error_ends_poll ⟨1, .RETRY, 1⟩ (world nakBus []) 5 80 0 255 1 100 10 [] [] _
    "Failed to write register address after retries" (PollPass.first _) rfl (by decide)

/-- A line that is not skipped has at least one token. -/
theorem tokenize_of_not_skipped (line : Str) (h : skipLine line = false) :
    ∃ cmd args, tokenize line = cmd :: args := by
  cases ht : tokenize line with
  | nil =>
    unfold tokenize at ht
    have hl := getlineAll_eq_nil ',' line (List.map_eq_nil_iff.mp ht)
    rw [hl] at h
    exact absurd h (by decide)
  | cons cmd args => exact ⟨cmd, args, rfl⟩

/-- C25: while a loop block is open (in a state that playFile can reach, where an open loop
block implies a consumed header), a line that is not skipped and whose verb is none of LOOP,
ENDLOOP, START_RECORD, STOP_RECORD and PRINT_RECORD is appended verbatim at the end of the
loop buffer: the step ends normally, issues no event and changes nothing but the loop buffer
and the line counter, whatever the verb and the number of fields. -/
theorem loop_block_buffers_line (p : Config) (env : Env) (fuel : Nat) (line : Str) (s : State)
    (hin : s.in_loop = true) (hinv : HeaderBeforeLoop s) (hskip : skipLine line = false)
    (hv : ∀ c ∈ controlVerbs, verb line ≠ some c) :
    playLine p env fuel line s =
      (.done (), { s with line_number := s.line_number + 1,
                           loop_sequence := s.loop_sequence ++ [line] }) := by
  obtain ⟨cmd, args, ht⟩ := tokenize_of_not_skipped line hskip
  have hc : cmd ∉ controlVerbs := by
    intro hmem
    apply hv cmd hmem
    unfold verb
    rw [ht]
    rfl
  exact playLine_buffer p env fuel line cmd args s hskip (hinv hin) hin ht hc

/-- Witness for C25: an unknown verb and a raw write that lacks its data field are buffered
inside an open loop block. -/
theorem loop_block_buffers_line_witness :
    playLine ⟨1, .STOP, 3⟩ (world ackBus []) 1 " BOGUS,1,2".toList inLoop3 =
      (.done (), { inLoop3 with line_number := inLoop3.line_number + 1,
                                loop_sequence := inLoop3.loop_sequence ++
                                  [" BOGUS,1,2".toList] }) ∧
    playLine ⟨1, .STOP, 3⟩ (world ackBus []) 1 "WRITE1,0x10".toList inLoopWrite =
      (.done (), { inLoopWrite with line_number := inLoopWrite.line_number + 1,
                                    loop_sequence := inLoopWrite.loop_sequence ++
                                      ["WRITE1,0x10".toList] }) :=
  ⟨loop_block_buffers_line ⟨1, .STOP, 3⟩ (world ackBus []) 1 " BOGUS,1,2".toList inLoop3 rfl
      (fun _ => rfl) (by decide) (by decide),
   loop_block_buffers_line ⟨1, .STOP, 3⟩ (world ackBus []) 1 "WRITE1,0x10".toList inLoopWrite
      rfl (fun _ => rfl) (by decide) (by decide)⟩

/-- A buffered line whose verb is neither `WRITE1` nor `DELAY` costs the pacing sleep only. -/
theorem sequenceLine_idle (p : Config) (bus : Bus) (line : Str) (tr : Trace)
    (h1 : verb line ≠ some "WRITE1".toList) (h2 : verb line ≠ some "DELAY".toList) :
    sequenceLine p bus line tr =
      (.ok (), if tokenize line = [] then tr else tr ++ [Ev.sleep p.i2c_wait_ms]) := by
  unfold verb at h1 h2
  unfold sequenceLine
  cases ht : tokenize line with
  | nil => rfl
  | cons cmd args =>
    rw [ht] at h1 h2
    simp only [List.head?_cons, ne_eq, Option.some.injEq] at h1 h2
    simp only
    unfold sequenceCommand
    rw [if_neg h1, if_neg h2]
    simp

theorem sequencePass_idle (p : Config) (bus : Bus) (sequence : List Str)
    (h : ∀ l ∈ sequence, verb l ≠ some "WRITE1".toList ∧ verb l ≠ some "DELAY".toList) :
    ∀ tr : Trace, ∃ ext, sequencePass p bus sequence tr = (.ok (), tr ++ ext) ∧
      ∀ e ∈ ext, e = Ev.sleep p.i2c_wait_ms := by
  induction sequence with
  | nil => intro tr; exact ⟨[], by simp [sequencePass], by simp⟩
  | cons l ls ih =>
    intro tr
    have hl := h l (List.mem_cons_self _ _)
    unfold sequencePass
    rw [sequenceLine_idle p bus l tr hl.1 hl.2]
    simp only
    obtain ⟨ext, he, hs⟩ := ih (fun x hx => h x (List.mem_cons_of_mem _ hx))
      (if tokenize l = [] then tr else tr ++ [Ev.sleep p.i2c_wait_ms])
    rw [he]
    by_cases ht : tokenize l = []
    · rw [if_pos ht]
      exact ⟨ext, rfl, hs⟩
    · rw [if_neg ht]
      refine ⟨Ev.sleep p.i2c_wait_ms :: ext, by simp, ?_⟩
      intro e hmem
      rcases List.mem_cons.mp hmem with h0 | h0
      · exact h0
      · exact hs e h0

theorem sequencePasses_idle (p : Config) (bus : Bus) (sequence : List Str)
    (h : ∀ l ∈ sequence, verb l ≠ some "WRITE1".toList ∧ verb l ≠ some "DELAY".toList)
    (n : Nat) :
    ∀ tr : Trace, ∃ ext, sequencePasses p bus sequence n tr = (.ok (), tr ++ ext) ∧
      ∀ e ∈ ext, e = Ev.sleep p.i2c_wait_ms := by
  induction n with
  | zero => intro tr; exact ⟨[], by simp [sequencePasses], by simp⟩
  | succ k ih =>
    intro tr
    obtain ⟨e1, h1, hs1⟩ := sequencePass_idle p bus sequence h tr
    obtain ⟨e2, h2, hs2⟩ := ih (tr ++ e1)
    unfold sequencePasses
    rw [h1]
    simp only
    rw [h2]
    refine ⟨e1 ++ e2, by simp, ?_⟩
    intro e hmem
    rcases List.mem_append.mp hmem with h0 | h0
    · exact hs1 e h0
    · exact hs2 e h0

/-- A buffered line whose verb is not `WRITE1` issues no bus operation. -/
theorem sequenceLine_no_bus (p : Config) (bus : Bus) (line : Str) (tr : Trace)
    (h1 : verb line ≠ some "WRITE1".toList) :
    selects (sequenceLine p bus line tr).2 = selects tr ∧
    transfers (sequenceLine p bus line tr).2 = transfers tr := by
  by_cases h2 : verb line = some "DELAY".toList
  · unfold verb at h2
    unfold sequenceLine
    cases ht : tokenize line with
    | nil => exact ⟨rfl, rfl⟩
    | cons cmd args =>
      rw [ht] at h2
      simp only [List.head?_cons, Option.some.injEq] at h2
      subst h2
      simp only
      unfold sequenceCommand
      rw [if_neg (by decide), if_pos rfl]
      cases parseDelay args with
      | error e =>
        simp only
        split <;> simp [selects, transfers, isSelect, isTransfer]
      | ok d => simp [selects, transfers, isSelect, isTransfer]
  · rw [sequenceLine_idle p bus line tr h1 h2]
    split <;> simp [selects, transfers, isSelect, isTransfer]

/-- C26: under every policy, when executeSequence runs a loop body, a buffered line whose verb
is neither WRITE1 nor DELAY raises nothing and adds nothing to the history but the pacing
sleep; a line whose verb is not WRITE1 issues no bus operation; a body made of lines that are
neither WRITE1 nor DELAY runs to its end with pacing sleeps only; and the ENDLOOP line that
runs the body leaves the record buffer as it is, whatever the body holds. -/
theorem loop_body_runs_write1_and_delay_only (p : Config) (env : Env) (fuel : Nat)
    (sequence : List Str) (iterations : Int) (line : Str) (tr : Trace) (s : State) :
    (verb line ≠ some "WRITE1".toList → verb line ≠ some "DELAY".toList →
      sequenceLine p env.bus line tr =
        (.ok (), if tokenize line = [] then tr else tr ++ [Ev.sleep p.i2c_wait_ms])) ∧
    (verb line ≠ some "WRITE1".toList →
      selects (sequenceLine p env.bus line tr).2 = selects tr ∧
      transfers (sequenceLine p env.bus line tr).2 = transfers tr) ∧
    ((∀ l ∈ sequence, verb l ≠ some "WRITE1".toList ∧ verb l ≠ some "DELAY".toList) →
      ∃ ext, executeSequence p env.bus sequence iterations tr = (.ok (), tr ++ ext) ∧
        ∀ e ∈ ext, e = Ev.sleep p.i2c_wait_ms) ∧
    (verb line = some "ENDLOOP".toList →
      (playLine p env fuel line s).2.record_buffer = s.record_buffer) := by
  refine ⟨sequenceLine_idle p env.bus line tr, sequenceLine_no_bus p env.bus line tr, ?_, ?_⟩
  · intro h
    unfold executeSequence
    exact sequencePasses_idle p env.bus sequence h iterations.toNat tr
  · intro hv
    rcases playLine_buffer_step p env fuel line s with h | ⟨h1, _⟩ | ⟨h1, _⟩
    · exact h
    · rw [hv] at h1
      exact absurd h1 (by decide)
    · rw [hv] at h1
      exact absurd h1 (by decide)

/-- Witness for C26: a loop body of READ, WRITE, POLL and an unknown verb, run twice while
recording is on, produces eight pacing sleeps and nothing else. -/
theorem loop_body_runs_write1_and_delay_only_witness :
    (∃ ext, executeSequence ⟨1, .STOP, 3⟩ (world ackBus []).bus idleBody 2 [] =
        (.ok (), [] ++ ext) ∧
      ∀ e ∈ ext, e = Ev.sleep (⟨1, .STOP, 3⟩ : Config).i2c_wait_ms) ∧
    playLine ⟨1, .STOP, 3⟩ (world ackBus []) 1 "ENDLOOP".toList inLoopIdle =
      (.done (), { inLoopIdle with line_number := 8, in_loop := false,
                                   trace := List.replicate 8 (Ev.sleep 1) }) :=
  ⟨(loop_body_runs_write1_and_delay_only ⟨1, .STOP, 3⟩ (world ackBus []) 1 idleBody 2 []
      [] fresh).2.2.1 (by decide), rfl⟩

/-- On a device that acknowledges everything `writeByte` succeeds at the first attempt with one
selection and one two-byte write. -/
theorem writeByte_ack (p : Config) (bus : Bus) (addr reg data : Nat) (tr : Trace)
    (hR : 0 ≤ p.retry_count) (hack : AcksAll bus) :
    ∃ tr1, writeByte p bus addr reg data tr = (.ok (), tr1) ∧
      writeCalls tr1 = writeCalls tr ++ [(addr, [reg, data], 2)] ∧
      transfers tr1 = transfers tr + 1 ∧ selects tr1 = selects tr + 1 := by
  have h := writeAttempt_ack p bus addr [reg, data] "write"
    "Failed to write I2C data after retries" false 0 tr hack
  have hret := hack.2.1 (tr ++ [Ev.ioctl addr (bus.ioctl tr addr)]) addr [reg, data]
  refine ⟨(tr ++ [Ev.ioctl addr (bus.ioctl tr addr)] ++
    [Ev.write addr [reg, data]
      (bus.write (tr ++ [Ev.ioctl addr (bus.ioctl tr addr)]) addr [reg, data]).ret
      (bus.write (tr ++ [Ev.ioctl addr (bus.ioctl tr addr)]) addr [reg, data]).errno]) ++ [],
    ?_, ?_, ?_, ?_⟩
  · unfold writeByte
    rw [retryLoop_first_ret p _ _ tr () hR (by rw [h]), h]
    rfl
  · simp [writeCalls, hret]
  · simp [transfers, isTransfer]
  · simp [selects, isSelect]

/-- On a device that acknowledges everything the loop of `writeFile` writes every byte, in
order. -/
theorem writeAll_ack (p : Config) (bus : Bus) (addr reg : Nat) (hR : 0 ≤ p.retry_count)
    (hack : AcksAll bus) (bs : List Nat) :
    ∀ tr : Trace, ∃ tr1, writeAll p bus addr reg bs tr = (.ok (), tr1) ∧
      writeCalls tr1 = writeCalls tr ++ bs.map (fun b => (addr, [reg, b], (2 : Int))) ∧
      transfers tr1 = transfers tr + bs.length ∧ selects tr1 = selects tr + bs.length := by
  induction bs with
  | nil => intro tr; exact ⟨tr, rfl, by simp, rfl, rfl⟩
  | cons b rest ih =>
    intro tr
    obtain ⟨t1, h1, hw1, ht1, hs1⟩ := writeByte_ack p bus addr reg b tr hR hack
    obtain ⟨t2, h2, hw2, ht2, hs2⟩ := ih t1
    refine ⟨t2, ?_, ?_, ?_, ?_⟩
    · unfold writeAll
      rw [h1]
      exact h2
    · rw [hw2, hw1]
      simp
    · rw [ht2, ht1, List.length_cons]
      omega
    · rw [hs2, hs1, List.length_cons]
      omega

/-- C29 (counterexample): after a first script that issued START_RECORD,4 and two reads
without STOP_RECORD, the second playFile call processes its first line with recording still
on, the two recorded bytes still in the buffer and the capacity still 4; its read is appended
to the bytes of the first script. -/
theorem second_script_inherits_recording :
    (playFile ⟨1, .STOP, 3⟩ twoScriptWorld 1 "first.csv".toList fresh).1 = .done () ∧
    (enter "second.csv".toList afterFirst).recording = true ∧
    (enter "second.csv".toList afterFirst).record_buffer = [2, 6] ∧
    (enter "second.csv".toList afterFirst).record_capacity = 4 ∧
    playFile ⟨1, .STOP, 3⟩ twoScriptWorld 1 "second.csv".toList afterFirst =
      atEnd (playLines ⟨1, .STOP, 3⟩ twoScriptWorld 1
        ["command,addr,reg".toList, "READ,0x48,0x02".toList]
        (enter "second.csv".toList afterFirst)) ∧
    (playFile ⟨1, .STOP, 3⟩ twoScriptWorld 1 "second.csv".toList afterFirst).2.record_buffer =
      [2, 6, 10] :=
  ⟨rfl, by decide, by decide, by decide, rfl, by decide⟩

/-- C29 (amended): playFile starts from fresh local variables only. The first line of a script
is processed in the state `enter`, where the line counter, the header flag and the loop state
are reset while the recording flag, the record buffer, its capacity and the decoders are those
the previous call left; they are empty only on a freshly constructed player. Hence, on a
device that acknowledges everything, a script of a header and k READ lines run on a player
left with recording on appends its bytes to the buffer it finds, up to the capacity it
finds. -/
theorem playFile_resets_locals_only (p : Config) (env : Env) (fuel : Nat) (filename : Str)
    (s : State) (header : Str) (reads : List Str)
    (hR : 0 ≤ p.retry_count) (hack : AcksAll env.bus)
    (hf : env.script filename = some (header :: reads))
    (hhead : skipLine header = false) (hrec : s.recording = true)
    (hreads : ∀ l ∈ reads, (readOf l).isSome = true) :
    playFile p env fuel filename s =
      atEnd (playLines p env fuel (header :: reads) (enter filename s)) ∧
    ((enter filename s).line_number = 0 ∧ (enter filename s).header_skipped = false ∧
      (enter filename s).loop_sequence = [] ∧ (enter filename s).in_loop = false ∧
      (enter filename s).loop_count = 0) ∧
    ((enter filename s).recording = s.recording ∧
      (enter filename s).record_buffer = s.record_buffer ∧
      (enter filename s).record_capacity = s.record_capacity ∧
      (enter filename s).parsers = s.parsers) ∧
    (fresh.recording = false ∧ fresh.record_buffer = [] ∧ fresh.record_capacity = 0) ∧
    (∃ rs : List Nat, rs.length = reads.length ∧
      (playFile p env fuel filename s).1 = .done () ∧
      (playFile p env fuel filename s).2.record_buffer =
        s.record_buffer ++ rs.take (s.record_capacity - s.record_buffer.length)) := by
  have heq := playFile_eq p env fuel filename s _ hf
  refine ⟨heq, ⟨rfl, rfl, rfl, rfl, rfl⟩, ⟨rfl, rfl, rfl, rfl⟩, ⟨rfl, rfl, rfl⟩, ?_⟩
  have h1 := playLine_header p env fuel header (enter filename s) hhead rfl
  obtain ⟨rs, s1, hrun, hlen, _, hbuf, hin⟩ := playLines_reads p env fuel hR hack reads
    { enter filename s with line_number := (enter filename s).line_number + 1
                            header_skipped := true } rfl rfl hrec hreads
  have hplay : playFile p env fuel filename s = (.done (), s1) := by
    rw [heq]
    simp only [playLines, h1]
    rw [hrun]
    unfold atEnd
    simp [hin]
  refine ⟨rs, hlen, by rw [hplay], ?_⟩
  rw [hplay]
  exact hbuf

/-- Witness for C29: the second script of `twoScriptWorld` run after the first. -/
theorem playFile_resets_locals_only_witness :
    ∃ rs : List Nat, rs.length = ["READ,0x48,0x02".toList].length ∧
      (playFile ⟨1, .STOP, 3⟩ twoScriptWorld 1 "second.csv".toList afterFirst).1 = .done () ∧
      (playFile ⟨1, .STOP, 3⟩ twoScriptWorld 1 "second.csv".toList afterFirst).2.record_buffer =
        afterFirst.record_buffer ++
          rs.take (afterFirst.record_capacity - afterFirst.record_buffer.length) :=
  (playFile_resets_locals_only ⟨1, .STOP, 3⟩ twoScriptWorld 1 "second.csv".toList afterFirst
    "command,addr,reg".toList ["READ,0x48,0x02".toList] (by decide) countBus_acksAll rfl
    (by decide) (by decide) (by decide)).2.2.2.2

theorem bufferAt_range_inBounds (buffer : List Nat) (n : Nat) (h : n ≤ buffer.length) :
    ∀ a ∈ (List.range n).map (bufferAt buffer), a.index < a.size := by
  intro a ha
  obtain ⟨i, hi, rfl⟩ := List.mem_map.mp ha
  have := List.mem_range.mp hi
  show i < buffer.length
  omega

theorem DS3231Parser.isValidDate_inBounds (day month year : Nat) :
    ∀ a ∈ (DS3231Parser.isValidDate day month year).2, a.index < a.size := by
  unfold DS3231Parser.isValidDate
  split
  · simp
  · rename_i h
    intro a ha
    simp only [List.mem_singleton] at ha
    subst ha
    show month - 1 < 12
    omega

theorem DS3231Parser.getDayOfWeek_inBounds (day : Nat) :
    ∀ a ∈ DS3231Parser.getDayOfWeek day, a.index < a.size := by
  unfold DS3231Parser.getDayOfWeek
  split
  · rename_i h
    intro a ha
    simp only [List.mem_singleton] at ha
    subst ha
    exact h
  · simp

theorem DS3231Parser.parse_inBounds (buffer : List Nat) :
    InBounds (DS3231Parser.parse buffer) := by
  unfold DS3231Parser.parse InBounds
  split
  · simp
  · rename_i h
    simp only
    intro a ha
    rcases List.mem_append.mp ha with ha | ha
    · rcases List.mem_append.mp ha with ha | ha
      · rcases List.mem_append.mp ha with ha | ha
        · exact bufferAt_range_inBounds buffer 7 (by omega) a ha
        · exact DS3231Parser.isValidDate_inBounds _ _ _ a ha
      · split at ha
        · exact DS3231Parser.getDayOfWeek_inBounds _ a ha
        · simp at ha
    · unfold DS3231Parser.printDiagnostics at ha
      rcases List.mem_cons.mp ha with ha | ha
      · subst ha
        show 0 < buffer.length
        omega
      · exact bufferAt_range_inBounds buffer 7 (by omega) a ha

theorem twoBytes_inBounds (buffer : List Nat) (h : ¬ buffer.length < 2) :
    ∀ a ∈ [bufferAt buffer 0, bufferAt buffer 1, bufferAt buffer 0, bufferAt buffer 1],
      a.index < a.size := by
  intro a ha
  simp only [List.mem_cons, List.mem_singleton, List.not_mem_nil, or_false] at ha
  rcases ha with ha | ha | ha | ha <;> subst ha <;> simp only [bufferAt] <;> omega

theorem EEPROMParser.sizeScan_inBounds (size : Nat) (idxs : List Nat)
    (h : ∀ i ∈ idxs, i < EEPROMParser.COMMON_SIZES.length) :
    ∀ a ∈ EEPROMParser.sizeScan size idxs, a.index < a.size := by
  induction idxs with
  | nil => simp [EEPROMParser.sizeScan]
  | cons i rest ih =>
    intro a ha
    unfold EEPROMParser.sizeScan at ha
    rcases List.mem_cons.mp ha with ha | ha
    · subst ha
      exact h i (List.mem_cons_self _ _)
    · split at ha
      · simp at ha
      · exact ih (fun j hj => h j (List.mem_cons_of_mem _ hj)) a ha

theorem EEPROMParser.printSizeInfo_inBounds (size : Nat) :
    ∀ a ∈ EEPROMParser.printSizeInfo size, a.index < a.size := by
  unfold EEPROMParser.printSizeInfo
  split
  · exact EEPROMParser.sizeScan_inBounds size _ (fun i hi => List.mem_range.mp hi)
  · simp

theorem EEPROMParser.hexLine_inBounds (show_ascii : Bool) (bpl : Nat) (buffer : List Nat)
    (i : Nat) (hi : i < buffer.length) :
    ∀ a ∈ EEPROMParser.hexLine show_ascii bpl buffer i, a.index < a.size := by
  have key : ∀ a ∈ ((List.range bpl).filter
      (fun j => decide (j < min bpl (buffer.length - i)))).map
      (fun j => bufferAt buffer (i + j)), a.index < a.size := by
    intro a ha
    obtain ⟨j, hj, rfl⟩ := List.mem_map.mp ha
    have hj2 := (List.mem_filter.mp hj).2
    simp only [decide_eq_true_eq] at hj2
    show i + j < buffer.length
    omega
  unfold EEPROMParser.hexLine
  simp only
  intro a ha
  rcases List.mem_append.mp ha with ha | ha
  · exact key a ha
  · split at ha
    · unfold EEPROMParser.printAsciiLine at ha
      exact key a ha
    · simp at ha

/-- The dump loop ends within `buffer.length - i + 1` passes and stays inside the buffer. -/
theorem EEPROMParser.printHexDumpFrom_inBounds (show_ascii : Bool) (bpl : Nat)
    (buffer : List Nat) (hb : 0 < bpl) :
    ∀ (fuel i : Nat), buffer.length - i < fuel →
      ∃ l, EEPROMParser.printHexDumpFrom show_ascii bpl buffer fuel i = some l ∧
        ∀ a ∈ l, a.index < a.size := by
  intro fuel
  induction fuel with
  | zero => intro i h; omega
  | succ n ih =>
    intro i h
    unfold EEPROMParser.printHexDumpFrom
    by_cases hi : i < buffer.length
    · rw [if_pos hi]
      obtain ⟨l, hl, hs⟩ := ih (i + bpl) (by omega)
      rw [hl]
      refine ⟨_, rfl, ?_⟩
      intro a ha
      rcases List.mem_append.mp ha with ha | ha
      · exact EEPROMParser.hexLine_inBounds show_ascii bpl buffer i hi a ha
      · exact hs a ha
    · rw [if_neg hi]
      exact ⟨[], rfl, by simp⟩

/-- A larger bound does not change a dump loop that ended within its bound. -/
theorem EEPROMParser.printHexDumpFrom_mono (show_ascii : Bool) (bpl : Nat)
    (buffer : List Nat) :
    ∀ (fuel i : Nat) (l : List Access),
      EEPROMParser.printHexDumpFrom show_ascii bpl buffer fuel i = some l →
      ∀ k, EEPROMParser.printHexDumpFrom show_ascii bpl buffer (fuel + k) i = some l := by
  intro fuel
  induction fuel with
  | zero => intro i l h; simp [EEPROMParser.printHexDumpFrom] at h
  | succ n ih =>
    intro i l h k
    rw [show n + 1 + k = (n + k) + 1 by omega]
    unfold EEPROMParser.printHexDumpFrom at h ⊢
    by_cases hi : i < buffer.length
    · rw [if_pos hi] at h ⊢
      rcases hr : EEPROMParser.printHexDumpFrom show_ascii bpl buffer n (i + bpl) with _ | r
      · rw [hr] at h
        simp at h
      · rw [ih (i + bpl) r hr k]
        rw [hr] at h
        exact h
    · rw [if_neg hi] at h ⊢
      exact h

/-- The EEPROM decoder, whatever the options it was constructed with: the dump ends within
`buffer.length + 1` passes, every indexing operation stays inside the buffer or the table, and
an empty buffer is reported without any indexing. -/
theorem EEPROMParser.parse_ends_inBounds (show_ascii : Bool) (bytes_per_line_opt : Nat)
    (buffer : List Nat) :
    ∃ d, (∀ k, EEPROMParser.parse (buffer.length + 1 + k) show_ascii bytes_per_line_opt buffer =
        some d) ∧
      InBounds d ∧ (buffer.length < 1 → d = ⟨["Empty EEPROM data buffer\n"], []⟩) := by
  unfold EEPROMParser.parse
  cases buffer with
  | nil => exact ⟨_, fun _ => rfl, by simp [InBounds], fun _ => rfl⟩
  | cons b bs =>
    have hb : 0 < EEPROMParser.bytesPerLine bytes_per_line_opt := by
      unfold EEPROMParser.bytesPerLine
      split <;> omega
    obtain ⟨l, hl, hs⟩ := EEPROMParser.printHexDumpFrom_inBounds show_ascii _ (b :: bs) hb
      ((b :: bs).length + 1) 0 (by omega)
    refine ⟨⟨[], EEPROMParser.printSizeInfo (b :: bs).length ++ l⟩, ?_, ?_, ?_⟩
    · intro k
      rw [EEPROMParser.printHexDumpFrom_mono show_ascii _ (b :: bs) _ 0 l hl k]
      rfl
    · intro a ha
      rcases List.mem_append.mp ha with ha | ha
      · exact EEPROMParser.printSizeInfo_inBounds _ a ha
      · exact hs a ha
    · intro h
      simp at h

/-- C28: for every byte buffer, the empty one included, each of the six registered decoders
runs to its end (the dump loop of the EEPROM decoder within `buffer.length + 1` passes) and
indexes the buffer only below its length and its tables only inside them; on a buffer shorter
than the decoder needs (7, 2, 1, 6, 2 and 2 bytes) it writes its report and indexes nothing. -/
theorem decoders_index_in_bounds (prs : Parser) (buffer : List Nat) :
    ∃ d, (∀ k, decode (buffer.length + 1 + k) prs buffer = some d) ∧ InBounds d ∧
      (buffer.length < needs prs → d = ⟨[shortReport prs], []⟩) := by
  cases prs with
  | DS3231Parser =>
    refine ⟨_, fun _ => rfl, DS3231Parser.parse_inBounds buffer, ?_⟩
    intro h
    unfold DS3231Parser.parse
    exact if_pos h
  | ADS1015Parser =>
    refine ⟨_, fun _ => rfl, ?_, ?_⟩
    · unfold ADS1015Parser.parse InBounds
      split
      · simp
      · rename_i h
        exact twoBytes_inBounds buffer h
    · intro h
      unfold ADS1015Parser.parse
      exact if_pos h
  | EEPROMParser => exact EEPROMParser.parse_ends_inBounds true 16 buffer
  | BMP280Parser =>
    refine ⟨_, fun _ => rfl, ?_, ?_⟩
    · unfold BMP280Parser.parse InBounds
      split
      · simp
      · rename_i h
        exact bufferAt_range_inBounds buffer 6 (by omega)
    · intro h
      unfold BMP280Parser.parse
      exact if_pos h
  | BH1750Parser =>
    refine ⟨_, fun _ => rfl, ?_, ?_⟩
    · unfold BH1750Parser.parse InBounds
      split
      · simp
      · rename_i h
        exact twoBytes_inBounds buffer h
    · intro h
      unfold BH1750Parser.parse
      exact if_pos h
  | VEML7700Parser =>
    refine ⟨_, fun _ => rfl, ?_, ?_⟩
    · unfold VEML7700Parser.parse InBounds
      split
      · simp
      · rename_i h
        exact twoBytes_inBounds buffer h
    · intro h
      unfold VEML7700Parser.parse
      exact if_pos h

/-- Witness for C28: the DS3231 decoder on the three recorded bytes of `recorded` reports
insufficient data; the EEPROM decoder on 17 bytes dumps two lines, the second one partial. -/
theorem decoders_index_in_bounds_witness :
    (∃ d, (∀ k, decode ([17, 34, 51].length + 1 + k) .DS3231Parser [17, 34, 51] = some d) ∧
      InBounds d ∧
      ([17, 34, 51].length < needs .DS3231Parser → d = ⟨[shortReport .DS3231Parser], []⟩)) ∧
    decode 4 .DS3231Parser [17, 34, 51] =
      some ⟨["Insufficient data for DS3231 parsing\n"], []⟩ ∧
    (decode 18 .EEPROMParser (List.replicate 17 65)).map (fun d => d.accesses.length) =
      some 34 ∧
    (decode 8 .DS3231Parser [0, 0, 0, 9, 0x31, 0x1F, 0x24]).map (fun d => d.accesses) =
      some ((List.range 7).map (bufferAt [0, 0, 0, 9, 0x31, 0x1F, 0x24]) ++
        DS3231Parser.printDiagnostics [0, 0, 0, 9, 0x31, 0x1F, 0x24]) :=
  ⟨decoders_index_in_bounds .DS3231Parser [17, 34, 51], rfl, by decide, by decide⟩

@[simp] theorem sleeps_append (a b : Trace) : sleeps (a ++ b) = sleeps a ++ sleeps b := by
  simp [sleeps]

theorem backoff_of_no_sleep (w : Int) (l : Trace) (h : sleeps l = []) :
    ∀ prev, BackoffAfterFailedSelect w prev l := by
  induction l with
  | nil => intro prev; trivial
  | cons e rest ih =>
    intro prev
    have h2 : sleeps [e] = [] ∧ sleeps rest = [] := by
      have : sleeps ([e] ++ rest) = [] := h
      rw [sleeps_append] at this
      exact List.append_eq_nil.mp this
    refine ⟨?_, ih h2.2 _⟩
    intro x hx
    subst hx
    simp [sleeps] at h2

theorem backoff_append_quiet (w : Int) (l1 l2 : Trace) (h1 : sleeps l1 = [])
    (h2 : ∀ prev, BackoffAfterFailedSelect w prev l2) :
    ∀ prev, BackoffAfterFailedSelect w prev (l1 ++ l2) := by
  induction l1 with
  | nil => exact h2
  | cons e rest ih =>
    intro prev
    have h3 : sleeps [e] = [] ∧ sleeps rest = [] := by
      have : sleeps ([e] ++ rest) = [] := h1
      rw [sleeps_append] at this
      exact List.append_eq_nil.mp this
    refine ⟨?_, ih h3.2 _⟩
    intro x hx
    subst hx
    simp [sleeps] at h3

theorem backoff_after_failed (w : Int) (ad : Nat) (r : Int) (l2 : Trace) (hr : r < 0)
    (h2 : ∀ prev, BackoffAfterFailedSelect w prev l2) :
    ∀ prev, BackoffAfterFailedSelect w prev ([Ev.ioctl ad r] ++ ([Ev.sleep (w * 2)] ++ l2)) := by
  intro prev
  refine ⟨fun x hx => by simp at hx, ?_, h2 _⟩
  intro x hx
  simp only [Ev.sleep.injEq] at hx
  exact ⟨hx.symm, ad, r, rfl, hr⟩

/-- Under Retry the NAK block adds no sleep and, while attempts remain, throws nothing. -/
theorem nakBlock_retry_quiet {α : Type} (p : Config) (e : Nat) (op msg : String) (a : Int)
    (tr : Trace) (hp : p.error_action = .RETRY) :
    ∃ ext, (nakBlock (α := α) p e op msg a tr).2 = tr ++ ext ∧ sleeps ext = [] ∧
      (a < p.retry_count → ∀ m, (nakBlock (α := α) p e op msg a tr).1 ≠ some (.thrown m)) := by
  unfold nakBlock checkNAK
  by_cases he : e = ENXIO ∨ e = EIO
  · rw [if_pos he]
    simp only [hp]
    by_cases ha : a < p.retry_count
    · rw [if_pos ha]
      exact ⟨[Ev.cerr ("NAK detected during " ++ op ++ "\n")], rfl, rfl, fun _ m => by simp⟩
    · rw [if_neg ha]
      exact ⟨[Ev.cerr ("NAK detected during " ++ op ++ "\n")], rfl, rfl,
        fun h => absurd h ha⟩
  · rw [if_neg he]
    exact ⟨[], by simp, rfl, fun _ m => by simp⟩

/-- Under Retry one pass of a write operation adds no sleep, and while attempts remain it can
end with an exception only through a failed address selection, its single event. -/
theorem writeAttempt_retry_shape (p : Config) (bus : Bus) (addr : Nat) (buf : List Nat)
    (op msg : String) (sync : Bool) (a : Int) (tr : Trace) (hp : p.error_action = .RETRY) :
    ∃ ext, (writeAttempt p bus addr buf op msg sync a tr).2 = tr ++ ext ∧ sleeps ext = [] ∧
      (a < p.retry_count → ∀ e, (writeAttempt p bus addr buf op msg sync a tr).1 = .thrown e →
        ext = [Ev.ioctl addr (bus.ioctl tr addr)] ∧ bus.ioctl tr addr < 0) := by
  unfold writeAttempt
  simp only
  by_cases hio : bus.ioctl tr addr < 0
  · rw [if_pos hio]
    exact ⟨[Ev.ioctl addr (bus.ioctl tr addr)], rfl, rfl, fun _ _ _ => ⟨rfl, hio⟩⟩
  · rw [if_neg hio]
    generalize bus.write (tr ++ [Ev.ioctl addr (bus.ioctl tr addr)]) addr buf = w
    by_cases hc : w.ret ≠ (buf.length : Int)
    · rw [if_pos hc]
      obtain ⟨ext, h1, h2, h3⟩ := nakBlock_retry_quiet (α := Unit) p w.errno op msg a
        (tr ++ [Ev.ioctl addr (bus.ioctl tr addr)] ++ [Ev.write addr buf w.ret w.errno]) hp
      rcases hg : nakBlock (α := Unit) p w.errno op msg a
        (tr ++ [Ev.ioctl addr (bus.ioctl tr addr)] ++ [Ev.write addr buf w.ret w.errno])
        with ⟨o, tr3⟩
      rw [hg] at h1 h3
      simp only at h1 h3
      cases o with
      | some x =>
        refine ⟨[Ev.ioctl addr (bus.ioctl tr addr)] ++ [Ev.write addr buf w.ret w.errno] ++ ext,
          by simp [h1], by simp only [sleeps_append, h2]; simp [sleeps], ?_⟩
        intro ha e he
        simp only at he
        subst he
        exact absurd rfl (h3 ha e)
      | none =>
        refine ⟨[Ev.ioctl addr (bus.ioctl tr addr)] ++ [Ev.write addr buf w.ret w.errno] ++ ext ++
          (if sync then [Ev.fsync] else []), ?_, ?_, fun _ e he => by simp at he⟩
        · cases sync <;> simp [h1]
        · cases sync <;> simp only [sleeps_append, h2] <;> simp [sleeps]
    · rw [if_neg hc]
      refine ⟨[Ev.ioctl addr (bus.ioctl tr addr)] ++ [Ev.write addr buf w.ret w.errno] ++
        (if sync then [Ev.fsync] else []), ?_, ?_, fun _ e he => by simp at he⟩
      · cases sync <;> simp
      · cases sync <;> simp [sleeps]

/-- The same for one pass of `readByte`. -/
theorem readByteAttempt_retry_shape (p : Config) (bus : Bus) (addr reg : Nat) (a : Int)
    (tr : Trace) (hp : p.error_action = .RETRY) :
    ∃ ext, (readByteAttempt p bus addr reg a tr).2 = tr ++ ext ∧ sleeps ext = [] ∧
      (a < p.retry_count → ∀ e, (readByteAttempt p bus addr reg a tr).1 = .thrown e →
        ext = [Ev.ioctl addr (bus.ioctl tr addr)] ∧ bus.ioctl tr addr < 0) := by
  unfold readByteAttempt
  simp only
  by_cases hio : bus.ioctl tr addr < 0
  · rw [if_pos hio]
    exact ⟨[Ev.ioctl addr (bus.ioctl tr addr)], rfl, rfl, fun _ _ _ => ⟨rfl, hio⟩⟩
  · rw [if_neg hio]
    generalize bus.write (tr ++ [Ev.ioctl addr (bus.ioctl tr addr)]) addr [reg] = w
    have hguard : ∀ (c : Prop) [Decidable c] (errno : Nat) (op msg : String) (t : Trace),
        ∃ ext, (if c then nakBlock (α := Nat) p errno op msg a t else (none, t)).2 = t ++ ext ∧
          sleeps ext = [] ∧
          (a < p.retry_count → ∀ m,
            (if c then nakBlock (α := Nat) p errno op msg a t else (none, t)).1 ≠
              some (.thrown m)) := by
      intro c _ errno op msg t
      by_cases h : c
      · rw [if_pos h]
        exact nakBlock_retry_quiet p errno op msg a t hp
      · rw [if_neg h]
        exact ⟨[], by simp, rfl, fun _ m => by simp⟩
    obtain ⟨e1, h1, hs1, hn1⟩ := hguard (w.ret ≠ 1) w.errno "register write"
      "Failed to write register address after retries"
      (tr ++ [Ev.ioctl addr (bus.ioctl tr addr)] ++ [Ev.write addr [reg] w.ret w.errno])
    rcases hg1 : (if w.ret ≠ 1 then nakBlock (α := Nat) p w.errno "register write"
        "Failed to write register address after retries" a
        (tr ++ [Ev.ioctl addr (bus.ioctl tr addr)] ++ [Ev.write addr [reg] w.ret w.errno])
      else (none, tr ++ [Ev.ioctl addr (bus.ioctl tr addr)] ++
        [Ev.write addr [reg] w.ret w.errno])) with ⟨o1, tr3⟩
    rw [hg1] at h1 hn1
    simp only at h1 hn1
    cases o1 with
    | some x =>
      refine ⟨[Ev.ioctl addr (bus.ioctl tr addr)] ++ [Ev.write addr [reg] w.ret w.errno] ++ e1,
        by simp [h1], by simp only [sleeps_append, hs1]; simp [sleeps], ?_⟩
      intro ha e he
      simp only at he
      subst he
      exact absurd rfl (hn1 ha e)
    | none =>
      simp only
      generalize bus.read tr3 addr = d
      obtain ⟨e2, h2, hs2, hn2⟩ := hguard (d.ret ≠ 1) d.errno "data read"
        "Failed to read I2C data after retries" (tr3 ++ [Ev.read addr d.ret d.errno d.data])
      rcases hg2 : (if d.ret ≠ 1 then nakBlock (α := Nat) p d.errno "data read"
          "Failed to read I2C data after retries" a
          (tr3 ++ [Ev.read addr d.ret d.errno d.data])
        else (none, tr3 ++ [Ev.read addr d.ret d.errno d.data])) with ⟨o2, tr5⟩
      rw [hg2] at h2 hn2
      simp only at h2 hn2
      refine ⟨[Ev.ioctl addr (bus.ioctl tr addr)] ++ [Ev.write addr [reg] w.ret w.errno] ++ e1 ++
        [Ev.read addr d.ret d.errno d.data] ++ e2, ?_, by simp only [sleeps_append, hs1, hs2]; simp [sleeps], ?_⟩
      · cases o2 <;> simp [h2, h1]
      · intro ha e he
        cases o2 with
        | some x =>
          simp only at he
          subst he
          exact absurd rfl (hn2 ha e)
        | none => simp at he

/-- In a retry loop whose passes add no sleep and, while attempts remain, throw only after a
failed address selection as single event, every sleep lasts `i2c_wait_ms * 2` and directly
follows a failed address selection. -/
theorem retryLoop_backoff {α : Type} (p : Config) (body : Int → Trace → Attempt α × Trace)
    (fm : String)
    (hb : ∀ a tr, ∃ ext, (body a tr).2 = tr ++ ext ∧ sleeps ext = [] ∧
      (a < p.retry_count → ∀ e, (body a tr).1 = .thrown e →
        ∃ ad x, ext = [Ev.ioctl ad x] ∧ x < 0)) :
    ∀ (left : Nat) (a : Int) (tr : Trace),
      ∃ ext, (retryLoop p body fm left a tr).2 = tr ++ ext ∧
        ∀ prev, BackoffAfterFailedSelect p.i2c_wait_ms prev ext := by
  intro left
  induction left with
  | zero =>
    intro a tr
    exact ⟨[], by simp [retryLoop], fun _ => trivial⟩
  | succ n ih =>
    intro a tr
    unfold retryLoop
    by_cases ha : a ≤ p.retry_count
    · rw [if_pos ha]
      obtain ⟨e1, h1, hs1, ht1⟩ := hb a tr
      rcases hbody : body a tr with ⟨r, tr1⟩
      rw [hbody] at h1 ht1
      simp only at h1 ht1
      cases r with
      | ret v => exact ⟨e1, h1, backoff_of_no_sleep _ e1 hs1⟩
      | again =>
        simp only
        obtain ⟨e2, h2, hb2⟩ := ih (a + 1) tr1
        exact ⟨e1 ++ e2, by rw [h2, h1, List.append_assoc],
          backoff_append_quiet _ e1 e2 hs1 hb2⟩
      | thrown e =>
        simp only
        by_cases he : a = p.retry_count
        · rw [if_pos he]
          exact ⟨e1, h1, backoff_of_no_sleep _ e1 hs1⟩
        · rw [if_neg he]
          obtain ⟨ad, x, hx, hneg⟩ := ht1 (lt_of_le_of_ne ha he) e rfl
          obtain ⟨e2, h2, hb2⟩ := ih (a + 1) (tr1 ++ [Ev.sleep (p.i2c_wait_ms * 2)])
          refine ⟨[Ev.ioctl ad x] ++ ([Ev.sleep (p.i2c_wait_ms * 2)] ++ e2), ?_, ?_⟩
          · rw [h2, h1, hx]
            simp
          · exact backoff_after_failed _ ad x e2 hneg hb2
    · rw [if_neg ha]
      exact ⟨[], by simp, fun _ => trivial⟩

/-- A retry loop whose passes add no sleep and, while attempts remain, do not throw, adds no
sleep. -/
theorem retryLoop_quiet {α : Type} (p : Config) (body : Int → Trace → Attempt α × Trace)
    (fm : String)
    (hb : ∀ a tr, sleeps (body a tr).2 = sleeps tr ∧
      (a < p.retry_count → ∀ e, (body a tr).1 ≠ .thrown e)) :
    ∀ (left : Nat) (a : Int) (tr : Trace),
      sleeps (retryLoop p body fm left a tr).2 = sleeps tr := by
  intro left
  induction left with
  | zero => intro a tr; simp [retryLoop]
  | succ n ih =>
    intro a tr
    unfold retryLoop
    by_cases ha : a ≤ p.retry_count
    · rw [if_pos ha]
      obtain ⟨h1, h2⟩ := hb a tr
      rcases hbody : body a tr with ⟨r, tr1⟩
      rw [hbody] at h1 h2
      simp only at h1 h2
      cases r with
      | ret v => exact h1
      | again => simp only; rw [ih, h1]
      | thrown e =>
        simp only
        by_cases he : a = p.retry_count
        · rw [if_pos he]
          exact h1
        · exact absurd rfl (h2 (lt_of_le_of_ne ha he) e)
    · rw [if_neg ha]

/-- A retry loop whose every pass throws after a single event that is no sleep sleeps
`i2c_wait_ms * 2` between any two passes. -/
theorem retryLoop_all_backoff {α : Type} (p : Config) (body : Int → Trace → Attempt α × Trace)
    (fm e : String)
    (hb : ∀ a t, ∃ ev, sleeps [ev] = [] ∧ body a t = (.thrown e, t ++ [ev])) :
    ∀ (left : Nat) (a : Int) (tr : Trace), a + left = p.retry_count + 1 →
      sleeps (retryLoop p body fm left a tr).2 =
        sleeps tr ++ List.replicate (left - 1) (p.i2c_wait_ms * 2) := by
  intro left
  induction left with
  | zero => intro a tr _; simp [retryLoop]
  | succ n ih =>
    intro a tr hsum
    unfold retryLoop
    rw [if_pos (by omega)]
    obtain ⟨ev, hev, hbody⟩ := hb a tr
    rw [hbody]
    simp only
    by_cases he : a = p.retry_count
    · rw [if_pos he]
      have hn : n = 0 := by omega
      subst hn
      simp only [sleeps_append, hev]
      simp
    · rw [if_neg he, ih (a + 1) _ (by omega)]
      obtain ⟨m, rfl⟩ : ∃ m, n = m + 1 := ⟨n - 1, by omega⟩
      simp only [sleeps_append, hev, List.append_nil, Nat.add_sub_cancel, List.replicate_succ]
      simp [sleeps]

/-- C31 (counterexample): under Retry with one retry, on a device that NAKs every transfer,
the two attempts of writeByte follow each other with no sleep in between; with three retries
readByte makes its four attempts without any sleep. -/
theorem nak_retry_follows_without_sleep :
    writeByte ⟨1, .RETRY, 1⟩ nakBus 16 0 1 [] =
      (.error "Failed to write I2C data after retries",
       [Ev.ioctl 16 0, Ev.write 16 [0, 1] (-1) ENXIO, Ev.cerr "NAK detected during write\n",
        Ev.ioctl 16 0, Ev.write 16 [0, 1] (-1) ENXIO, Ev.cerr "NAK detected during write\n"]) ∧
    selects (readByte ⟨1, .RETRY, 3⟩ nakBus 16 0 []).2 = 4 ∧
    sleeps (readByte ⟨1, .RETRY, 3⟩ nakBus 16 0 []).2 = [] :=
  ⟨rfl, by decide, by decide⟩

/-- C31 (amended): under Retry, in the events that any of readByte, writeByte, writeSingleByte
and write16Bit adds to the history, every sleep lasts 2*wait_ms and directly follows an
address selection that failed: the back-off separates two attempts only when the earlier one
ended with that exception. On a device whose address selection succeeds no operation sleeps
at all, so a NAKed attempt is followed by the next attempt at once; on a device whose address
selection always fails the R+1 attempts are separated by R sleeps of 2*wait_ms. -/
theorem backoff_only_after_failed_select (p : Config) (bus : Bus) (addr reg data : Nat)
    (tr : Trace) (hp : p.error_action = .RETRY) :
    (∀ t ∈ transportTraces p bus addr reg data tr,
      ∃ ext, t = tr ++ ext ∧ BackoffAfterFailedSelect p.i2c_wait_ms tr.getLast? ext) ∧
    (SelectOk bus → ∀ t ∈ transportTraces p bus addr reg data tr, sleeps t = sleeps tr) ∧
    (SelectFails bus → 0 ≤ p.retry_count →
      ∀ t ∈ transportTraces p bus addr reg data tr,
        sleeps t = sleeps tr ++ List.replicate p.retry_count.toNat (p.i2c_wait_ms * 2)) := by
  have hw : ∀ (buf : List Nat) (op msg : String) (sync : Bool) (a : Int) (t : Trace),
      ∃ ext, (writeAttempt p bus addr buf op msg sync a t).2 = t ++ ext ∧ sleeps ext = [] ∧
        (a < p.retry_count → ∀ e, (writeAttempt p bus addr buf op msg sync a t).1 = .thrown e →
          ∃ ad x, ext = [Ev.ioctl ad x] ∧ x < 0) := by
    intro buf op msg sync a t
    obtain ⟨ext, h1, h2, h3⟩ := writeAttempt_retry_shape p bus addr buf op msg sync a t hp
    exact ⟨ext, h1, h2, fun ha e he => ⟨_, _, (h3 ha e he).1, (h3 ha e he).2⟩⟩
  have hr : ∀ (a : Int) (t : Trace),
      ∃ ext, (readByteAttempt p bus addr reg a t).2 = t ++ ext ∧ sleeps ext = [] ∧
        (a < p.retry_count → ∀ e, (readByteAttempt p bus addr reg a t).1 = .thrown e →
          ∃ ad x, ext = [Ev.ioctl ad x] ∧ x < 0) := by
    intro a t
    obtain ⟨ext, h1, h2, h3⟩ := readByteAttempt_retry_shape p bus addr reg a t hp
    exact ⟨ext, h1, h2, fun ha e he => ⟨_, _, (h3 ha e he).1, (h3 ha e he).2⟩⟩
  refine ⟨?_, ?_, ?_⟩
  · intro t ht
    simp only [transportTraces, List.mem_cons, List.mem_singleton, List.not_mem_nil,
      or_false] at ht
    rcases ht with h | h | h | h <;> subst h
    · obtain ⟨ext, h1, h2⟩ := retryLoop_backoff p _ "Read failed after all retries" hr
        (p.retry_count + 1).toNat 0 tr
      exact ⟨ext, h1, h2 _⟩
    · obtain ⟨ext, h1, h2⟩ := retryLoop_backoff p _ "Write failed after all retries"
        (hw [reg, data] "write" "Failed to write I2C data after retries" false)
        (p.retry_count + 1).toNat 0 tr
      exact ⟨ext, h1, h2 _⟩
    · obtain ⟨ext, h1, h2⟩ := retryLoop_backoff p _ "Write failed after all retries"
        (hw [data] "write" "Failed to write I2C data after retries" true)
        (p.retry_count + 1).toNat 0 tr
      exact ⟨ext, h1, h2 _⟩
    · obtain ⟨ext, h1, h2⟩ := retryLoop_backoff p _ "16-bit Write failed after all retries"
        (hw [reg, data % 256, (data / 256) % 256] "16-bit write"
          "Failed to write 16-bit I2C data after retries" false)
        (p.retry_count + 1).toNat 0 tr
      exact ⟨ext, h1, h2 _⟩
  · intro hs t ht
    have hwq : ∀ (buf : List Nat) (op msg : String) (sync : Bool) (a : Int) (t : Trace),
        sleeps (writeAttempt p bus addr buf op msg sync a t).2 = sleeps t ∧
        (a < p.retry_count → ∀ e, (writeAttempt p bus addr buf op msg sync a t).1 ≠
          .thrown e) := by
      intro buf op msg sync a t
      obtain ⟨ext, h1, h2, h3⟩ := writeAttempt_retry_shape p bus addr buf op msg sync a t hp
      refine ⟨by rw [h1, sleeps_append, h2, List.append_nil], ?_⟩
      intro ha e he
      exact absurd (h3 ha e he).2 (not_lt.mpr (hs t addr))
    have hrq : ∀ (a : Int) (t : Trace),
        sleeps (readByteAttempt p bus addr reg a t).2 = sleeps t ∧
        (a < p.retry_count → ∀ e, (readByteAttempt p bus addr reg a t).1 ≠ .thrown e) := by
      intro a t
      obtain ⟨ext, h1, h2, h3⟩ := readByteAttempt_retry_shape p bus addr reg a t hp
      refine ⟨by rw [h1, sleeps_append, h2, List.append_nil], ?_⟩
      intro ha e he
      exact absurd (h3 ha e he).2 (not_lt.mpr (hs t addr))
    simp only [transportTraces, List.mem_cons, List.mem_singleton, List.not_mem_nil,
      or_false] at ht
    rcases ht with h | h | h | h <;> subst h
    · exact retryLoop_quiet p _ _ hrq _ _ _
    · exact retryLoop_quiet p _ _ (hwq _ _ _ _) _ _ _
    · exact retryLoop_quiet p _ _ (hwq _ _ _ _) _ _ _
    · exact retryLoop_quiet p _ _ (hwq _ _ _ _) _ _ _
  · intro hf hR t ht
    have hlen : (p.retry_count + 1).toNat - 1 = p.retry_count.toNat := by omega
    have hsum := toNat_succ_cast _ hR
    have hwf : ∀ (buf : List Nat) (op msg : String) (sync : Bool) (a : Int) (t : Trace),
        ∃ ev, sleeps [ev] = [] ∧ writeAttempt p bus addr buf op msg sync a t =
          (.thrown "Failed to set I2C slave address", t ++ [ev]) := fun buf op msg sync a t =>
      ⟨Ev.ioctl addr (bus.ioctl t addr), rfl,
        writeAttempt_select_fails p bus addr buf op msg sync a t hf⟩
    have hrf : ∀ (a : Int) (t : Trace),
        ∃ ev, sleeps [ev] = [] ∧ readByteAttempt p bus addr reg a t =
          (.thrown "Failed to set I2C slave address for reading", t ++ [ev]) := fun a t =>
      ⟨Ev.ioctl addr (bus.ioctl t addr), rfl,
        readByteAttempt_select_fails p bus addr reg a t hf⟩
    simp only [transportTraces, List.mem_cons, List.mem_singleton, List.not_mem_nil,
      or_false] at ht
    rcases ht with h | h | h | h <;> subst h
    · have := retryLoop_all_backoff p _ "Read failed after all retries" _ hrf _ 0 tr hsum
      rw [hlen] at this
      exact this
    · have := retryLoop_all_backoff p _ "Write failed after all retries" _
        (hwf [reg, data] "write" "Failed to write I2C data after retries" false) _ 0 tr hsum
      rw [hlen] at this
      exact this
    · have := retryLoop_all_backoff p _ "Write failed after all retries" _
        (hwf [data] "write" "Failed to write I2C data after retries" true) _ 0 tr hsum
      rw [hlen] at this
      exact this
    · have := retryLoop_all_backoff p _ "16-bit Write failed after all retries" _
        (hwf [reg, data % 256, (data / 256) % 256] "16-bit write"
          "Failed to write 16-bit I2C data after retries" false) _ 0 tr hsum
      rw [hlen] at this
      exact this

/-- Witness for C31: on a device whose address selection always fails, readByte under Retry
with two retries sleeps twice for 2 ms; on a device that NAKs every transfer it does not
sleep. -/
theorem backoff_only_after_failed_select_witness :
    sleeps (readByte ⟨1, .RETRY, 2⟩ deadBus 16 0 []).2 =
      sleeps [] ++ List.replicate (2 : Int).toNat ((1 : Int) * 2) ∧
    sleeps (readByte ⟨1, .RETRY, 2⟩ nakBus 16 0 []).2 = sleeps [] :=
  ⟨(backoff_only_after_failed_select ⟨1, .RETRY, 2⟩ deadBus 16 0 1 [] rfl).2.2
      deadBus_selectFails (by decide) _ (List.mem_cons_self _ _),
   (backoff_only_after_failed_select ⟨1, .RETRY, 2⟩ nakBus 16 0 1 [] rfl).2.1
      nakBus_selectOk _ (List.mem_cons_self _ _)⟩

/-- Conversion to `uint8_t` of a value that is not negative. -/
theorem toU8_of_nonneg (v : Int) (h : 0 ≤ v) : toU8 v = v.toNat % 256 := by
  unfold toU8
  omega

/-- Conversion to `uint16_t` of a value that is not negative. -/
theorem toU16_of_nonneg (v : Int) (h : 0 ≤ v) : toU16 v = v.toNat % 65536 := by
  unfold toU16
  omega

/-- C33: code evaluated at the failing inputs, under Continue. `LOOP,abc` raises in
`std::stoi` after `in_loop = true` has been executed: the error is logged and the loop block
is left open, so that the raw write that follows is buffered, never executed, and the run ends
with the unterminated-LOOP error. `START_RECORD,-1` raises in `reserve` after `clear()`: the
three recorded bytes are gone while the recording flag is as before. -/
theorem raising_line_changes_state :
    playLine ⟨1, .CONTINUE, 3⟩ (world ackBus []) 1 "LOOP,abc".toList afterHeader =
      (.done (), { afterHeader with line_number := 2, in_loop := true,
                                    trace := [Ev.cerr "Error at line 2: stoi\n"] }) ∧
    playFile ⟨1, .CONTINUE, 3⟩ (world ackBus badLoopScript) 1 [] fresh =
      (.raised "Unterminated LOOP in CSV",
       { fresh with line_number := 3, header_skipped := true, in_loop := true,
                    loop_sequence := ["WRITE1,0x10,0xAA".toList],
                    trace := [Ev.cerr "Error at line 2: stoi\n"] }) ∧
    playLine ⟨1, .CONTINUE, 3⟩ (world ackBus []) 1 "START_RECORD,-1".toList recorded =
      (.done (), { recorded with line_number := 2, record_buffer := [],
                                 trace := [Ev.cerr "Error at line 2: vector::reserve\n"] }) ∧
    recorded.record_buffer = [17, 34, 51] ∧ afterHeader.in_loop = false :=
  ⟨rfl, rfl, rfl, rfl, rfl⟩

theorem checkNAK_other (p : Config) (e : Nat) (op : String) (tr : Trace) (h : ¬ nakErrno e) :
    checkNAK p e op tr = (.ok false, tr) := by
  unfold checkNAK
  exact if_neg h

theorem guard_other {α : Type} (p : Config) (c : Prop) [Decidable c] (e : Nat)
    (op msg : String) (a : Int) (tr : Trace) (h : c → ¬ nakErrno e) :
    (if c then nakBlock (α := α) p e op msg a tr else (none, tr)) = (none, tr) := by
  by_cases hc : c
  · rw [if_pos hc]
    unfold nakBlock
    rw [checkNAK_other p e op tr (h hc)]
  · rw [if_neg hc]

/-- With a successful selection and no NAK error code, one pass of a write operation returns
whatever the transfer answered. -/
theorem writeAttempt_other (p : Config) (bus : Bus) (addr : Nat) (buf : List Nat)
    (op msg : String) (sync : Bool) (a : Int) (tr : Trace) (hs : SelectOk bus)
    (hn : ShortWithoutNak bus) :
    writeAttempt p bus addr buf op msg sync a tr =
      (.ret (), (tr ++ [Ev.ioctl addr (bus.ioctl tr addr)] ++
        [Ev.write addr buf (bus.write (tr ++ [Ev.ioctl addr (bus.ioctl tr addr)]) addr buf).ret
          (bus.write (tr ++ [Ev.ioctl addr (bus.ioctl tr addr)]) addr buf).errno]) ++
        (if sync then [Ev.fsync] else [])) := by
  unfold writeAttempt
  simp only
  rw [if_neg (not_lt.mpr (hs tr addr)), guard_other p _ _ _ _ _ _ (hn.1 _ _ _)]
  cases sync <;> simp

/-- With a successful selection and no NAK error code, one pass of `readByte` returns the
content of the data byte whatever the two transfers answered. -/
theorem readByteAttempt_other (p : Config) (bus : Bus) (addr reg : Nat) (a : Int) (tr : Trace)
    (hs : SelectOk bus) (hn : ShortWithoutNak bus) :
    ∃ d tr1, readByteAttempt p bus addr reg a tr = (.ret d, tr1) ∧
      selects tr1 = selects tr + 1 ∧ transfers tr1 = transfers tr + 2 ∧
      sleeps tr1 = sleeps tr := by
  unfold readByteAttempt
  simp only
  have hw : (bus.write (tr ++ [Ev.ioctl addr (bus.ioctl tr addr)]) addr [reg]).ret ≠ 1 →
      ¬ nakErrno (bus.write (tr ++ [Ev.ioctl addr (bus.ioctl tr addr)]) addr [reg]).errno :=
    fun h => hn.1 _ _ [reg] (by simpa using h)
  rw [if_neg (not_lt.mpr (hs tr addr)), guard_other p _ _ _ _ _ _ hw]
  simp only
  rw [guard_other p _ _ _ _ _ _ (hn.2 _ _)]
  simp only
  refine ⟨_, _, rfl, ?_, ?_, ?_⟩
  · simp [selects, isSelect]
  · simp [transfers, isTransfer]
  · simp [sleeps]

theorem busyBus_shortWithoutNak : ShortWithoutNak busyBus :=
  ⟨fun _ _ _ _ => by show ¬ ((11 : Nat) = ENXIO ∨ (11 : Nat) = EIO); decide,
   fun _ _ _ => by show ¬ ((11 : Nat) = ENXIO ∨ (11 : Nat) = EIO); decide⟩

theorem busyBus_selectOk : SelectOk busyBus := fun _ _ => le_refl _

/-- C34: under every policy and for every retry count that is not negative, when address
selection succeeds and every short transfer leaves an error code other than ENXIO and EIO,
checkNAK answers false without a message and each of readByte, writeByte, writeSingleByte and
write16Bit returns normally after its first attempt: one address selection, one transfer per
step of the operation, no sleep and no retry. -/
theorem short_transfer_without_nak_passes (p : Config) (bus : Bus) (addr reg data : Nat)
    (tr : Trace) (hR : 0 ≤ p.retry_count) (hs : SelectOk bus) (hn : ShortWithoutNak bus) :
    (∀ (errno : Nat) (op : String) (t : Trace), ¬ nakErrno errno →
      checkNAK p errno op t = (.ok false, t)) ∧
    ((∃ v, (readByte p bus addr reg tr).1 = .ok v) ∧
      selects (readByte p bus addr reg tr).2 = selects tr + 1 ∧
      transfers (readByte p bus addr reg tr).2 = transfers tr + 2 ∧
      sleeps (readByte p bus addr reg tr).2 = sleeps tr) ∧
    (∀ t ∈ [writeByte p bus addr reg data tr, writeSingleByte p bus addr data tr,
        write16Bit p bus addr reg data tr],
      t.1 = .ok () ∧ selects t.2 = selects tr + 1 ∧ transfers t.2 = transfers tr + 1 ∧
      sleeps t.2 = sleeps tr) := by
  refine ⟨fun errno op t h => checkNAK_other p errno op t h, ?_, ?_⟩
  · obtain ⟨d, tr1, h, h1, h2, h3⟩ := readByteAttempt_other p bus addr reg 0 tr hs hn
    unfold readByte
    rw [retryLoop_first_ret p _ _ tr d hR (by rw [h]), h]
    exact ⟨⟨d, rfl⟩, h1, h2, h3⟩
  · have key : ∀ (buf : List Nat) (op msg fm : String) (sync : Bool),
        (retryLoop p (writeAttempt p bus addr buf op msg sync) fm (p.retry_count + 1).toNat 0
          tr).1 = .ok () ∧
        selects (retryLoop p (writeAttempt p bus addr buf op msg sync) fm
          (p.retry_count + 1).toNat 0 tr).2 = selects tr + 1 ∧
        transfers (retryLoop p (writeAttempt p bus addr buf op msg sync) fm
          (p.retry_count + 1).toNat 0 tr).2 = transfers tr + 1 ∧
        sleeps (retryLoop p (writeAttempt p bus addr buf op msg sync) fm
          (p.retry_count + 1).toNat 0 tr).2 = sleeps tr := by
      intro buf op msg fm sync
      have h := writeAttempt_other p bus addr buf op msg sync 0 tr hs hn
      rw [retryLoop_first_ret p _ _ tr () hR (by rw [h]), h]
      refine ⟨rfl, ?_, ?_, ?_⟩
      · cases sync <;> simp [selects, isSelect]
      · cases sync <;> simp [transfers, isTransfer]
      · cases sync <;> simp [sleeps]
    intro t ht
    simp only [List.mem_cons, List.mem_singleton, List.not_mem_nil, or_false] at ht
    rcases ht with h | h | h <;> subst h
    · exact key _ _ _ _ _
    · exact key _ _ _ _ _
    · exact key _ _ _ _ _

/-- Witness for C34: under Stop with three retries, on a device whose transfers all fail with
EAGAIN, writeByte and readByte return normally after one attempt. -/
theorem short_transfer_without_nak_passes_witness :
    ((∃ v, (readByte ⟨1, .STOP, 3⟩ busyBus 16 0 []).1 = .ok v) ∧
      selects (readByte ⟨1, .STOP, 3⟩ busyBus 16 0 []).2 = selects [] + 1 ∧
      transfers (readByte ⟨1, .STOP, 3⟩ busyBus 16 0 []).2 = transfers [] + 2 ∧
      sleeps (readByte ⟨1, .STOP, 3⟩ busyBus 16 0 []).2 = sleeps []) ∧
    writeByte ⟨1, .STOP, 3⟩ busyBus 16 0 1 [] =
      (.ok (), [Ev.ioctl 16 0, Ev.write 16 [0, 1] (-1) 11]) :=
  ⟨(short_transfer_without_nak_passes ⟨1, .STOP, 3⟩ busyBus 16 0 1 [] (by decide)
      busyBus_selectOk busyBus_shortWithoutNak).2.1, rfl⟩

/-- C35: under every policy, when retry_count is negative the attempt loop of readByte,
writeByte, writeSingleByte and write16Bit is not entered: each raises its final error and
leaves the history as it was, so no address selection and no transfer is performed, whatever
the device would answer. -/
theorem negative_retry_count_raises (p : Config) (bus : Bus) (addr reg data : Nat) (tr : Trace)
    (h : p.retry_count < 0) :
    readByte p bus addr reg tr = (.error "Read failed after all retries", tr) ∧
    writeByte p bus addr reg data tr = (.error "Write failed after all retries", tr) ∧
    writeSingleByte p bus addr data tr = (.error "Write failed after all retries", tr) ∧
    write16Bit p bus addr reg data tr = (.error "16-bit Write failed after all retries", tr) := by
  have h0 : (p.retry_count + 1).toNat = 0 := by omega
  unfold readByte writeByte writeSingleByte write16Bit
  rw [h0]
  exact ⟨rfl, rfl, rfl, rfl⟩

/-- Witness for C35: retry_count = -1 on a device that would acknowledge everything. -/
theorem negative_retry_count_raises_witness :
    readByte ⟨1, .CONTINUE, -1⟩ ackBus 16 0 [] = (.error "Read failed after all retries", []) ∧
    writeByte ⟨1, .CONTINUE, -1⟩ ackBus 16 0 1 [] =
      (.error "Write failed after all retries", []) ∧
    writeSingleByte ⟨1, .CONTINUE, -1⟩ ackBus 16 1 [] =
      (.error "Write failed after all retries", []) ∧
    write16Bit ⟨1, .CONTINUE, -1⟩ ackBus 16 0 1 [] =
      (.error "16-bit Write failed after all retries", []) :=
  negative_retry_count_raises ⟨1, .CONTINUE, -1⟩ ackBus 16 0 1 [] (by decide)

theorem and_mask_outside (v mask expected : Nat) (hm : mask < 256)
    (h : v &&& mask = expected) : expected &&& (255 ^^^ mask) = 0 := by
  subst h
  apply Nat.eq_of_testBit_eq
  intro i
  simp only [Nat.testBit_and, Nat.testBit_xor, Nat.zero_testBit]
  by_cases hi : i < 8
  · have h255 : Nat.testBit 255 i = true := by
      interval_cases i <;> decide
    rw [h255]
    cases Nat.testBit mask i <;> simp
  · have hmi : Nat.testBit mask i = false := by
      apply Nat.testBit_eq_false_of_lt
      calc mask < 256 := hm
        _ = 2 ^ 8 := by norm_num
        _ ≤ 2 ^ i := Nat.pow_le_pow_right (by norm_num) (by omega)
    rw [hmi]
    simp

theorem toU8_lt (v : Int) : toU8 v < 256 := by
  unfold toU8
  omega

theorem parsePoll_mask_lt (args : List Str) (a : PollArgs) (h : parsePoll args = .ok a) :
    a.mask < 256 := by
  unfold parsePoll at h
  split at h
  · rename_i sa sr sm sx st si
    cases h1 : hexToInt sa with
    | error e => rw [h1] at h; simp at h
    | ok va =>
      cases h2 : hexToInt sr with
      | error e => rw [h1, h2] at h; simp at h
      | ok vr =>
        cases h3 : hexToInt sm with
        | error e => rw [h1, h2, h3] at h; simp at h
        | ok vm =>
          cases h4 : hexToInt sx with
          | error e => rw [h1, h2, h3, h4] at h; simp at h
          | ok vx =>
            cases h5 : stoi st 10 with
            | error e => rw [h1, h2, h3, h4, h5] at h; simp at h
            | ok vt =>
              cases h6 : stoi si 10 with
              | error e => rw [h1, h2, h3, h4, h5, h6] at h; simp at h
              | ok vi =>
                rw [h1, h2, h3, h4, h5, h6] at h
                simp only [Except.ok.injEq] at h
                rw [← h]
                exact toU8_lt vm
  · simp at h

/-- With a bit of `expected` outside `mask` no pass of the polling loop answers true. -/
theorem pollLoop_never_true (p : Config) (env : Env) (addr reg mask expected : Nat)
    (timeout_ms interval_ms start : Int) (hm : mask < 256)
    (hx : expected &&& (255 ^^^ mask) ≠ 0) :
    ∀ (fuel : Nat) (tr : Trace),
      (pollLoop p env addr reg mask expected timeout_ms interval_ms start fuel tr).1 ≠
        .done true := by
  intro fuel
  induction fuel with
  | zero => intro tr; simp [pollLoop]
  | succ n ih =>
    intro tr
    unfold pollLoop
    rcases readByte p env.bus addr reg tr with ⟨r, tr1⟩
    cases r with
    | error e =>
      simp only
      split <;> simp
    | ok value =>
      simp only
      rw [if_neg (fun h => hx (and_mask_outside value mask expected hm h))]
      split
      · simp
      · exact ih _

/-- C36: for all bytes mask and expected such that expected has a bit set outside mask,
pollRegister never answers true, whatever the reads deliver, under every policy; a top-level
POLL line with such operands therefore never completes normally: it ends with an error (the
polling timeout or a read error), and with an unbounded clock it does end. -/
theorem poll_bit_outside_mask_never_true (p : Config) (env : Env) (fuel : Nat)
    (addr reg mask expected : Nat) (timeout_ms interval_ms : Int) (tr : Trace)
    (args : List Str) (a : PollArgs) (s : State)
    (hm : mask < 256) (hx : expected &&& (255 ^^^ mask) ≠ 0) :
    (pollRegister p env fuel addr reg mask expected timeout_ms interval_ms tr).1 ≠ .done true ∧
    (parsePoll args = .ok a → a.expected &&& (255 ^^^ a.mask) ≠ 0 →
      (cmdPoll p env fuel args s).1 ≠ .done () ∧
      (ClockAdvances env → ∃ (f0 : Nat) (e : String), ∀ f, f0 ≤ f →
        (cmdPoll p env f args s).1 = .raised e)) := by
  have hnever : ∀ (f : Nat) (ad rg : Nat) (t i : Int) (h : Trace),
      (pollRegister p env f ad rg mask expected t i h).1 ≠ .done true := by
    intro f ad rg t i h
    unfold pollRegister
    exact pollLoop_never_true p env ad rg mask expected t i _ hm hx f h
  have hcmd : ∀ f, parsePoll args = .ok a → a.expected &&& (255 ^^^ a.mask) ≠ 0 →
      (cmdPoll p env f args s).1 ≠ .done () := by
    intro f hp ha
    unfold cmdPoll
    rw [hp]
    simp only
    have hn : (pollRegister p env f a.addr a.reg a.mask a.expected a.timeout a.interval
        s.trace).1 ≠ .done true := by
      unfold pollRegister
      exact pollLoop_never_true p env a.addr a.reg a.mask a.expected a.timeout a.interval _
        (parsePoll_mask_lt args a hp) ha f s.trace
    rcases hr : pollRegister p env f a.addr a.reg a.mask a.expected a.timeout a.interval
      s.trace with ⟨o, tr1⟩
    rw [hr] at hn
    cases o with
    | done b =>
      cases b
      · simp
      · exact absurd rfl hn
    | raised e => simp
    | stuck => simp
  refine ⟨hnever fuel addr reg timeout_ms interval_ms tr, ?_⟩
  intro hp ha
  refine ⟨hcmd fuel hp ha, ?_⟩
  intro hc
  obtain ⟨f0, hns, hst⟩ := cmdPoll_settles p env args s hc
  simp only at hns hst
  rcases ho : (cmdPoll p env f0 args s).1 with u | e | _
  · exact absurd ho (hcmd f0 hp ha)
  · exact ⟨f0, e, fun f hf => by rw [hst f hf, ho]⟩
  · exact absurd ho hns

/-- Witness for C36: mask 0x0F and expected 0x10 on a device that delivers changing values:
the poll ends with false, and the POLL line with the polling timeout. -/
theorem poll_bit_outside_mask_never_true_witness :
    (pollRegister ⟨1, .STOP, 3⟩ (world countBus []) 50 80 0 15 16 20 5 []).1 ≠ .done true ∧
    (pollRegister ⟨1, .STOP, 3⟩ (world countBus []) 50 80 0 15 16 20 5 []).1 = .done false ∧
    (cmdPoll ⟨1, .STOP, 3⟩ (world countBus []) 50
      ["0x50".toList, "0x00".toList, "0x0F".toList, "0x10".toList, "20".toList, "5".toList]
      afterHeader).1 = .raised "Polling timeout" :=
  ⟨(poll_bit_outside_mask_never_true ⟨1, .STOP, 3⟩ (world countBus []) 50 80 0 15 16 20 5 []
      [] ⟨0, 0, 0, 0, 0, 0⟩ afterHeader (by decide) (by decide)).1, by decide, by decide⟩

theorem gregorianLeap_century (y : Nat) (h : y ≤ 99) :
    gregorianLeap (2000 + y) = true ↔ y % 4 = 0 := by
  unfold gregorianLeap
  simp only [Bool.and_eq_true, Bool.or_eq_true, beq_iff_eq, bne_iff_ne, ne_eq]
  omega

/-- C37: for every day and month byte and every two-digit year y in 0..99,
DS3231Parser::isValidDate(day, month, y) is true if and only if day/month/(2000+y) is a date
of the Gregorian calendar, and the table lookup is reached only with month in 1..12, at index
month - 1. -/
theorem isValidDate_iff_gregorian (day month y : Nat) (hy : y ≤ 99) :
    ((DS3231Parser.isValidDate day month y).1 = true ↔ IsGregorianDate day month (2000 + y)) ∧
    (∀ a ∈ (DS3231Parser.isValidDate day month y).2,
      a = ⟨.days_in_month, 12, month - 1⟩ ∧ 1 ≤ month ∧ month ≤ 12) := by
  unfold DS3231Parser.isValidDate IsGregorianDate
  by_cases hm : month < 1 ∨ month > 12
  · rw [if_pos hm]
    constructor
    · constructor
      · intro h
        simp at h
      · intro h
        omega
    · simp
  · rw [if_neg hm]
    simp only [not_or, not_lt] at hm
    have hleap := gregorianLeap_century y hy
    constructor
    · simp only [Bool.and_eq_true, decide_eq_true_eq]
      unfold monthLength
      have hmr : 1 ≤ month ∧ month ≤ 12 := by omega
      obtain ⟨h1, h2⟩ := hmr
      interval_cases month
      all_goals simp only [DS3231Parser.days_in_month]
      all_goals by_cases hl : y % 4 = 0
      all_goals simp [hl, hleap.mpr, hleap]
    · intro a ha
      simp only [List.mem_singleton] at ha
      subst ha
      exact ⟨rfl, by omega, by omega⟩

/-- Witness for C37: 29 February exists in 2024 and not in 2023. -/
theorem isValidDate_iff_gregorian_witness :
    ((DS3231Parser.isValidDate 29 2 24).1 = true ↔ IsGregorianDate 29 2 (2000 + 24)) ∧
    (DS3231Parser.isValidDate 29 2 24).1 = true ∧
    (DS3231Parser.isValidDate 29 2 23).1 = false ∧
    (DS3231Parser.isValidDate 31 4 24).1 = false ∧
    (DS3231Parser.isValidDate 1 13 24).2 = [] :=
  ⟨(isValidDate_iff_gregorian 29 2 24 (by decide)).1, by decide, by decide, by decide,
    by decide⟩

theorem shift_or_eq (b0 b1 : Nat) (h1 : b1 < 256) :
    (b0 <<< 4) ||| (b1 >>> 4) = 16 * b0 + b1 / 16 := by
  rw [Nat.shiftLeft_eq, Nat.shiftRight_eq_div_pow, Nat.mul_comm b0]
  have hb : b1 / 2 ^ 4 < 2 ^ 4 := by
    norm_num
    omega
  rw [← Nat.mul_add_lt_is_or hb b0]
  norm_num

theorem and_bit11 (u : Nat) (hu : u < 4096) : u &&& 0x800 ≠ 0 ↔ 2048 ≤ u := by
  have h := Nat.and_two_pow u 11
  have h2 : (0x800 : Nat) = 2 ^ 11 := by norm_num
  rw [h2, h, Nat.testBit_to_div_mod]
  by_cases hc : u / 2 ^ 11 % 2 = 1
  · simp only [hc, decide_True, Bool.toNat_true]
    norm_num at hc ⊢
    omega
  · simp only [hc, decide_False, Bool.toNat_false]
    norm_num at hc ⊢
    omega

theorem or_sign_bits (u : Nat) (hu : u < 4096) : u ||| 0xF000 = 61440 + u := by
  have h := Nat.mul_add_lt_is_or (i := 12) (b := u) (by norm_num; exact hu) 15
  rw [Nat.lor_comm]
  norm_num at h ⊢
  exact h.symm

/-- C38: for all bytes b0 and b1, the raw value computed by ADS1015Parser::parse is the 12-bit
two's-complement reading of u = 16*b0 + (b1 div 16): u when u < 2048 and u - 4096 otherwise;
it lies in -2048..2047. -/
theorem ads1015_raw_is_twelve_bit_signed (b0 b1 : Nat) (h0 : b0 < 256) (h1 : b1 < 256) :
    ADS1015Parser.rawValue b0 b1 =
      (if 16 * b0 + b1 / 16 < 2048 then ((16 * b0 + b1 / 16 : Nat) : Int)
       else ((16 * b0 + b1 / 16 : Nat) : Int) - 4096) ∧
    -2048 ≤ ADS1015Parser.rawValue b0 b1 ∧ ADS1015Parser.rawValue b0 b1 ≤ 2047 := by
  have hu : 16 * b0 + b1 / 16 < 4096 := by omega
  have hval : ADS1015Parser.rawValue b0 b1 =
      (if 16 * b0 + b1 / 16 < 2048 then ((16 * b0 + b1 / 16 : Nat) : Int)
       else ((16 * b0 + b1 / 16 : Nat) : Int) - 4096) := by
    unfold ADS1015Parser.rawValue
    simp only
    rw [shift_or_eq b0 b1 h1, Nat.mod_eq_of_lt (by omega : 16 * b0 + b1 / 16 < 65536)]
    by_cases hs : 16 * b0 + b1 / 16 < 2048
    · rw [if_neg (fun h => absurd ((and_bit11 _ hu).mp h) (by omega)), if_pos hs]
      unfold asInt16
      rw [Nat.mod_eq_of_lt (by omega : 16 * b0 + b1 / 16 < 65536), if_pos (by omega)]
    · rw [if_pos ((and_bit11 _ hu).mpr (by omega)), if_neg hs, or_sign_bits _ hu]
      unfold asInt16
      rw [Nat.mod_mod, Nat.mod_eq_of_lt (by omega : 61440 + (16 * b0 + b1 / 16) < 65536),
        if_neg (by omega)]
      push_cast
      omega
  refine ⟨hval, ?_, ?_⟩
  · rw [hval]
    split <;> omega
  · rw [hval]
    split <;> omega

/-- Witness for C38: the bytes 0x7F 0xF0 read as 2047, 0x80 0x00 as -2048 and 0xFF 0xF0
as -1. -/
theorem ads1015_raw_is_twelve_bit_signed_witness :
    (ADS1015Parser.rawValue 128 0 =
        (if 16 * 128 + 0 / 16 < 2048 then ((16 * 128 + 0 / 16 : Nat) : Int)
         else ((16 * 128 + 0 / 16 : Nat) : Int) - 4096) ∧
      -2048 ≤ ADS1015Parser.rawValue 128 0 ∧ ADS1015Parser.rawValue 128 0 ≤ 2047) ∧
    ADS1015Parser.rawValue 127 240 = 2047 ∧ ADS1015Parser.rawValue 128 0 = -2048 ∧
    ADS1015Parser.rawValue 255 240 = -1 :=
  ⟨ads1015_raw_is_twelve_bit_signed 128 0 (by decide) (by decide), by decide, by decide,
    by decide⟩

end I2C
